import Mathlib

/-!
# CML: interrupt-driven transfer core

A shallow embedding of the timeout arithmetic (`common/time.hpp`), the
timeout-polling primitive (`utils/wait.hpp`, `utils/sleep.hpp`), the register
helpers (`common/bit.hpp`), the USART driver (`hal/stm32l011xx/USART.cpp`), the
I²C master and slave drivers (`soc/stm32l452xx/peripherals/I2C.cpp`: status
decode, polling transfers, interrupt handlers, dispatch table, clock source),
the fixed-capacity vector (`collection/Vector.hpp`) with the callback table of
the command line (`cml/utils/Command_line.hpp`), and the number formatting of
`cml/common/cstring.hpp`.

Conventions.
* A `uint32` is a `Nat` below `2 ^ 32`; every arithmetic operation of the
  source is followed by an explicit reduction modulo `2 ^ 32`.
* A memory-mapped register is a `Nat`; the bit helpers of `common/bit.hpp`
  act on it with the bitwise operations of `Nat`.
* A volatile read inside a polling loop is modelled by a list of samples:
  each loop iteration consumes the next sample. A loop that consumes the
  whole list without reaching its exit condition yields `none`.
* A function pointer is an `Option` of a Lean function, `none` being
  `nullptr`. A failed `assert` or a call through `nullptr` yields `none`.
* In the polling transfers of the I²C drivers every single read of a register
  and of the tick counter takes the next observation of the hardware.
-/

namespace CML

/-! ## Machine integers -/

/-- The number of values of a `uint32`. -/
def UINT32_SIZE : Nat := 4294967296

/-- Addition of two `uint32`. -/
def add32 (a b : Nat) : Nat := (a + b) % UINT32_SIZE

/-- Subtraction of two `uint32` (wraps below zero). -/
def sub32 (a b : Nat) : Nat := (a % UINT32_SIZE + UINT32_SIZE - b % UINT32_SIZE) % UINT32_SIZE

/-- Conversion to `uint8` (`byte`). -/
def u8 (a : Nat) : Nat := a % 256

/-! ## common/bit.hpp -/

/-- `is_flag(a_register, a_flag)`: `a_flag == (a_register & a_flag)`. -/
def is_flag (a_register a_flag : Nat) : Bool := a_flag == (a_register &&& a_flag)

/-- `get_flag(a_register, a_mask)`: `a_register & a_mask`. -/
def get_flag (a_register a_mask : Nat) : Nat := a_register &&& a_mask

/-- `set_flag(a_p_register, a_flag)`: `(*a_p_register) |= a_flag`. -/
def set_flag (a_register a_flag : Nat) : Nat := a_register ||| a_flag

/-- `set_flag(a_p_register, a_clear_mask, a_set_flag)`:
`(*a_p_register) = (((*a_p_register) & (~a_clear_mask)) | a_set_flag)`, the
complement being taken on 32 bits. -/
def set_flag_masked (a_register a_clear_mask a_set_flag : Nat) : Nat :=
  (a_register &&& (4294967295 ^^^ (a_clear_mask % UINT32_SIZE))) ||| a_set_flag

/-- `clear_flag(a_p_register, a_flag)`: `(*a_p_register) &= ~a_flag`, the
complement being taken on 32 bits. -/
def clear_flag (a_register a_flag : Nat) : Nat := a_register &&& (4294967295 ^^^ (a_flag % UINT32_SIZE))

/-! ## common/time.hpp -/

namespace time

/-- `time::infinity = numeric_traits<tick>::get_max()` for `tick = uint32`. -/
def infinity : Nat := 4294967295

/-- `time::diff(a_left, a_right)`. -/
def diff (a_left a_right : Nat) : Nat :=
  if a_left < a_right then
    add32 (add32 (sub32 infinity a_right) 1) a_left
  else
    sub32 a_left a_right

end time

/-- Modelled from the spec: `common::time_tick_diff` of `common/time_tick.hpp`,
a header that is not among the sources. The spec (4.1) gives the elapsed time
as `(now >= start) ? now - start : (MAX_TICK - start) + 1 + now`. -/
def time_tick_diff (a_now a_start : Nat) : Nat :=
  if a_now ≥ a_start then sub32 a_now a_start
  else add32 (add32 (sub32 time.infinity a_start) 1) a_now

/-! ## utils/wait.hpp, utils/sleep.hpp -/

/-- One iteration's worth of volatile reads of a polling loop: the tick counter
(`hal::systick::get_counter()`) and the polled register (`*a_p_register`). -/
structure Sample where
  now : Nat
  reg : Nat
deriving DecidableEq

namespace wait

/-- The `while (true == status && false == timeout)` loop of the timed
`wait::until`; yields the final `(status, timeout)`. -/
def until_loop (a_flag : Nat) (a_status : Bool) (a_start a_timeout_ms : Nat) :
    List Sample → Bool → Bool → Option (Bool × Bool)
  | samples, status, timeout =>
    if status = true ∧ timeout = false then
      match samples with
      | [] => none
      | s :: rest =>
        let timeout1 := decide (a_timeout_ms ≤ time_tick_diff s.now a_start)
        let status1 := is_flag s.reg a_flag == a_status
        until_loop a_flag a_status a_start a_timeout_ms rest status1 timeout1
    else
      some (status, timeout)

/-- The timed `wait::until(a_p_register, a_flag, a_status, a_start, a_timeout_ms)`. -/
def until_timed (a_flag : Nat) (a_status : Bool) (a_start a_timeout_ms : Nat)
    (samples : List Sample) : Option Bool :=
  match until_loop a_flag a_status a_start a_timeout_ms samples true false with
  | none => none
  | some (status, timeout) => some ((false == status) && (false == timeout))

/-- The untimed `wait::until(a_p_register, a_flag, a_status)`:
`while (a_status == is_flag(*a_p_register, a_flag));`. Yields the samples left
after the read that ended the loop. -/
def until_untimed (a_flag : Nat) (a_status : Bool) : List Nat → Option (List Nat)
  | [] => none
  | reg :: rest =>
    if a_status == is_flag reg a_flag then until_untimed a_flag a_status rest
    else some rest

end wait

namespace sleep

/-- The timed `sleep::until`, whose body is that of `wait::until`. -/
def until_loop (a_flag : Nat) (a_status : Bool) (a_start a_timeout_ms : Nat) :
    List Sample → Bool → Bool → Option (Bool × Bool)
  | samples, status, timeout =>
    if status = true ∧ timeout = false then
      match samples with
      | [] => none
      | s :: rest =>
        let timeout1 := decide (a_timeout_ms ≤ time_tick_diff s.now a_start)
        let status1 := is_flag s.reg a_flag == a_status
        until_loop a_flag a_status a_start a_timeout_ms rest status1 timeout1
    else
      some (status, timeout)

/-- The timed `sleep::until(a_p_register, a_flag, a_status, a_start, a_timeout_ms)`. -/
def until_timed (a_flag : Nat) (a_status : Bool) (a_start a_timeout_ms : Nat)
    (samples : List Sample) : Option Bool :=
  match until_loop a_flag a_status a_start a_timeout_ms samples true false with
  | none => none
  | some (status, timeout) => some ((false == status) && (false == timeout))

end sleep

/-- The deadline of a timed wait has elapsed at a sample:
`a_timeout_ms <= time_tick_diff(now, a_start)`. -/
def deadline_elapsed (a_start a_timeout_ms : Nat) (s : Sample) : Bool :=
  decide (a_timeout_ms ≤ time_tick_diff s.now a_start)

/-- The polled flag has left the state `a_status` at a sample, which is what
the wait is for. -/
def condition_reached (a_flag : Nat) (a_status : Bool) (s : Sample) : Bool :=
  is_flag s.reg a_flag != a_status

/-! ## hal/Systick.cpp -/

/-- `SysTick_CTRL_ENABLE_Msk` of the CMSIS core header. -/
def SysTick_CTRL_ENABLE_Msk : Nat := 0x1

/-! ## hal/stm32l011xx/USART.cpp

The bit masks below are those of the vendor's CMSIS device header
`stm32l011xx.h`, which the driver includes. -/

def USART_ISR_RXNE : Nat := 0x20
def USART_ISR_TC : Nat := 0x40
def USART_ISR_TXE : Nat := 0x80
def USART_ISR_TEACK : Nat := 0x200000
def USART_ISR_REACK : Nat := 0x400000
def USART_CR1_UE : Nat := 0x1
def USART_CR1_RE : Nat := 0x4
def USART_CR1_TE : Nat := 0x8
def USART_CR1_RXNEIE : Nat := 0x20
def USART_CR1_TXEIE : Nat := 0x80
def USART_CR1_OVER8 : Nat := 0x8000
def USART_ICR_TCCF : Nat := 0x40
def RCC_CCIPR_USART2SEL : Nat := 0xC
def RCC_CCIPR_USART2SEL_0 : Nat := 0x4
def RCC_CCIPR_USART2SEL_1 : Nat := 0x8
def RCC_APB1ENR_USART2EN : Nat := 0x20000

/-- Observable actions of the driver, in the order in which they happen.
`wait a_flag isr timed_out`: a `wait_until_isr` on `a_flag` returned, `isr`
being the last value it read from `ISR`. -/
inductive Event where
  | wait (a_flag : Nat) (isr : Nat) (timed_out : Bool)
  | tdr_write (v : Nat)
  | icr_write (v : Nat)
  | tx_call (proceed : Bool)
  | rx_call (byte : Nat) (proceed : Bool)
deriving DecidableEq

/-- `USART::TX_callback`: `p_function(&data, p_user_data, proceed)`. The
function is given the application memory and the byte behind `&data`, and
yields the new application memory, the byte left behind `&data` and its
return value. -/
structure TX_callback (σ : Type) where
  p_function : Option (σ → Nat → Nat → Bool → σ × Nat × Bool)
  p_user_data : Nat

/-- `USART::RX_callback`: `p_function(byte, p_user_data, proceed)`; yields the
new application memory and the return value. -/
structure RX_callback (σ : Type) where
  p_function : Option (σ → Nat → Nat → Bool → σ × Bool)
  p_user_data : Nat

/-- The transmit Transfer Context (`tx_context`). -/
structure TX_context (σ : Type) where
  callback : TX_callback σ
  start_timestamp : Nat
  timeout : Nat

/-- The receive Transfer Context (`rx_context`). -/
structure RX_context (σ : Type) where
  callback : RX_callback σ
  start_timestamp : Nat
  timeout : Nat

/-- `{ { nullptr, nullptr }, 0, 0 }`. -/
def TX_context.null {σ : Type} : TX_context σ := ⟨⟨none, 0⟩, 0, 0⟩

/-- `{ { nullptr, nullptr }, 0, 0 }`. -/
def RX_context.null {σ : Type} : RX_context σ := ⟨⟨none, 0⟩, 0, 0⟩

/-- `USART::Oversampling`. -/
inductive Oversampling where
  | _8
  | _16
  | unknown
deriving DecidableEq

/-- `static_cast<uint32>(a_config.oversampling)`: `get_oversampling` reads the
enumerator back from `CR1 & USART_CR1_OVER8`. -/
def Oversampling.to_uint32 : Oversampling → Nat
  | Oversampling._8 => USART_CR1_OVER8
  | Oversampling._16 => 0
  | Oversampling.unknown => 0

/-- `USART::Config`. The enumerations are declared in `usart.hpp`, which is not
among the sources: an enumerator is either the `unknown` sentinel (`none`) or
a value given by its `uint32` representation. -/
structure Config where
  baud_rate : Option Nat
  oversampling : Oversampling
  word_length : Option Nat
  stop_bits : Option Nat
  flow_control : Option Nat
  parity : Option Nat

/-- `USART::Clock`; `source` is the index into `clock_source_lut`. -/
structure Clock where
  source : Option Nat
  frequency_hz : Nat

/-- The USART2 register block, the clock and interrupt controller bits the
driver touches, the driver object, the dispatch table slot and the
surroundings of the driver (tick counter, pending samples, application
memory, log of actions). -/
structure USART (σ : Type) where
  CR1 : Nat
  CR2 : Nat
  CR3 : Nat
  BRR : Nat
  ISR : Nat
  RDR : Nat
  TDR : Nat
  ICR : Nat
  RCC_CCIPR : Nat
  RCC_APB1ENR : Nat
  NVIC_USART2_enabled : Bool
  SysTick_CTRL : Nat
  /-- The value `Systick::get_instance().get_counter()` returns. -/
  counter : Nat
  /-- The address of the driver object (`this`). -/
  this : Nat
  /-- `this->p_usart != nullptr`. -/
  p_usart : Bool
  baud_rate : Option Nat
  tx_context : TX_context σ
  rx_context : RX_context σ
  /-- `controllers[0].p_usart_handle`. -/
  p_usart_handle : Option Nat
  /-- What the coming polling iterations will read. -/
  samples : List Sample
  app : σ
  trace : List Event

namespace USART

variable {σ : Type}

/-- `Systick::is_enabled`. -/
def systick_is_enabled (s : USART σ) : Bool := is_flag s.SysTick_CTRL SysTick_CTRL_ENABLE_Msk

/-- Modelled from the spec: the polling loop of the untimed
`USART::wait_until_isr(a_flag, a_status)`, declared in `usart.hpp` which is
not among the sources. It blocks (4.1), re-reading `ISR`, for as long as the
flag is in the state `a_status`: the loop of the untimed `wait::until`, which
is what the call sites rely on (`wait_until_isr(USART_ISR_TXE, false)` comes
before the write of a byte). Yields the sample that ended the wait and the
samples left. -/
def poll_untimed (a_flag : Nat) (a_status : Bool) : List Sample → Option (Sample × List Sample)
  | [] => none
  | x :: rest =>
    if a_status == is_flag x.reg a_flag then poll_untimed a_flag a_status rest
    else some (x, rest)

/-- Modelled from the spec: the polling loop of the timed
`USART::wait_until_isr(a_flag, a_status, a_start, a_timeout_ms)`, declared in
`usart.hpp` which is not among the sources. Each iteration samples the clock
and the register (4.1); the result is true when timed out
(`a_timeout_ms <= elapsed`), false when the flag left the state `a_status`
before the deadline, which is how `write_bytes_polling` and
`read_bytes_polling` read it (`timeout_occured`). Yields the result, the
sample that ended the wait and the samples left. -/
def poll_timed (a_flag : Nat) (a_status : Bool) (a_start a_timeout_ms : Nat) :
    List Sample → Option (Bool × Sample × List Sample)
  | [] => none
  | x :: rest =>
    if a_timeout_ms ≤ time_tick_diff x.now a_start then some (true, x, rest)
    else if a_status == is_flag x.reg a_flag then poll_timed a_flag a_status a_start a_timeout_ms rest
    else some (false, x, rest)

/-- The untimed `this->wait_until_isr(a_flag, a_status)`; `none` when it never
returns on the pending samples. -/
def wait_until_isr (a_flag : Nat) (a_status : Bool) (s : USART σ) : Option (USART σ) :=
  match poll_untimed a_flag a_status s.samples with
  | none => none
  | some (x, rest) =>
    some { s with counter := x.now, ISR := x.reg, samples := rest,
                  trace := s.trace ++ [Event.wait a_flag x.reg false] }

/-- The timed `this->wait_until_isr(a_flag, a_status, a_start, a_timeout_ms)`. -/
def wait_until_isr_timed (a_flag : Nat) (a_status : Bool) (a_start a_timeout_ms : Nat)
    (s : USART σ) : Option (Bool × USART σ) :=
  match poll_timed a_flag a_status a_start a_timeout_ms s.samples with
  | none => none
  | some (timed_out, x, rest) =>
    some (timed_out, { s with counter := x.now, ISR := x.reg, samples := rest,
                              trace := s.trace ++ [Event.wait a_flag x.reg timed_out] })

/-- The assignment `this->p_usart->TDR = v`. -/
def write_TDR (v : Nat) (s : USART σ) : USART σ :=
  { s with TDR := v, trace := s.trace ++ [Event.tdr_write v] }

/-- The assignment `this->p_usart->ICR = v`. -/
def write_ICR (v : Nat) (s : USART σ) : USART σ :=
  { s with ICR := v, trace := s.trace ++ [Event.icr_write v] }

/-- The transmit branch of `usart_handle_interrupt`, on the snapshots `isr`
and `cr1`. -/
def handle_tx (isr cr1 : Nat) (s : USART σ) : Option (USART σ) :=
  if is_flag isr USART_ISR_TXE = true ∧ is_flag cr1 USART_CR1_TXEIE = true then
    let data := 0
    let elapsed_time := sub32 s.counter s.tx_context.start_timestamp
    match s.tx_context.callback.p_function with
    | none => none
    | some f =>
      let r := f s.app data s.tx_context.callback.p_user_data
                 (decide (elapsed_time < s.tx_context.timeout))
      let procceed := r.2.2
      let s1 := { s with app := r.1,
                         trace := s.trace ++ [Event.tx_call (decide (elapsed_time < s.tx_context.timeout))] }
      if procceed = true then
        some (write_TDR (u8 r.2.1) s1)
      else
        some { s1 with CR1 := clear_flag s1.CR1 USART_CR1_TXEIE, tx_context := TX_context.null }
  else
    some s

/-- The receive branch of `usart_handle_interrupt`, on the snapshots `isr`
and `cr1`. The callback takes the received `byte`. -/
def handle_rx (isr cr1 : Nat) (s : USART σ) : Option (USART σ) :=
  if is_flag isr USART_ISR_RXNE = true ∧ is_flag cr1 USART_CR1_RXNEIE = true then
    let elapsed_time := sub32 s.counter s.rx_context.start_timestamp
    match s.rx_context.callback.p_function with
    | none => none
    | some f =>
      let r := f s.app (u8 s.RDR) s.rx_context.callback.p_user_data
                 (decide (elapsed_time < s.rx_context.timeout))
      let procceed := r.2
      let s1 := { s with app := r.1,
                         trace := s.trace ++ [Event.rx_call (u8 s.RDR) (decide (elapsed_time < s.rx_context.timeout))] }
      if procceed = false then
        some { s1 with CR1 := clear_flag s1.CR1 USART_CR1_RXNEIE, rx_context := RX_context.null }
      else
        some s1
  else
    some s

/-- `usart_handle_interrupt(a_p_this)`. -/
def usart_handle_interrupt (s : USART σ) : Option (USART σ) :=
  if s.p_usart = false then none
  else
    let isr := s.ISR
    let cr1 := s.CR1
    match handle_tx isr cr1 s with
    | none => none
    | some s1 => handle_rx isr cr1 s1

/-- `usart_2_enable(a_clock_source)`. -/
def usart_2_enable (a_clock_source : Option Nat) (s : USART σ) : Option (USART σ) :=
  match a_clock_source with
  | none => none
  | some src =>
    match [0, RCC_CCIPR_USART2SEL_0, RCC_CCIPR_USART2SEL_1].get? src with
    | none => none
    | some sel =>
      some { s with RCC_CCIPR := set_flag_masked s.RCC_CCIPR RCC_CCIPR_USART2SEL sel,
                    RCC_APB1ENR := set_flag s.RCC_APB1ENR RCC_APB1ENR_USART2EN,
                    NVIC_USART2_enabled := true }

/-- `usart_2_disable()`. -/
def usart_2_disable (s : USART σ) : USART σ :=
  { s with RCC_APB1ENR := clear_flag s.RCC_APB1ENR RCC_APB1ENR_USART2EN,
           NVIC_USART2_enabled := false }

/-- The `switch (a_config.oversampling)` of `USART::enable`: the value written
to `BRR`. -/
def enable_BRR (oversampling : Oversampling) (frequency_hz baud_rate : Nat) : Option Nat :=
  match oversampling with
  | Oversampling._16 => some (frequency_hz / baud_rate)
  | Oversampling._8 =>
    let usartdiv := ((2 * frequency_hz) % UINT32_SIZE) / baud_rate
    some (((usartdiv &&& 0xFFF0) ||| ((usartdiv &&& 0xF) >>> 1)) &&& 0xFFFF)
  | Oversampling.unknown => none

/-- `USART::enable(a_config, a_clock, a_timeout_ms)`. A division by a zero
baud rate is undefined and yields `none`. -/
def enable (a_config : Config) (a_clock : Clock) (a_timeout_ms : Nat) (s : USART σ) :
    Option (Bool × USART σ) :=
  match a_config.baud_rate, a_config.flow_control, a_config.parity, a_config.stop_bits,
        a_config.word_length with
  | some baud_rate, some flow_control, some parity, some stop_bits, some word_length =>
    if a_clock.source = none ∨ a_clock.frequency_hz = 0 ∨ baud_rate = 0 then none
    else
      let s1 := { s with p_usart_handle := some s.this, p_usart := true }
      match usart_2_enable a_clock.source s1 with
      | none => none
      | some s2 =>
        let s3 := { s2 with CR1 := 0, CR2 := stop_bits, CR3 := flow_control }
        match enable_BRR a_config.oversampling a_clock.frequency_hz baud_rate with
        | none => none
        | some brr =>
          let s4 := { s3 with BRR := brr }
          let s5 := { s4 with CR1 := set_flag s4.CR1 (word_length ||| a_config.oversampling.to_uint32 ||| parity) }
          let s6 := { s5 with CR1 := set_flag s5.CR1 USART_CR1_UE }
          let s7 := { s6 with CR1 := set_flag s6.CR1 (USART_CR1_RE ||| USART_CR1_TE) }
          let s8 := { s7 with baud_rate := a_config.baud_rate }
          wait_until_isr_timed (USART_ISR_REACK ||| USART_ISR_TEACK) false s8.counter a_timeout_ms s8
  | _, _, _, _, _ => none

/-- `USART::disable()`. -/
def disable (s : USART σ) : Option (USART σ) :=
  if s.p_usart = false then none
  else
    let s1 := { s with CR1 := 0, CR2 := 0, CR3 := 0 }
    let s2 := usart_2_disable s1
    some { s2 with p_usart_handle := none }

/-- The `for` loop of the untimed `USART::write_bytes_polling`, `i` being the
loop index and `remaining` the number of iterations left
(`a_data_size_in_bytes - i`). -/
def write_bytes_polling_loop (a_p_data : List Nat) (i : Nat) : Nat → USART σ → Option (USART σ)
  | 0, s => some s
  | remaining + 1, s =>
    match wait_until_isr USART_ISR_TXE false s with
    | none => none
    | some s1 => write_bytes_polling_loop a_p_data (i + 1) remaining (write_TDR (u8 (a_p_data.getD i 0)) s1)

/-- The untimed `USART::write_bytes_polling(a_p_data, a_data_size_in_bytes)`. -/
def write_bytes_polling (a_p_data : List Nat) (a_data_size_in_bytes : Nat) (s : USART σ) :
    Option (USART σ) :=
  if a_data_size_in_bytes = 0 ∨ s.p_usart = false then none
  else
    match write_bytes_polling_loop a_p_data 0 a_data_size_in_bytes s with
    | none => none
    | some s1 =>
      match wait_until_isr USART_ISR_TC false s1 with
      | none => none
      | some s2 => some (write_ICR USART_ICR_TCCF s2)

/-- The `for` loop of the timed `USART::write_bytes_polling`; yields the final
`timeout_occured`. -/
def write_bytes_polling_timed_loop (a_p_data : List Nat) (start a_timeout_ms : Nat) (i : Nat) :
    Nat → Bool → USART σ → Option (Bool × USART σ)
  | 0, timeout_occured, s => some (timeout_occured, s)
  | remaining + 1, timeout_occured, s =>
    if timeout_occured = false then
      match wait_until_isr_timed USART_ISR_TXE false start a_timeout_ms s with
      | none => none
      | some (timeout_occured1, s1) =>
        if timeout_occured1 = false then
          write_bytes_polling_timed_loop a_p_data start a_timeout_ms (i + 1) remaining timeout_occured1
            (write_TDR (u8 (a_p_data.getD i 0)) s1)
        else
          write_bytes_polling_timed_loop a_p_data start a_timeout_ms (i + 1) remaining timeout_occured1 s1
    else
      some (timeout_occured, s)

/-- The timed `USART::write_bytes_polling(a_p_data, a_data_size_in_bytes, a_timeout_ms)`. -/
def write_bytes_polling_timed (a_p_data : List Nat) (a_data_size_in_bytes a_timeout_ms : Nat)
    (s : USART σ) : Option (Bool × USART σ) :=
  if a_data_size_in_bytes = 0 ∨ s.systick_is_enabled = false ∨ s.p_usart = false then none
  else
    let start := s.counter
    let s1 := { s with CR1 := set_flag s.CR1 USART_CR1_TE }
    match write_bytes_polling_timed_loop a_p_data start a_timeout_ms 0 a_data_size_in_bytes false s1 with
    | none => none
    | some (_, s2) =>
      match wait_until_isr_timed USART_ISR_TC false start a_timeout_ms s2 with
      | none => none
      | some (timeout_occured, s3) => some (false == timeout_occured, s3)

/-- `USART::write_bytes_IT(a_callback, a_timeout_ms)`. -/
def write_bytes_IT (a_callback : TX_callback σ) (a_timeout_ms : Nat) (s : USART σ) :
    Option (USART σ) :=
  if s.systick_is_enabled = false ∨ s.p_usart = false then none
  else
    let s1 := { s with CR1 := clear_flag s.CR1 USART_CR1_TXEIE }
    if a_callback.p_function.isSome then
      let s2 := { s1 with tx_context := ⟨a_callback, s1.counter, a_timeout_ms⟩ }
      some { s2 with CR1 := set_flag s2.CR1 USART_CR1_TXEIE }
    else
      some { s1 with tx_context := ⟨⟨none, 0⟩, 0, 0⟩ }

/-- `USART::read_bytes_IT(a_callback, a_timeout_ms)`. -/
def read_bytes_IT (a_callback : RX_callback σ) (a_timeout_ms : Nat) (s : USART σ) :
    Option (USART σ) :=
  if s.systick_is_enabled = false ∨ s.p_usart = false then none
  else
    let s1 := { s with CR1 := clear_flag s.CR1 USART_CR1_RXNEIE }
    if a_callback.p_function.isSome then
      let s2 := { s1 with rx_context := ⟨a_callback, s1.counter, a_timeout_ms⟩ }
      some { s2 with CR1 := set_flag s2.CR1 USART_CR1_RXNEIE }
    else
      some { s1 with rx_context := ⟨⟨none, 0⟩, 0, 0⟩ }

end USART

/-- The transmit-data writes of a log, oldest first. -/
def tdr_writes : List Event → List Nat
  | [] => []
  | Event.tdr_write v :: rest => v :: tdr_writes rest
  | _ :: rest => tdr_writes rest

/-- The receive-callback invocations of a log, oldest first, each with its
`proceed` argument. -/
def rx_calls : List Event → List Bool
  | [] => []
  | Event.rx_call _ proceed :: rest => proceed :: rx_calls rest
  | _ :: rest => rx_calls rest

/-- The transmit-callback invocations of a log, oldest first, each with its
`proceed` argument. -/
def tx_calls : List Event → List Bool
  | [] => []
  | Event.tx_call proceed :: rest => proceed :: tx_calls rest
  | _ :: rest => tx_calls rest

/-- The USART2 interrupt is taken once per sample: the hardware presents the
sampled tick counter and `ISR`, and `USART2_IRQHandler` runs
`usart_handle_interrupt` on the bound driver. -/
def run_interrupts {σ : Type} : List Sample → USART σ → Option (USART σ)
  | [], s => some s
  | x :: rest, s =>
    match USART.usart_handle_interrupt { s with counter := x.now, ISR := x.reg } with
    | none => none
    | some s1 => run_interrupts rest s1

/-- An enabled, idle USART driver (word length 8, no parity, receiver and
transmitter on) with the tick source running and nothing pending. -/
def USART.idle : USART Unit :=
  { CR1 := 0xD, CR2 := 0, CR3 := 0, BRR := 138, ISR := 0x6000C0, RDR := 0, TDR := 0, ICR := 0,
    RCC_CCIPR := 0x4, RCC_APB1ENR := 0x20000, NVIC_USART2_enabled := true,
    SysTick_CTRL := 0x7, counter := 0, this := 1, p_usart := true, baud_rate := some 115200,
    tx_context := TX_context.null, rx_context := RX_context.null,
    p_usart_handle := some 1, samples := [], app := (), trace := [] }

/-- A driver object that has not been enabled yet, the peripheral being in its
reset state. -/
def USART.fresh : USART Unit :=
  { CR1 := 0, CR2 := 0, CR3 := 0, BRR := 0, ISR := 0xC0, RDR := 0, TDR := 0, ICR := 0,
    RCC_CCIPR := 0, RCC_APB1ENR := 0, NVIC_USART2_enabled := false,
    SysTick_CTRL := 0x7, counter := 0, this := 1, p_usart := false, baud_rate := none,
    tx_context := TX_context.null, rx_context := RX_context.null,
    p_usart_handle := none, samples := [], app := (), trace := [] }

/-- The configuration of the console sample: 115200 baud, oversampling 16,
8 data bits, 1 stop bit, no flow control, no parity. -/
def console_config : Config :=
  { baud_rate := some 115200, oversampling := Oversampling._16, word_length := some 0,
    stop_bits := some 0, flow_control := some 0, parity := some 0 }

/-- The clock of the console sample: `sysclk` at 16 MHz. -/
def console_clock : Clock := { source := some 1, frequency_hz := 16000000 }

/-- A transmit callback that supplies the byte `0x55` and asks to go on for as
long as `proceed` holds. -/
def tx_while_proceed : TX_callback Unit :=
  { p_function := some (fun app _ _ proceed => (app, 0x55, proceed)), p_user_data := 0 }

/-- A receive callback that asks to go on for as long as `proceed` holds. -/
def rx_while_proceed : RX_callback Unit :=
  { p_function := some (fun app _ _ proceed => (app, proceed)), p_user_data := 0 }

/-! ## soc/stm32l452xx/peripherals/I2C.cpp: callback registration of the master

The bit masks are those of the vendor's CMSIS device header `stm32l452xx.h`. -/

def I2C_CR1_PE : Nat := 0x1
def I2C_CR1_TXIE : Nat := 0x2
def I2C_CR1_RXIE : Nat := 0x4
def I2C_CR1_STOPIE : Nat := 0x20
def I2C_CR2_SADD : Nat := 0x3FF
def I2C_CR2_RD_WRN : Nat := 0x400
def I2C_CR2_START : Nat := 0x2000
def I2C_CR2_AUTOEND : Nat := 0x2000000
def I2C_CR2_NBYTES_Pos : Nat := 16
def I2C_ISR_TXE : Nat := 0x1
def I2C_ISR_RXNE : Nat := 0x4

/-- `I2C_base::TX_callback`: `function(p_txdr, a_stop, p_user_data)`; yields
the new application memory and the value it stored through `p_txdr`, if any. -/
structure I2C_TX_callback (σ : Type) where
  function : Option (σ → Bool → Nat → σ × Option Nat)
  p_user_data : Nat

/-- `I2C_base::RX_callback`: `function(a_byte, a_stop, p_user_data)`; yields
the new application memory. -/
structure I2C_RX_callback (σ : Type) where
  function : Option (σ → Nat → Bool → Nat → σ)
  p_user_data : Nat

/-- An `I2C_master` driver object together with the register block of its
identity and its slot of the dispatch table. -/
structure I2C_master (σ : Type) where
  CR1 : Nat
  CR2 : Nat
  ISR : Nat
  TXDR : Nat
  RXDR : Nat
  /-- `this->p_i2c != nullptr`. -/
  p_i2c : Bool
  /-- `controllers[id].p_i2c_master_handle != nullptr`. -/
  p_i2c_master_handle : Bool
  tx_callback : I2C_TX_callback σ
  rx_callback : I2C_RX_callback σ
  app : σ

namespace I2C_master

variable {σ : Type}

/-- `I2C_master::register_transmit_callback(a_slave_address, a_callback,
a_data_size_in_bytes)`. The `Interrupt_guard` masks interrupts for the
duration of the call and leaves no trace in the state. -/
def register_transmit_callback (a_slave_address : Nat) (a_callback : I2C_TX_callback σ)
    (a_data_size_in_bytes : Nat) (s : I2C_master σ) : Option (I2C_master σ) :=
  if s.p_i2c = false ∨ s.p_i2c_master_handle = false ∨ a_callback.function.isNone = true ∨
      ¬ (a_data_size_in_bytes > 0 ∧ a_data_size_in_bytes ≤ 255) then none
  else
    let s1 := { s with rx_callback := ⟨none, 0⟩ }
    let s2 := { s1 with tx_callback := a_callback }
    let address_mask := ((a_slave_address <<< 1) % UINT32_SIZE) &&& I2C_CR2_SADD
    let data_size_mask := (a_data_size_in_bytes <<< I2C_CR2_NBYTES_Pos) % UINT32_SIZE
    let s3 := { s2 with CR2 := address_mask ||| data_size_mask ||| I2C_CR2_START ||| I2C_CR2_AUTOEND }
    some { s3 with CR1 := set_flag s3.CR1 (I2C_CR1_TXIE ||| I2C_CR1_STOPIE) }

/-- `I2C_master::register_receive_callback(a_slave_address, a_callback,
a_data_size_in_bytes)`. -/
def register_receive_callback (a_slave_address : Nat) (a_callback : I2C_RX_callback σ)
    (a_data_size_in_bytes : Nat) (s : I2C_master σ) : Option (I2C_master σ) :=
  if s.p_i2c = false ∨ s.p_i2c_master_handle = false ∨ a_callback.function.isNone = true ∨
      ¬ (a_data_size_in_bytes > 0 ∧ a_data_size_in_bytes ≤ 255) then none
  else
    let s1 := { s with tx_callback := ⟨none, 0⟩ }
    let s2 := { s1 with rx_callback := a_callback }
    let address_mask := ((a_slave_address <<< 1) % UINT32_SIZE) &&& I2C_CR2_SADD
    let data_size_mask := (a_data_size_in_bytes <<< I2C_CR2_NBYTES_Pos) % UINT32_SIZE
    let s3 := { s2 with CR2 := address_mask ||| data_size_mask ||| I2C_CR2_START |||
                               I2C_CR2_AUTOEND ||| I2C_CR2_RD_WRN }
    some { s3 with CR1 := set_flag s3.CR1 (I2C_CR1_RXIE ||| I2C_CR1_STOPIE) }

/-- `I2C_base::rxne_interrupt_handler(a_isr, a_cr1)`. -/
def rxne_interrupt_handler (a_isr a_cr1 : Nat) (s : I2C_master σ) : Option (I2C_master σ) :=
  if is_flag a_isr I2C_ISR_RXNE = true ∧ is_flag a_cr1 I2C_CR1_RXIE = true then
    match s.rx_callback.function with
    | none => none
    | some f => some { s with app := f s.app (u8 s.RXDR) false s.rx_callback.p_user_data }
  else
    some s

/-- `I2C_base::txe_interrupt_handler(a_isr, a_cr1)`. -/
def txe_interrupt_handler (a_isr a_cr1 : Nat) (s : I2C_master σ) : Option (I2C_master σ) :=
  if is_flag a_isr I2C_ISR_TXE = true ∧ is_flag a_cr1 I2C_CR1_TXIE = true then
    match s.tx_callback.function with
    | none => none
    | some f =>
      let r := f s.app false s.tx_callback.p_user_data
      match r.2 with
      | none => some { s with app := r.1 }
      | some v => some { s with app := r.1, TXDR := v % UINT32_SIZE }
  else
    some s

/-- An `I2C_master` right after `enable` with the analog filter on, no CRC and
no fast mode plus: `CR1 = I2C_CR1_PE`, no callback registered. -/
def enabled : I2C_master Unit :=
  { CR1 := 0x1, CR2 := 0, ISR := 0x1, TXDR := 0, RXDR := 0, p_i2c := true,
    p_i2c_master_handle := true, tx_callback := ⟨none, 0⟩, rx_callback := ⟨none, 0⟩, app := () }

/-- A transmit callback that stores `0xA5` in the data register. -/
def tx_demo : I2C_TX_callback Unit := ⟨some (fun app _ _ => (app, some 0xA5)), 0⟩

/-- A receive callback that drops the byte. -/
def rx_demo : I2C_RX_callback Unit := ⟨some (fun app _ _ _ => app), 0⟩

end I2C_master

/-- The transmit branch of `usart_handle_interrupt` is taken: `ISR.TXE` and
`CR1.TXEIE` are both set. -/
def tx_fires {σ : Type} (s : USART σ) : Bool :=
  is_flag s.ISR USART_ISR_TXE && is_flag s.CR1 USART_CR1_TXEIE

/-- The receive branch of `usart_handle_interrupt` is taken: `ISR.RXNE` and
`CR1.RXNEIE` are both set. -/
def rx_fires {σ : Type} (s : USART σ) : Bool :=
  is_flag s.ISR USART_ISR_RXNE && is_flag s.CR1 USART_CR1_RXNEIE

/-- The `proceed` argument the transmit callback gets:
`elapsed_time < p_context->timeout`, with
`elapsed_time = get_counter() - p_context->start_timestamp`. -/
def tx_proceed {σ : Type} (s : USART σ) : Bool :=
  decide (sub32 s.counter s.tx_context.start_timestamp < s.tx_context.timeout)

/-- The `proceed` argument the receive callback gets. -/
def rx_proceed {σ : Type} (s : USART σ) : Bool :=
  decide (sub32 s.counter s.rx_context.start_timestamp < s.rx_context.timeout)

/-- An enabled driver with both directions armed, caught at tick 150 with
`TXE` and `RXNE` pending: the transmit context was armed at tick 100 and the
receive context at tick 0, both with a timeout of 100 ticks; `RDR` holds `A`. -/
def USART.armed : USART Unit :=
  { USART.idle with CR1 := 0xAD, ISR := 0x6000E0, RDR := 0x41, counter := 150,
                    tx_context := ⟨tx_while_proceed, 100, 100⟩,
                    rx_context := ⟨rx_while_proceed, 0, 100⟩ }

/-- The log of a polled transmission: for each byte a completed wait on `TXE`
(with the `ISR` value that ended it) followed by the write of the byte to
`TDR`. -/
def polled_bytes : List Nat → List Nat → List Event
  | v :: vs, b :: bs =>
    Event.wait USART_ISR_TXE v false :: Event.tdr_write (u8 b) :: polled_bytes vs bs
  | _, _ => []

/-- An idle driver about to send four bytes: `TXE` is seen set at once for the
first byte, after one busy read for the second, at once for the last two, and
`TC` is seen set on the second read of the final wait. -/
def USART.sending : USART Unit :=
  { USART.idle with
    samples := [⟨0, 0xC0⟩, ⟨0, 0x00⟩, ⟨1, 0x80⟩, ⟨2, 0x80⟩, ⟨3, 0x80⟩, ⟨4, 0x80⟩, ⟨5, 0xC0⟩] }

/-- The driver state `write_bytes_polling` leaves behind when started in
`USART.sending` with the four bytes of `AT\r\n`. -/
def USART.sent : USART Unit :=
  { USART.idle with
    counter := 5, ISR := 0xC0, TDR := 0x0A, ICR := 0x40, samples := [],
    trace := [Event.wait 0x80 0xC0 false, Event.tdr_write 0x41,
              Event.wait 0x80 0x80 false, Event.tdr_write 0x54,
              Event.wait 0x80 0x80 false, Event.tdr_write 0x0D,
              Event.wait 0x80 0x80 false, Event.tdr_write 0x0A,
              Event.wait 0x40 0xC0 false, Event.icr_write 0x40] }

/-- An idle driver about to send four bytes with a timeout of 5 ticks: `TXE`
is seen set for the first two bytes, then stays clear until the deadline has
passed. -/
def USART.stalling : USART Unit :=
  { USART.idle with
    samples := [⟨0, 0xC0⟩, ⟨1, 0x80⟩, ⟨2, 0x00⟩, ⟨4, 0x00⟩, ⟨5, 0x00⟩, ⟨6, 0x00⟩, ⟨7, 0x00⟩] }

/-- The driver state the byte loop of the timed `write_bytes_polling` leaves
behind when started in `USART.stalling` with the four bytes of `AT\r\n` and a
timeout of 5 ticks. -/
def USART.stalled : USART Unit :=
  { USART.idle with
    CR1 := 0xD, counter := 5, ISR := 0x00, TDR := 0x54, samples := [⟨6, 0x00⟩, ⟨7, 0x00⟩],
    trace := [Event.wait 0x80 0xC0 false, Event.tdr_write 0x41,
              Event.wait 0x80 0x80 false, Event.tdr_write 0x54,
              Event.wait 0x80 0x00 true] }

/-- A driver about to be enabled whose peripheral acknowledges the receiver
and the transmitter (`REACK`, `TEACK`) on the second read of `ISR`, at tick 1. -/
def USART.acknowledging : USART Unit :=
  { USART.fresh with samples := [⟨0, 0xC0⟩, ⟨1, 0x6000C0⟩] }

/-- A driver about to be enabled whose peripheral never acknowledges. -/
def USART.unresponsive : USART Unit :=
  { USART.fresh with samples := [⟨0, 0xC0⟩, ⟨5, 0xC0⟩, ⟨10, 0xC0⟩, ⟨11, 0xC0⟩] }

/-! ## soc/stm32l452xx/peripherals/I2C.cpp: status decode

The bit masks are those of the vendor's CMSIS device header `stm32l452xx.h`. -/

def I2C_ISR_ADDR : Nat := 0x8
def I2C_ISR_NACKF : Nat := 0x10
def I2C_ISR_STOPF : Nat := 0x20
def I2C_ISR_BERR : Nat := 0x100
def I2C_ISR_ARLO : Nat := 0x200
def I2C_ISR_OVR : Nat := 0x400
def I2C_ISR_PECERR : Nat := 0x800
def I2C_ISR_TIMEOUT : Nat := 0x1000
def I2C_ICR_ADDRCF : Nat := 0x8
def I2C_ICR_NACKCF : Nat := 0x10
def I2C_ICR_STOPCF : Nat := 0x20
def I2C_ICR_BERRCF : Nat := 0x100
def I2C_ICR_ARLOCF : Nat := 0x200
def I2C_ICR_OVRCF : Nat := 0x400
def I2C_ICR_PECCF : Nat := 0x800
def I2C_ICR_TIMOUTCF : Nat := 0x1000
def I2C_CR1_ADDRIE : Nat := 0x8
def I2C_CR1_NACKIE : Nat := 0x10
def I2C_CR1_ANFOFF : Nat := 0x1000
def I2C_CR1_PECEN : Nat := 0x800000
def I2C_CR2_NBYTES_Msk : Nat := 0xFF0000
def I2C_OAR1_OA1EN : Nat := 0x8000

/-- Modelled from the spec: `is_any_bit(a_register, a_mask)` of the bit header
that `I2C.cpp` includes; the `common/bit.hpp` among the sources does not have
it. The polling loops run until a stop condition or an error flag (4.4): the
helper holds when the register has at least one bit of the mask set. -/
def is_any_bit (a_register a_mask : Nat) : Bool := (a_register &&& a_mask) != 0

/-- Modelled from the spec: `I2C_base::Bus_status_flag`, declared in `I2C.hpp`
which is not among the sources: a set of independent conditions, one bit each
(3, 4.4, glossary), `ok` being the empty set; `ret |= flag` adds a flag to the
set. -/
structure Bus_status_flag where
  buffer_error : Bool
  arbitration_lost : Bool
  misplaced : Bool
  nack : Bool
deriving DecidableEq

/-- `I2C_base::Bus_status_flag::ok`. -/
def Bus_status_flag.ok : Bus_status_flag := ⟨false, false, false, false⟩

/-- `is_I2C_ISR_error(a_isr)`. -/
def is_I2C_ISR_error (a_isr : Nat) : Bool :=
  is_any_bit a_isr (I2C_ISR_TIMEOUT ||| I2C_ISR_PECERR ||| I2C_ISR_OVR ||| I2C_ISR_ARLO |||
                    I2C_ISR_BERR ||| I2C_ISR_NACKF)

/-- The mask `clear_I2C_ISR_errors(a_p_icr)` sets in `ICR`. -/
def I2C_ICR_errors : Nat :=
  I2C_ICR_TIMOUTCF ||| I2C_ICR_PECCF ||| I2C_ICR_OVRCF ||| I2C_ICR_ARLOCF ||| I2C_ICR_BERRCF |||
    I2C_ICR_NACKCF

/-- `get_bus_status_flag_from_I2C_ISR(a_isr)`. -/
def get_bus_status_flag_from_I2C_ISR (a_isr : Nat) : Bus_status_flag :=
  let ret := Bus_status_flag.ok
  let ret := if is_flag a_isr I2C_ISR_OVR = true then { ret with buffer_error := true } else ret
  let ret := if is_flag a_isr I2C_ISR_ARLO = true then { ret with arbitration_lost := true } else ret
  let ret := if is_flag a_isr I2C_ISR_BERR = true then { ret with misplaced := true } else ret
  let ret := if is_flag a_isr I2C_ISR_NACKF = true then { ret with nack := true } else ret
  ret

/-- One step of the interrupt-driven use of the USART: a registration call of
the application, or the USART2 interrupt taken with the hardware showing the
given tick counter, `ISR` and `RDR`. -/
inductive USART_step (σ : Type) where
  | write_bytes_IT (a_callback : TX_callback σ) (a_timeout_ms : Nat)
  | read_bytes_IT (a_callback : RX_callback σ) (a_timeout_ms : Nat)
  | interrupt (now isr rdr : Nat)

/-- The effect of one step on the driver. -/
def USART.step {σ : Type} (s : USART σ) : USART_step σ → Option (USART σ)
  | USART_step.write_bytes_IT a_callback a_timeout_ms => USART.write_bytes_IT a_callback a_timeout_ms s
  | USART_step.read_bytes_IT a_callback a_timeout_ms => USART.read_bytes_IT a_callback a_timeout_ms s
  | USART_step.interrupt now isr rdr =>
    USART.usart_handle_interrupt { s with counter := now, ISR := isr, RDR := rdr }

/-- A sequence of steps, `none` as soon as one of them fails an assertion or
calls through a null function pointer. -/
def USART.run_steps {σ : Type} : List (USART_step σ) → USART σ → Option (USART σ)
  | [], s => some s
  | st :: rest, s =>
    match s.step st with
    | none => none
    | some s1 => USART.run_steps rest s1

/-- Each direction's callback is non-null iff its interrupt-enable bit is set
in `CR1`. -/
def USART.callbacks_match {σ : Type} (s : USART σ) : Bool :=
  (s.tx_context.callback.p_function.isSome == is_flag s.CR1 USART_CR1_TXEIE) &&
  (s.rx_context.callback.p_function.isSome == is_flag s.CR1 USART_CR1_RXNEIE)

/-- The driver is enabled, the tick source runs and `CR1` holds a 32-bit
value. -/
def USART.well_formed {σ : Type} (s : USART σ) : Prop :=
  s.p_usart = true ∧ s.systick_is_enabled = true ∧ s.CR1 < UINT32_SIZE

/-! ## collection/Vector.hpp -/

/-- `collection::Vector<Type_t>`: a view over a caller-owned buffer. -/
structure Vector (α : Type) where
  p_buffer : List α
  capacity : Nat
  length : Nat

namespace Vector

variable {α : Type}

/-- `Vector(a_p_buffer, a_capacity)`: `length` is value-initialised; the
assertion on the capacity is checked, the buffer is non-null by its type. -/
def construct (a_p_buffer : List α) (a_capacity : Nat) : Option (Vector α) :=
  if a_capacity = 0 then none else some ⟨a_p_buffer, a_capacity, 0⟩

/-- `Vector::push_back(a_data)`: the return value and the vector afterwards. -/
def push_back (a_data : α) (v : Vector α) : Bool × Vector α :=
  let retval := decide (v.length < v.capacity)
  if retval = true then
    (retval, { v with p_buffer := v.p_buffer.set v.length a_data, length := add32 v.length 1 })
  else
    (retval, v)

/-- `Vector::pop_back()`. -/
def pop_back (v : Vector α) : Bool × Vector α :=
  let retval := decide (v.length > 0)
  if retval = true then (retval, { v with length := sub32 v.length 1 })
  else (retval, v)

/-- `Vector::clear()`. -/
def clear (v : Vector α) : Vector α := { v with length := 0 }

/-- `Vector::get_length()`. -/
def get_length (v : Vector α) : Nat := v.length

/-- `Vector::get_capacity()`. -/
def get_capacity (v : Vector α) : Nat := v.capacity

/-- `Vector::is_full()`. -/
def is_full (v : Vector α) : Bool := v.length == v.capacity

end Vector

/-- A mutating call on a `Vector`. -/
inductive Vector_op (α : Type) where
  | push_back (a_data : α)
  | pop_back
  | clear

/-- The vector after one mutating call. -/
def Vector.apply {α : Type} (v : Vector α) : Vector_op α → Vector α
  | Vector_op.push_back a_data => (v.push_back a_data).2
  | Vector_op.pop_back => v.pop_back.2
  | Vector_op.clear => v.clear

/-- The vector after a sequence of mutating calls. -/
def Vector.run {α : Type} : List (Vector_op α) → Vector α → Vector α
  | [], v => v
  | op :: rest, v => Vector.run rest (v.apply op)

/-! ## cml/utils/Command_line.hpp, cml/utils/config.hpp -/

/-- `config::command_line::callbacks_buffer_capacity`. -/
def callbacks_buffer_capacity : Nat := 20

/-- `Command_line::Callback`: the three pointers, by their addresses. -/
structure Callback where
  p_name : Nat
  function : Nat
  p_user_data : Nat
deriving DecidableEq

/-- The member of `Command_line` that `register_callback` works on:
`callbacks_buffer_view`, the view over `callbacks_buffer`. -/
structure Command_line where
  callbacks_buffer_view : Vector Callback

/-- The member initialiser
`callbacks_buffer_view(this->callbacks_buffer, callbacks_buffer_capacity)` of
the constructor of `Command_line`, the array elements being
default-initialised. -/
def Command_line.construct : Command_line :=
  ⟨⟨List.replicate callbacks_buffer_capacity ⟨0, 0, 0⟩, callbacks_buffer_capacity, 0⟩⟩

/-- `Command_line::register_callback(a_callback)`. -/
def Command_line.register_callback (a_callback : Callback) (cl : Command_line) :
    Bool × Command_line :=
  let r := cl.callbacks_buffer_view.push_back a_callback
  (r.1, ⟨r.2⟩)

/-- The results of registering the callbacks of a list one after the other. -/
def Command_line.register_all : List Callback → Command_line → List Bool
  | [], _ => []
  | cb :: rest, cl =>
    (cl.register_callback cb).1 :: Command_line.register_all rest (cl.register_callback cb).2

/-! ## soc/stm32l452xx/peripherals/I2C.cpp: polling transfers

Every read of a register of an I²C block and every `counter::get()` is a
separate access to the hardware: it takes the next observation of the
hardware. An observation holds the tick counter and what the registers of the
four blocks `I2C1` .. `I2C4` read as at that moment. -/

/-- Modelled from the spec: `I2C_base::Id`, declared in `I2C.hpp` which is not
among the sources. The identities index the dispatch table `controllers[]`,
whose entries are `I2C1` .. `I2C4` in this order. -/
inductive I2C_Id where
  | _1
  | _2
  | _3
  | _4
deriving DecidableEq

/-- `static_cast<uint32_t>(a_id)`. -/
def I2C_Id.index : I2C_Id → Nat
  | I2C_Id._1 => 0
  | I2C_Id._2 => 1
  | I2C_Id._3 => 2
  | I2C_Id._4 => 3

/-- What the registers of one block read as. -/
structure I2C_readout where
  ISR : Nat
  ICR : Nat
  RXDR : Nat
deriving DecidableEq

/-- One observation of the hardware. -/
structure I2C_sample where
  now : Nat
  I2C1 : I2C_readout
  I2C2 : I2C_readout
  I2C3 : I2C_readout
  I2C4 : I2C_readout
deriving DecidableEq

/-- The block `controllers[a_id].p_registers` in an observation. -/
def I2C_sample.p_registers (h : I2C_sample) : I2C_Id → I2C_readout
  | I2C_Id._1 => h.I2C1
  | I2C_Id._2 => h.I2C2
  | I2C_Id._3 => h.I2C3
  | I2C_Id._4 => h.I2C4

/-- A store to a register of the driver's own block. -/
inductive I2C_write where
  | CR2 (v : Nat)
  | TXDR (v : Nat)
  | ICR (v : Nat)
deriving DecidableEq

/-- `I2C_base::Result`. -/
structure I2C_result where
  bus_status : Bus_status_flag
  bytes_transferred : Nat
deriving DecidableEq

/-- A driver object (an `I2C_master` or an `I2C_slave`) running a polling
transfer: its identity, whether `this->p_i2c` and the two handles of
`controllers[id]` are non-null, the observations still to come, the stores made
to the block so far, the last value stored to `CR2`, and the memory a receive
writes its bytes to. -/
structure I2C_polling where
  id : I2C_Id
  p_i2c : Bool
  p_i2c_master_handle : Bool
  p_i2c_slave_handle : Bool
  hardware : List I2C_sample
  writes : List I2C_write
  CR2 : Nat
  received : List Nat
deriving DecidableEq

namespace I2C_polling

/-- The next access to the hardware. -/
def read (s : I2C_polling) : Option (I2C_sample × I2C_polling) :=
  match s.hardware with
  | [] => none
  | h :: rest => some (h, { s with hardware := rest })

/-- `counter::get()`. -/
def counter_get (s : I2C_polling) : Option (Nat × I2C_polling) :=
  match s.read with
  | none => none
  | some (h, s1) => some (h.now, s1)

/-- A read of `this->p_i2c->ISR`. -/
def read_ISR (s : I2C_polling) : Option (Nat × I2C_polling) :=
  match s.read with
  | none => none
  | some (h, s1) => some ((h.p_registers s.id).ISR, s1)

/-- A read of `this->p_i2c->RXDR`. -/
def read_RXDR (s : I2C_polling) : Option (Nat × I2C_polling) :=
  match s.read with
  | none => none
  | some (h, s1) => some ((h.p_registers s.id).RXDR, s1)

/-- A read of `I2C1->ISR`. -/
def read_I2C1_ISR (s : I2C_polling) : Option (Nat × I2C_polling) :=
  match s.read with
  | none => none
  | some (h, s1) => some (h.I2C1.ISR, s1)

/-- A read of `I2C1->ICR`. -/
def read_I2C1_ICR (s : I2C_polling) : Option (Nat × I2C_polling) :=
  match s.read with
  | none => none
  | some (h, s1) => some (h.I2C1.ICR, s1)

/-- The assignment `this->p_i2c->CR2 = v`. -/
def write_CR2 (v : Nat) (s : I2C_polling) : I2C_polling :=
  { s with CR2 := v, writes := s.writes ++ [I2C_write.CR2 v] }

/-- The assignment `this->p_i2c->TXDR = v`. -/
def write_TXDR (v : Nat) (s : I2C_polling) : I2C_polling :=
  { s with writes := s.writes ++ [I2C_write.TXDR v] }

/-- `set_flag(&(this->p_i2c->ICR), a_flag)`: a read of `ICR` and the store of
the value read with the flag set. -/
def set_flag_ICR (a_flag : Nat) (s : I2C_polling) : Option I2C_polling :=
  match s.read with
  | none => none
  | some (h, s1) =>
    some { s1 with writes := s1.writes ++ [I2C_write.ICR (set_flag (h.p_registers s.id).ICR a_flag)] }

/-- `while (guard) { body }` over the loop variables `words` and `error`; the
first argument bounds the number of evaluations of the guard. -/
def while_loop (guard : Bool → I2C_polling → Option (Bool × I2C_polling))
    (body : Nat → I2C_polling → Option ((Nat × Bool) × I2C_polling)) :
    Nat → Nat → Bool → I2C_polling → Option ((Nat × Bool) × I2C_polling)
  | 0, _, _, _ => none
  | fuel + 1, words, error, s =>
    match guard error s with
    | none => none
    | some (false, s1) => some ((words, error), s1)
    | some (true, s1) =>
      match body words s1 with
      | none => none
      | some ((words1, error1), s2) => while_loop guard body fuel words1 error1 s2

/-- The `if (true == error) { ... }` after the loops: the status is decoded from
a new read of `ISR` and the error flags are cleared. -/
def status_after_loop (error : Bool) (s : I2C_polling) : Option (Bus_status_flag × I2C_polling) :=
  if error = true then
    match s.read_ISR with
    | none => none
    | some (isr, s1) =>
      match s1.set_flag_ICR I2C_ICR_errors with
      | none => none
      | some s2 => some (get_bus_status_flag_from_I2C_ISR isr, s2)
  else
    some (Bus_status_flag.ok, s)

end I2C_polling

/-- The word `I2C_master::transmit_bytes_polling(a_slave_address, a_p_data,
a_data_size_in_bytes)` stores to `CR2`: the only place where the byte count is
masked with `I2C_CR2_NBYTES_Msk`. -/
def I2C_master.CR2_transmit_masked (a_slave_address a_data_size_in_bytes : Nat) : Nat :=
  let address_mask := ((a_slave_address <<< 1) % UINT32_SIZE) &&& I2C_CR2_SADD
  let data_size_mask :=
    ((a_data_size_in_bytes <<< I2C_CR2_NBYTES_Pos) % UINT32_SIZE) &&& I2C_CR2_NBYTES_Msk
  address_mask ||| data_size_mask ||| I2C_CR2_START ||| I2C_CR2_AUTOEND

/-- The word the timed `transmit_bytes_polling` stores to `CR2`. -/
def I2C_master.CR2_transmit (a_slave_address a_data_size_in_bytes : Nat) : Nat :=
  let address_mask := ((a_slave_address <<< 1) % UINT32_SIZE) &&& I2C_CR2_SADD
  let data_size_mask := (a_data_size_in_bytes <<< I2C_CR2_NBYTES_Pos) % UINT32_SIZE
  address_mask ||| data_size_mask ||| I2C_CR2_START ||| I2C_CR2_AUTOEND

/-- The word both `receive_bytes_polling` store to `CR2`. -/
def I2C_master.CR2_receive (a_slave_address a_data_size_in_bytes : Nat) : Nat :=
  let address_mask := ((a_slave_address <<< 1) % UINT32_SIZE) &&& I2C_CR2_SADD
  let data_size_mask := (a_data_size_in_bytes <<< I2C_CR2_NBYTES_Pos) % UINT32_SIZE
  address_mask ||| data_size_mask ||| I2C_CR2_START ||| I2C_CR2_AUTOEND ||| I2C_CR2_RD_WRN

namespace I2C_master

/-- The guard of the loops without a deadline:
`false == is_flag(this->p_i2c->ISR, I2C_ISR_STOPF) && false == error`. -/
def polling_guard (error : Bool) (s : I2C_polling) : Option (Bool × I2C_polling) :=
  match s.read_ISR with
  | none => none
  | some (isr, s1) => some (is_flag isr I2C_ISR_STOPF == false && error == false, s1)

/-- The guard of the loops with a deadline: the loop guard above
`&& a_timeout >= time::diff(counter::get(), start)`; the counter is read only
when the first two tests hold. -/
def polling_guard_timed (a_timeout start : Nat) (error : Bool) (s : I2C_polling) :
    Option (Bool × I2C_polling) :=
  match s.read_ISR with
  | none => none
  | some (isr, s1) =>
    if (is_flag isr I2C_ISR_STOPF == false && error == false) = true then
      match s1.counter_get with
      | none => none
      | some (now, s2) => some (decide (a_timeout ≥ time.diff now start), s2)
    else
      some (false, s1)

/-- The body of the transmit loops. -/
def transmit_body (a_p_data : List Nat) (a_data_size_in_bytes : Nat) (words : Nat)
    (s : I2C_polling) : Option ((Nat × Bool) × I2C_polling) :=
  match s.read_ISR with
  | none => none
  | some (isr, s1) =>
    let r : Option (Nat × I2C_polling) :=
      if is_flag isr I2C_ISR_TXE = true ∧ words < a_data_size_in_bytes then
        match a_p_data[words]? with
        | none => none
        | some b => some (add32 words 1, s1.write_TXDR (u8 b))
      else
        some (words, s1)
    match r with
    | none => none
    | some (words1, s2) =>
      match s2.read_ISR with
      | none => none
      | some (isr2, s3) => some ((words1, is_I2C_ISR_error isr2), s3)

/-- The body of the receive loops. -/
def receive_body (a_data_size_in_bytes : Nat) (words : Nat) (s : I2C_polling) :
    Option ((Nat × Bool) × I2C_polling) :=
  match s.read_ISR with
  | none => none
  | some (isr, s1) =>
    let r : Option (Nat × I2C_polling) :=
      if is_flag isr I2C_ISR_RXNE = true ∧ words < a_data_size_in_bytes then
        match s1.read_RXDR with
        | none => none
        | some (rxdr, s2) =>
          if words < s2.received.length then
            some (add32 words 1, { s2 with received := s2.received.set words (u8 rxdr) })
          else
            none
      else
        some (words, s1)
    match r with
    | none => none
    | some (words1, s2) =>
      match s2.read_ISR with
      | none => none
      | some (isr2, s3) => some ((words1, is_I2C_ISR_error isr2), s3)

/-- The statements after the loop, common to the four transfers. -/
def finish (words : Nat) (error : Bool) (s : I2C_polling) : Option (I2C_result × I2C_polling) :=
  match s.status_after_loop error with
  | none => none
  | some (bus_status, s1) =>
    match s1.set_flag_ICR I2C_ICR_STOPCF with
    | none => none
    | some s2 => some (⟨bus_status, words⟩, s2.write_CR2 0)

/-- `I2C_master::transmit_bytes_polling(a_slave_address, a_p_data,
a_data_size_in_bytes)`; `a_p_data` is `none` for `nullptr`. -/
def transmit_bytes_polling (a_slave_address : Nat) (a_p_data : Option (List Nat))
    (a_data_size_in_bytes : Nat) (s : I2C_polling) : Option (I2C_result × I2C_polling) :=
  match a_p_data with
  | none => none
  | some data =>
    if s.p_i2c = true ∧ s.p_i2c_master_handle = true ∧
        (a_data_size_in_bytes > 0 ∧ a_data_size_in_bytes ≤ 255) then
      let s1 := s.write_CR2 (CR2_transmit_masked a_slave_address a_data_size_in_bytes)
      match I2C_polling.while_loop polling_guard (transmit_body data a_data_size_in_bytes)
          (s1.hardware.length + 1) 0 false s1 with
      | none => none
      | some ((words, error), s2) => finish words error s2
    else
      none

/-- `I2C_master::transmit_bytes_polling(a_slave_address, a_p_data,
a_data_size_in_bytes, a_timeout)`. -/
def transmit_bytes_polling_timed (a_slave_address : Nat) (a_p_data : Option (List Nat))
    (a_data_size_in_bytes a_timeout : Nat) (s : I2C_polling) :
    Option (I2C_result × I2C_polling) :=
  match a_p_data with
  | none => none
  | some data =>
    if s.p_i2c = true ∧ s.p_i2c_master_handle = true ∧
        (a_data_size_in_bytes > 0 ∧ a_data_size_in_bytes ≤ 255) ∧ a_timeout > 0 then
      match s.counter_get with
      | none => none
      | some (start, s0) =>
        let s1 := s0.write_CR2 (CR2_transmit a_slave_address a_data_size_in_bytes)
        match I2C_polling.while_loop (polling_guard_timed a_timeout start)
            (transmit_body data a_data_size_in_bytes) (s1.hardware.length + 1) 0 false s1 with
        | none => none
        | some ((words, error), s2) => finish words error s2
    else
      none

/-- `I2C_master::receive_bytes_polling(a_slave_address, a_p_data,
a_data_size_in_bytes)`; `a_p_data` tells whether the pointer is non-null, the
memory it points to is `received`. -/
def receive_bytes_polling (a_slave_address : Nat) (a_p_data : Bool)
    (a_data_size_in_bytes : Nat) (s : I2C_polling) : Option (I2C_result × I2C_polling) :=
  if s.p_i2c = true ∧ s.p_i2c_master_handle = true ∧ a_p_data = true ∧
      (a_data_size_in_bytes > 0 ∧ a_data_size_in_bytes ≤ 255) then
    let s1 := s.write_CR2 (CR2_receive a_slave_address a_data_size_in_bytes)
    match I2C_polling.while_loop polling_guard (receive_body a_data_size_in_bytes)
        (s1.hardware.length + 1) 0 false s1 with
    | none => none
    | some ((words, error), s2) => finish words error s2
  else
    none

/-- `I2C_master::receive_bytes_polling(a_slave_address, a_p_data,
a_data_size_in_bytes, a_timeout)`. -/
def receive_bytes_polling_timed (a_slave_address : Nat) (a_p_data : Bool)
    (a_data_size_in_bytes a_timeout : Nat) (s : I2C_polling) :
    Option (I2C_result × I2C_polling) :=
  if s.p_i2c = true ∧ s.p_i2c_master_handle = true ∧ a_p_data = true ∧
      (a_data_size_in_bytes > 0 ∧ a_data_size_in_bytes ≤ 255) ∧ a_timeout > 0 then
    match s.counter_get with
    | none => none
    | some (start, s0) =>
      let s1 := s0.write_CR2 (CR2_receive a_slave_address a_data_size_in_bytes)
      match I2C_polling.while_loop (polling_guard_timed a_timeout start)
          (receive_body a_data_size_in_bytes) (s1.hardware.length + 1) 0 false s1 with
      | none => none
      | some ((words, error), s2) => finish words error s2
  else
    none

end I2C_master

namespace I2C_slave

/-- The `error_mask` of the two transmit transfers. -/
def error_mask : Nat :=
  I2C_ISR_TIMEOUT ||| I2C_ISR_PECERR ||| I2C_ISR_OVR ||| I2C_ISR_ARLO ||| I2C_ISR_BERR

/-- The guard of the transmit loop without a deadline:
`(false == is_flag(I2C1->ISR, I2C_ISR_STOPF) && false == is_flag(I2C1->ISR, I2C_ISR_STOPF)) &&
false == error`. -/
def transmit_guard (error : Bool) (s : I2C_polling) : Option (Bool × I2C_polling) :=
  match s.read_I2C1_ISR with
  | none => none
  | some (isr, s1) =>
    if is_flag isr I2C_ISR_STOPF = false then
      match s1.read_I2C1_ISR with
      | none => none
      | some (isr2, s2) => some (is_flag isr2 I2C_ISR_STOPF == false && error == false, s2)
    else
      some (false, s1)

/-- The guard of the transmit loop with a deadline: the guard above
`&& a_timeout >= time::diff(counter::get(), start)`. -/
def transmit_guard_timed (a_timeout start : Nat) (error : Bool) (s : I2C_polling) :
    Option (Bool × I2C_polling) :=
  match transmit_guard error s with
  | none => none
  | some (false, s1) => some (false, s1)
  | some (true, s1) =>
    match s1.counter_get with
    | none => none
    | some (now, s2) => some (decide (a_timeout ≥ time.diff now start), s2)

/-- The guard of the receive loop without a deadline:
`false == is_flag(I2C1->ISR, I2C_ISR_STOPF) && false == error`. -/
def receive_guard (error : Bool) (s : I2C_polling) : Option (Bool × I2C_polling) :=
  match s.read_I2C1_ISR with
  | none => none
  | some (isr, s1) => some (is_flag isr I2C_ISR_STOPF == false && error == false, s1)

/-- The guard of the receive loop with a deadline:
`false == is_flag(I2C1->ICR, I2C_ICR_STOPCF) && false == error &&
a_timeout >= time::diff(counter::get(), start)`. -/
def receive_guard_timed (a_timeout start : Nat) (error : Bool) (s : I2C_polling) :
    Option (Bool × I2C_polling) :=
  match s.read_I2C1_ICR with
  | none => none
  | some (icr, s1) =>
    if (is_flag icr I2C_ICR_STOPCF == false && error == false) = true then
      match s1.counter_get with
      | none => none
      | some (now, s2) => some (decide (a_timeout ≥ time.diff now start), s2)
    else
      some (false, s1)

/-- The first statement of the four loop bodies:
`if (true == is_flag(this->p_i2c->ISR, I2C_ISR_ADDR)) { set_flag(&(this->p_i2c->ICR), I2C_ICR_ADDRCF); }`. -/
def clear_ADDR (s : I2C_polling) : Option I2C_polling :=
  match s.read_ISR with
  | none => none
  | some (isr, s1) =>
    if is_flag isr I2C_ISR_ADDR = true then s1.set_flag_ICR I2C_ICR_ADDRCF else some s1

/-- The body of the transmit loops. -/
def transmit_body (a_p_data : List Nat) (a_data_size_in_bytes : Nat) (words : Nat)
    (s : I2C_polling) : Option ((Nat × Bool) × I2C_polling) :=
  match clear_ADDR s with
  | none => none
  | some s0 =>
    match s0.read_ISR with
    | none => none
    | some (isr, s1) =>
      let r : Option (Nat × I2C_polling) :=
        if is_flag isr I2C_ISR_TXE = true ∧ words < a_data_size_in_bytes then
          match a_p_data[words]? with
          | none => none
          | some b => some (add32 words 1, s1.write_TXDR (u8 b))
        else
          some (words, s1)
      match r with
      | none => none
      | some (words1, s2) =>
        match s2.read_I2C1_ISR with
        | none => none
        | some (isr2, s3) => some ((words1, is_any_bit isr2 error_mask), s3)

/-- The body of the receive loops. -/
def receive_body (a_data_size_in_bytes : Nat) (words : Nat) (s : I2C_polling) :
    Option ((Nat × Bool) × I2C_polling) :=
  match clear_ADDR s with
  | none => none
  | some s0 =>
    match s0.read_ISR with
    | none => none
    | some (isr, s1) =>
      let r : Option (Nat × I2C_polling) :=
        if is_flag isr I2C_ISR_RXNE = true then
          match s1.read_RXDR with
          | none => none
          | some (rxdr, s2) =>
            if words < a_data_size_in_bytes then
              if words < s2.received.length then
                some (add32 words 1, { s2 with received := s2.received.set words (u8 rxdr) })
              else
                none
            else
              some (words, s2)
        else
          some (words, s1)
      match r with
      | none => none
      | some (words1, s2) =>
        match s2.read_ISR with
        | none => none
        | some (isr2, s3) => some ((words1, is_I2C_ISR_error isr2), s3)

/-- The statements after the loop of the receive transfers. -/
def finish (words : Nat) (error : Bool) (s : I2C_polling) : Option (I2C_result × I2C_polling) :=
  match s.status_after_loop error with
  | none => none
  | some (bus_status, s1) =>
    match s1.set_flag_ICR I2C_ICR_STOPCF with
    | none => none
    | some s2 => some (⟨bus_status, words⟩, s2)

/-- The statements after the loop of the transmit transfers: a `NACKF` that
comes with the stop is cleared first. -/
def transmit_finish (words : Nat) (error : Bool) (s : I2C_polling) :
    Option (I2C_result × I2C_polling) :=
  match s.read_ISR with
  | none => none
  | some (isr, s1) =>
    let r : Option I2C_polling :=
      if is_flag isr I2C_ISR_STOPF = true then
        match s1.read_ISR with
        | none => none
        | some (isr2, s2) =>
          if is_flag isr2 I2C_ISR_NACKF = true then s2.set_flag_ICR I2C_ICR_NACKCF else some s2
      else
        some s1
    match r with
    | none => none
    | some s3 => finish words error s3

/-- `I2C_slave::transmit_bytes_polling(a_p_data, a_data_size_in_bytes)`. -/
def transmit_bytes_polling (a_p_data : Option (List Nat)) (a_data_size_in_bytes : Nat)
    (s : I2C_polling) : Option (I2C_result × I2C_polling) :=
  match a_p_data with
  | none => none
  | some data =>
    if s.p_i2c = true ∧ s.p_i2c_slave_handle = true ∧
        (a_data_size_in_bytes > 0 ∧ a_data_size_in_bytes ≤ 255) then
      match I2C_polling.while_loop transmit_guard (transmit_body data a_data_size_in_bytes)
          (s.hardware.length + 1) 0 false s with
      | none => none
      | some ((words, error), s2) => transmit_finish words error s2
    else
      none

/-- `I2C_slave::transmit_bytes_polling(a_p_data, a_data_size_in_bytes, a_timeout)`. -/
def transmit_bytes_polling_timed (a_p_data : Option (List Nat))
    (a_data_size_in_bytes a_timeout : Nat) (s : I2C_polling) :
    Option (I2C_result × I2C_polling) :=
  match a_p_data with
  | none => none
  | some data =>
    if s.p_i2c = true ∧ s.p_i2c_slave_handle = true ∧
        (a_data_size_in_bytes > 0 ∧ a_data_size_in_bytes ≤ 255) ∧ a_timeout > 0 then
      match s.counter_get with
      | none => none
      | some (start, s1) =>
        match I2C_polling.while_loop (transmit_guard_timed a_timeout start)
            (transmit_body data a_data_size_in_bytes) (s1.hardware.length + 1) 0 false s1 with
        | none => none
        | some ((words, error), s2) => transmit_finish words error s2
    else
      none

/-- `I2C_slave::receive_bytes_polling(a_p_data, a_data_size_in_bytes)`. -/
def receive_bytes_polling (a_p_data : Bool) (a_data_size_in_bytes : Nat) (s : I2C_polling) :
    Option (I2C_result × I2C_polling) :=
  if s.p_i2c = true ∧ s.p_i2c_slave_handle = true ∧ a_p_data = true ∧
      (a_data_size_in_bytes > 0 ∧ a_data_size_in_bytes ≤ 255) then
    match I2C_polling.while_loop receive_guard (receive_body a_data_size_in_bytes)
        (s.hardware.length + 1) 0 false s with
    | none => none
    | some ((words, error), s2) => finish words error s2
  else
    none

/-- `I2C_slave::receive_bytes_polling(a_p_data, a_data_size_in_bytes, a_timeout)`. -/
def receive_bytes_polling_timed (a_p_data : Bool) (a_data_size_in_bytes a_timeout : Nat)
    (s : I2C_polling) : Option (I2C_result × I2C_polling) :=
  if s.p_i2c = true ∧ s.p_i2c_slave_handle = true ∧ a_p_data = true ∧
      (a_data_size_in_bytes > 0 ∧ a_data_size_in_bytes ≤ 255) ∧ a_timeout > 0 then
    match s.counter_get with
    | none => none
    | some (start, s1) =>
      match I2C_polling.while_loop (receive_guard_timed a_timeout start)
          (receive_body a_data_size_in_bytes) (s1.hardware.length + 1) 0 false s1 with
      | none => none
      | some ((words, error), s2) => finish words error s2
  else
    none

end I2C_slave

/-- The eight polling transfers with their arguments. -/
inductive Polling_transfer where
  | master_transmit (a_slave_address : Nat) (a_p_data : Option (List Nat)) (a_data_size_in_bytes : Nat)
  | master_transmit_timed (a_slave_address : Nat) (a_p_data : Option (List Nat))
      (a_data_size_in_bytes a_timeout : Nat)
  | master_receive (a_slave_address : Nat) (a_p_data : Bool) (a_data_size_in_bytes : Nat)
  | master_receive_timed (a_slave_address : Nat) (a_p_data : Bool)
      (a_data_size_in_bytes a_timeout : Nat)
  | slave_transmit (a_p_data : Option (List Nat)) (a_data_size_in_bytes : Nat)
  | slave_transmit_timed (a_p_data : Option (List Nat)) (a_data_size_in_bytes a_timeout : Nat)
  | slave_receive (a_p_data : Bool) (a_data_size_in_bytes : Nat)
  | slave_receive_timed (a_p_data : Bool) (a_data_size_in_bytes a_timeout : Nat)

/-- Whether the transfer is one of the master. -/
def Polling_transfer.is_master : Polling_transfer → Bool
  | Polling_transfer.master_transmit _ _ _ => true
  | Polling_transfer.master_transmit_timed _ _ _ _ => true
  | Polling_transfer.master_receive _ _ _ => true
  | Polling_transfer.master_receive_timed _ _ _ _ => true
  | _ => false

/-- The call of a polling transfer on a driver object. -/
def Polling_transfer.call : Polling_transfer → I2C_polling → Option (I2C_result × I2C_polling)
  | Polling_transfer.master_transmit a d n => I2C_master.transmit_bytes_polling a d n
  | Polling_transfer.master_transmit_timed a d n t => I2C_master.transmit_bytes_polling_timed a d n t
  | Polling_transfer.master_receive a d n => I2C_master.receive_bytes_polling a d n
  | Polling_transfer.master_receive_timed a d n t => I2C_master.receive_bytes_polling_timed a d n t
  | Polling_transfer.slave_transmit d n => I2C_slave.transmit_bytes_polling d n
  | Polling_transfer.slave_transmit_timed d n t => I2C_slave.transmit_bytes_polling_timed d n t
  | Polling_transfer.slave_receive d n => I2C_slave.receive_bytes_polling d n
  | Polling_transfer.slave_receive_timed d n t => I2C_slave.receive_bytes_polling_timed d n t

/-- An enabled master on `I2C1` with the given observations ahead and a
destination of ten bytes. -/
def I2C_polling.master_on_I2C1 (hardware : List I2C_sample) : I2C_polling :=
  { id := I2C_Id._1, p_i2c := true, p_i2c_master_handle := true, p_i2c_slave_handle := false,
    hardware := hardware, writes := [], CR2 := 0, received := List.replicate 10 0 }

/-- An enabled slave on the given identity with the given observations ahead
and a destination of ten bytes. -/
def I2C_polling.slave_on (id : I2C_Id) (hardware : List I2C_sample) : I2C_polling :=
  { id := id, p_i2c := true, p_i2c_master_handle := false, p_i2c_slave_handle := true,
    hardware := hardware, writes := [], CR2 := 0, received := List.replicate 10 0 }

/-- An observation at tick `now` in which `I2C1` reads `ISR = isr`, `ICR = 0`,
`RXDR = 0` and the other blocks read their reset values. -/
def I2C_sample.of_I2C1 (now isr : Nat) : I2C_sample :=
  ⟨now, ⟨isr, 0, 0⟩, ⟨1, 0, 0⟩, ⟨1, 0, 0⟩, ⟨1, 0, 0⟩⟩

/-- Ten bytes to send. -/
def I2C_polling.ten_bytes : List Nat := [1, 2, 3, 4, 5, 6, 7, 8, 9, 10]

/-- What `I2C1` shows to a master whose start is left unanswered for longer
than five ticks: `ISR` stays at its reset value (`TXE`); the accesses are the
read of the counter at the start, the loop guard's read of `ISR` and of the
counter (six ticks later), and the read of `ICR` in the final `set_flag`. -/
def I2C_polling.silent_bus : List I2C_sample :=
  [I2C_sample.of_I2C1 0 0x1, I2C_sample.of_I2C1 3 0x1, I2C_sample.of_I2C1 6 0x1,
   I2C_sample.of_I2C1 6 0x1]

/-- What `I2C1` shows to a master when no slave acknowledges the address: `ISR`
reads its reset value (`TXE`) for the first iteration of the loop, `NACKF`
comes up before the error check of that iteration, `STOPF` follows through
autoend, and `TXE` stays clear from the `NACKF` on. The accesses are: the
counter at the start; the guard's `ISR` and counter; the body's two reads of
`ISR`; the guard's `ISR`; the `ISR` the status is decoded from; the reads of
`ICR` in the two final `set_flag`. -/
def I2C_polling.unanswered_bus : List I2C_sample :=
  [I2C_sample.of_I2C1 0 0x1, I2C_sample.of_I2C1 0 0x1, I2C_sample.of_I2C1 1 0x1,
   I2C_sample.of_I2C1 1 0x1, I2C_sample.of_I2C1 1 0x10, I2C_sample.of_I2C1 2 0x30,
   I2C_sample.of_I2C1 2 0x30, I2C_sample.of_I2C1 2 0x30, I2C_sample.of_I2C1 2 0x30]

/-- The same bus when the first read of the loop guard comes after the `NACKF`
and the stop (`ISR = STOPF | NACKF`, `TXE` clear): the counter at the start, the
guard's `ISR`, the read of `ICR` in the final `set_flag`. -/
def I2C_polling.unanswered_bus_late : List I2C_sample :=
  [I2C_sample.of_I2C1 0 0x1, I2C_sample.of_I2C1 2 0x30, I2C_sample.of_I2C1 2 0x30]

/-- The master of `master_on_I2C1` after the timed transmit of ten bytes to
`0x50` on `silent_bus`. -/
def I2C_polling.after_silent_bus : I2C_polling :=
  { I2C_polling.master_on_I2C1 [] with
    writes := [I2C_write.CR2 0x20A20A0, I2C_write.ICR 0x20, I2C_write.CR2 0] }

/-! ## soc/stm32l452xx/peripherals/I2C.cpp: runs of the polling transfers -/

/-- The driver `s1` is the driver `s` after at least `a` and at most `b`
accesses to the hardware: the observations ahead of `s1` are those ahead of `s`
without the first ones, and the identity and the size of the destination of a
receive are those of `s`. -/
def I2C_polling.advanced (a b : Nat) (s s1 : I2C_polling) : Prop :=
  ∃ c, a ≤ c ∧ c ≤ b ∧ s1.hardware = s.hardware.drop c ∧ s1.id = s.id ∧
    s1.received.length = s.received.length

/-- The assertions at the head of the transfer hold, and the memory `a_p_data`
points to holds `a_data_size_in_bytes` bytes. -/
def Polling_transfer.well_called : Polling_transfer → I2C_polling → Bool
  | Polling_transfer.master_transmit _ d n, s =>
    s.p_i2c && s.p_i2c_master_handle && decide (n > 0 ∧ n ≤ 255) &&
      (match d with
       | none => false
       | some data => decide (n ≤ data.length))
  | Polling_transfer.master_transmit_timed _ d n t, s =>
    s.p_i2c && s.p_i2c_master_handle && decide (n > 0 ∧ n ≤ 255) && decide (t > 0) &&
      (match d with
       | none => false
       | some data => decide (n ≤ data.length))
  | Polling_transfer.master_receive _ d n, s =>
    s.p_i2c && s.p_i2c_master_handle && d && decide (n > 0 ∧ n ≤ 255) &&
      decide (n ≤ s.received.length)
  | Polling_transfer.master_receive_timed _ d n t, s =>
    s.p_i2c && s.p_i2c_master_handle && d && decide (n > 0 ∧ n ≤ 255) && decide (t > 0) &&
      decide (n ≤ s.received.length)
  | Polling_transfer.slave_transmit d n, s =>
    s.p_i2c && s.p_i2c_slave_handle && decide (n > 0 ∧ n ≤ 255) &&
      (match d with
       | none => false
       | some data => decide (n ≤ data.length))
  | Polling_transfer.slave_transmit_timed d n t, s =>
    s.p_i2c && s.p_i2c_slave_handle && decide (n > 0 ∧ n ≤ 255) && decide (t > 0) &&
      (match d with
       | none => false
       | some data => decide (n ≤ data.length))
  | Polling_transfer.slave_receive d n, s =>
    s.p_i2c && s.p_i2c_slave_handle && d && decide (n > 0 ∧ n ≤ 255) &&
      decide (n ≤ s.received.length)
  | Polling_transfer.slave_receive_timed d n t, s =>
    s.p_i2c && s.p_i2c_slave_handle && d && decide (n > 0 ∧ n ≤ 255) && decide (t > 0) &&
      decide (n ≤ s.received.length)

/-- What the stop test of the loop guard of the transfer reads in an
observation, for a driver of the given identity: `STOPF` in the `ISR` of the
driver's own block in the four transfers of the master, `STOPF` in `I2C1->ISR`
in both transmit transfers and the untimed receive of the slave, `STOPCF` in
`I2C1->ICR` in the timed receive of the slave. -/
def Polling_transfer.reads_stop : Polling_transfer → I2C_Id → I2C_sample → Bool
  | Polling_transfer.master_transmit _ _ _, id, h => is_flag (h.p_registers id).ISR I2C_ISR_STOPF
  | Polling_transfer.master_transmit_timed _ _ _ _, id, h =>
    is_flag (h.p_registers id).ISR I2C_ISR_STOPF
  | Polling_transfer.master_receive _ _ _, id, h => is_flag (h.p_registers id).ISR I2C_ISR_STOPF
  | Polling_transfer.master_receive_timed _ _ _ _, id, h =>
    is_flag (h.p_registers id).ISR I2C_ISR_STOPF
  | Polling_transfer.slave_transmit _ _, _, h => is_flag h.I2C1.ISR I2C_ISR_STOPF
  | Polling_transfer.slave_transmit_timed _ _ _, _, h => is_flag h.I2C1.ISR I2C_ISR_STOPF
  | Polling_transfer.slave_receive _ _, _, h => is_flag h.I2C1.ISR I2C_ISR_STOPF
  | Polling_transfer.slave_receive_timed _ _ _, _, h => is_flag h.I2C1.ICR I2C_ICR_STOPCF

/-- What the error check of the loop body of the transfer reads in an
observation, for a driver of the given identity: `is_I2C_ISR_error` of the `ISR`
of the driver's own block in the four transfers of the master and the two
receive transfers of the slave, a flag of `error_mask` in `I2C1->ISR` in the two
transmit transfers of the slave. -/
def Polling_transfer.reads_error : Polling_transfer → I2C_Id → I2C_sample → Bool
  | Polling_transfer.master_transmit _ _ _, id, h => is_I2C_ISR_error (h.p_registers id).ISR
  | Polling_transfer.master_transmit_timed _ _ _ _, id, h =>
    is_I2C_ISR_error (h.p_registers id).ISR
  | Polling_transfer.master_receive _ _ _, id, h => is_I2C_ISR_error (h.p_registers id).ISR
  | Polling_transfer.master_receive_timed _ _ _ _, id, h =>
    is_I2C_ISR_error (h.p_registers id).ISR
  | Polling_transfer.slave_transmit _ _, _, h => is_any_bit h.I2C1.ISR I2C_slave.error_mask
  | Polling_transfer.slave_transmit_timed _ _ _, _, h =>
    is_any_bit h.I2C1.ISR I2C_slave.error_mask
  | Polling_transfer.slave_receive _ _, id, h => is_I2C_ISR_error (h.p_registers id).ISR
  | Polling_transfer.slave_receive_timed _ _ _, id, h => is_I2C_ISR_error (h.p_registers id).ISR

/-- In the observation `x` the counter is more than `a_timeout` past the counter
a timed transfer called on the driver reads at its start, which is the first
observation ahead of the driver. -/
def I2C_polling.past_deadline (s : I2C_polling) (a_timeout : Nat) (x : I2C_sample) : Bool :=
  match s.hardware with
  | [] => false
  | h0 :: _ => decide (a_timeout < time.diff x.now h0.now)

/-- What the deadline test of the loop guard of the transfer reads in an
observation: whether the counter is more than `a_timeout` past the start; a
transfer without `a_timeout` has no such test. -/
def Polling_transfer.reads_deadline : Polling_transfer → I2C_polling → I2C_sample → Bool
  | Polling_transfer.master_transmit_timed _ _ _ t, s, x => s.past_deadline t x
  | Polling_transfer.master_receive_timed _ _ _ t, s, x => s.past_deadline t x
  | Polling_transfer.slave_transmit_timed _ _ t, s, x => s.past_deadline t x
  | Polling_transfer.slave_receive_timed _ _ t, s, x => s.past_deadline t x
  | _, _, _ => false

/-- What the hardware shows in one iteration of the loop of the timed
`I2C_master::transmit_bytes_polling`: the observations taken by the guard's read
of `ISR`, by the guard's read of the counter, by the read of `ISR` in the `TXE`
test and by the read of `ISR` in the error check. -/
structure Transmit_iteration where
  guard : I2C_sample
  clock : I2C_sample
  request : I2C_sample
  check : I2C_sample
deriving DecidableEq

namespace Transmit_iteration

/-- The observations of a sequence of iterations, in the order they are
taken. -/
def all_observations : List Transmit_iteration → List I2C_sample
  | [] => []
  | i :: rest => i.guard :: i.clock :: i.request :: i.check :: all_observations rest

/-- The guard lets the iteration start: it reads `STOPF` clear and a counter
not more than `a_timeout` past `start`. -/
def entered (id : I2C_Id) (a_timeout start : Nat) (i : Transmit_iteration) : Bool :=
  is_flag (i.guard.p_registers id).ISR I2C_ISR_STOPF == false &&
    decide (a_timeout ≥ time.diff i.clock.now start)

/-- The `TXE` test of the iteration reads `TXE` set. -/
def requests_byte (id : I2C_Id) (i : Transmit_iteration) : Bool :=
  is_flag (i.request.p_registers id).ISR I2C_ISR_TXE

/-- The error check of the iteration reads an error flag. -/
def sees_error (id : I2C_Id) (i : Transmit_iteration) : Bool :=
  is_I2C_ISR_error (i.check.p_registers id).ISR

end Transmit_iteration

/-- An observation in which every block reads `STOPF` in `ISR` and `STOPCF` in
`ICR`. -/
def I2C_sample.stop_everywhere : I2C_sample :=
  ⟨0, ⟨0x20, 0x20, 0⟩, ⟨0x20, 0x20, 0⟩, ⟨0x20, 0x20, 0⟩, ⟨0x20, 0x20, 0⟩⟩

/-- Twenty-six observations of a stop. -/
def I2C_polling.stops : List I2C_sample := List.replicate 26 I2C_sample.stop_everywhere

/-- An observation at tick `now` in which `I2C1` reads `ISR = isr` and
`RXDR = rxdr`. -/
def I2C_sample.of_I2C1_RXDR (now isr rxdr : Nat) : I2C_sample :=
  ⟨now, ⟨isr, 0, rxdr⟩, ⟨1, 0, 0⟩, ⟨1, 0, 0⟩, ⟨1, 0, 0⟩⟩

/-- An observation at tick `now` in which `I2C1` reads `ISR = isr1` and `I2C2`
reads `ISR = isr2`. -/
def I2C_sample.of_I2C1_I2C2 (now isr1 isr2 : Nat) : I2C_sample :=
  ⟨now, ⟨isr1, 0, 0⟩, ⟨isr2, 0, 0⟩, ⟨1, 0, 0⟩, ⟨1, 0, 0⟩⟩

/-- What `I2C1` shows to a master in an untimed transmit that is not
acknowledged: the guard's `ISR` (`TXE`), the body's `ISR` for the `TXE` test and
for the error check (`NACKF`), the guard's `ISR`, the `ISR` the status is decoded
from, the reads of `ICR` in the two final `set_flag`. -/
def I2C_polling.nack_bus : List I2C_sample :=
  [I2C_sample.of_I2C1 0 0x1, I2C_sample.of_I2C1 0 0x1, I2C_sample.of_I2C1 0 0x10,
   I2C_sample.of_I2C1 0 0x30, I2C_sample.of_I2C1 0 0x30, I2C_sample.of_I2C1 0 0x30,
   I2C_sample.of_I2C1 0 0x30]

/-- What `I2C1` shows to a master in an untimed receive of one byte `0xAB`
ended by the stop: the guard's `ISR`, the body's `ISR` for the `RXNE` test
(`RXNE`), `RXDR`, the `ISR` of the error check, the guard's `ISR` (`STOPF`), the
read of `ICR` in the final `set_flag`. -/
def I2C_polling.one_byte_bus : List I2C_sample :=
  [I2C_sample.of_I2C1 0 0x0, I2C_sample.of_I2C1_RXDR 0 0x4 0xAB,
   I2C_sample.of_I2C1_RXDR 0 0x4 0xAB, I2C_sample.of_I2C1 0 0x0, I2C_sample.of_I2C1 0 0x20,
   I2C_sample.of_I2C1 0 0x20]

/-- What `I2C1` shows to a master in a timed receive ended by a bus error: the
counter at the start, the guard's `ISR` and counter, the body's `ISR` for the
`RXNE` test and for the error check (`BERR`), the guard's `ISR`, the `ISR` the
status is decoded from, the reads of `ICR` in the two final `set_flag`. -/
def I2C_polling.bus_error_bus : List I2C_sample :=
  [I2C_sample.of_I2C1 0 0x0, I2C_sample.of_I2C1 0 0x0, I2C_sample.of_I2C1 1 0x0,
   I2C_sample.of_I2C1 1 0x0, I2C_sample.of_I2C1 1 0x100, I2C_sample.of_I2C1 1 0x100,
   I2C_sample.of_I2C1 1 0x100, I2C_sample.of_I2C1 1 0x100, I2C_sample.of_I2C1 1 0x100]

/-- What the hardware shows to a slave on `I2C2` in an untimed receive ended by
an overrun: the guard's `I2C1->ISR`, the body's own `ISR` for the `ADDR` test,
for the `RXNE` test and for the error check (`OVR`), the guard's `I2C1->ISR`, the
own `ISR` the status is decoded from, the reads of `ICR` in the two final
`set_flag`. -/
def I2C_polling.slave_overrun_bus : List I2C_sample :=
  [I2C_sample.of_I2C1_I2C2 0 0x1 0x0, I2C_sample.of_I2C1_I2C2 0 0x1 0x0,
   I2C_sample.of_I2C1_I2C2 0 0x1 0x0, I2C_sample.of_I2C1_I2C2 0 0x1 0x400,
   I2C_sample.of_I2C1_I2C2 0 0x1 0x400, I2C_sample.of_I2C1_I2C2 0 0x1 0x400,
   I2C_sample.of_I2C1_I2C2 0 0x1 0x400, I2C_sample.of_I2C1_I2C2 0 0x1 0x400]

/-- The driver with twenty-six observations of a stop after the observations
ahead of it. -/
def I2C_polling.then_stops (s : I2C_polling) : I2C_polling :=
  { s with hardware := s.hardware ++ I2C_polling.stops }

/-- An observation in which every block reads a bus error (`BERR`) in `ISR`. -/
def I2C_sample.error_everywhere : I2C_sample :=
  ⟨0, ⟨0x100, 0, 0⟩, ⟨0x100, 0, 0⟩, ⟨0x100, 0, 0⟩, ⟨0x100, 0, 0⟩⟩

/-- An observation at tick `1000` in which every block reads its reset
values. -/
def I2C_sample.late : I2C_sample :=
  ⟨1000, ⟨0x1, 0, 0⟩, ⟨0x1, 0, 0⟩, ⟨0x1, 0, 0⟩, ⟨0x1, 0, 0⟩⟩

/-- Twenty-six observations of a bus error. -/
def I2C_polling.errors : List I2C_sample := List.replicate 26 I2C_sample.error_everywhere

/-- Twenty-six observations at tick `1000`. -/
def I2C_polling.lates : List I2C_sample := List.replicate 26 I2C_sample.late

/-- The driver with twenty-six observations of a bus error after the
observations ahead of it. -/
def I2C_polling.then_errors (s : I2C_polling) : I2C_polling :=
  { s with hardware := s.hardware ++ I2C_polling.errors }

/-- The driver with twenty-six observations at tick `1000` after the
observations ahead of it. -/
def I2C_polling.then_lates (s : I2C_polling) : I2C_polling :=
  { s with hardware := s.hardware ++ I2C_polling.lates }

/-- What `I2C1` shows to a master during the first iteration of an untimed
receive in which one byte `0xAB` arrives: the guard's `ISR`, the body's `ISR` for
the `RXNE` test (`RXNE`), `RXDR`, the `ISR` of the error check. -/
def I2C_polling.one_byte_read : List I2C_sample :=
  [I2C_sample.of_I2C1 0 0x0, I2C_sample.of_I2C1_RXDR 0 0x4 0xAB,
   I2C_sample.of_I2C1_RXDR 0 0x4 0xAB, I2C_sample.of_I2C1 0 0x0]

/-- The read of the counter at tick `0` at the start of a timed transfer. -/
def I2C_polling.start_at_zero : List I2C_sample := [I2C_sample.of_I2C1_I2C2 0 0x1 0x1]

/-- What `I2C1` shows in the first two iterations of the loop of a timed
transmit of the master that no slave acknowledges: `TXE` reads set in the first
iteration (the reset value of `ISR`) and clear in the second, the byte stored to
`TXDR` waiting to be sent; no error flag is up yet. -/
def Transmit_iteration.unanswered : List Transmit_iteration :=
  [⟨I2C_sample.of_I2C1 0 0x1, I2C_sample.of_I2C1 1 0x1, I2C_sample.of_I2C1 1 0x1,
    I2C_sample.of_I2C1 1 0x0⟩,
   ⟨I2C_sample.of_I2C1 1 0x0, I2C_sample.of_I2C1 2 0x0, I2C_sample.of_I2C1 2 0x0,
    I2C_sample.of_I2C1 2 0x0⟩]

/-- What `I2C1` shows in the third iteration: `NACKF` comes up before the error
check. -/
def Transmit_iteration.nacked : Transmit_iteration :=
  ⟨I2C_sample.of_I2C1 2 0x0, I2C_sample.of_I2C1 3 0x0, I2C_sample.of_I2C1 3 0x0,
    I2C_sample.of_I2C1 3 0x10⟩

/-! ## soc/stm32l452xx/peripherals/I2C.cpp: the stop interrupt -/

/-- What an interrupt handler of `I2C_base` does that can be seen from outside:
a call of the transmit callback with its `a_stop` argument and whether its
first argument `p_txdr` is `nullptr`, a call of the receive callback with its
byte and `a_stop`, a store to `ICR`. -/
inductive I2C_event where
  | tx_call (p_txdr_is_null : Bool) (a_stop : Bool)
  | rx_call (a_byte : Nat) (a_stop : Bool)
  | icr_write (v : Nat)
deriving DecidableEq

/-- An `I2C_base` object bound to a register block: the registers `CR1` and
`ICR` of the block, the two callbacks, the memory of the application and the
log of events. -/
structure I2C_base (σ : Type) where
  CR1 : Nat
  ICR : Nat
  tx_callback : I2C_TX_callback σ
  rx_callback : I2C_RX_callback σ
  app : σ
  log : List I2C_event

namespace I2C_base

variable {σ : Type}

/-- `I2C_base::stopf_interrupt_handler(a_isr, a_cr1)`. The transmit callback
is called with `p_txdr = nullptr`: a store through it is undefined. -/
def stopf_interrupt_handler (a_isr a_cr1 : Nat) (s : I2C_base σ) : Option (I2C_base σ) :=
  if is_flag a_isr I2C_ISR_STOPF = true ∧ is_flag a_cr1 I2C_CR1_STOPIE = true then
    let s1 : Option (I2C_base σ) :=
      match s.tx_callback.function with
      | some f =>
        let r := f s.app true s.tx_callback.p_user_data
        match r.2 with
        | some _ => none
        | none =>
          some { s with
            app := r.1
            log := s.log ++ [I2C_event.tx_call true true]
            CR1 := clear_flag s.CR1 (I2C_CR1_TXIE ||| I2C_CR1_STOPIE ||| I2C_CR1_ADDRIE)
            tx_callback := ⟨none, 0⟩ }
      | none => some s
    match s1 with
    | none => none
    | some s1 =>
      let s2 : I2C_base σ :=
        match s1.rx_callback.function with
        | some f =>
          { s1 with
            app := f s1.app 0 true s1.rx_callback.p_user_data
            log := s1.log ++ [I2C_event.rx_call 0 true]
            CR1 := clear_flag s1.CR1 (I2C_CR1_RXIE ||| I2C_CR1_STOPIE ||| I2C_CR1_ADDRIE)
            rx_callback := ⟨none, 0⟩ }
        | none => s1
      some { s2 with
        ICR := set_flag s2.ICR I2C_ICR_STOPCF
        log := s2.log ++ [I2C_event.icr_write (set_flag s2.ICR I2C_ICR_STOPCF)] }
  else
    some s

/-- The events of a log that are calls of the transmit callback. -/
def tx_calls (log : List I2C_event) : List I2C_event :=
  log.filter (fun e => match e with | I2C_event.tx_call _ _ => true | _ => false)

/-- The events of a log that are calls of the receive callback. -/
def rx_calls (log : List I2C_event) : List I2C_event :=
  log.filter (fun e => match e with | I2C_event.rx_call _ _ => true | _ => false)

/-- A slave object with both directions armed, `CR1` holding `PE` and every
interrupt enable the registrations set. -/
def armed : I2C_base Nat :=
  { CR1 := 0x3F, ICR := 0,
    tx_callback := ⟨some (fun app _ _ => (app + 1, none)), 0⟩,
    rx_callback := ⟨some (fun app _ _ _ => app + 10), 0⟩,
    app := 0, log := [] }

end I2C_base

/-! ## common/bit.hpp: single bits -/

/-- `get_bit(a_register, a_index)` for a 32-bit register: the flag is
`static_cast<Register_t>(0x1u) << a_index`. -/
def get_bit (a_register a_index : Nat) : Bool :=
  let flag := (1 <<< a_index) % UINT32_SIZE
  flag == (a_register &&& flag)

/-- `set_bit(a_p_register, a_index)`: `(*a_p_register) |= (0x1u << a_index)`. -/
def set_bit (a_register a_index : Nat) : Nat :=
  a_register ||| ((1 <<< a_index) % UINT32_SIZE)

/-- `clear_bit(a_p_register, a_index)`: `(*a_p_register) &= ~(0x1u << a_index)`. -/
def clear_bit (a_register a_index : Nat) : Nat :=
  a_register &&& (4294967295 ^^^ ((1 <<< a_index) % UINT32_SIZE))

/-- `toggle_bit(a_p_register, a_index)`: `(*a_p_register) ^= (0x1u << a_index)`. -/
def toggle_bit (a_register a_index : Nat) : Nat :=
  a_register ^^^ ((1 <<< a_index) % UINT32_SIZE)

/-! ## soc/stm32l452xx/peripherals/I2C.cpp: the dispatch table, `enable` and `diasble`

The bit masks are those of the vendor's CMSIS device header `stm32l452xx.h`.
The calls into the interrupt controller (`NVIC_SetPriority`, `NVIC_EnableIRQ`,
`NVIC_DisableIRQ`) touch no state of the drivers and are left out. -/

def RCC_CCIPR_I2C1SEL_Pos : Nat := 12
def RCC_CCIPR_I2C1SEL : Nat := 0x3000
def RCC_CCIPR_I2C2SEL : Nat := 0xC000
def RCC_CCIPR_I2C3SEL : Nat := 0x30000
def RCC_CCIPR2_I2C4SEL : Nat := 0x3
def RCC_APB1ENR1_I2C1EN : Nat := 0x200000
def RCC_APB1ENR1_I2C2EN : Nat := 0x400000
def RCC_APB1ENR1_I2C3EN : Nat := 0x800000
def RCC_APB1ENR2_I2C4EN : Nat := 0x2
def SYSCFG_CFGR1_I2C1_FMP_Pos : Nat := 20

/-- The registers of an I²C block that `enable`, `diasble` and the callback
registrations store to. -/
structure I2C_block where
  CR1 : Nat
  TIMINGR : Nat
  OAR1 : Nat
deriving DecidableEq

/-- A callback as the registrations store it: the function pointer (`none` for
`nullptr`) and `p_user_data`. -/
structure I2C_callback_pointer where
  function : Option Nat
  p_user_data : Nat
deriving DecidableEq

/-- A driver object, an `I2C_master` or an `I2C_slave`: its identity, fixed at
construction, the pointer `p_i2c` to its register block (`none` for `nullptr`,
else the block of the identity given) and its two callbacks. -/
structure I2C_driver where
  id : I2C_Id
  p_i2c : Option I2C_Id
  tx_callback : I2C_callback_pointer
  rx_callback : I2C_callback_pointer
deriving DecidableEq

/-- Modelled from the spec: the `Config` of `I2C_master` and `I2C_slave`,
declared in `I2C.hpp` which is not among the sources, with the members that
`enable` reads; `address` is read by the slave only. -/
structure I2C_config where
  analog_filter : Bool
  fast_plus : Bool
  crc_enable : Bool
  timings : Nat
  address : Nat
deriving DecidableEq

/-- The state `enable` and `diasble` work on: the handles of the dispatch table
`controllers[]` (a handle is the address of a driver object), the register
blocks `I2C1` .. `I2C4`, the driver objects by address, the registers of `RCC`
and `SYSCFG` that are touched, and the result of `mcu::is_syscfg_enabled()`. -/
structure I2C_system where
  p_i2c_master_handle : I2C_Id → Option Nat
  p_i2c_slave_handle : I2C_Id → Option Nat
  p_registers : I2C_Id → I2C_block
  masters : Nat → I2C_driver
  slaves : Nat → I2C_driver
  RCC_CCIPR : Nat
  RCC_CCIPR2 : Nat
  RCC_APB1ENR1 : Nat
  RCC_APB1ENR2 : Nat
  SYSCFG_CFGR1 : Nat
  is_syscfg_enabled : Bool

/-- `get_RCC_CCIPR_from_clock_source(a_clock_source, a_i2c_id)`; the clock
source is given by its value `static_cast<uint32_t>(a_clock_source)`. -/
def get_RCC_CCIPR_from_clock_source (a_clock_source : Nat) (a_i2c_id : I2C_Id) : Nat :=
  match a_i2c_id with
  | I2C_Id._4 => a_clock_source
  | _ => (a_clock_source <<< (RCC_CCIPR_I2C1SEL_Pos + a_i2c_id.index * 2)) % UINT32_SIZE

/-- `get_clock_source_from_RCC_CCIPR(a_id)`, as the value of the clock source. -/
def get_clock_source_from_RCC_CCIPR (a_id : I2C_Id) (s : I2C_system) : Nat :=
  match a_id with
  | I2C_Id._4 => get_flag s.RCC_CCIPR2 RCC_CCIPR2_I2C4SEL
  | _ =>
    get_flag s.RCC_CCIPR ((0x3 <<< (RCC_CCIPR_I2C1SEL_Pos + a_id.index * 2)) % UINT32_SIZE) >>>
      RCC_CCIPR_I2C1SEL_Pos

/-- `i2c_1_enable(a_clock_source, a_irq_priority)`. -/
def i2c_1_enable (a_clock_source _a_irq_priority : Nat) (s : I2C_system) : Option I2C_system :=
  if a_clock_source ≠ 0 then
    some { s with
      RCC_CCIPR := set_flag_masked s.RCC_CCIPR RCC_CCIPR_I2C1SEL a_clock_source
      RCC_APB1ENR1 := set_flag s.RCC_APB1ENR1 RCC_APB1ENR1_I2C1EN }
  else none

/-- `i2c_2_enable(a_clock_source, a_irq_priority)`. -/
def i2c_2_enable (a_clock_source _a_irq_priority : Nat) (s : I2C_system) : Option I2C_system :=
  if a_clock_source ≠ 0 then
    some { s with
      RCC_CCIPR := set_flag_masked s.RCC_CCIPR RCC_CCIPR_I2C2SEL a_clock_source
      RCC_APB1ENR1 := set_flag s.RCC_APB1ENR1 RCC_APB1ENR1_I2C2EN }
  else none

/-- `i2c_3_enable(a_clock_source, a_irq_priority)`. -/
def i2c_3_enable (a_clock_source _a_irq_priority : Nat) (s : I2C_system) : Option I2C_system :=
  if a_clock_source ≠ 0 then
    some { s with
      RCC_CCIPR := set_flag_masked s.RCC_CCIPR RCC_CCIPR_I2C3SEL a_clock_source
      RCC_APB1ENR1 := set_flag s.RCC_APB1ENR1 RCC_APB1ENR1_I2C3EN }
  else none

/-- `i2c_4_enable(a_clock_source, a_irq_priority)`. -/
def i2c_4_enable (a_clock_source _a_irq_priority : Nat) (s : I2C_system) : Option I2C_system :=
  if a_clock_source ≠ 0 then
    some { s with
      RCC_CCIPR2 := set_flag_masked s.RCC_CCIPR2 RCC_CCIPR2_I2C4SEL a_clock_source
      RCC_APB1ENR2 := set_flag s.RCC_APB1ENR2 RCC_APB1ENR2_I2C4EN }
  else none

/-- `i2c_1_disable()` .. `i2c_4_disable()`, as `controllers[a_id].disable()`. -/
def controllers_disable (a_id : I2C_Id) (s : I2C_system) : I2C_system :=
  match a_id with
  | I2C_Id._1 => { s with RCC_APB1ENR1 := clear_flag s.RCC_APB1ENR1 RCC_APB1ENR1_I2C1EN }
  | I2C_Id._2 => { s with RCC_APB1ENR1 := clear_flag s.RCC_APB1ENR1 RCC_APB1ENR1_I2C2EN }
  | I2C_Id._3 => { s with RCC_APB1ENR1 := clear_flag s.RCC_APB1ENR1 RCC_APB1ENR1_I2C3EN }
  | I2C_Id._4 => { s with RCC_APB1ENR2 := clear_flag s.RCC_APB1ENR2 RCC_APB1ENR2_I2C4EN }

/-- `controllers[a_id].enable(a_clock_source, a_irq_priority)`. -/
def controllers_enable (a_id : I2C_Id) (a_clock_source a_irq_priority : Nat) (s : I2C_system) :
    Option I2C_system :=
  match a_id with
  | I2C_Id._1 => i2c_1_enable a_clock_source a_irq_priority s
  | I2C_Id._2 => i2c_2_enable a_clock_source a_irq_priority s
  | I2C_Id._3 => i2c_3_enable a_clock_source a_irq_priority s
  | I2C_Id._4 => i2c_4_enable a_clock_source a_irq_priority s

/-- `I2C_base::is_enabled()` of a driver of identity `a_id`. -/
def I2C_system.is_enabled (a_id : I2C_Id) (s : I2C_system) : Bool :=
  is_flag (s.p_registers a_id).CR1 I2C_CR1_PE

/-- Modelled from the spec: `I2C_base::is_fast_plus()`, defined in `I2C.hpp`
which is not among the sources: whether fast mode plus is on for the identity,
which is the bit of `SYSCFG->CFGR1` that `enable` sets for it. -/
def I2C_system.is_fast_plus (a_id : I2C_Id) (s : I2C_system) : Bool :=
  get_bit s.SYSCFG_CFGR1 (SYSCFG_CFGR1_I2C1_FMP_Pos + a_id.index)

/-- The value `enable` leaves in `CR1`. -/
def I2C_config.CR1 (a_config : I2C_config) : Nat :=
  (if a_config.analog_filter = false then I2C_CR1_ANFOFF else 0) |||
    (if a_config.crc_enable = true then I2C_CR1_PECEN else 0) ||| I2C_CR1_PE

/-- The end of both `enable`: `if (true == a_config.fast_plus) { ... }`. -/
def I2C_system.enable_fast_plus (a_config : I2C_config) (a_id : I2C_Id) (s : I2C_system) :
    Option I2C_system :=
  if a_config.fast_plus = true then
    if s.is_syscfg_enabled = true then
      some { s with SYSCFG_CFGR1 := set_bit s.SYSCFG_CFGR1 (SYSCFG_CFGR1_I2C1_FMP_Pos + a_id.index) }
    else none
  else some s

/-- `I2C_master::enable(a_config, a_clock_source, a_irq_priority)` on the
master object at address `self`. -/
def I2C_master.enable (self : Nat) (a_config : I2C_config) (a_clock_source a_irq_priority : Nat)
    (s : I2C_system) : Option I2C_system :=
  let id := (s.masters self).id
  if s.is_enabled id = false ∧ s.p_i2c_master_handle id = none ∧ s.p_i2c_slave_handle id = none then
    match controllers_enable id (get_RCC_CCIPR_from_clock_source a_clock_source id)
        a_irq_priority s with
    | none => none
    | some s1 =>
      let s2 : I2C_system :=
        { s1 with
          p_i2c_master_handle := Function.update s1.p_i2c_master_handle id (some self)
          masters := Function.update s1.masters self { (s1.masters self) with p_i2c := some id }
          p_registers := (Function.update s1.p_registers id
            { (s1.p_registers id) with CR1 := a_config.CR1, TIMINGR := a_config.timings }) }
      s2.enable_fast_plus a_config id
  else none

/-- `I2C_master::diasble()` on the master object at address `self`. -/
def I2C_master.diasble (self : Nat) (s : I2C_system) : Option I2C_system :=
  let id := (s.masters self).id
  match (s.masters self).p_i2c with
  | none => none
  | some block =>
    if s.p_i2c_master_handle id ≠ none then
      let s1 : I2C_system :=
        { s with p_registers :=
            Function.update s.p_registers block ({ (s.p_registers block) with CR1 := 0 }) }
      let s2 : I2C_system :=
        if s1.is_fast_plus id = true then
          { s1 with SYSCFG_CFGR1 := clear_bit s1.SYSCFG_CFGR1 (SYSCFG_CFGR1_I2C1_FMP_Pos + id.index) }
        else s1
      let s3 := controllers_disable id s2
      some { s3 with
        p_i2c_master_handle := Function.update s3.p_i2c_master_handle id none
        masters := Function.update s3.masters self { (s3.masters self) with p_i2c := none } }
    else none

/-- `I2C_slave::enable(a_config, a_clock_source, a_irq_priority)` on the slave
object at address `self`. -/
def I2C_slave.enable (self : Nat) (a_config : I2C_config) (a_clock_source a_irq_priority : Nat)
    (s : I2C_system) : Option I2C_system :=
  let id := (s.slaves self).id
  if s.is_enabled id = false ∧ s.p_i2c_master_handle id = none ∧ s.p_i2c_slave_handle id = none ∧
      a_config.address ≤ 0x7F then
    match controllers_enable id (get_RCC_CCIPR_from_clock_source a_clock_source id)
        a_irq_priority s with
    | none => none
    | some s1 =>
      let s2 : I2C_system :=
        { s1 with
          p_i2c_slave_handle := Function.update s1.p_i2c_slave_handle id (some self)
          slaves := Function.update s1.slaves self { (s1.slaves self) with p_i2c := some id }
          p_registers := (Function.update s1.p_registers id
            { CR1 := a_config.CR1, TIMINGR := a_config.timings,
              OAR1 := I2C_OAR1_OA1EN ||| ((a_config.address <<< 1) % UINT32_SIZE) }) }
      s2.enable_fast_plus a_config id
  else none

/-- `I2C_slave::diasble()` on the slave object at address `self`. -/
def I2C_slave.diasble (self : Nat) (s : I2C_system) : Option I2C_system :=
  let id := (s.slaves self).id
  match (s.slaves self).p_i2c with
  | none => none
  | some block =>
    if s.p_i2c_slave_handle id ≠ none then
      let s1 : I2C_system :=
        { s with p_registers :=
            Function.update s.p_registers block ({ (s.p_registers block) with CR1 := 0 }) }
      let s2 : I2C_system :=
        if s1.is_fast_plus id = true then
          { s1 with SYSCFG_CFGR1 := clear_bit s1.SYSCFG_CFGR1 (SYSCFG_CFGR1_I2C1_FMP_Pos + id.index) }
        else s1
      let s3 := controllers_disable id s2
      some { s3 with
        p_i2c_slave_handle := Function.update s3.p_i2c_slave_handle id none
        slaves := Function.update s3.slaves self { (s3.slaves self) with p_i2c := none } }
    else none

/-- `I2C_slave::register_transmit_callback(a_callback, a_data_size_in_bytes)` on
the slave object at address `self`. -/
def I2C_slave.register_transmit_callback (self : Nat) (a_callback : I2C_callback_pointer)
    (a_data_size_in_bytes : Nat) (s : I2C_system) : Option I2C_system :=
  let id := (s.slaves self).id
  match (s.slaves self).p_i2c with
  | none => none
  | some block =>
    if s.p_i2c_master_handle id ≠ none ∧ a_callback.function ≠ none ∧
        (a_data_size_in_bytes > 0 ∧ a_data_size_in_bytes ≤ 255) then
      some { s with
        slaves := (Function.update s.slaves self
          { (s.slaves self) with rx_callback := ⟨none, 0⟩, tx_callback := a_callback })
        p_registers := (Function.update s.p_registers block
          { (s.p_registers block) with
            CR1 := set_flag (s.p_registers block).CR1
              (I2C_CR1_TXIE ||| I2C_CR1_STOPIE ||| I2C_CR1_ADDRIE ||| I2C_CR1_NACKIE) }) }
    else none

/-- `I2C_slave::register_receive_callback(a_callback, a_data_size_in_bytes)` on
the slave object at address `self`. -/
def I2C_slave.register_receive_callback (self : Nat) (a_callback : I2C_callback_pointer)
    (a_data_size_in_bytes : Nat) (s : I2C_system) : Option I2C_system :=
  let id := (s.slaves self).id
  match (s.slaves self).p_i2c with
  | none => none
  | some block =>
    if s.p_i2c_master_handle id ≠ none ∧ a_callback.function ≠ none ∧
        (a_data_size_in_bytes > 0 ∧ a_data_size_in_bytes ≤ 255) then
      some { s with
        slaves := (Function.update s.slaves self
          { (s.slaves self) with tx_callback := ⟨none, 0⟩, rx_callback := a_callback })
        p_registers := (Function.update s.p_registers block
          { (s.p_registers block) with
            CR1 := set_flag (s.p_registers block).CR1
              (I2C_CR1_RXIE ||| I2C_CR1_STOPIE ||| I2C_CR1_ADDRIE) }) }
    else none

/-- A call of `enable` or `diasble` on a driver object. -/
inductive I2C_call where
  | master_enable (self : Nat) (a_config : I2C_config) (a_clock_source a_irq_priority : Nat)
  | master_diasble (self : Nat)
  | slave_enable (self : Nat) (a_config : I2C_config) (a_clock_source a_irq_priority : Nat)
  | slave_diasble (self : Nat)

/-- The state after a call; `none` when an assertion of the call fails. -/
def I2C_system.call (s : I2C_system) : I2C_call → Option I2C_system
  | I2C_call.master_enable self a_config a_clock_source a_irq_priority =>
    I2C_master.enable self a_config a_clock_source a_irq_priority s
  | I2C_call.master_diasble self => I2C_master.diasble self s
  | I2C_call.slave_enable self a_config a_clock_source a_irq_priority =>
    I2C_slave.enable self a_config a_clock_source a_irq_priority s
  | I2C_call.slave_diasble self => I2C_slave.diasble self s

/-- The state after a sequence of calls. -/
def I2C_system.run : List I2C_call → I2C_system → Option I2C_system
  | [], s => some s
  | c :: rest, s =>
    match s.call c with
    | none => none
    | some s1 => I2C_system.run rest s1

/-- Whether the master object at address `self` is the one bound in the table
entry of its identity. -/
def I2C_system.master_bound (s : I2C_system) (self : Nat) : Prop :=
  s.p_i2c_master_handle (s.masters self).id = some self

/-- Whether the slave object at address `self` is the one bound in the table
entry of its identity. -/
def I2C_system.slave_bound (s : I2C_system) (self : Nat) : Prop :=
  s.p_i2c_slave_handle (s.slaves self).id = some self

/-- The state at start-up: the table as initialised in `I2C.cpp` (all handles
null), the registers at their reset values, `SYSCFG` clocked, and a master and a
slave object of identity `master_id a`, `slave_id a` at every address `a`, none
of them enabled. -/
def I2C_system.reset (master_id slave_id : Nat → I2C_Id) : I2C_system :=
  { p_i2c_master_handle := fun _ => none
    p_i2c_slave_handle := fun _ => none
    p_registers := fun _ => ⟨0, 0, 0⟩
    masters := fun a => ⟨master_id a, none, ⟨none, 0⟩, ⟨none, 0⟩⟩
    slaves := fun a => ⟨slave_id a, none, ⟨none, 0⟩, ⟨none, 0⟩⟩
    RCC_CCIPR := 0
    RCC_CCIPR2 := 0
    RCC_APB1ENR1 := 0
    RCC_APB1ENR2 := 0
    SYSCFG_CFGR1 := 0
    is_syscfg_enabled := true }

/-- A configuration: analog filter on, no fast mode plus, no CRC, own address
`0x11`. -/
def I2C_config.demo : I2C_config :=
  { analog_filter := true, fast_plus := false, crc_enable := false, timings := 0x00000E14,
    address := 0x11 }

/-- The table and the driver objects agree: no entry has both handles set, and
a driver object has its register pointer set exactly when it is the object
bound in the entry of its identity. -/
def I2C_system.consistent (s : I2C_system) : Prop :=
  (∀ id, s.p_i2c_master_handle id = none ∨ s.p_i2c_slave_handle id = none) ∧
  (∀ m, (s.masters m).p_i2c ≠ none ↔ s.master_bound m) ∧
  (∀ m, (s.slaves m).p_i2c ≠ none ↔ s.slave_bound m)

/-- A master enabled on `I2C1` and disabled again, then a slave enabled on
`I2C1`. -/
def I2C_call.demo : List I2C_call :=
  [I2C_call.master_enable 0 I2C_config.demo 1 0, I2C_call.master_diasble 0,
   I2C_call.slave_enable 0 I2C_config.demo 1 0]

/-- The state after the calls of `I2C_call.demo` from start-up, all driver
objects being of identity `_1`. -/
def I2C_system.demo : I2C_system :=
  (I2C_system.run I2C_call.demo (I2C_system.reset (fun _ => I2C_Id._1) (fun _ => I2C_Id._1))).getD
    (I2C_system.reset (fun _ => I2C_Id._1) (fun _ => I2C_Id._1))

/-! ## soc/stm32l452xx/peripherals/I2C.cpp: the loop guard of the slave, as specified -/

/-- The loop guard of the slave transfers as the specification words it: a
single test of the stop flag of the driver's own block,
`false == is_flag(this->p_i2c->ISR, I2C_ISR_STOPF) && false == error`. -/
def I2C_slave.single_stop_test (error : Bool) (s : I2C_polling) : Option (Bool × I2C_polling) :=
  match s.read_ISR with
  | none => none
  | some (isr, s1) => some (is_flag isr I2C_ISR_STOPF == false && error == false, s1)

/-- The loop guard of the timed slave transfers as the specification words it:
the single stop test, then the deadline. -/
def I2C_slave.single_stop_test_timed (a_timeout start : Nat) (error : Bool) (s : I2C_polling) :
    Option (Bool × I2C_polling) :=
  match s.read_ISR with
  | none => none
  | some (isr, s1) =>
    if (is_flag isr I2C_ISR_STOPF == false && error == false) = true then
      match s1.counter_get with
      | none => none
      | some (now, s2) => some (decide (a_timeout ≥ time.diff now start), s2)
    else
      some (false, s1)

/-- An observation at tick `now` in which `I2C2` reads `ISR = isr` and `I2C1`,
not in use, reads its reset values. -/
def I2C_sample.of_I2C2 (now isr : Nat) : I2C_sample :=
  ⟨now, ⟨1, 0, 0⟩, ⟨isr, 0, 0⟩, ⟨1, 0, 0⟩, ⟨1, 0, 0⟩⟩

/-! ## cml/common/cstring.hpp

A string or buffer is the list of the codes of the characters in the memory the
pointer refers to; an access beyond it is undefined and yields `none`. The
templates are taken at `Type_t = uint32` and `Type_t = int32`. -/

/-- Multiplication of two `uint32`. -/
def mul32 (a b : Nat) : Nat := (a * b) % UINT32_SIZE

/-- The value of a 32-bit pattern as an `int32`. -/
def int32_of_bits (bits : Nat) : Int :=
  if bits % UINT32_SIZE < 2147483648 then (bits % UINT32_SIZE : Nat)
  else ((bits % UINT32_SIZE : Nat) : Int) - 4294967296

/-- The 32-bit pattern of an `int32`. -/
def bits_of_int32 (v : Int) : Nat := (v % 4294967296).toNat

/-- Modelled from the spec: `memory::swap` of `cml/common/memory.hpp`, a header
that is not among the sources and that the specification does not describe:
taken, by its name, as the exchange of the two objects pointed to, here the
characters at the indices `i` and `j` of a buffer. -/
def memory.swap (s : List Nat) (i j : Nat) : Option (List Nat) :=
  match s[i]?, s[j]? with
  | some a, some b => some ((s.set i b).set j a)
  | _, _ => none

namespace cstring

/-- `cstring::Radix`. -/
inductive Radix where
  | bin
  | oct
  | dec
  | hex
deriving DecidableEq

/-- `static_cast<Type_t>(a_base)`. -/
def Radix.value : Radix → Nat
  | Radix.bin => 2
  | Radix.oct => 8
  | Radix.dec => 10
  | Radix.hex => 16

/-- The loop of `cstring::reverse`:
`for (uint32 i = 0; i < a_length - 1; i++) { memory::swap(&(a_p_string[i]), &(a_p_string[a_length - i - 1])); }`;
the first argument bounds the number of evaluations of the condition. -/
def reverse_loop (a_length : Nat) : Nat → Nat → List Nat → Option (List Nat)
  | 0, _, _ => none
  | fuel + 1, i, a_p_string =>
    if i < sub32 a_length 1 then
      match memory.swap a_p_string i (sub32 (sub32 a_length i) 1) with
      | none => none
      | some s1 => reverse_loop a_length fuel (add32 i 1) s1
    else
      some a_p_string

/-- `cstring::reverse(a_p_string, a_length)`. -/
def reverse (a_p_string : List Nat) (a_length : Nat) : Option (List Nat) :=
  if a_length > 0 then reverse_loop a_length a_length 0 a_p_string else none

/-- The loop of `cstring::to_unsigned_integer<uint32>`:
`for (uint32 i = a_length - 1, m = 1; i + a_length + 1 != a_length; i--, m *= 10)
{ retval += (a_p_string[i] - '0') * m; }`; yields `retval` and the indices read,
in the order of the reads. -/
def to_unsigned_integer_loop (a_p_string : List Nat) (a_length : Nat) :
    Nat → Nat → Nat → Nat → List Nat → Option (Nat × List Nat)
  | 0, _, _, _, _ => none
  | fuel + 1, i, m, retval, reads =>
    if add32 (add32 i a_length) 1 ≠ a_length then
      match a_p_string[i]? with
      | none => none
      | some c =>
        to_unsigned_integer_loop a_p_string a_length fuel (sub32 i 1) (mul32 m 10)
          (add32 retval (mul32 (sub32 c 48) m)) (reads ++ [i])
    else
      some (retval, reads)

/-- `cstring::to_unsigned_integer<uint32>(a_p_string, a_length)`, with the
indices it reads in the loop. -/
def to_unsigned_integer (a_p_string : Option (List Nat)) (a_length : Nat) :
    Option (Nat × List Nat) :=
  match a_p_string with
  | none => none
  | some s =>
    match s[0]? with
    | none => none
    | some c0 =>
      if c0 ≠ 0 ∧ a_length > 0 then
        to_unsigned_integer_loop s a_length (a_length + 1) (sub32 a_length 1) 1 0 []
      else none

/-- The loop of `cstring::to_signed_integer<int32>`:
`for (uint32 i = a_length - 1, m = 1; i + a_length + min != a_length; i--, m *= 10)
{ assert(a_p_string[i] >= '0' && a_p_string[i] <= '9'); retval += (a_p_string[i] - '0') * m; }`;
`retval` is held as its 32-bit pattern. -/
def to_signed_integer_loop (a_p_string : List Nat) (a_length min : Nat) :
    Nat → Nat → Nat → Nat → List Nat → Option (Nat × List Nat)
  | 0, _, _, _, _ => none
  | fuel + 1, i, m, retval, reads =>
    if add32 (add32 i a_length) min ≠ a_length then
      match a_p_string[i]? with
      | none => none
      | some c =>
        if c ≥ 48 ∧ c ≤ 57 then
          to_signed_integer_loop a_p_string a_length min fuel (sub32 i 1) (mul32 m 10)
            (add32 retval (mul32 (sub32 c 48) m)) (reads ++ [i])
        else none
    else
      some (retval, reads)

/-- `cstring::to_signed_integer<int32>(a_p_string, a_length)`, with the indices
it reads in the loop; the final product overflows, which is undefined, when
`retval` is the least `int32` and the sign is negative. -/
def to_signed_integer (a_p_string : Option (List Nat)) (a_length : Nat) :
    Option (Int × List Nat) :=
  match a_p_string with
  | none => none
  | some s =>
    match s[0]? with
    | none => none
    | some c0 =>
      if c0 ≠ 0 ∧ a_length > 0 then
        let min := if c0 = 45 then 0 else 1
        match to_signed_integer_loop s a_length min (a_length + 1) (sub32 a_length 1) 1 0 [] with
        | none => none
        | some (retval, reads) =>
          let product := int32_of_bits retval * (if c0 = 45 then -1 else 1)
          if -2147483648 ≤ product ∧ product ≤ 2147483647 then some (product, reads) else none
      else none

/-- The character stored for a remainder:
`(remainder > 9) ? (remainder - 10) + 'a' : remainder + '0'`, converted to `char`. -/
def digit_char (remainder : Int) : Nat :=
  ((if remainder > 9 then (remainder - 10) + 97 else remainder + 48) % 256).toNat

/-- The loop `while (0 != a_value) { ... }` of `cstring::from_unsigned_integer<uint32>`;
yields the buffer and `ret`. -/
def from_unsigned_integer_loop (a_base : Nat) :
    Nat → Nat → List Nat → Nat → Option (List Nat × Nat)
  | 0, _, _, _ => none
  | fuel + 1, a_value, a_p_buffer, ret =>
    if a_value ≠ 0 then
      if ret < a_p_buffer.length then
        from_unsigned_integer_loop a_base fuel (a_value / a_base)
          (a_p_buffer.set ret (digit_char ((a_value % a_base : Nat) : Int))) (add32 ret 1)
      else none
    else
      some (a_p_buffer, ret)

/-- `cstring::from_unsigned_integer<uint32>(a_value, a_p_buffer, a_buffer_capacity, a_base)`:
the value returned and the buffer afterwards. -/
def from_unsigned_integer (a_value : Nat) (a_p_buffer : List Nat) (a_buffer_capacity : Nat)
    (a_base : Radix) : Option (Nat × List Nat) :=
  if a_buffer_capacity > 1 then
    if a_value = 0 then
      if 1 < a_p_buffer.length then some (1, (a_p_buffer.set 0 48).set 1 0) else none
    else
      match from_unsigned_integer_loop a_base.value 33 a_value a_p_buffer 0 with
      | none => none
      | some (buffer, ret) =>
        if ret < buffer.length then
          match reverse (buffer.set ret 0) ret with
          | none => none
          | some reversed => some (ret, reversed)
        else none
  else none

/-- The loop `while (0 != a_value) { ... }` of `cstring::from_signed_integer<int32>`:
`%` and `/` round towards zero. -/
def from_signed_integer_loop (a_base : Int) :
    Nat → Int → List Nat → Nat → Option (List Nat × Nat)
  | 0, _, _, _ => none
  | fuel + 1, a_value, a_p_buffer, ret =>
    if a_value ≠ 0 then
      if ret < a_p_buffer.length then
        from_signed_integer_loop a_base fuel (Int.tdiv a_value a_base)
          (a_p_buffer.set ret (digit_char (Int.tmod a_value a_base))) (add32 ret 1)
      else none
    else
      some (a_p_buffer, ret)

/-- `cstring::from_signed_integer<int32>(a_value, a_p_buffer, a_buffer_capacity, a_base)`:
the value returned and the buffer afterwards. -/
def from_signed_integer (a_value : Int) (a_p_buffer : List Nat) (a_buffer_capacity : Nat)
    (a_base : Radix) : Option (Nat × List Nat) :=
  if a_buffer_capacity > 1 then
    let negative := decide (a_value < 0)
    if a_value = 0 then
      if 1 < a_p_buffer.length then some (1, (a_p_buffer.set 0 48).set 1 0) else none
    else
      match from_signed_integer_loop (a_base.value : Int) 33 a_value a_p_buffer 0 with
      | none => none
      | some (buffer, ret) =>
        let signed : Option (List Nat × Nat) :=
          if negative = true then
            if ret < buffer.length then some (buffer.set ret 45, add32 ret 1) else none
          else some (buffer, ret)
        match signed with
        | none => none
        | some (buffer1, ret1) =>
          if ret1 < buffer1.length then
            match reverse (buffer1.set ret1 0) ret1 with
            | none => none
            | some reversed => some (ret1, reversed)
          else none
  else none

end cstring

namespace cstring

/-- `cstring::Argument::Type`. -/
inductive Argument_type where
  | unsigned_int
  | signed_int
  | character
  | cstring
  | unknown
deriving DecidableEq

/-- `cstring::Argument`: the four bytes of `data` and `type`. -/
structure Argument where
  data : List Nat
  type : Argument_type
deriving DecidableEq

/-- `static_cast<uint8>(x & 0xFF)` for a value `x` of type `int`. -/
def low_byte (x : Int) : Nat := (x % 256).toNat

namespace Argument

/-- `Argument(uint32 a_value)`, and `Argument(unsigned int a_value)`. -/
def of_uint32 (a_value : Nat) : Argument :=
  ⟨[u8 ((a_value >>> 24) &&& 0xFF), u8 ((a_value >>> 16) &&& 0xFF),
    u8 ((a_value >>> 8) &&& 0xFF), u8 ((a_value >>> 0) &&& 0xFF)], Argument_type.unsigned_int⟩

/-- `Argument(uint16 a_value)`. -/
def of_uint16 (a_value : Nat) : Argument :=
  ⟨[0, 0, u8 ((a_value >>> 8) &&& 0xFF), u8 ((a_value >>> 0) &&& 0xFF)],
    Argument_type.unsigned_int⟩

/-- `Argument(uint8 a_value)`. -/
def of_uint8 (a_value : Nat) : Argument :=
  ⟨[0, 0, 0, u8 a_value], Argument_type.unsigned_int⟩

/-- `Argument(int32 a_value)`, and `Argument(int a_value)`: `>>` on a negative
value is the arithmetic shift. -/
def of_int32 (a_value : Int) : Argument :=
  ⟨[low_byte (a_value >>> 24), low_byte (a_value >>> 16), low_byte (a_value >>> 8),
    low_byte (a_value >>> 0)], Argument_type.signed_int⟩

/-- `Argument(int16 a_value)`. -/
def of_int16 (a_value : Int) : Argument :=
  ⟨[0, 0, low_byte (a_value >>> 8), low_byte (a_value >>> 0)], Argument_type.signed_int⟩

/-- `Argument(int8 a_value)`. -/
def of_int8 (a_value : Int) : Argument :=
  ⟨[0, 0, 0, low_byte a_value], Argument_type.character⟩

/-- The expression
`(this->data[0] << 24u) | (this->data[1] << 16u) | (this->data[2] << 8u) | (this->data[3] << 0u)`
as a 32-bit pattern. -/
def word (a : Argument) : Nat :=
  ((a.data.getD 0 0 <<< 24) ||| (a.data.getD 1 0 <<< 16) ||| (a.data.getD 2 0 <<< 8) |||
    (a.data.getD 3 0 <<< 0)) % UINT32_SIZE

/-- `Argument::get_uint32()`. -/
def get_uint32 (a : Argument) : Option Nat :=
  if a.type = Argument_type.unsigned_int then some a.word else none

/-- `Argument::get_int32()`. -/
def get_int32 (a : Argument) : Option Int :=
  if a.type = Argument_type.signed_int then some (int32_of_bits a.word) else none

/-- `Argument::get_char()`: `static_cast<char>(this->data[0])`. -/
def get_char (a : Argument) : Option Nat :=
  if a.type = Argument_type.character then some (a.data.getD 0 0) else none

end Argument

end cstring

namespace cstring

/-- The number that a list of decimal digit characters denotes, the most
significant digit first. -/
def decimal_value (digits : List Nat) : Nat :=
  digits.foldl (fun acc c => acc * 10 + (c - 48)) 0

/-- The indices `lo + k - 1`, ..., `lo + 1`, `lo`, from the highest down. -/
def indices_down (lo : Nat) : Nat → List Nat
  | 0 => []
  | k + 1 => (lo + k) :: indices_down lo k

/-- The number that the `k` characters of a string from index `lo` on denote. -/
def digits_value (s : List Nat) (lo : Nat) : Nat → Nat
  | 0 => 0
  | k + 1 => digits_value s lo k * 10 + (s.getD (lo + k) 0 - 48)

/-- What `k` iterations of the loops of `to_unsigned_integer` and
`to_signed_integer`, from the index `lo + k - 1` down to `lo`, make of `retval`
when they start with the weight `m`. -/
def accumulate (s : List Nat) (lo : Nat) : Nat → Nat → Nat → Nat
  | 0, _, retval => retval
  | k + 1, m, retval =>
    accumulate s lo k (mul32 m 10) (add32 retval (mul32 (sub32 (s.getD (lo + k) 0) 48) m))

end cstring

/-! ## Bit-level facts about the register helpers -/

theorem testBit_mask32 (i : Nat) : (4294967295 : Nat).testBit i = decide (i < 32) := by
  have h : (4294967295 : Nat) = 2 ^ 32 - 1 := by norm_num
  rw [h, Nat.testBit_two_pow_sub_one]

theorem testBit_clear_flag (r f i : Nat) (hr : r < 4294967296) :
    (clear_flag r f).testBit i = (r.testBit i && !f.testBit i) := by
  unfold clear_flag UINT32_SIZE
  have h32 : (4294967296 : Nat) = 2 ^ 32 := by norm_num
  rw [Nat.testBit_and, Nat.testBit_xor, testBit_mask32, h32, Nat.testBit_mod_two_pow]
  by_cases hi : i < 32
  · simp [hi]
  · have : r.testBit i = false := by
      apply Nat.testBit_eq_false_of_lt
      calc r < 2 ^ 32 := by omega
        _ ≤ 2 ^ i := Nat.pow_le_pow_right (by norm_num) (by omega)
    simp [this]

theorem testBit_set_flag (r f i : Nat) :
    (set_flag r f).testBit i = (r.testBit i || f.testBit i) := by
  unfold set_flag
  rw [Nat.testBit_or]

theorem is_flag_iff (r f : Nat) :
    is_flag r f = true ↔ ∀ i, f.testBit i = true → r.testBit i = true := by
  unfold is_flag
  rw [beq_iff_eq]
  constructor
  · intro h i hi
    have := congrArg (fun n => Nat.testBit n i) h
    simp only [Nat.testBit_and] at this
    rw [hi] at this
    simpa using this.symm
  · intro h
    apply Nat.eq_of_testBit_eq
    intro i
    rw [Nat.testBit_and]
    cases hf : f.testBit i
    · simp
    · simp [h i hf]

theorem is_flag_bit (r k : Nat) : is_flag r (2 ^ k) = r.testBit k := by
  cases hb : r.testBit k
  · cases hf : is_flag r (2 ^ k)
    · rfl
    · have := (is_flag_iff r (2 ^ k)).1 hf k (by simp [Nat.testBit_two_pow])
      rw [hb] at this
      exact absurd this (by simp)
  · apply (is_flag_iff r (2 ^ k)).2
    intro i hi
    have : k = i := by simpa [Nat.testBit_two_pow] using hi
    rw [← this]
    exact hb

theorem clear_flag_lt (r f : Nat) (hr : r < 4294967296) : clear_flag r f < 4294967296 := by
  unfold clear_flag
  exact lt_of_le_of_lt Nat.and_le_left hr

/-! ## Timeout arithmetic -/

/-- C1: for 32-bit ticks `now` and `start`, `time::diff(now, start)` is
`(MAX - start) + 1 + now` when `now < start` and `now - start` when
`now >= start`, with `MAX = 2^32 - 1`, the right-hand sides being computed
without wraparound. -/
theorem time_diff_full_range (now start : Nat) (hnow : now < 2 ^ 32) (hstart : start < 2 ^ 32) :
    (now < start → time.diff now start = (4294967295 - start) + 1 + now) ∧
    (now ≥ start → time.diff now start = now - start) := by
  unfold time.diff add32 sub32 time.infinity UINT32_SIZE
  constructor
  · intro h
    rw [if_pos h]
    omega
  · intro h
    rw [if_neg (by omega)]
    omega

theorem time_diff_full_range_witness :
    (3 < 4294967290 → time.diff 3 4294967290 = (4294967295 - 4294967290) + 1 + 3) ∧
    (3 ≥ 4294967290 → time.diff 3 4294967290 = 3 - 4294967290) :=
  time_diff_full_range 3 4294967290 (by norm_num) (by norm_num)

/-! ## The timeout-polling primitive -/

theorem wait_until_loop_exit (a_flag : Nat) (a_status : Bool) (a_start a_timeout_ms : Nat)
    (samples : List Sample) (status timeout : Bool) (h : ¬ (status = true ∧ timeout = false)) :
    wait.until_loop a_flag a_status a_start a_timeout_ms samples status timeout
      = some (status, timeout) := by
  unfold wait.until_loop
  rw [if_neg h]

theorem sleep_until_loop_exit (a_flag : Nat) (a_status : Bool) (a_start a_timeout_ms : Nat)
    (samples : List Sample) (status timeout : Bool) (h : ¬ (status = true ∧ timeout = false)) :
    sleep.until_loop a_flag a_status a_start a_timeout_ms samples status timeout
      = some (status, timeout) := by
  unfold sleep.until_loop
  rw [if_neg h]

theorem wait_until_timed_find (a_flag : Nat) (a_status : Bool) (a_start a_timeout_ms : Nat)
    (samples : List Sample) :
    wait.until_timed a_flag a_status a_start a_timeout_ms samples =
      (samples.find? (fun x => condition_reached a_flag a_status x ||
                               deadline_elapsed a_start a_timeout_ms x)).map
        (fun x => condition_reached a_flag a_status x && !deadline_elapsed a_start a_timeout_ms x) := by
  unfold wait.until_timed
  induction samples with
  | nil => simp [wait.until_loop]
  | cons x rest ih =>
    rw [wait.until_loop]
    simp only [true_and, if_true, List.find?_cons, condition_reached, deadline_elapsed, bne] at ih ⊢
    cases h1 : (is_flag x.reg a_flag == a_status) <;>
      cases h2 : decide (a_timeout_ms ≤ time_tick_diff x.now a_start)
    · rw [wait_until_loop_exit _ _ _ _ _ _ _ (by simp)]
      simp only [Bool.not_false, Bool.true_or, Option.map_some', h1, h2]
      rfl
    · rw [wait_until_loop_exit _ _ _ _ _ _ _ (by simp)]
      simp only [Bool.not_false, Bool.true_or, Option.map_some', h1, h2]
      rfl
    · simpa using ih
    · rw [wait_until_loop_exit _ _ _ _ _ _ _ (by simp)]
      simp only [Bool.not_true, Bool.false_or, Option.map_some', h1, h2]
      rfl

theorem sleep_until_timed_find (a_flag : Nat) (a_status : Bool) (a_start a_timeout_ms : Nat)
    (samples : List Sample) :
    sleep.until_timed a_flag a_status a_start a_timeout_ms samples =
      (samples.find? (fun x => condition_reached a_flag a_status x ||
                               deadline_elapsed a_start a_timeout_ms x)).map
        (fun x => condition_reached a_flag a_status x && !deadline_elapsed a_start a_timeout_ms x) := by
  unfold sleep.until_timed
  induction samples with
  | nil => simp [sleep.until_loop]
  | cons x rest ih =>
    rw [sleep.until_loop]
    simp only [true_and, if_true, List.find?_cons, condition_reached, deadline_elapsed, bne] at ih ⊢
    cases h1 : (is_flag x.reg a_flag == a_status) <;>
      cases h2 : decide (a_timeout_ms ≤ time_tick_diff x.now a_start)
    · rw [sleep_until_loop_exit _ _ _ _ _ _ _ (by simp)]
      simp only [Bool.not_false, Bool.true_or, Option.map_some', h1, h2]
      rfl
    · rw [sleep_until_loop_exit _ _ _ _ _ _ _ (by simp)]
      simp only [Bool.not_false, Bool.true_or, Option.map_some', h1, h2]
      rfl
    · simpa using ih
    · rw [sleep_until_loop_exit _ _ _ _ _ _ _ (by simp)]
      simp only [Bool.not_true, Bool.false_or, Option.map_some', h1, h2]
      rfl

/-- C2 (as stated, refuted): with start 0 and timeout 5 the timed `wait::until`
returns true on a run whose flag is seen set at tick 1, the deadline not
having elapsed, and returns false on a run whose deadline elapses at tick 5
with the flag never seen set. -/
theorem until_timed_true_is_not_timeout :
    wait.until_timed 0x20 false 0 5 [⟨0, 0⟩, ⟨1, 0x20⟩] = some true ∧
    deadline_elapsed 0 5 ⟨1, 0x20⟩ = false ∧
    condition_reached 0x20 false ⟨1, 0x20⟩ = true ∧
    wait.until_timed 0x20 false 0 5 [⟨0, 0⟩, ⟨5, 0⟩] = some false ∧
    deadline_elapsed 0 5 ⟨5, 0⟩ = true ∧
    condition_reached 0x20 false ⟨5, 0⟩ = false := by
  decide

/-- C2 (amended): the timed `wait::until` and `sleep::until` terminate on a
sequence of samples exactly when some sample shows the flag out of the state
`a_status` or the deadline elapsed; at the first such sample they return true
exactly when the flag was seen out of `a_status` with the deadline not elapsed
(condition reached in time), and false exactly when the deadline had elapsed. -/
theorem until_timed_result (a_flag : Nat) (a_status : Bool) (a_start a_timeout_ms : Nat)
    (samples : List Sample) :
    wait.until_timed a_flag a_status a_start a_timeout_ms samples =
      (samples.find? (fun x => condition_reached a_flag a_status x ||
                               deadline_elapsed a_start a_timeout_ms x)).map
        (fun x => condition_reached a_flag a_status x && !deadline_elapsed a_start a_timeout_ms x) ∧
    sleep.until_timed a_flag a_status a_start a_timeout_ms samples =
      (samples.find? (fun x => condition_reached a_flag a_status x ||
                               deadline_elapsed a_start a_timeout_ms x)).map
        (fun x => condition_reached a_flag a_status x && !deadline_elapsed a_start a_timeout_ms x) :=
  ⟨wait_until_timed_find a_flag a_status a_start a_timeout_ms samples,
   sleep_until_timed_find a_flag a_status a_start a_timeout_ms samples⟩

/-! ## The USART interrupt decode -/

theorem testBit_TXEIE (i : Nat) : USART_CR1_TXEIE.testBit i = decide (i = 7) := by
  have h : USART_CR1_TXEIE = 2 ^ 7 := by norm_num [USART_CR1_TXEIE]
  rw [h, Nat.testBit_two_pow]
  simp [eq_comm]

theorem testBit_RXNEIE (i : Nat) : USART_CR1_RXNEIE.testBit i = decide (i = 5) := by
  have h : USART_CR1_RXNEIE = 2 ^ 5 := by norm_num [USART_CR1_RXNEIE]
  rw [h, Nat.testBit_two_pow]
  simp [eq_comm]

theorem handle_tx_idle {σ : Type} (isr cr1 : Nat) (s : USART σ)
    (h : (is_flag isr USART_ISR_TXE && is_flag cr1 USART_CR1_TXEIE) = false) :
    USART.handle_tx isr cr1 s = some s := by
  unfold USART.handle_tx
  rw [if_neg]
  intro hc
  rw [hc.1, hc.2] at h
  exact absurd h (by decide)

theorem handle_rx_idle {σ : Type} (isr cr1 : Nat) (s : USART σ)
    (h : (is_flag isr USART_ISR_RXNE && is_flag cr1 USART_CR1_RXNEIE) = false) :
    USART.handle_rx isr cr1 s = some s := by
  unfold USART.handle_rx
  rw [if_neg]
  intro hc
  rw [hc.1, hc.2] at h
  exact absurd h (by decide)

theorem handle_tx_fire {σ : Type} (isr cr1 : Nat) (s : USART σ)
    (f : σ → Nat → Nat → Bool → σ × Nat × Bool)
    (h : (is_flag isr USART_ISR_TXE && is_flag cr1 USART_CR1_TXEIE) = true)
    (hf : s.tx_context.callback.p_function = some f) :
    USART.handle_tx isr cr1 s =
      let proceed := decide (sub32 s.counter s.tx_context.start_timestamp < s.tx_context.timeout)
      let r := f s.app 0 s.tx_context.callback.p_user_data proceed
      let s1 := { s with app := r.1, trace := s.trace ++ [Event.tx_call proceed] }
      if r.2.2 = true then some (USART.write_TDR (u8 r.2.1) s1)
      else some { s1 with CR1 := clear_flag s.CR1 USART_CR1_TXEIE, tx_context := TX_context.null } := by
  unfold USART.handle_tx
  have h' : is_flag isr USART_ISR_TXE = true ∧ is_flag cr1 USART_CR1_TXEIE = true := by
    simpa using h
  rw [if_pos h', hf]

theorem handle_rx_fire {σ : Type} (isr cr1 : Nat) (s : USART σ)
    (f : σ → Nat → Nat → Bool → σ × Bool)
    (h : (is_flag isr USART_ISR_RXNE && is_flag cr1 USART_CR1_RXNEIE) = true)
    (hf : s.rx_context.callback.p_function = some f) :
    USART.handle_rx isr cr1 s =
      let proceed := decide (sub32 s.counter s.rx_context.start_timestamp < s.rx_context.timeout)
      let r := f s.app (u8 s.RDR) s.rx_context.callback.p_user_data proceed
      let s1 := { s with app := r.1, trace := s.trace ++ [Event.rx_call (u8 s.RDR) proceed] }
      if r.2 = false then
        some { s1 with CR1 := clear_flag s.CR1 USART_CR1_RXNEIE, rx_context := RX_context.null }
      else some s1 := by
  unfold USART.handle_rx
  have h' : is_flag isr USART_ISR_RXNE = true ∧ is_flag cr1 USART_CR1_RXNEIE = true := by
    simpa using h
  rw [if_pos h', hf]

/-- C3: `usart_handle_interrupt` on the snapshot `(ISR, CR1)`. The transmit
callback is invoked once iff `ISR.TXE` and `CR1.TXEIE` are both set, with
`proceed = (elapsed < timeout)`; when it returns false `TXEIE` is cleared (no
other bit touched by this branch), the transmit context becomes null and `TDR`
is not written; when it returns true `TDR` receives its byte and the context
and `CR1` stay. The receive branch is symmetric on `RXNE`/`RXNEIE`, its
callback getting the `RDR` byte. -/
theorem usart_handle_interrupt_decode {σ : Type} (s : USART σ)
    (ftx : σ → Nat → Nat → Bool → σ × Nat × Bool) (frx : σ → Nat → Nat → Bool → σ × Bool)
    (hp : s.p_usart = true) (hcr1 : s.CR1 < 2 ^ 32)
    (htx : tx_fires s = true → s.tx_context.callback.p_function = some ftx)
    (hrx : rx_fires s = true → s.rx_context.callback.p_function = some frx) :
    let rtx := ftx s.app 0 s.tx_context.callback.p_user_data (tx_proceed s)
    let app1 := if tx_fires s = true then rtx.1 else s.app
    let rrx := frx app1 (u8 s.RDR) s.rx_context.callback.p_user_data (rx_proceed s)
    let tx_stop := tx_fires s && !rtx.2.2
    let rx_stop := rx_fires s && !rrx.2
    ∃ s', USART.usart_handle_interrupt s = some s' ∧
      s'.trace = s.trace ++
        (if tx_fires s = true then
          Event.tx_call (tx_proceed s) ::
            (if rtx.2.2 = true then [Event.tdr_write (u8 rtx.2.1)] else [])
         else []) ++
        (if rx_fires s = true then [Event.rx_call (u8 s.RDR) (rx_proceed s)] else []) ∧
      s'.TDR = (if (tx_fires s && rtx.2.2) = true then u8 rtx.2.1 else s.TDR) ∧
      s'.tx_context = (if tx_stop = true then TX_context.null else s.tx_context) ∧
      s'.rx_context = (if rx_stop = true then RX_context.null else s.rx_context) ∧
      (∀ i, s'.CR1.testBit i =
        (s.CR1.testBit i && !(tx_stop && decide (i = 7)) && !(rx_stop && decide (i = 5)))) := by
  intro rtx app1 rrx tx_stop rx_stop
  have hcr1' : s.CR1 < 4294967296 := by norm_num at hcr1; exact hcr1
  unfold USART.usart_handle_interrupt
  rw [if_neg (by simp [hp])]
  dsimp only
  cases htf : tx_fires s
  · have happ : app1 = s.app := by simp [app1, htf]
    rw [handle_tx_idle _ _ _ htf]
    dsimp only
    cases hrf : rx_fires s
    · rw [handle_rx_idle _ _ _ hrf]
      refine ⟨s, rfl, ?_⟩
      simp [tx_stop, rx_stop, htf, hrf]
    · rw [handle_rx_fire _ _ _ frx hrf (hrx hrf)]
      dsimp only
      cases hr : rrx.2
      · have hr' : (frx s.app (u8 s.RDR) s.rx_context.callback.p_user_data
            (decide (sub32 s.counter s.rx_context.start_timestamp < s.rx_context.timeout))).2
              = false := by
          rw [← happ]; exact hr
        simp only [hr', if_true]
        refine ⟨_, rfl, ?_⟩
        simp [tx_stop, rx_stop, htf, hrf, hr, rx_proceed, testBit_clear_flag, hcr1',
          testBit_RXNEIE]
      · have hr' : (frx s.app (u8 s.RDR) s.rx_context.callback.p_user_data
            (decide (sub32 s.counter s.rx_context.start_timestamp < s.rx_context.timeout))).2
              = true := by
          rw [← happ]; exact hr
        simp only [hr']
        refine ⟨_, rfl, ?_⟩
        simp [tx_stop, rx_stop, htf, hrf, hr, rx_proceed]
  · have happ : app1 = rtx.1 := by simp [app1, htf]
    rw [handle_tx_fire _ _ _ ftx htf (htx htf)]
    dsimp only
    cases hr1 : rtx.2.2
    · have hr1' : (ftx s.app 0 s.tx_context.callback.p_user_data
          (decide (sub32 s.counter s.tx_context.start_timestamp < s.tx_context.timeout))).2.2
            = false := hr1
      simp only [hr1', Bool.false_eq_true, if_false]
      have hlt := clear_flag_lt s.CR1 USART_CR1_TXEIE hcr1'
      cases hrf : rx_fires s
      · rw [handle_rx_idle _ _ _ hrf]
        refine ⟨_, rfl, ?_⟩
        simp [tx_stop, rx_stop, htf, hrf, hr1, tx_proceed, testBit_clear_flag, hcr1',
          testBit_TXEIE]
      · rw [handle_rx_fire _ _ _ frx hrf (by exact hrx hrf)]
        dsimp only
        cases hr : rrx.2
        · have hr' : (frx rtx.1 (u8 s.RDR) s.rx_context.callback.p_user_data
              (decide (sub32 s.counter s.rx_context.start_timestamp < s.rx_context.timeout))).2
                = false := by
            rw [← happ]; exact hr
          have hr'' : (frx (ftx s.app 0 s.tx_context.callback.p_user_data
              (decide (sub32 s.counter s.tx_context.start_timestamp < s.tx_context.timeout))).1
              (u8 s.RDR) s.rx_context.callback.p_user_data
              (decide (sub32 s.counter s.rx_context.start_timestamp < s.rx_context.timeout))).2
                = false := hr'
          simp only [hr'', if_true]
          refine ⟨_, rfl, ?_⟩
          simp [tx_stop, rx_stop, htf, hrf, hr, hr1, rx_proceed, tx_proceed, testBit_clear_flag,
            hcr1', hlt, testBit_RXNEIE, testBit_TXEIE]
        · have hr' : (frx rtx.1 (u8 s.RDR) s.rx_context.callback.p_user_data
              (decide (sub32 s.counter s.rx_context.start_timestamp < s.rx_context.timeout))).2
                = true := by
            rw [← happ]; exact hr
          have hr'' : (frx (ftx s.app 0 s.tx_context.callback.p_user_data
              (decide (sub32 s.counter s.tx_context.start_timestamp < s.tx_context.timeout))).1
              (u8 s.RDR) s.rx_context.callback.p_user_data
              (decide (sub32 s.counter s.rx_context.start_timestamp < s.rx_context.timeout))).2
                = true := hr'
          simp only [hr'']
          refine ⟨_, rfl, ?_⟩
          simp [tx_stop, rx_stop, htf, hrf, hr, hr1, rx_proceed, tx_proceed, testBit_clear_flag,
            hcr1', testBit_TXEIE]
    · have hr1' : (ftx s.app 0 s.tx_context.callback.p_user_data
          (decide (sub32 s.counter s.tx_context.start_timestamp < s.tx_context.timeout))).2.2
            = true := hr1
      simp only [hr1', if_true]
      cases hrf : rx_fires s
      · rw [handle_rx_idle _ _ _ hrf]
        refine ⟨_, rfl, ?_⟩
        simp [tx_stop, rx_stop, htf, hrf, hr1, hr1', tx_proceed, USART.write_TDR, rtx]
      · rw [handle_rx_fire _ _ _ frx hrf (by exact hrx hrf)]
        dsimp only [USART.write_TDR]
        cases hr : rrx.2
        · have hr' : (frx rtx.1 (u8 s.RDR) s.rx_context.callback.p_user_data
              (decide (sub32 s.counter s.rx_context.start_timestamp < s.rx_context.timeout))).2
                = false := by
            rw [← happ]; exact hr
          have hr'' : (frx (ftx s.app 0 s.tx_context.callback.p_user_data
              (decide (sub32 s.counter s.tx_context.start_timestamp < s.tx_context.timeout))).1
              (u8 s.RDR) s.rx_context.callback.p_user_data
              (decide (sub32 s.counter s.rx_context.start_timestamp < s.rx_context.timeout))).2
                = false := hr'
          simp only [hr'', if_true]
          refine ⟨_, rfl, ?_⟩
          simp [tx_stop, rx_stop, htf, hrf, hr, hr1, rx_proceed, tx_proceed, testBit_clear_flag,
            hcr1', testBit_RXNEIE, rtx, hr1']
        · have hr' : (frx rtx.1 (u8 s.RDR) s.rx_context.callback.p_user_data
              (decide (sub32 s.counter s.rx_context.start_timestamp < s.rx_context.timeout))).2
                = true := by
            rw [← happ]; exact hr
          have hr'' : (frx (ftx s.app 0 s.tx_context.callback.p_user_data
              (decide (sub32 s.counter s.tx_context.start_timestamp < s.tx_context.timeout))).1
              (u8 s.RDR) s.rx_context.callback.p_user_data
              (decide (sub32 s.counter s.rx_context.start_timestamp < s.rx_context.timeout))).2
                = true := hr'
          simp only [hr'']
          refine ⟨_, rfl, ?_⟩
          simp [tx_stop, rx_stop, htf, hrf, hr, hr1, hr1', rx_proceed, tx_proceed, rtx]

theorem usart_handle_interrupt_decode_witness :
    USART.armed.p_usart = true ∧ tx_fires USART.armed = true ∧ rx_fires USART.armed = true ∧
    ∃ s', USART.usart_handle_interrupt USART.armed = some s' ∧
      s'.trace = [Event.tx_call true, Event.tdr_write 0x55, Event.rx_call 0x41 false] ∧
      s'.TDR = 0x55 ∧
      s'.tx_context = USART.armed.tx_context ∧
      s'.rx_context = RX_context.null ∧
      (∀ i, s'.CR1.testBit i =
        (USART.armed.CR1.testBit i && !(false && decide (i = 7)) && !(true && decide (i = 5)))) :=
  ⟨rfl, by decide, by decide,
    usart_handle_interrupt_decode USART.armed
      (fun app _ _ proceed => (app, 0x55, proceed)) (fun app _ _ proceed => (app, proceed))
      rfl (by decide) (fun _ => rfl) (fun _ => rfl)⟩

/-! ## Callback registration on the USART -/

theorem is_flag_TXEIE (r : Nat) : is_flag r USART_CR1_TXEIE = r.testBit 7 := by
  have h : USART_CR1_TXEIE = 2 ^ 7 := by norm_num [USART_CR1_TXEIE]
  rw [h, is_flag_bit]

theorem is_flag_RXNEIE (r : Nat) : is_flag r USART_CR1_RXNEIE = r.testBit 5 := by
  have h : USART_CR1_RXNEIE = 2 ^ 5 := by norm_num [USART_CR1_RXNEIE]
  rw [h, is_flag_bit]

/-- C4: `write_bytes_IT` (resp. `read_bytes_IT`) with a null callback function
leaves `TXEIE` (resp. `RXNEIE`) clear and the transmit (resp. receive) context
null; with a non-null one it leaves the context holding the callback, the
current tick and the timeout, and the enable bit set; no other bit of `CR1`
and not the other direction's context changes. -/
theorem bytes_IT_registration {σ : Type} (s : USART σ) (tx_cb : TX_callback σ)
    (rx_cb : RX_callback σ) (a_timeout_ms : Nat)
    (hs : s.systick_is_enabled = true) (hp : s.p_usart = true) (hcr1 : s.CR1 < 2 ^ 32) :
    (∃ s', USART.write_bytes_IT tx_cb a_timeout_ms s = some s' ∧
      (tx_cb.p_function = none →
        is_flag s'.CR1 USART_CR1_TXEIE = false ∧ s'.tx_context = TX_context.null) ∧
      (tx_cb.p_function ≠ none →
        is_flag s'.CR1 USART_CR1_TXEIE = true ∧
        s'.tx_context = ⟨tx_cb, s.counter, a_timeout_ms⟩) ∧
      (∀ i, i ≠ 7 → s'.CR1.testBit i = s.CR1.testBit i) ∧
      s'.rx_context = s.rx_context) ∧
    (∃ s', USART.read_bytes_IT rx_cb a_timeout_ms s = some s' ∧
      (rx_cb.p_function = none →
        is_flag s'.CR1 USART_CR1_RXNEIE = false ∧ s'.rx_context = RX_context.null) ∧
      (rx_cb.p_function ≠ none →
        is_flag s'.CR1 USART_CR1_RXNEIE = true ∧
        s'.rx_context = ⟨rx_cb, s.counter, a_timeout_ms⟩) ∧
      (∀ i, i ≠ 5 → s'.CR1.testBit i = s.CR1.testBit i) ∧
      s'.tx_context = s.tx_context) := by
  have hcr1' : s.CR1 < 4294967296 := by norm_num at hcr1; exact hcr1
  constructor
  · unfold USART.write_bytes_IT
    rw [if_neg (by simp [hs, hp])]
    dsimp only
    cases hf : tx_cb.p_function with
    | none =>
      refine ⟨_, rfl, ?_⟩
      simp [is_flag_TXEIE, testBit_clear_flag, hcr1', testBit_TXEIE, TX_context.null]
      intro i hi; simp [hi]
    | some f =>
      refine ⟨_, rfl, ?_⟩
      simp [is_flag_TXEIE, testBit_clear_flag, testBit_set_flag, hcr1', testBit_TXEIE]
      intro i hi; simp [hi]
  · unfold USART.read_bytes_IT
    rw [if_neg (by simp [hs, hp])]
    dsimp only
    cases hf : rx_cb.p_function with
    | none =>
      refine ⟨_, rfl, ?_⟩
      simp [is_flag_RXNEIE, testBit_clear_flag, hcr1', testBit_RXNEIE, RX_context.null]
      intro i hi; simp [hi]
    | some f =>
      refine ⟨_, rfl, ?_⟩
      simp [is_flag_RXNEIE, testBit_clear_flag, testBit_set_flag, hcr1', testBit_RXNEIE]
      intro i hi; simp [hi]

theorem bytes_IT_registration_witness :
    USART.idle.systick_is_enabled = true ∧ USART.idle.p_usart = true ∧ USART.idle.CR1 < 2 ^ 32 ∧
    (∃ s', USART.write_bytes_IT tx_while_proceed 100 USART.idle = some s' ∧
      (tx_while_proceed.p_function = none →
        is_flag s'.CR1 USART_CR1_TXEIE = false ∧ s'.tx_context = TX_context.null) ∧
      (tx_while_proceed.p_function ≠ none →
        is_flag s'.CR1 USART_CR1_TXEIE = true ∧
        s'.tx_context = ⟨tx_while_proceed, USART.idle.counter, 100⟩) ∧
      (∀ i, i ≠ 7 → s'.CR1.testBit i = USART.idle.CR1.testBit i) ∧
      s'.rx_context = USART.idle.rx_context) ∧
    (∃ s', USART.read_bytes_IT (⟨none, 0⟩ : RX_callback Unit) 100 USART.idle = some s' ∧
      ((⟨none, 0⟩ : RX_callback Unit).p_function = none →
        is_flag s'.CR1 USART_CR1_RXNEIE = false ∧ s'.rx_context = RX_context.null) ∧
      ((⟨none, 0⟩ : RX_callback Unit).p_function ≠ none →
        is_flag s'.CR1 USART_CR1_RXNEIE = true ∧
        s'.rx_context = ⟨⟨none, 0⟩, USART.idle.counter, 100⟩) ∧
      (∀ i, i ≠ 5 → s'.CR1.testBit i = USART.idle.CR1.testBit i) ∧
      s'.tx_context = USART.idle.tx_context) :=
  ⟨by decide, rfl, by decide,
    bytes_IT_registration USART.idle tx_while_proceed ⟨none, 0⟩ 100 (by decide) rfl (by decide)⟩

/-! ## Callback registration on the I2C master -/

/-- C5 (the code at the failing input): on a just-enabled master,
`register_receive_callback` followed by `register_transmit_callback` leaves
`rx_callback` null while `CR1.RXIE` is still set, and an interrupt taken with
`ISR.RXNE` set then calls through the null function pointer. -/
theorem i2c_master_RXIE_outlives_rx_callback :
    ∃ s1 s2,
      I2C_master.register_receive_callback 0x50 I2C_master.rx_demo 1 I2C_master.enabled = some s1 ∧
      I2C_master.register_transmit_callback 0x50 I2C_master.tx_demo 1 s1 = some s2 ∧
      s2.rx_callback.function.isNone = true ∧
      is_flag s2.CR1 I2C_CR1_RXIE = true ∧
      s2.tx_callback.function.isSome = true ∧
      is_flag s2.CR1 I2C_CR1_TXIE = true ∧
      I2C_master.rxne_interrupt_handler (s2.ISR ||| I2C_ISR_RXNE) s2.CR1 s2 = none :=
  ⟨_, _, rfl, rfl, rfl, by decide, rfl, by decide, rfl⟩

/-! ## The receive timeout of the USART -/

theorem usart_handle_interrupt_silent {σ : Type} (t : USART σ) (hp : t.p_usart = true)
    (htx : is_flag t.CR1 USART_CR1_TXEIE = false) (hrx : is_flag t.ISR USART_ISR_RXNE = false) :
    USART.usart_handle_interrupt t = some t := by
  unfold USART.usart_handle_interrupt
  rw [if_neg (by simp [hp])]
  dsimp only
  rw [handle_tx_idle _ _ _ (by simp [htx])]
  dsimp only
  rw [handle_rx_idle _ _ _ (by simp [hrx])]

theorem run_interrupts_silent {σ : Type} (samples : List Sample) :
    ∀ (t : USART σ), t.p_usart = true → is_flag t.CR1 USART_CR1_TXEIE = false →
      (∀ x ∈ samples, is_flag x.reg USART_ISR_RXNE = false) →
      ∃ t', run_interrupts samples t = some t' ∧ t'.CR1 = t.CR1 ∧ t'.trace = t.trace ∧
        t'.rx_context = t.rx_context ∧ t'.p_usart = t.p_usart ∧ t'.app = t.app ∧
        t'.RDR = t.RDR := by
  induction samples with
  | nil => intro t _ _ _; exact ⟨t, rfl, rfl, rfl, rfl, rfl, rfl, rfl⟩
  | cons x rest ih =>
    intro t hp htx hsil
    unfold run_interrupts
    have hstep := usart_handle_interrupt_silent
      ({ t with counter := x.now, ISR := x.reg } : USART σ) hp htx
      (hsil x (List.mem_cons_self x rest))
    rw [hstep]
    dsimp only
    obtain ⟨t', h1, h2, h3, h4, h5, h6, h7⟩ := ih { t with counter := x.now, ISR := x.reg } hp htx
      (fun y hy => hsil y (List.mem_cons_of_mem x hy))
    exact ⟨t', h1, h2, h3, h4, h5, h6, h7⟩

theorem run_interrupts_append {σ : Type} (a b : List Sample) :
    ∀ (t : USART σ), run_interrupts (a ++ b) t =
      (match run_interrupts a t with
       | none => none
       | some t1 => run_interrupts b t1) := by
  induction a with
  | nil => intro t; rfl
  | cons x rest ih =>
    intro t
    simp only [List.cons_append, run_interrupts]
    cases USART.usart_handle_interrupt { t with counter := x.now, ISR := x.reg } with
    | none => rfl
    | some t1 => exact ih t1

/-- C6 (as stated, refuted): a receive callback registered with a timeout of
100 ticks on an idle driver, no byte ever arriving; after interrupts taken at
ticks 50, 100, 101 and 250 the callback has not been invoked at all and
`CR1.RXNEIE` is still set. -/
theorem read_bytes_IT_timeout_is_silent :
    ∃ s1 s2, USART.read_bytes_IT rx_while_proceed 100 USART.idle = some s1 ∧
      run_interrupts [⟨50, 0xC0⟩, ⟨100, 0xC0⟩, ⟨101, 0xC0⟩, ⟨250, 0xC0⟩] s1 = some s2 ∧
      rx_calls s2.trace = [] ∧
      is_flag s2.CR1 USART_CR1_RXNEIE = true ∧
      s2.rx_context.callback.p_function.isSome = true :=
  ⟨_, _, rfl, rfl, rfl, by decide, rfl⟩

theorem set_flag_lt (r f : Nat) (hr : r < 4294967296) (hf : f < 4294967296) :
    set_flag r f < 4294967296 := by
  unfold set_flag
  have h32 : (4294967296 : Nat) = 2 ^ 32 := by norm_num
  rw [h32] at hr hf ⊢
  exact Nat.or_lt_two_pow hr hf

/-- C6 (amended): after `read_bytes_IT` registers a receive callback with a
timeout (100 ticks in the scenario) on a driver whose transmit interrupt is
off, for as long as no byte is received (`ISR.RXNE` clear at every interrupt)
the callback is not invoked, the context stays armed and `CR1.RXNEIE` stays
set, however many ticks elapse; the callback is invoked with
`proceed = false` by the first interrupt taken with `ISR.RXNE` set once the
timeout has elapsed, and `CR1.RXNEIE` is clear afterwards exactly when that
invocation returns false. -/
theorem read_bytes_IT_timeout_needs_byte {σ : Type} (s : USART σ) (cb : RX_callback σ)
    (f : σ → Nat → Nat → Bool → σ × Bool) (a_timeout_ms : Nat) (samples : List Sample)
    (hs : s.systick_is_enabled = true) (hp : s.p_usart = true) (hcr1 : s.CR1 < 2 ^ 32)
    (hf : cb.p_function = some f)
    (htx : is_flag s.CR1 USART_CR1_TXEIE = false)
    (hsil : ∀ x ∈ samples, is_flag x.reg USART_ISR_RXNE = false) :
    ∃ s1, USART.read_bytes_IT cb a_timeout_ms s = some s1 ∧
      (∃ s2, run_interrupts samples s1 = some s2 ∧ s2.trace = s.trace ∧
        is_flag s2.CR1 USART_CR1_RXNEIE = true ∧
        s2.rx_context = ⟨cb, s.counter, a_timeout_ms⟩) ∧
      (∀ x : Sample, is_flag x.reg USART_ISR_RXNE = true →
        a_timeout_ms ≤ sub32 x.now s.counter →
        ∃ s3, run_interrupts (samples ++ [x]) s1 = some s3 ∧
          s3.trace = s.trace ++ [Event.rx_call (u8 s.RDR) false] ∧
          (is_flag s3.CR1 USART_CR1_RXNEIE = false ↔
            (f s.app (u8 s.RDR) cb.p_user_data false).2 = false)) := by
  have hcr1' : s.CR1 < 4294967296 := by norm_num at hcr1; exact hcr1
  have h1 : USART.read_bytes_IT cb a_timeout_ms s =
      some { s with CR1 := set_flag (clear_flag s.CR1 USART_CR1_RXNEIE) USART_CR1_RXNEIE,
                    rx_context := ⟨cb, s.counter, a_timeout_ms⟩ } := by
    unfold USART.read_bytes_IT
    rw [if_neg (by simp [hs, hp])]
    simp [hf]
  have hlt : set_flag (clear_flag s.CR1 USART_CR1_RXNEIE) USART_CR1_RXNEIE < 4294967296 :=
    set_flag_lt _ _ (clear_flag_lt _ _ hcr1') (by norm_num [USART_CR1_RXNEIE])
  have htx1 : is_flag (set_flag (clear_flag s.CR1 USART_CR1_RXNEIE) USART_CR1_RXNEIE)
      USART_CR1_TXEIE = false := by
    rw [is_flag_TXEIE] at htx ⊢
    simp [testBit_set_flag, testBit_clear_flag, hcr1', testBit_RXNEIE, htx]
  have hrx1 : is_flag (set_flag (clear_flag s.CR1 USART_CR1_RXNEIE) USART_CR1_RXNEIE)
      USART_CR1_RXNEIE = true := by
    rw [is_flag_RXNEIE]
    simp [testBit_set_flag, testBit_RXNEIE]
  refine ⟨_, h1, ?_, ?_⟩
  · obtain ⟨t', ht, hc, htr, hctx, _, _, _⟩ := run_interrupts_silent samples
      ({ s with CR1 := set_flag (clear_flag s.CR1 USART_CR1_RXNEIE) USART_CR1_RXNEIE,
                rx_context := ⟨cb, s.counter, a_timeout_ms⟩ } : USART σ) hp htx1 hsil
    refine ⟨t', ht, htr, ?_, hctx⟩
    rw [hc]
    exact hrx1
  · intro x hx hto
    obtain ⟨t', ht, hc, htr, hctx, hpu, happ, hrdr⟩ := run_interrupts_silent samples
      ({ s with CR1 := set_flag (clear_flag s.CR1 USART_CR1_RXNEIE) USART_CR1_RXNEIE,
                rx_context := ⟨cb, s.counter, a_timeout_ms⟩ } : USART σ) hp htx1 hsil
    rw [run_interrupts_append, ht]
    dsimp only at hc htr hctx hpu happ hrdr ⊢
    unfold run_interrupts
    unfold USART.usart_handle_interrupt
    rw [if_neg (by simp [hpu, hp])]
    dsimp only
    rw [handle_tx_idle _ _ _ (by rw [hc, htx1]; simp)]
    dsimp only
    rw [handle_rx_fire _ _ _ f (by rw [hc, hrx1, hx]; rfl) (by dsimp only; rw [hctx]; exact hf)]
    dsimp only
    have hpr : decide (sub32 x.now s.counter < a_timeout_ms) = false := by
      simp; exact hto
    simp only [hctx, happ, hrdr, htr, hc, hpr]
    cases hr : (f s.app (u8 s.RDR) cb.p_user_data false).2
    · simp only [if_true]
      refine ⟨_, rfl, rfl, ?_⟩
      simp [is_flag_RXNEIE, testBit_clear_flag, hlt, testBit_RXNEIE]
    · simp only [Bool.true_eq_false, if_false]
      refine ⟨_, rfl, rfl, ?_⟩
      simp [hrx1]

theorem read_bytes_IT_timeout_needs_byte_witness :
    ∃ s1, USART.read_bytes_IT rx_while_proceed 100 USART.idle = some s1 ∧
      (∃ s2, run_interrupts [⟨50, 0xC0⟩, ⟨100, 0xC0⟩, ⟨250, 0xC0⟩] s1 = some s2 ∧
        s2.trace = USART.idle.trace ∧
        is_flag s2.CR1 USART_CR1_RXNEIE = true ∧
        s2.rx_context = ⟨rx_while_proceed, USART.idle.counter, 100⟩) ∧
      (∀ x : Sample, is_flag x.reg USART_ISR_RXNE = true →
        100 ≤ sub32 x.now USART.idle.counter →
        ∃ s3, run_interrupts ([⟨50, 0xC0⟩, ⟨100, 0xC0⟩, ⟨250, 0xC0⟩] ++ [x]) s1 = some s3 ∧
          s3.trace = USART.idle.trace ++ [Event.rx_call (u8 USART.idle.RDR) false] ∧
          (is_flag s3.CR1 USART_CR1_RXNEIE = false ↔
            ((fun (app : Unit) (_ _ : Nat) (proceed : Bool) => (app, proceed)) USART.idle.app
              (u8 USART.idle.RDR) rx_while_proceed.p_user_data false).2 = false)) :=
  read_bytes_IT_timeout_needs_byte USART.idle rx_while_proceed
    (fun app _ _ proceed => (app, proceed)) 100 [⟨50, 0xC0⟩, ⟨100, 0xC0⟩, ⟨250, 0xC0⟩]
    (by decide) rfl (by decide) rfl (by decide) (by decide)

/-! ## Polled transmission -/

theorem drop_cons_getD : ∀ (l : List Nat) (i b : Nat) (tl : List Nat),
    l.drop i = b :: tl → l.getD i 0 = b ∧ l.drop (i + 1) = tl := by
  intro l
  induction l with
  | nil => intro i b tl h; simp at h
  | cons a l ih =>
    intro i b tl h
    cases i with
    | zero =>
      simp only [List.drop_zero, List.cons.injEq] at h
      exact ⟨by simp [h.1], by simp [h.2]⟩
    | succ i =>
      simp only [List.drop_succ_cons] at h
      have := ih i b tl h
      exact ⟨by simpa using this.1, by simpa using this.2⟩

theorem poll_untimed_flag (a_flag : Nat) (samples : List Sample) :
    ∀ (x : Sample) (rest : List Sample),
      USART.poll_untimed a_flag false samples = some (x, rest) → is_flag x.reg a_flag = true := by
  induction samples with
  | nil => intro x rest h; simp [USART.poll_untimed] at h
  | cons y tl ih =>
    intro x rest h
    unfold USART.poll_untimed at h
    cases hy : is_flag y.reg a_flag
    · rw [hy] at h
      simp only [beq_self_eq_true, if_true] at h
      exact ih x rest h
    · rw [hy] at h
      have hxy : y = x := by simpa using congrArg Prod.fst (Option.some.inj h)
      rw [← hxy]
      exact hy

theorem wait_until_isr_trace {σ : Type} (a_flag : Nat) (s s1 : USART σ)
    (h : USART.wait_until_isr a_flag false s = some s1) :
    ∃ v, is_flag v a_flag = true ∧ s1.trace = s.trace ++ [Event.wait a_flag v false] ∧
      s1.ISR = v := by
  unfold USART.wait_until_isr at h
  cases hp : USART.poll_untimed a_flag false s.samples with
  | none => rw [hp] at h; simp at h
  | some r =>
    obtain ⟨x, rest⟩ := r
    rw [hp] at h
    simp only [Option.some.injEq] at h
    refine ⟨x.reg, poll_untimed_flag a_flag s.samples x rest hp, ?_, ?_⟩
    · rw [← h]
    · rw [← h]

theorem write_bytes_polling_loop_trace {σ : Type} (a_p_data : List Nat) :
    ∀ (bs : List Nat) (i : Nat) (s s' : USART σ), a_p_data.drop i = bs →
      USART.write_bytes_polling_loop a_p_data i bs.length s = some s' →
      ∃ isrs : List Nat, isrs.length = bs.length ∧
        (∀ v ∈ isrs, is_flag v USART_ISR_TXE = true) ∧
        s'.trace = s.trace ++ polled_bytes isrs bs := by
  intro bs
  induction bs with
  | nil =>
    intro i s s' _ h
    simp only [List.length_nil, USART.write_bytes_polling_loop, Option.some.injEq] at h
    exact ⟨[], rfl, by simp, by simp [polled_bytes, h]⟩
  | cons b tl ih =>
    intro i s s' hd h
    obtain ⟨hb, htl⟩ := drop_cons_getD a_p_data i b tl hd
    simp only [List.length_cons, USART.write_bytes_polling_loop] at h
    cases hw : USART.wait_until_isr USART_ISR_TXE false s with
    | none => rw [hw] at h; simp at h
    | some s1 =>
      rw [hw] at h
      dsimp only at h
      rw [hb] at h
      obtain ⟨v, hv, htr, _⟩ := wait_until_isr_trace USART_ISR_TXE s s1 hw
      obtain ⟨isrs, hlen, hall, htr'⟩ := ih (i + 1) _ s' htl h
      refine ⟨v :: isrs, by simp [hlen], ?_, ?_⟩
      · intro w hwm
        rcases List.mem_cons.1 hwm with rfl | hw'
        · exact hv
        · exact hall w hw'
      · rw [htr']
        simp [USART.write_TDR, htr, polled_bytes]

theorem tdr_writes_append (a b : List Event) : tdr_writes (a ++ b) = tdr_writes a ++ tdr_writes b := by
  induction a with
  | nil => rfl
  | cons e tl ih => cases e <;> simp [tdr_writes, ih]

theorem tdr_writes_polled_bytes : ∀ (isrs bs : List Nat), isrs.length = bs.length →
    tdr_writes (polled_bytes isrs bs) = bs.map u8 := by
  intro isrs
  induction isrs with
  | nil =>
    intro bs h
    cases bs with
    | nil => rfl
    | cons b tl => simp at h
  | cons v vs ih =>
    intro bs h
    cases bs with
    | nil => simp at h
    | cons b tl =>
      simp only [List.length_cons, Nat.add_right_cancel_iff] at h
      simp [polled_bytes, tdr_writes, ih tl h]

/-- C7: whenever the untimed `write_bytes_polling(data, n)` returns, for a
non-empty `data` of length `n`, what it did is: for each byte in order a wait
that ended with `TXE` set followed by the write of that byte to `TDR`, then a
wait that ended with `TC` set, then the write of `TCCF` to `ICR`; so exactly
the `n` bytes of `data` went to `TDR`, in order. -/
theorem write_bytes_polling_sends_all {σ : Type} (a_p_data : List Nat) (s s' : USART σ)
    (hne : a_p_data ≠ [])
    (h : USART.write_bytes_polling a_p_data a_p_data.length s = some s') :
    ∃ (isrs : List Nat) (isr_tc : Nat),
      isrs.length = a_p_data.length ∧
      (∀ v ∈ isrs, is_flag v USART_ISR_TXE = true) ∧
      is_flag isr_tc USART_ISR_TC = true ∧
      s'.trace = s.trace ++ polled_bytes isrs a_p_data ++
        [Event.wait USART_ISR_TC isr_tc false, Event.icr_write USART_ICR_TCCF] ∧
      tdr_writes s'.trace = tdr_writes s.trace ++ a_p_data.map u8 ∧
      (tdr_writes s'.trace).length = (tdr_writes s.trace).length + a_p_data.length := by
  unfold USART.write_bytes_polling at h
  have hlen : a_p_data.length ≠ 0 := by
    intro h0; exact hne (List.length_eq_zero.1 h0)
  cases hp : s.p_usart with
  | false => simp [hp] at h
  | true =>
    rw [if_neg (by simp [hlen, hp])] at h
    cases hl : USART.write_bytes_polling_loop a_p_data 0 a_p_data.length s with
    | none => rw [hl] at h; simp at h
    | some s1 =>
      rw [hl] at h
      dsimp only at h
      cases hw : USART.wait_until_isr USART_ISR_TC false s1 with
      | none => rw [hw] at h; simp at h
      | some s2 =>
        rw [hw] at h
        simp only [Option.some.injEq] at h
        obtain ⟨isrs, hl1, hl2, hl3⟩ :=
          write_bytes_polling_loop_trace a_p_data a_p_data 0 s s1 (by simp) hl
        obtain ⟨v, hv, htr, _⟩ := wait_until_isr_trace USART_ISR_TC s1 s2 hw
        have htrace : s'.trace = s.trace ++ polled_bytes isrs a_p_data ++
            [Event.wait USART_ISR_TC v false, Event.icr_write USART_ICR_TCCF] := by
          rw [← h]
          simp [USART.write_ICR, htr, hl3]
        have htdr : tdr_writes s'.trace = tdr_writes s.trace ++ a_p_data.map u8 := by
          rw [htrace, tdr_writes_append, tdr_writes_append, tdr_writes_polled_bytes isrs a_p_data hl1]
          simp [tdr_writes]
        refine ⟨isrs, v, hl1, hl2, hv, htrace, htdr, ?_⟩
        rw [htdr]
        simp

theorem write_bytes_polling_sends_all_witness :
    ([0x41, 0x54, 0x0D, 0x0A] : List Nat) ≠ [] ∧
    USART.write_bytes_polling [0x41, 0x54, 0x0D, 0x0A] 4 USART.sending = some USART.sent ∧
    tdr_writes USART.sent.trace = [0x41, 0x54, 0x0D, 0x0A] ∧
    ∃ (isrs : List Nat) (isr_tc : Nat),
      isrs.length = ([0x41, 0x54, 0x0D, 0x0A] : List Nat).length ∧
      (∀ v ∈ isrs, is_flag v USART_ISR_TXE = true) ∧
      is_flag isr_tc USART_ISR_TC = true ∧
      USART.sent.trace = USART.sending.trace ++ polled_bytes isrs [0x41, 0x54, 0x0D, 0x0A] ++
        [Event.wait USART_ISR_TC isr_tc false, Event.icr_write USART_ICR_TCCF] ∧
      tdr_writes USART.sent.trace =
        tdr_writes USART.sending.trace ++ ([0x41, 0x54, 0x0D, 0x0A] : List Nat).map u8 ∧
      (tdr_writes USART.sent.trace).length =
        (tdr_writes USART.sending.trace).length + ([0x41, 0x54, 0x0D, 0x0A] : List Nat).length :=
  ⟨by decide, rfl, by decide,
    write_bytes_polling_sends_all [0x41, 0x54, 0x0D, 0x0A] USART.sending USART.sent (by decide) rfl⟩

/-! ## Polled transmission with a deadline -/

theorem poll_timed_result (a_flag a_start a_timeout_ms : Nat) (samples : List Sample) :
    ∀ (r : Bool) (x : Sample) (rest : List Sample),
      USART.poll_timed a_flag false a_start a_timeout_ms samples = some (r, x, rest) →
      ∃ pre, samples = pre ++ x :: rest ∧
        (r = true → a_timeout_ms ≤ time_tick_diff x.now a_start) ∧
        (r = false → is_flag x.reg a_flag = true) := by
  induction samples with
  | nil => intro r x rest h; simp [USART.poll_timed] at h
  | cons y tl ih =>
    intro r x rest h
    unfold USART.poll_timed at h
    by_cases hto : a_timeout_ms ≤ time_tick_diff y.now a_start
    · rw [if_pos hto] at h
      simp only [Option.some.injEq, Prod.mk.injEq] at h
      obtain ⟨hr, hx, hrest⟩ := h
      refine ⟨[], by simp [hx, hrest], ?_, ?_⟩
      · intro _; rw [← hx]; exact hto
      · intro hf; rw [← hr] at hf; exact absurd hf (by decide)
    · rw [if_neg hto] at h
      cases hy : is_flag y.reg a_flag
      · rw [hy] at h
        simp only [beq_self_eq_true, if_true] at h
        obtain ⟨pre, hpre, h1, h2⟩ := ih r x rest h
        exact ⟨y :: pre, by simp [hpre], h1, h2⟩
      · rw [hy] at h
        simp at h
        obtain ⟨hr, hx, hrest⟩ := h
        refine ⟨[], by simp [hx, hrest], ?_, ?_⟩
        · intro hf; rw [hf] at hr; exact absurd hr (by decide)
        · intro _; rw [← hx]; exact hy

theorem poll_timed_elapsed (a_flag a_start a_timeout_ms : Nat) (y : Sample) (rest : List Sample)
    (h : a_timeout_ms ≤ time_tick_diff y.now a_start) :
    USART.poll_timed a_flag false a_start a_timeout_ms (y :: rest) = some (true, y, rest) := by
  unfold USART.poll_timed
  rw [if_pos h]

theorem wait_until_isr_timed_result {σ : Type} (a_flag a_start a_timeout_ms : Nat)
    (s s1 : USART σ) (r : Bool)
    (h : USART.wait_until_isr_timed a_flag false a_start a_timeout_ms s = some (r, s1)) :
    ∃ pre x, s.samples = pre ++ x :: s1.samples ∧
      s1.trace = s.trace ++ [Event.wait a_flag x.reg r] ∧
      (r = true → a_timeout_ms ≤ time_tick_diff x.now a_start) ∧
      (r = false → is_flag x.reg a_flag = true) := by
  unfold USART.wait_until_isr_timed at h
  cases hp : USART.poll_timed a_flag false a_start a_timeout_ms s.samples with
  | none => rw [hp] at h; simp at h
  | some q =>
    obtain ⟨r', x, rest⟩ := q
    rw [hp] at h
    simp only [Option.some.injEq, Prod.mk.injEq] at h
    obtain ⟨hr, hs1⟩ := h
    obtain ⟨pre, hpre, h1, h2⟩ := poll_timed_result a_flag a_start a_timeout_ms s.samples r' x rest hp
    rw [hr] at h1 h2
    refine ⟨pre, x, ?_, ?_, h1, h2⟩
    · rw [← hs1]; exact hpre
    · rw [← hs1, hr]

theorem write_bytes_polling_timed_loop_stopped {σ : Type} (a_p_data : List Nat)
    (start a_timeout_ms i remaining : Nat) (s : USART σ) :
    USART.write_bytes_polling_timed_loop a_p_data start a_timeout_ms i remaining true s
      = some (true, s) := by
  cases remaining with
  | zero => rfl
  | succ n => simp [USART.write_bytes_polling_timed_loop]

theorem write_bytes_polling_timed_loop_timeout {σ : Type} (a_p_data : List Nat)
    (start a_timeout_ms : Nat) :
    ∀ (bs : List Nat) (i : Nat) (s s2 : USART σ), a_p_data.drop i = bs →
      USART.write_bytes_polling_timed_loop a_p_data start a_timeout_ms i bs.length false s
        = some (true, s2) →
      ∃ (k : Nat) (isrs : List Nat) (pre : List Sample) (x : Sample),
        k < bs.length ∧ isrs.length = k ∧
        s.samples = pre ++ x :: s2.samples ∧
        a_timeout_ms ≤ time_tick_diff x.now start ∧
        s2.trace = s.trace ++ polled_bytes isrs (bs.take k) ++
          [Event.wait USART_ISR_TXE x.reg true] := by
  intro bs
  induction bs with
  | nil =>
    intro i s s2 _ h
    simp [USART.write_bytes_polling_timed_loop] at h
  | cons b tl ih =>
    intro i s s2 hd h
    obtain ⟨hb, htl⟩ := drop_cons_getD a_p_data i b tl hd
    simp only [List.length_cons, USART.write_bytes_polling_timed_loop, if_true] at h
    cases hw : USART.wait_until_isr_timed USART_ISR_TXE false start a_timeout_ms s with
    | none => rw [hw] at h; simp at h
    | some q =>
      obtain ⟨r1, s1⟩ := q
      rw [hw] at h
      dsimp only at h
      obtain ⟨pre0, x0, hsam, htr, hto, _⟩ :=
        wait_until_isr_timed_result USART_ISR_TXE start a_timeout_ms s s1 r1 hw
      cases r1 with
      | false =>
        simp only [if_true] at h
        rw [hb] at h
        obtain ⟨k, isrs, pre, x, hk, hlen, hsam', hto', htr'⟩ := ih (i + 1) _ s2 htl h
        refine ⟨k + 1, x0.reg :: isrs, pre0 ++ x0 :: pre, x, by simp [hk], by simp [hlen],
          ?_, hto', ?_⟩
        · rw [hsam]
          have : s1.samples = pre ++ x :: s2.samples := hsam'
          rw [this]
          simp
        · rw [htr']
          simp [USART.write_TDR, htr, polled_bytes]
      | true =>
        simp only [Bool.true_eq_false, if_false] at h
        rw [write_bytes_polling_timed_loop_stopped] at h
        simp only [Option.some.injEq, Prod.mk.injEq, true_and] at h
        rw [← h]
        exact ⟨0, [], pre0, x0, by simp, rfl, hsam, hto rfl, by simp [polled_bytes, htr]⟩

/-- C8: in the timed `write_bytes_polling(data, n, timeout)` with a non-empty
`data` of length `n`, when the deadline elapses while waiting for `TXE` before
some byte `k` (the byte loop ends with `timeout_occured` set), the elapsed
time not running backwards over the samples and the hardware being sampled
once more, the function returns false; the bytes written to `TDR` are
`data[0..k-1]` with `k < n`, and nothing is written after the timed-out wait. -/
theorem write_bytes_polling_timed_deadline {σ : Type} (a_p_data : List Nat) (a_timeout_ms : Nat)
    (s s2 : USART σ) (hne : a_p_data ≠ [])
    (hs : s.systick_is_enabled = true) (hp : s.p_usart = true)
    (hmono : s.samples.Pairwise
      (fun x y => time_tick_diff x.now s.counter ≤ time_tick_diff y.now s.counter))
    (hloop : USART.write_bytes_polling_timed_loop a_p_data s.counter a_timeout_ms 0
      a_p_data.length false { s with CR1 := set_flag s.CR1 USART_CR1_TE } = some (true, s2))
    (hmore : s2.samples ≠ []) :
    ∃ (s3 : USART σ) (k : Nat) (isrs : List Nat) (isr_txe isr_tc : Nat),
      USART.write_bytes_polling_timed a_p_data a_p_data.length a_timeout_ms s = some (false, s3) ∧
      k < a_p_data.length ∧ isrs.length = k ∧
      s3.trace = s.trace ++ polled_bytes isrs (a_p_data.take k) ++
        [Event.wait USART_ISR_TXE isr_txe true, Event.wait USART_ISR_TC isr_tc true] ∧
      tdr_writes s3.trace = tdr_writes s.trace ++ (a_p_data.take k).map u8 := by
  have hlen : a_p_data.length ≠ 0 := by
    intro h0; exact hne (List.length_eq_zero.1 h0)
  obtain ⟨k, isrs, pre, x, hk, hil, hsam, hto, htr⟩ :=
    write_bytes_polling_timed_loop_timeout a_p_data s.counter a_timeout_ms a_p_data 0 _ s2
      (by simp) hloop
  dsimp only at hsam htr
  cases hrest : s2.samples with
  | nil => exact absurd hrest hmore
  | cons y rest =>
    have hxy : time_tick_diff x.now s.counter ≤ time_tick_diff y.now s.counter := by
      rw [hsam, hrest] at hmono
      have h1 := (List.pairwise_append.1 hmono).2.1
      exact List.rel_of_pairwise_cons h1 (List.mem_cons_self y rest)
    have hy : a_timeout_ms ≤ time_tick_diff y.now s.counter := le_trans hto hxy
    have hfin : USART.wait_until_isr_timed USART_ISR_TC false s.counter a_timeout_ms s2 =
        some (true, { s2 with counter := y.now, ISR := y.reg, samples := rest,
                              trace := s2.trace ++ [Event.wait USART_ISR_TC y.reg true] }) := by
      unfold USART.wait_until_isr_timed
      rw [hrest, poll_timed_elapsed _ _ _ _ _ hy]
    have hres : USART.write_bytes_polling_timed a_p_data a_p_data.length a_timeout_ms s =
        some (false, { s2 with counter := y.now, ISR := y.reg, samples := rest,
                               trace := s2.trace ++ [Event.wait USART_ISR_TC y.reg true] }) := by
      unfold USART.write_bytes_polling_timed
      rw [if_neg (by simp [hlen, hs, hp])]
      dsimp only
      rw [hloop]
      dsimp only
      rw [hfin]
      rfl
    have hil' : isrs.length = (a_p_data.take k).length := by
      rw [List.length_take, hil]
      omega
    refine ⟨_, k, isrs, x.reg, y.reg, hres, hk, hil, ?_, ?_⟩
    · simp [htr]
    · simp [htr, tdr_writes_append, tdr_writes_polled_bytes isrs _ hil', tdr_writes]

theorem write_bytes_polling_timed_deadline_witness :
    USART.write_bytes_polling_timed [0x41, 0x54, 0x0D, 0x0A] 4 5 USART.stalling
      = some (false, { USART.stalled with
          counter := 6, samples := [⟨7, 0x00⟩],
          trace := USART.stalled.trace ++ [Event.wait 0x40 0x00 true] }) ∧
    ∃ (s3 : USART Unit) (k : Nat) (isrs : List Nat) (isr_txe isr_tc : Nat),
      USART.write_bytes_polling_timed [0x41, 0x54, 0x0D, 0x0A]
        ([0x41, 0x54, 0x0D, 0x0A] : List Nat).length 5 USART.stalling = some (false, s3) ∧
      k < ([0x41, 0x54, 0x0D, 0x0A] : List Nat).length ∧ isrs.length = k ∧
      s3.trace = USART.stalling.trace ++
        polled_bytes isrs (([0x41, 0x54, 0x0D, 0x0A] : List Nat).take k) ++
        [Event.wait USART_ISR_TXE isr_txe true, Event.wait USART_ISR_TC isr_tc true] ∧
      tdr_writes s3.trace =
        tdr_writes USART.stalling.trace ++ (([0x41, 0x54, 0x0D, 0x0A] : List Nat).take k).map u8 :=
  ⟨rfl,
    write_bytes_polling_timed_deadline [0x41, 0x54, 0x0D, 0x0A] 5 USART.stalling USART.stalled
      (by decide) (by decide) rfl (by decide) rfl (by decide)⟩

/-! ## Enabling and disabling the USART -/

/-- C9 (the code at the failing input): with the configuration of the console
sample and a timeout of 10 ticks, `USART::enable` returns false when `REACK`
and `TEACK` are seen set at tick 1, and true when they are never seen set and
the deadline elapses at tick 10; the timed `write_bytes_polling` returns true
on a run without timeout, reading the same result of `wait_until_isr` as
`timeout_occured`. -/
theorem enable_returns_timeout_occured :
    (∃ s', USART.enable console_config console_clock 10 USART.acknowledging = some (false, s') ∧
      is_flag s'.ISR (USART_ISR_REACK ||| USART_ISR_TEACK) = true ∧ s'.counter = 1 ∧
      s'.trace = [Event.wait (USART_ISR_REACK ||| USART_ISR_TEACK) 0x6000C0 false]) ∧
    (∃ s', USART.enable console_config console_clock 10 USART.unresponsive = some (true, s') ∧
      is_flag s'.ISR (USART_ISR_REACK ||| USART_ISR_TEACK) = false ∧ s'.counter = 10 ∧
      s'.trace = [Event.wait (USART_ISR_REACK ||| USART_ISR_TEACK) 0xC0 true]) ∧
    (∃ s', USART.write_bytes_polling_timed [0x41] 1 10
        { USART.idle with samples := [⟨0, 0xC0⟩, ⟨1, 0xC0⟩] } = some (true, s') ∧
      s'.trace = [Event.wait USART_ISR_TXE 0xC0 false, Event.tdr_write 0x41,
                  Event.wait USART_ISR_TC 0xC0 false]) :=
  ⟨⟨_, rfl, by decide, rfl, rfl⟩, ⟨_, rfl, by decide, rfl, rfl⟩, ⟨_, rfl, rfl⟩⟩

/-- C10 (as stated, refuted): `disable()` on a driver with both directions
armed leaves both Transfer Contexts as they were, callbacks, start timestamps
and timeouts included. -/
theorem disable_keeps_armed_contexts :
    ∃ s', USART.disable USART.armed = some s' ∧
      s'.tx_context.callback.p_function.isSome = true ∧
      s'.tx_context.start_timestamp = 100 ∧ s'.tx_context.timeout = 100 ∧
      s'.rx_context.callback.p_function.isSome = true ∧
      s'.rx_context.timeout = 100 :=
  ⟨_, rfl, rfl, rfl, rfl, rfl, rfl⟩

/-- C10 (amended): for every enabled USART state, armed or not, after
`disable()` returns `CR1`, `CR2` and `CR3` are zero, so both interrupt-enable
bits are clear, and the dispatch-table slot is null; the two Transfer Contexts
are left as they were. -/
theorem disable_clears_registers_and_unbinds {σ : Type} (s : USART σ) (hp : s.p_usart = true) :
    ∃ s', USART.disable s = some s' ∧
      s'.CR1 = 0 ∧ s'.CR2 = 0 ∧ s'.CR3 = 0 ∧
      is_flag s'.CR1 USART_CR1_TXEIE = false ∧
      is_flag s'.CR1 USART_CR1_RXNEIE = false ∧
      s'.p_usart_handle = none ∧
      s'.tx_context = s.tx_context ∧
      s'.rx_context = s.rx_context := by
  unfold USART.disable
  rw [if_neg (by simp [hp])]
  refine ⟨_, rfl, rfl, rfl, rfl, ?_, ?_, rfl, rfl, rfl⟩
  · show is_flag 0 USART_CR1_TXEIE = false
    decide
  · show is_flag 0 USART_CR1_RXNEIE = false
    decide

theorem disable_clears_registers_and_unbinds_witness :
    USART.armed.p_usart = true ∧
    is_flag USART.armed.CR1 USART_CR1_TXEIE = true ∧
    is_flag USART.armed.CR1 USART_CR1_RXNEIE = true ∧
    USART.armed.p_usart_handle = some 1 ∧
    ∃ s', USART.disable USART.armed = some s' ∧
      s'.CR1 = 0 ∧ s'.CR2 = 0 ∧ s'.CR3 = 0 ∧
      is_flag s'.CR1 USART_CR1_TXEIE = false ∧
      is_flag s'.CR1 USART_CR1_RXNEIE = false ∧
      s'.p_usart_handle = none ∧
      s'.tx_context = USART.armed.tx_context ∧
      s'.rx_context = USART.armed.rx_context :=
  ⟨rfl, by decide, by decide, rfl, disable_clears_registers_and_unbinds USART.armed rfl⟩

/-! ## The polling helper of the USART against `utils/wait.hpp` -/

theorem poll_untimed_agrees_with_wait_until (a_flag : Nat) (a_status : Bool)
    (samples : List Sample) :
    (USART.poll_untimed a_flag a_status samples).map (fun r => r.2.map Sample.reg) =
      wait.until_untimed a_flag a_status (samples.map Sample.reg) := by
  induction samples with
  | nil => rfl
  | cons x rest ih =>
    simp only [USART.poll_untimed, wait.until_untimed, List.map_cons]
    cases (a_status == is_flag x.reg a_flag)
    · rfl
    · simpa using ih

theorem poll_timed_negates_wait_until (a_flag : Nat) (a_status : Bool)
    (a_start a_timeout_ms : Nat) (samples : List Sample) :
    (USART.poll_timed a_flag a_status a_start a_timeout_ms samples).map (fun r => r.1) =
      (wait.until_timed a_flag a_status a_start a_timeout_ms samples).map (fun b => !b) := by
  rw [wait_until_timed_find]
  induction samples with
  | nil => rfl
  | cons x rest ih =>
    simp only [USART.poll_timed, List.find?_cons, condition_reached, deadline_elapsed, bne]
    by_cases hto : a_timeout_ms ≤ time_tick_diff x.now a_start
    · simp [hto]
    · cases hf : is_flag x.reg a_flag <;> cases a_status <;>
        simp [hto, hf, condition_reached, deadline_elapsed] at ih ⊢ <;> exact ih

/-! ## Wraparound of the tick difference -/

/-- C18: for 32-bit ticks, `time::diff((s + e) mod 2^32, s) = e` for every
elapsed count `e < 2^32`; `diff(a, b)` is `(a - b) mod 2^32`; the intermediate
sum `(MAX - b) + 1 + a` does not exceed `MAX` when `a < b`; and the plain
unsigned subtraction of `usart_handle_interrupt` gives the same value as
`diff`. -/
theorem time_diff_one_wraparound (a b e : Nat) (ha : a < 2 ^ 32) (hb : b < 2 ^ 32)
    (he : e < 2 ^ 32) :
    time.diff ((b + e) % 2 ^ 32) b = e ∧
    (time.diff a b : Int) = ((a : Int) - (b : Int)) % 2 ^ 32 ∧
    (a < b → (time.infinity - b) + 1 + a ≤ time.infinity) ∧
    sub32 a b = time.diff a b := by
  unfold time.diff add32 sub32 time.infinity UINT32_SIZE
  refine ⟨?_, ?_, ?_, ?_⟩
  · split <;> omega
  · split <;> omega
  · omega
  · split <;> omega

theorem time_diff_one_wraparound_witness :
    time.diff ((4294967290 + 9) % 2 ^ 32) 4294967290 = 9 ∧
    (time.diff 3 4294967290 : Int) = ((3 : Int) - (4294967290 : Int)) % 2 ^ 32 ∧
    (3 < 4294967290 → (time.infinity - 4294967290) + 1 + 3 ≤ time.infinity) ∧
    sub32 3 4294967290 = time.diff 3 4294967290 :=
  time_diff_one_wraparound 3 4294967290 9 (by norm_num) (by norm_num) (by norm_num)

/-! ## Decoding the I2C bus status -/

theorem is_flag_set_flag (r f : Nat) : is_flag (set_flag r f) f = true := by
  rw [is_flag_iff]
  intro i hi
  rw [testBit_set_flag, hi]
  simp

/-- C11 (the code at the failing inputs): `get_bus_status_flag_from_I2C_ISR`
tests `OVR`, `ARLO`, `BERR` and `NACKF` only, so its result is `ok` exactly
when none of these four is set; with `TIMEOUT` alone, or `PECERR` alone, set
in `ISR`, `is_I2C_ISR_error` holds and the decoded status is `ok`. -/
theorem bus_status_decode_misses_timeout_and_pecerr :
    (∀ isr : Nat, get_bus_status_flag_from_I2C_ISR isr = Bus_status_flag.ok ↔
      (is_flag isr I2C_ISR_OVR = false ∧ is_flag isr I2C_ISR_ARLO = false ∧
       is_flag isr I2C_ISR_BERR = false ∧ is_flag isr I2C_ISR_NACKF = false)) ∧
    is_I2C_ISR_error I2C_ISR_TIMEOUT = true ∧
    get_bus_status_flag_from_I2C_ISR I2C_ISR_TIMEOUT = Bus_status_flag.ok ∧
    is_I2C_ISR_error I2C_ISR_PECERR = true ∧
    get_bus_status_flag_from_I2C_ISR I2C_ISR_PECERR = Bus_status_flag.ok := by
  refine ⟨?_, by decide, by decide, by decide, by decide⟩
  intro isr
  unfold get_bus_status_flag_from_I2C_ISR Bus_status_flag.ok
  cases is_flag isr I2C_ISR_OVR <;> cases is_flag isr I2C_ISR_ARLO <;>
    cases is_flag isr I2C_ISR_BERR <;> cases is_flag isr I2C_ISR_NACKF <;> simp

/-! ## The final wait of the timed polled transmission -/

/-- C20 (as stated, refuted): started in `USART.stalling` with four bytes and
a timeout of 5 ticks, the byte loop of the timed `write_bytes_polling` times
out waiting for `TXE` before the third byte, and the function then performs
one more wait, on `TC`, which consumes a further sample before it returns. -/
theorem write_bytes_polling_timed_waits_for_TC_after_timeout :
    USART.write_bytes_polling_timed_loop [0x41, 0x54, 0x0D, 0x0A] 0 5 0 4 false
      { USART.stalling with CR1 := set_flag USART.stalling.CR1 USART_CR1_TE }
        = some (true, USART.stalled) ∧
    USART.stalled.samples = [⟨6, 0x00⟩, ⟨7, 0x00⟩] ∧
    ∃ s3, USART.write_bytes_polling_timed [0x41, 0x54, 0x0D, 0x0A] 4 5 USART.stalling
        = some (false, s3) ∧
      s3.trace = USART.stalled.trace ++ [Event.wait USART_ISR_TC 0x00 true] ∧
      s3.samples = [⟨7, 0x00⟩] ∧ s3.counter = 6 :=
  ⟨rfl, rfl, _, rfl, rfl, rfl, rfl⟩

/-- C20 (amended): in the timed `write_bytes_polling`, when a per-byte wait on
`TXE` reports a timeout the byte loop is left and no further byte is written,
but the final wait on `TC` is still performed, with the same start and
timeout: the function returns exactly when that wait returns, its log is the
log of the byte loop followed by that wait, and its result is the negated
result of that wait. -/
theorem write_bytes_polling_timed_result_is_final_wait {σ : Type} (a_p_data : List Nat)
    (a_timeout_ms : Nat) (s s2 : USART σ) (hne : a_p_data ≠ [])
    (hs : s.systick_is_enabled = true) (hp : s.p_usart = true)
    (hloop : USART.write_bytes_polling_timed_loop a_p_data s.counter a_timeout_ms 0
      a_p_data.length false { s with CR1 := set_flag s.CR1 USART_CR1_TE } = some (true, s2)) :
    USART.write_bytes_polling_timed a_p_data a_p_data.length a_timeout_ms s =
      (match USART.wait_until_isr_timed USART_ISR_TC false s.counter a_timeout_ms s2 with
       | none => none
       | some (timeout_occured, s3) => some (false == timeout_occured, s3)) ∧
    (∀ (timeout_occured : Bool) (s3 : USART σ),
      USART.wait_until_isr_timed USART_ISR_TC false s.counter a_timeout_ms s2
        = some (timeout_occured, s3) →
      ∃ isr, s3.trace = s2.trace ++ [Event.wait USART_ISR_TC isr timeout_occured] ∧
        tdr_writes s3.trace = tdr_writes s2.trace) := by
  have hlen : a_p_data.length ≠ 0 := by
    intro h0; exact hne (List.length_eq_zero.1 h0)
  constructor
  · unfold USART.write_bytes_polling_timed
    rw [if_neg (by simp [hlen, hs, hp])]
    dsimp only
    rw [hloop]
  · intro r s3 hw
    obtain ⟨pre, x, _, htr, _, _⟩ :=
      wait_until_isr_timed_result USART_ISR_TC s.counter a_timeout_ms s2 s3 r hw
    refine ⟨x.reg, htr, ?_⟩
    rw [htr, tdr_writes_append]
    simp [tdr_writes]

theorem write_bytes_polling_timed_result_is_final_wait_witness :
    USART.write_bytes_polling_timed [0x41, 0x54, 0x0D, 0x0A]
        ([0x41, 0x54, 0x0D, 0x0A] : List Nat).length 5 USART.stalling =
      (match USART.wait_until_isr_timed USART_ISR_TC false USART.stalling.counter 5
          USART.stalled with
       | none => none
       | some (timeout_occured, s3) => some (false == timeout_occured, s3)) ∧
    (∀ (timeout_occured : Bool) (s3 : USART Unit),
      USART.wait_until_isr_timed USART_ISR_TC false USART.stalling.counter 5 USART.stalled
        = some (timeout_occured, s3) →
      ∃ isr, s3.trace = USART.stalled.trace ++ [Event.wait USART_ISR_TC isr timeout_occured] ∧
        tdr_writes s3.trace = tdr_writes USART.stalled.trace) :=
  write_bytes_polling_timed_result_is_final_wait [0x41, 0x54, 0x0D, 0x0A] 5 USART.stalling
    USART.stalled (by decide) (by decide) rfl rfl

/-! ## Callbacks and enable bits of the USART over sequences of steps -/

theorem callbacks_match_iff {σ : Type} (s : USART σ) :
    s.callbacks_match = true ↔
      (s.tx_context.callback.p_function.isSome = s.CR1.testBit 7 ∧
       s.rx_context.callback.p_function.isSome = s.CR1.testBit 5) := by
  unfold USART.callbacks_match
  rw [is_flag_TXEIE, is_flag_RXNEIE]
  simp

theorem handle_tx_preserves {σ : Type} (isr cr1 : Nat) (s : USART σ) (hwf : s.well_formed)
    (hm : s.callbacks_match = true)
    (hsnap : is_flag cr1 USART_CR1_TXEIE = true → s.CR1.testBit 7 = true) :
    ∃ s1, USART.handle_tx isr cr1 s = some s1 ∧ s1.well_formed ∧ s1.callbacks_match = true ∧
      s1.CR1.testBit 5 = s.CR1.testBit 5 := by
  obtain ⟨hp, hs, hlt⟩ := hwf
  have hlt' : s.CR1 < 4294967296 := hlt
  obtain ⟨h7, h5⟩ := (callbacks_match_iff s).1 hm
  cases hf : (is_flag isr USART_ISR_TXE && is_flag cr1 USART_CR1_TXEIE)
  · rw [handle_tx_idle _ _ _ hf]
    exact ⟨s, rfl, ⟨hp, hs, hlt⟩, hm, rfl⟩
  · have hbit : s.CR1.testBit 7 = true := hsnap (by simp at hf; exact hf.2)
    rw [hbit] at h7
    obtain ⟨f, hfun⟩ := Option.isSome_iff_exists.1 h7
    rw [handle_tx_fire _ _ _ f hf hfun]
    dsimp only
    cases (f s.app 0 s.tx_context.callback.p_user_data
      (decide (sub32 s.counter s.tx_context.start_timestamp < s.tx_context.timeout))).2.2
    · simp only [Bool.false_eq_true, if_false]
      refine ⟨_, rfl, ⟨hp, hs, clear_flag_lt _ _ hlt'⟩, ?_, ?_⟩
      · rw [callbacks_match_iff]
        simp [TX_context.null, testBit_clear_flag, hlt', testBit_TXEIE, h5]
      · simp [testBit_clear_flag, hlt', testBit_TXEIE]
    · simp only [if_true]
      refine ⟨_, rfl, ⟨hp, hs, hlt⟩, ?_, rfl⟩
      rw [callbacks_match_iff]
      simp [USART.write_TDR, hfun, hbit, h5]

theorem handle_rx_preserves {σ : Type} (isr cr1 : Nat) (s : USART σ) (hwf : s.well_formed)
    (hm : s.callbacks_match = true)
    (hsnap : is_flag cr1 USART_CR1_RXNEIE = true → s.CR1.testBit 5 = true) :
    ∃ s1, USART.handle_rx isr cr1 s = some s1 ∧ s1.well_formed ∧ s1.callbacks_match = true := by
  obtain ⟨hp, hs, hlt⟩ := hwf
  have hlt' : s.CR1 < 4294967296 := hlt
  obtain ⟨h7, h5⟩ := (callbacks_match_iff s).1 hm
  cases hf : (is_flag isr USART_ISR_RXNE && is_flag cr1 USART_CR1_RXNEIE)
  · rw [handle_rx_idle _ _ _ hf]
    exact ⟨s, rfl, ⟨hp, hs, hlt⟩, hm⟩
  · have hbit : s.CR1.testBit 5 = true := hsnap (by simp at hf; exact hf.2)
    rw [hbit] at h5
    obtain ⟨f, hfun⟩ := Option.isSome_iff_exists.1 h5
    rw [handle_rx_fire _ _ _ f hf hfun]
    dsimp only
    cases (f s.app (u8 s.RDR) s.rx_context.callback.p_user_data
      (decide (sub32 s.counter s.rx_context.start_timestamp < s.rx_context.timeout))).2
    · simp only [if_true]
      refine ⟨_, rfl, ⟨hp, hs, clear_flag_lt _ _ hlt'⟩, ?_⟩
      rw [callbacks_match_iff]
      simp [RX_context.null, testBit_clear_flag, hlt', testBit_RXNEIE, h7]
    · simp only [Bool.true_eq_false, if_false]
      refine ⟨_, rfl, ⟨hp, hs, hlt⟩, ?_⟩
      rw [callbacks_match_iff]
      simp [hfun, hbit, h7]

theorem usart_step_preserves {σ : Type} (s : USART σ) (st : USART_step σ) (hwf : s.well_formed)
    (hm : s.callbacks_match = true) :
    ∃ s1, s.step st = some s1 ∧ s1.well_formed ∧ s1.callbacks_match = true := by
  obtain ⟨hp, hs, hlt⟩ := hwf
  have hlt' : s.CR1 < 4294967296 := hlt
  obtain ⟨h7, h5⟩ := (callbacks_match_iff s).1 hm
  cases st with
  | write_bytes_IT cb a_timeout_ms =>
    simp only [USART.step]
    unfold USART.write_bytes_IT
    rw [if_neg (by simp [hs, hp])]
    dsimp only
    cases hf : cb.p_function with
    | none =>
      refine ⟨_, rfl, ⟨hp, hs, clear_flag_lt _ _ hlt'⟩, ?_⟩
      rw [callbacks_match_iff]
      simp [testBit_clear_flag, hlt', testBit_TXEIE, h5]
    | some f =>
      refine ⟨_, rfl, ⟨hp, hs, set_flag_lt _ _ (clear_flag_lt _ _ hlt')
        (by norm_num [USART_CR1_TXEIE])⟩, ?_⟩
      rw [callbacks_match_iff]
      simp [testBit_clear_flag, testBit_set_flag, hlt', testBit_TXEIE, h5, hf]
  | read_bytes_IT cb a_timeout_ms =>
    simp only [USART.step]
    unfold USART.read_bytes_IT
    rw [if_neg (by simp [hs, hp])]
    dsimp only
    cases hf : cb.p_function with
    | none =>
      refine ⟨_, rfl, ⟨hp, hs, clear_flag_lt _ _ hlt'⟩, ?_⟩
      rw [callbacks_match_iff]
      simp [testBit_clear_flag, hlt', testBit_RXNEIE, h7]
    | some f =>
      refine ⟨_, rfl, ⟨hp, hs, set_flag_lt _ _ (clear_flag_lt _ _ hlt')
        (by norm_num [USART_CR1_RXNEIE])⟩, ?_⟩
      rw [callbacks_match_iff]
      simp [testBit_clear_flag, testBit_set_flag, hlt', testBit_RXNEIE, h7, hf]
  | interrupt now isr rdr =>
    simp only [USART.step]
    unfold USART.usart_handle_interrupt
    rw [if_neg (by simp [hp])]
    dsimp only
    have hwf0 : ({ s with counter := now, ISR := isr, RDR := rdr } : USART σ).well_formed :=
      ⟨hp, hs, hlt⟩
    have hm0 : ({ s with counter := now, ISR := isr, RDR := rdr } : USART σ).callbacks_match
        = true := hm
    obtain ⟨s1, h1, hwf1, hm1, hb5⟩ := handle_tx_preserves isr s.CR1 _ hwf0 hm0
      (by intro h; rw [is_flag_TXEIE] at h; exact h)
    rw [h1]
    dsimp only
    obtain ⟨s2, h2, hwf2, hm2⟩ := handle_rx_preserves isr s.CR1 s1 hwf1 hm1
      (by intro h; rw [is_flag_RXNEIE] at h; rw [hb5]; exact h)
    exact ⟨s2, h2, hwf2, hm2⟩

theorem usart_run_steps_preserves {σ : Type} (steps : List (USART_step σ)) :
    ∀ (s : USART σ), s.well_formed → s.callbacks_match = true →
      ∃ s', s.run_steps steps = some s' ∧ s'.well_formed ∧ s'.callbacks_match = true := by
  induction steps with
  | nil => intro s hwf hm; exact ⟨s, rfl, hwf, hm⟩
  | cons st rest ih =>
    intro s hwf hm
    obtain ⟨s1, h1, hwf1, hm1⟩ := usart_step_preserves s st hwf hm
    obtain ⟨s', h2, hwf2, hm2⟩ := ih s1 hwf1 hm1
    refine ⟨s', ?_, hwf2, hm2⟩
    unfold USART.run_steps
    rw [h1]
    exact h2

/-- C19: from an enabled USART with both callbacks null and `TXEIE`, `RXNEIE`
clear, every sequence of `write_bytes_IT`, `read_bytes_IT` and
`usart_handle_interrupt` steps runs through (no step calls through a null
function pointer) and ends in a state where the transmit callback is non-null
iff `CR1.TXEIE` is set and the receive callback is non-null iff `CR1.RXNEIE`
is set; any further interrupt finds a non-null function for each callback it
invokes. -/
theorem usart_callbacks_follow_enable_bits {σ : Type} (s : USART σ)
    (steps : List (USART_step σ)) (hwf : s.well_formed)
    (htx : s.tx_context.callback.p_function = none)
    (hrx : s.rx_context.callback.p_function = none)
    (h7 : is_flag s.CR1 USART_CR1_TXEIE = false)
    (h5 : is_flag s.CR1 USART_CR1_RXNEIE = false) :
    ∃ s', s.run_steps steps = some s' ∧
      (s'.tx_context.callback.p_function.isSome = is_flag s'.CR1 USART_CR1_TXEIE) ∧
      (s'.rx_context.callback.p_function.isSome = is_flag s'.CR1 USART_CR1_RXNEIE) ∧
      (∀ now isr rdr, (s'.step (USART_step.interrupt now isr rdr)).isSome = true) := by
  have hm : s.callbacks_match = true := by
    unfold USART.callbacks_match
    rw [htx, hrx, h7, h5]
    rfl
  obtain ⟨s', h1, hwf', hm'⟩ := usart_run_steps_preserves steps s hwf hm
  have hb := (callbacks_match_iff s').1 hm'
  refine ⟨s', h1, ?_, ?_, ?_⟩
  · rw [is_flag_TXEIE]; exact hb.1
  · rw [is_flag_RXNEIE]; exact hb.2
  · intro now isr rdr
    obtain ⟨s2, h2, _, _⟩ := usart_step_preserves s' (USART_step.interrupt now isr rdr) hwf' hm'
    rw [h2]
    rfl

theorem usart_callbacks_follow_enable_bits_witness :
    ∃ s', USART.idle.run_steps
        [USART_step.write_bytes_IT tx_while_proceed 100,
         USART_step.read_bytes_IT rx_while_proceed 100,
         USART_step.interrupt 50 0xE0 0x41,
         USART_step.interrupt 150 0xE0 0x42,
         USART_step.write_bytes_IT ⟨none, 0⟩ 0,
         USART_step.interrupt 160 0xE0 0x43] = some s' ∧
      (s'.tx_context.callback.p_function.isSome = is_flag s'.CR1 USART_CR1_TXEIE) ∧
      (s'.rx_context.callback.p_function.isSome = is_flag s'.CR1 USART_CR1_RXNEIE) ∧
      (∀ now isr rdr, (s'.step (USART_step.interrupt now isr rdr)).isSome = true) :=
  usart_callbacks_follow_enable_bits USART.idle _
    ⟨rfl, by decide, by decide⟩ rfl rfl (by decide) (by decide)

/-! ## The fixed-capacity vector -/

theorem sub32_one (l : Nat) (hl : 0 < l) (h : l < 4294967296) : sub32 l 1 = l - 1 := by
  unfold sub32 UINT32_SIZE
  simp only [Nat.reduceMod]
  omega

theorem add32_one (l : Nat) (h : l + 1 < 4294967296) : add32 l 1 = l + 1 := by
  unfold add32 UINT32_SIZE
  omega

theorem add32_one_le (l c : Nat) (hl : l < c) (hc : c < 4294967296) : add32 l 1 ≤ c := by
  rw [add32_one l (lt_of_le_of_lt (Nat.succ_le_of_lt hl) hc)]
  exact Nat.succ_le_of_lt hl

theorem sub32_one_le (l c : Nat) (h1 : l ≤ c) (hl : 0 < l) (hc : c < 4294967296) :
    sub32 l 1 ≤ c := by
  rw [sub32_one l hl (lt_of_le_of_lt h1 hc)]
  exact le_trans (Nat.sub_le _ _) h1

theorem vector_apply_bounded {α : Type} (c : Nat) (hc32 : c < 4294967296) (v : Vector α)
    (op : Vector_op α)
    (h : v.length ≤ v.capacity ∧ v.capacity = c ∧ v.p_buffer.length = c) :
    (v.apply op).length ≤ (v.apply op).capacity ∧ (v.apply op).capacity = c ∧
      (v.apply op).p_buffer.length = c := by
  cases v with
  | mk buf cap len =>
  have h1 : len ≤ cap := h.1
  have h2 : cap = c := h.2.1
  have h3 : buf.length = c := h.2.2
  have hcap : cap < 4294967296 := by rw [h2]; exact hc32
  cases op with
  | push_back a =>
    show ((Vector.push_back a ⟨buf, cap, len⟩).2).length ≤
        ((Vector.push_back a ⟨buf, cap, len⟩).2).capacity ∧
      ((Vector.push_back a ⟨buf, cap, len⟩).2).capacity = c ∧
      ((Vector.push_back a ⟨buf, cap, len⟩).2).p_buffer.length = c
    unfold Vector.push_back
    dsimp only
    by_cases hl : len < cap
    · rw [if_pos (decide_eq_true hl)]
      refine ⟨add32_one_le _ _ hl hcap, h2, ?_⟩
      show (buf.set len a).length = c
      rw [List.length_set]
      exact h3
    · rw [if_neg (by rw [decide_eq_true_eq]; exact hl)]
      exact ⟨h1, h2, h3⟩
  | pop_back =>
    show ((Vector.pop_back ⟨buf, cap, len⟩).2).length ≤
        ((Vector.pop_back ⟨buf, cap, len⟩).2).capacity ∧
      ((Vector.pop_back ⟨buf, cap, len⟩).2).capacity = c ∧
      ((Vector.pop_back ⟨buf, cap, len⟩).2).p_buffer.length = c
    unfold Vector.pop_back
    dsimp only
    by_cases hl : len > 0
    · rw [if_pos (decide_eq_true hl)]
      exact ⟨sub32_one_le _ _ h1 hl hcap, h2, h3⟩
    · rw [if_neg (by rw [decide_eq_true_eq]; exact hl)]
      exact ⟨h1, h2, h3⟩
  | clear =>
    exact ⟨Nat.zero_le _, h2, h3⟩

theorem vector_run_bounded {α : Type} (c : Nat) (hc32 : c < 4294967296)
    (ops : List (Vector_op α)) :
    ∀ (v : Vector α), (v.length ≤ v.capacity ∧ v.capacity = c ∧ v.p_buffer.length = c) →
      (Vector.run ops v).length ≤ (Vector.run ops v).capacity ∧ (Vector.run ops v).capacity = c ∧
        (Vector.run ops v).p_buffer.length = c := by
  induction ops with
  | nil => intro v h; exact h
  | cons op rest ih =>
    intro v h
    exact ih (v.apply op) (vector_apply_bounded c hc32 v op h)

theorem push_back_fits {α : Type} (a : α) (buf : List α) (cap len : Nat) (h : len < cap)
    (hc : cap < 4294967296) :
    Vector.push_back a ⟨buf, cap, len⟩ = (true, ⟨buf.set len a, cap, len + 1⟩) := by
  unfold Vector.push_back
  dsimp only
  rw [decide_eq_true h, if_pos rfl, add32_one len (lt_of_le_of_lt (Nat.succ_le_of_lt h) hc)]

theorem push_back_full {α : Type} (a : α) (buf : List α) (cap len : Nat) (h : ¬ len < cap) :
    Vector.push_back a ⟨buf, cap, len⟩ = (false, ⟨buf, cap, len⟩) := by
  unfold Vector.push_back
  dsimp only
  rw [decide_eq_false h, if_neg (by decide)]

theorem register_all_results (cbs : List Callback) :
    ∀ (buf : List Callback) (len : Nat),
      Command_line.register_all cbs ⟨⟨buf, callbacks_buffer_capacity, len⟩⟩ =
        (List.range cbs.length).map (fun i => decide (len + i < callbacks_buffer_capacity)) := by
  induction cbs with
  | nil => intro buf len; rfl
  | cons cb rest ih =>
    intro buf len
    rw [List.length_cons, List.range_succ_eq_map, List.map_cons, List.map_map]
    unfold Command_line.register_all Command_line.register_callback
    dsimp only
    by_cases h : len < callbacks_buffer_capacity
    · rw [push_back_fits cb buf _ len h (by decide)]
      dsimp only
      have e1 : decide (len + 0 < callbacks_buffer_capacity) = true := decide_eq_true h
      rw [ih, e1]
      congr 1
      apply List.map_congr_left
      intro i _
      show decide (len + 1 + i < callbacks_buffer_capacity) =
        decide (len + (i + 1) < callbacks_buffer_capacity)
      rw [Nat.add_assoc, Nat.add_comm 1 i]
    · rw [push_back_full cb buf _ len h]
      dsimp only
      have e1 : decide (len + 0 < callbacks_buffer_capacity) = false := decide_eq_false h
      rw [ih, e1]
      congr 1
      apply List.map_congr_left
      intro i _
      show decide (len + i < callbacks_buffer_capacity) =
        decide (len + (i + 1) < callbacks_buffer_capacity)
      rw [decide_eq_false (fun hh => h (lt_of_le_of_lt (Nat.le_add_right _ _) hh)),
        decide_eq_false (fun hh => h (lt_of_le_of_lt (Nat.le_add_right _ _) hh))]

/-- Claim C17.  A vector constructed over a buffer of `c > 0` elements keeps
`length ≤ capacity` through every sequence of `push_back`, `pop_back` and
`clear`; in every state so reached `push_back` returns whether
`length < capacity` held, in that case stores the value at index `length`,
leaves every other element as it was and increments `length`, and otherwise
leaves the vector as it was; and the results of successive
`Command_line::register_callback` calls on a fresh `Command_line` are `true`
for the first `callbacks_buffer_capacity = 20` and `false` afterwards. -/
theorem vector_bounded_and_register_callback_limit {α : Type} (c : Nat) (hc : 0 < c)
    (hc32 : c < 4294967296) (buf : List α) (hbuf : buf.length = c) :
    (∃ v0, Vector.construct buf c = some v0 ∧
      ∀ (ops : List (Vector_op α)) (a : α),
        (Vector.run ops v0).length ≤ (Vector.run ops v0).capacity ∧
        ((Vector.run ops v0).push_back a).1 =
          decide ((Vector.run ops v0).length < (Vector.run ops v0).capacity) ∧
        ((Vector.run ops v0).length < (Vector.run ops v0).capacity →
          ((Vector.run ops v0).push_back a).2.length = (Vector.run ops v0).length + 1 ∧
          ((Vector.run ops v0).push_back a).2.p_buffer[(Vector.run ops v0).length]? = some a ∧
          ∀ i, i ≠ (Vector.run ops v0).length →
            ((Vector.run ops v0).push_back a).2.p_buffer[i]? = (Vector.run ops v0).p_buffer[i]?) ∧
        (¬ (Vector.run ops v0).length < (Vector.run ops v0).capacity →
          ((Vector.run ops v0).push_back a).2 = Vector.run ops v0)) ∧
    callbacks_buffer_capacity = 20 ∧
    ∀ cbs : List Callback,
      Command_line.register_all cbs Command_line.construct =
        (List.range cbs.length).map (fun i => decide (i < 20)) := by
  refine ⟨⟨⟨buf, c, 0⟩, ?_, ?_⟩, rfl, ?_⟩
  · unfold Vector.construct
    rw [if_neg (Nat.pos_iff_ne_zero.mp hc)]
  · intro ops a
    have hinv := vector_run_bounded c hc32 ops ⟨buf, c, 0⟩ ⟨Nat.zero_le _, rfl, hbuf⟩
    revert hinv
    generalize Vector.run ops ⟨buf, c, 0⟩ = v
    intro hinv
    cases v with
    | mk b cap len =>
    have h1 : len ≤ cap := hinv.1
    have h2 : cap = c := hinv.2.1
    have h3 : b.length = c := hinv.2.2
    have hcap : cap < 4294967296 := by rw [h2]; exact hc32
    refine ⟨h1, ?_, ?_, ?_⟩
    · show (Vector.push_back a ⟨b, cap, len⟩).1 = decide (len < cap)
      by_cases h : len < cap
      · rw [push_back_fits a b cap len h hcap, decide_eq_true h]
      · rw [push_back_full a b cap len h, decide_eq_false h]
    · intro h
      have h' : len < cap := h
      show (Vector.push_back a ⟨b, cap, len⟩).2.length = len + 1 ∧
        (Vector.push_back a ⟨b, cap, len⟩).2.p_buffer[len]? = some a ∧
        ∀ i, i ≠ len → (Vector.push_back a ⟨b, cap, len⟩).2.p_buffer[i]? = b[i]?
      rw [push_back_fits a b cap len h' hcap]
      refine ⟨rfl, ?_, ?_⟩
      · show (b.set len a)[len]? = some a
        rw [List.getElem?_set_self (by rw [h3, ← h2]; exact h')]
      · intro i hi
        show (b.set len a)[i]? = b[i]?
        rw [List.getElem?_set_ne (Ne.symm hi)]
    · intro h
      have h' : ¬ len < cap := h
      show (Vector.push_back a ⟨b, cap, len⟩).2 = ⟨b, cap, len⟩
      rw [push_back_full a b cap len h']
  · intro cbs
    have := register_all_results cbs (List.replicate callbacks_buffer_capacity ⟨0, 0, 0⟩) 0
    rw [show Command_line.construct = (⟨⟨List.replicate callbacks_buffer_capacity ⟨0, 0, 0⟩,
      callbacks_buffer_capacity, 0⟩⟩ : Command_line) from rfl, this]
    apply List.map_congr_left
    intro i _
    show decide (0 + i < 20) = decide (i < 20)
    rw [Nat.zero_add]

/-- Witness for `vector_bounded_and_register_callback_limit`: a vector over
three bytes. -/
theorem vector_bounded_and_register_callback_limit_witness :
    (0 < 3 ∧ 3 < 4294967296 ∧ [0, 0, 0].length = 3) ∧
    ((∃ v0, Vector.construct [0, 0, 0] 3 = some v0 ∧
      ∀ (ops : List (Vector_op Nat)) (a : Nat),
        (Vector.run ops v0).length ≤ (Vector.run ops v0).capacity ∧
        ((Vector.run ops v0).push_back a).1 =
          decide ((Vector.run ops v0).length < (Vector.run ops v0).capacity) ∧
        ((Vector.run ops v0).length < (Vector.run ops v0).capacity →
          ((Vector.run ops v0).push_back a).2.length = (Vector.run ops v0).length + 1 ∧
          ((Vector.run ops v0).push_back a).2.p_buffer[(Vector.run ops v0).length]? = some a ∧
          ∀ i, i ≠ (Vector.run ops v0).length →
            ((Vector.run ops v0).push_back a).2.p_buffer[i]? = (Vector.run ops v0).p_buffer[i]?) ∧
        (¬ (Vector.run ops v0).length < (Vector.run ops v0).capacity →
          ((Vector.run ops v0).push_back a).2 = Vector.run ops v0)) ∧
    callbacks_buffer_capacity = 20 ∧
    ∀ cbs : List Callback,
      Command_line.register_all cbs Command_line.construct =
        (List.range cbs.length).map (fun i => decide (i < 20))) :=
  ⟨⟨by decide, by decide, rfl⟩,
    vector_bounded_and_register_callback_limit 3 (by decide) (by decide) [0, 0, 0] rfl⟩

/-! ## The polling transfers of the I²C drivers -/

theorem set_flag_ICR_writes (f : Nat) (s s' : I2C_polling) (h : s.set_flag_ICR f = some s') :
    ∃ v, s'.writes = s.writes ++ [I2C_write.ICR v] ∧ is_flag v f = true := by
  unfold I2C_polling.set_flag_ICR I2C_polling.read at h
  cases hh : s.hardware with
  | nil => rw [hh] at h; exact absurd h (by simp)
  | cons x rest =>
    rw [hh] at h
    simp only [Option.some.injEq] at h
    subst h
    exact ⟨_, rfl, is_flag_set_flag _ _⟩

theorem master_finish_writes (words : Nat) (error : Bool) (s : I2C_polling) (r : I2C_result)
    (s' : I2C_polling) (h : I2C_master.finish words error s = some (r, s')) :
    ∃ pre v, s'.writes = pre ++ [I2C_write.ICR v, I2C_write.CR2 0] ∧
      is_flag v I2C_ICR_STOPCF = true ∧ s'.CR2 = 0 := by
  unfold I2C_master.finish at h
  cases h1 : s.status_after_loop error with
  | none => rw [h1] at h; exact absurd h (by simp)
  | some p =>
    obtain ⟨b, s1⟩ := p
    rw [h1] at h
    dsimp only at h
    cases h2 : s1.set_flag_ICR I2C_ICR_STOPCF with
    | none => rw [h2] at h; exact absurd h (by simp)
    | some s2 =>
      rw [h2] at h
      simp only [Option.some.injEq, Prod.mk.injEq] at h
      obtain ⟨v, hv, hf⟩ := set_flag_ICR_writes _ _ _ h2
      refine ⟨s1.writes, v, ?_, hf, ?_⟩
      · rw [← h.2]
        show s2.writes ++ [I2C_write.CR2 0] = _
        rw [hv, List.append_assoc]
        rfl
      · rw [← h.2]
        rfl

theorem slave_finish_writes (words : Nat) (error : Bool) (s : I2C_polling) (r : I2C_result)
    (s' : I2C_polling) (h : I2C_slave.finish words error s = some (r, s')) :
    ∃ pre v, s'.writes = pre ++ [I2C_write.ICR v] ∧ is_flag v I2C_ICR_STOPCF = true := by
  unfold I2C_slave.finish at h
  cases h1 : s.status_after_loop error with
  | none => rw [h1] at h; exact absurd h (by simp)
  | some p =>
    obtain ⟨b, s1⟩ := p
    rw [h1] at h
    dsimp only at h
    cases h2 : s1.set_flag_ICR I2C_ICR_STOPCF with
    | none => rw [h2] at h; exact absurd h (by simp)
    | some s2 =>
      rw [h2] at h
      simp only [Option.some.injEq, Prod.mk.injEq] at h
      obtain ⟨v, hv, hf⟩ := set_flag_ICR_writes _ _ _ h2
      exact ⟨s1.writes, v, by rw [← h.2, hv], hf⟩

theorem slave_transmit_finish_writes (words : Nat) (error : Bool) (s : I2C_polling)
    (r : I2C_result) (s' : I2C_polling)
    (h : I2C_slave.transmit_finish words error s = some (r, s')) :
    ∃ pre v, s'.writes = pre ++ [I2C_write.ICR v] ∧ is_flag v I2C_ICR_STOPCF = true := by
  unfold I2C_slave.transmit_finish at h
  split at h
  · exact absurd h (by simp)
  · dsimp only at h
    split at h
    · exact absurd h (by simp)
    · exact slave_finish_writes _ _ _ _ _ h

/-- Whenever one of the eight polling transfers returns, the last store it made
to `ICR` has `STOPCF` set; in the transfers of the master the store of `0` to
`CR2` follows and is the last store, in the transfers of the slave the store to
`ICR` is the last store. -/
theorem polling_transfer_stores (t : Polling_transfer) (s : I2C_polling)
    (r : I2C_result) (s' : I2C_polling) (h : t.call s = some (r, s')) :
    ∃ pre v, is_flag v I2C_ICR_STOPCF = true ∧
      (t.is_master = true → s'.writes = pre ++ [I2C_write.ICR v, I2C_write.CR2 0] ∧ s'.CR2 = 0) ∧
      (t.is_master = false → s'.writes = pre ++ [I2C_write.ICR v]) := by
  cases t with
  | master_transmit a d n =>
    have hm : ∃ pre v, s'.writes = pre ++ [I2C_write.ICR v, I2C_write.CR2 0] ∧
        is_flag v I2C_ICR_STOPCF = true ∧ s'.CR2 = 0 := by
      simp only [Polling_transfer.call] at h
      unfold I2C_master.transmit_bytes_polling at h
      split at h
      · exact absurd h (by simp)
      · split at h
        · dsimp only at h
          split at h
          · exact absurd h (by simp)
          · exact master_finish_writes _ _ _ _ _ h
        · exact absurd h (by simp)
    obtain ⟨pre, v, h1, h2, h3⟩ := hm
    exact ⟨pre, v, h2, fun _ => ⟨h1, h3⟩, fun hf => absurd hf (by simp [Polling_transfer.is_master])⟩
  | master_transmit_timed a d n t =>
    have hm : ∃ pre v, s'.writes = pre ++ [I2C_write.ICR v, I2C_write.CR2 0] ∧
        is_flag v I2C_ICR_STOPCF = true ∧ s'.CR2 = 0 := by
      simp only [Polling_transfer.call] at h
      unfold I2C_master.transmit_bytes_polling_timed at h
      split at h
      · exact absurd h (by simp)
      · split at h
        · split at h
          · exact absurd h (by simp)
          · dsimp only at h
            split at h
            · exact absurd h (by simp)
            · exact master_finish_writes _ _ _ _ _ h
        · exact absurd h (by simp)
    obtain ⟨pre, v, h1, h2, h3⟩ := hm
    exact ⟨pre, v, h2, fun _ => ⟨h1, h3⟩, fun hf => absurd hf (by simp [Polling_transfer.is_master])⟩
  | master_receive a d n =>
    have hm : ∃ pre v, s'.writes = pre ++ [I2C_write.ICR v, I2C_write.CR2 0] ∧
        is_flag v I2C_ICR_STOPCF = true ∧ s'.CR2 = 0 := by
      simp only [Polling_transfer.call] at h
      unfold I2C_master.receive_bytes_polling at h
      split at h
      · dsimp only at h
        split at h
        · exact absurd h (by simp)
        · exact master_finish_writes _ _ _ _ _ h
      · exact absurd h (by simp)
    obtain ⟨pre, v, h1, h2, h3⟩ := hm
    exact ⟨pre, v, h2, fun _ => ⟨h1, h3⟩, fun hf => absurd hf (by simp [Polling_transfer.is_master])⟩
  | master_receive_timed a d n t =>
    have hm : ∃ pre v, s'.writes = pre ++ [I2C_write.ICR v, I2C_write.CR2 0] ∧
        is_flag v I2C_ICR_STOPCF = true ∧ s'.CR2 = 0 := by
      simp only [Polling_transfer.call] at h
      unfold I2C_master.receive_bytes_polling_timed at h
      split at h
      · split at h
        · exact absurd h (by simp)
        · dsimp only at h
          split at h
          · exact absurd h (by simp)
          · exact master_finish_writes _ _ _ _ _ h
      · exact absurd h (by simp)
    obtain ⟨pre, v, h1, h2, h3⟩ := hm
    exact ⟨pre, v, h2, fun _ => ⟨h1, h3⟩, fun hf => absurd hf (by simp [Polling_transfer.is_master])⟩
  | slave_transmit d n =>
    have hm : ∃ pre v, s'.writes = pre ++ [I2C_write.ICR v] ∧
        is_flag v I2C_ICR_STOPCF = true := by
      simp only [Polling_transfer.call] at h
      unfold I2C_slave.transmit_bytes_polling at h
      split at h
      · exact absurd h (by simp)
      · split at h
        · split at h
          · exact absurd h (by simp)
          · exact slave_transmit_finish_writes _ _ _ _ _ h
        · exact absurd h (by simp)
    obtain ⟨pre, v, h1, h2⟩ := hm
    exact ⟨pre, v, h2, fun hf => absurd hf (by simp [Polling_transfer.is_master]), fun _ => h1⟩
  | slave_transmit_timed d n t =>
    have hm : ∃ pre v, s'.writes = pre ++ [I2C_write.ICR v] ∧
        is_flag v I2C_ICR_STOPCF = true := by
      simp only [Polling_transfer.call] at h
      unfold I2C_slave.transmit_bytes_polling_timed at h
      split at h
      · exact absurd h (by simp)
      · split at h
        · split at h
          · exact absurd h (by simp)
          · split at h
            · exact absurd h (by simp)
            · exact slave_transmit_finish_writes _ _ _ _ _ h
        · exact absurd h (by simp)
    obtain ⟨pre, v, h1, h2⟩ := hm
    exact ⟨pre, v, h2, fun hf => absurd hf (by simp [Polling_transfer.is_master]), fun _ => h1⟩
  | slave_receive d n =>
    have hm : ∃ pre v, s'.writes = pre ++ [I2C_write.ICR v] ∧
        is_flag v I2C_ICR_STOPCF = true := by
      simp only [Polling_transfer.call] at h
      unfold I2C_slave.receive_bytes_polling at h
      split at h
      · split at h
        · exact absurd h (by simp)
        · exact slave_finish_writes _ _ _ _ _ h
      · exact absurd h (by simp)
    obtain ⟨pre, v, h1, h2⟩ := hm
    exact ⟨pre, v, h2, fun hf => absurd hf (by simp [Polling_transfer.is_master]), fun _ => h1⟩
  | slave_receive_timed d n t =>
    have hm : ∃ pre v, s'.writes = pre ++ [I2C_write.ICR v] ∧
        is_flag v I2C_ICR_STOPCF = true := by
      simp only [Polling_transfer.call] at h
      unfold I2C_slave.receive_bytes_polling_timed at h
      split at h
      · split at h
        · exact absurd h (by simp)
        · split at h
          · exact absurd h (by simp)
          · exact slave_finish_writes _ _ _ _ _ h
      · exact absurd h (by simp)
    obtain ⟨pre, v, h1, h2⟩ := hm
    exact ⟨pre, v, h2, fun hf => absurd hf (by simp [Polling_transfer.is_master]), fun _ => h1⟩

/-- C13 (counterexamples): on a bus where no slave acknowledges the address,
`I2C_master::transmit_bytes_polling(0x50, data, 10, 5)` returns
`bytes_transferred = 1` when `TXE` reads set before the `NACKF` is seen (the byte
stored to `TXDR` is counted although it is never sent), and returns
`bus_status = ok` when the loop guard reads `STOPF` before an error check has
read `NACKF`. -/
theorem transmit_bytes_polling_unanswered_counts_stored_byte :
    (I2C_master.transmit_bytes_polling_timed 0x50 (some I2C_polling.ten_bytes) 10 5
        (I2C_polling.master_on_I2C1 I2C_polling.unanswered_bus)).map
      (fun r => (r.1, r.2.writes)) =
      some (⟨⟨false, false, false, true⟩, 1⟩,
        [I2C_write.CR2 0x20A20A0, I2C_write.TXDR 1, I2C_write.ICR 0x1F10, I2C_write.ICR 0x20,
         I2C_write.CR2 0]) ∧
    (I2C_master.transmit_bytes_polling_timed 0x50 (some I2C_polling.ten_bytes) 10 5
        (I2C_polling.master_on_I2C1 I2C_polling.unanswered_bus_late)).map
      (fun r => (r.1, r.2.writes)) =
      some (⟨Bus_status_flag.ok, 0⟩,
        [I2C_write.CR2 0x20A20A0, I2C_write.ICR 0x20, I2C_write.CR2 0]) := by
  constructor <;> decide

theorem is_I2C_ISR_error_of_NACKF (isr : Nat) (h : is_flag isr I2C_ISR_NACKF = true) :
    is_I2C_ISR_error isr = true := by
  have hb : isr.testBit 4 = true := by
    have := is_flag_bit isr 4
    rw [show (2 : Nat) ^ 4 = I2C_ISR_NACKF from rfl, h] at this
    exact this.symm
  unfold is_I2C_ISR_error is_any_bit
  rw [bne_iff_ne]
  intro h0
  have := congrArg (fun n => Nat.testBit n 4) h0
  simp only [Nat.testBit_and, hb, Nat.zero_testBit, Bool.true_and] at this
  exact absurd this (by decide)

theorem nack_of_NACKF (isr : Nat) (h : is_flag isr I2C_ISR_NACKF = true) :
    (get_bus_status_flag_from_I2C_ISR isr).nack = true := by
  unfold get_bus_status_flag_from_I2C_ISR
  simp only [h, if_true]

/-! ## The bound on the loops of the polling transfers is never reached -/

theorem while_loop_fuel_irrelevant
    (guard : Bool → I2C_polling → Option (Bool × I2C_polling))
    (body : Nat → I2C_polling → Option ((Nat × Bool) × I2C_polling))
    (hg : ∀ e s b s1, guard e s = some (b, s1) → s1.hardware.length < s.hardware.length)
    (hb : ∀ w s r s2, body w s = some (r, s2) → s2.hardware.length ≤ s.hardware.length) :
    ∀ (fuel words : Nat) (error : Bool) (s : I2C_polling), s.hardware.length < fuel →
      I2C_polling.while_loop guard body fuel words error s =
        I2C_polling.while_loop guard body (s.hardware.length + 1) words error s := by
  intro fuel
  induction fuel using Nat.strong_induction_on with
  | _ fuel ih =>
    intro words error s hlt
    obtain ⟨f, rfl⟩ : ∃ f, fuel = f + 1 := ⟨fuel - 1, by omega⟩
    rw [I2C_polling.while_loop, I2C_polling.while_loop]
    cases h1 : guard error s with
    | none => rfl
    | some p =>
      obtain ⟨b, s1⟩ := p
      have hl1 := hg _ _ _ _ h1
      cases b with
      | false => rfl
      | true =>
        dsimp only
        cases h2 : body words s1 with
        | none => rfl
        | some q =>
          obtain ⟨⟨w1, e1⟩, s2⟩ := q
          have hl2 := hb _ _ _ _ h2
          dsimp only
          rw [ih f (Nat.lt_succ_self f) w1 e1 s2 (by omega),
            ih s.hardware.length (by omega) w1 e1 s2 (by omega)]

theorem read_takes_one (s s1 : I2C_polling) (h : I2C_sample)
    (hr : s.read = some (h, s1)) : s1.hardware.length + 1 = s.hardware.length := by
  unfold I2C_polling.read at hr
  cases hh : s.hardware with
  | nil => rw [hh] at hr; exact absurd hr (by simp)
  | cons x rest =>
    rw [hh] at hr
    simp only [Option.some.injEq, Prod.mk.injEq] at hr
    rw [← hr.2]
    rfl

theorem read_ISR_takes_one (s s1 : I2C_polling) (v : Nat)
    (hr : s.read_ISR = some (v, s1)) : s1.hardware.length + 1 = s.hardware.length := by
  unfold I2C_polling.read_ISR at hr
  cases h : s.read with
  | none => rw [h] at hr; exact absurd hr (by simp)
  | some p =>
    obtain ⟨x, s'⟩ := p
    rw [h] at hr
    simp only [Option.some.injEq, Prod.mk.injEq] at hr
    rw [← hr.2]
    exact read_takes_one s s' x h

theorem counter_get_takes_one (s s1 : I2C_polling) (v : Nat)
    (hr : s.counter_get = some (v, s1)) : s1.hardware.length + 1 = s.hardware.length := by
  unfold I2C_polling.counter_get at hr
  cases h : s.read with
  | none => rw [h] at hr; exact absurd hr (by simp)
  | some p =>
    obtain ⟨x, s'⟩ := p
    rw [h] at hr
    simp only [Option.some.injEq, Prod.mk.injEq] at hr
    rw [← hr.2]
    exact read_takes_one s s' x h

theorem master_guard_takes (e : Bool) (s : I2C_polling) (b : Bool) (s1 : I2C_polling)
    (h : I2C_master.polling_guard e s = some (b, s1)) :
    s1.hardware.length < s.hardware.length := by
  unfold I2C_master.polling_guard at h
  cases h1 : s.read_ISR with
  | none => rw [h1] at h; exact absurd h (by simp)
  | some p =>
    obtain ⟨v, s'⟩ := p
    rw [h1] at h
    simp only [Option.some.injEq, Prod.mk.injEq] at h
    have := read_ISR_takes_one s s' v h1
    rw [← h.2]
    omega

theorem master_guard_timed_takes (t start : Nat) (e : Bool) (s : I2C_polling) (b : Bool)
    (s1 : I2C_polling) (h : I2C_master.polling_guard_timed t start e s = some (b, s1)) :
    s1.hardware.length < s.hardware.length := by
  unfold I2C_master.polling_guard_timed at h
  cases h1 : s.read_ISR with
  | none => rw [h1] at h; exact absurd h (by simp)
  | some p =>
    obtain ⟨v, s'⟩ := p
    rw [h1] at h
    have hl := read_ISR_takes_one s s' v h1
    dsimp only at h
    split at h
    · cases h2 : s'.counter_get with
      | none => rw [h2] at h; exact absurd h (by simp)
      | some q =>
        obtain ⟨now, s''⟩ := q
        rw [h2] at h
        simp only [Option.some.injEq, Prod.mk.injEq] at h
        have := counter_get_takes_one s' s'' now h2
        rw [← h.2]
        omega
    · simp only [Option.some.injEq, Prod.mk.injEq] at h
      rw [← h.2]
      omega

theorem master_transmit_body_takes (d : List Nat) (n w : Nat) (s : I2C_polling)
    (r : Nat × Bool) (s2 : I2C_polling) (h : I2C_master.transmit_body d n w s = some (r, s2)) :
    s2.hardware.length ≤ s.hardware.length := by
  unfold I2C_master.transmit_body at h
  cases h1 : s.read_ISR with
  | none => rw [h1] at h; exact absurd h (by simp)
  | some p =>
    obtain ⟨v, s'⟩ := p
    rw [h1] at h
    have hl := read_ISR_takes_one s s' v h1
    dsimp only at h
    split at h
    · exact absurd h (by simp)
    · rename_i w1 sa hsa
      have hla : sa.hardware.length = s'.hardware.length := by
        split at hsa
        · split at hsa
          · exact absurd hsa (by simp)
          · simp only [Option.some.injEq, Prod.mk.injEq] at hsa
            rw [← hsa.2]; rfl
        · simp only [Option.some.injEq, Prod.mk.injEq] at hsa
          rw [← hsa.2]
      cases h2 : sa.read_ISR with
      | none => rw [h2] at h; exact absurd h (by simp)
      | some q =>
        obtain ⟨v2, sb⟩ := q
        rw [h2] at h
        simp only [Option.some.injEq, Prod.mk.injEq] at h
        have := read_ISR_takes_one sa sb v2 h2
        rw [← h.2]
        omega

theorem read_RXDR_takes_one (s s1 : I2C_polling) (v : Nat)
    (hr : s.read_RXDR = some (v, s1)) : s1.hardware.length + 1 = s.hardware.length := by
  unfold I2C_polling.read_RXDR at hr
  cases h : s.read with
  | none => rw [h] at hr; exact absurd hr (by simp)
  | some p =>
    obtain ⟨x, s'⟩ := p
    rw [h] at hr
    simp only [Option.some.injEq, Prod.mk.injEq] at hr
    rw [← hr.2]
    exact read_takes_one s s' x h

theorem read_I2C1_ISR_takes_one (s s1 : I2C_polling) (v : Nat)
    (hr : s.read_I2C1_ISR = some (v, s1)) : s1.hardware.length + 1 = s.hardware.length := by
  unfold I2C_polling.read_I2C1_ISR at hr
  cases h : s.read with
  | none => rw [h] at hr; exact absurd hr (by simp)
  | some p =>
    obtain ⟨x, s'⟩ := p
    rw [h] at hr
    simp only [Option.some.injEq, Prod.mk.injEq] at hr
    rw [← hr.2]
    exact read_takes_one s s' x h

theorem read_I2C1_ICR_takes_one (s s1 : I2C_polling) (v : Nat)
    (hr : s.read_I2C1_ICR = some (v, s1)) : s1.hardware.length + 1 = s.hardware.length := by
  unfold I2C_polling.read_I2C1_ICR at hr
  cases h : s.read with
  | none => rw [h] at hr; exact absurd hr (by simp)
  | some p =>
    obtain ⟨x, s'⟩ := p
    rw [h] at hr
    simp only [Option.some.injEq, Prod.mk.injEq] at hr
    rw [← hr.2]
    exact read_takes_one s s' x h

theorem set_flag_ICR_takes_one (f : Nat) (s s1 : I2C_polling)
    (hr : s.set_flag_ICR f = some s1) : s1.hardware.length + 1 = s.hardware.length := by
  unfold I2C_polling.set_flag_ICR at hr
  cases h : s.read with
  | none => rw [h] at hr; exact absurd hr (by simp)
  | some p =>
    obtain ⟨x, s'⟩ := p
    rw [h] at hr
    simp only [Option.some.injEq] at hr
    rw [← hr]
    exact read_takes_one s s' x h

theorem master_receive_body_takes (n w : Nat) (s : I2C_polling)
    (r : Nat × Bool) (s2 : I2C_polling) (h : I2C_master.receive_body n w s = some (r, s2)) :
    s2.hardware.length ≤ s.hardware.length := by
  unfold I2C_master.receive_body at h
  cases h1 : s.read_ISR with
  | none => rw [h1] at h; exact absurd h (by simp)
  | some p =>
    obtain ⟨v, s'⟩ := p
    rw [h1] at h
    have hl := read_ISR_takes_one s s' v h1
    dsimp only at h
    split at h
    · exact absurd h (by simp)
    · rename_i w1 sa hsa
      have hla : sa.hardware.length ≤ s'.hardware.length := by
        split at hsa
        · cases h3 : s'.read_RXDR with
          | none => rw [h3] at hsa; exact absurd hsa (by simp)
          | some q =>
            obtain ⟨x, sx⟩ := q
            rw [h3] at hsa
            have := read_RXDR_takes_one s' sx x h3
            dsimp only at hsa
            split at hsa
            · simp only [Option.some.injEq, Prod.mk.injEq] at hsa
              rw [← hsa.2]
              show sx.hardware.length ≤ _
              omega
            · exact absurd hsa (by simp)
        · simp only [Option.some.injEq, Prod.mk.injEq] at hsa
          rw [← hsa.2]
      cases h2 : sa.read_ISR with
      | none => rw [h2] at h; exact absurd h (by simp)
      | some q =>
        obtain ⟨v2, sb⟩ := q
        rw [h2] at h
        simp only [Option.some.injEq, Prod.mk.injEq] at h
        have := read_ISR_takes_one sa sb v2 h2
        rw [← h.2]
        omega

theorem slave_transmit_guard_takes (e : Bool) (s : I2C_polling) (b : Bool) (s1 : I2C_polling)
    (h : I2C_slave.transmit_guard e s = some (b, s1)) :
    s1.hardware.length < s.hardware.length := by
  unfold I2C_slave.transmit_guard at h
  cases h1 : s.read_I2C1_ISR with
  | none => rw [h1] at h; exact absurd h (by simp)
  | some p =>
    obtain ⟨v, s'⟩ := p
    rw [h1] at h
    have hl := read_I2C1_ISR_takes_one s s' v h1
    dsimp only at h
    split at h
    · cases h2 : s'.read_I2C1_ISR with
      | none => rw [h2] at h; exact absurd h (by simp)
      | some q =>
        obtain ⟨v2, s''⟩ := q
        rw [h2] at h
        simp only [Option.some.injEq, Prod.mk.injEq] at h
        have := read_I2C1_ISR_takes_one s' s'' v2 h2
        rw [← h.2]
        omega
    · simp only [Option.some.injEq, Prod.mk.injEq] at h
      rw [← h.2]
      omega

theorem slave_transmit_guard_timed_takes (t start : Nat) (e : Bool) (s : I2C_polling) (b : Bool)
    (s1 : I2C_polling) (h : I2C_slave.transmit_guard_timed t start e s = some (b, s1)) :
    s1.hardware.length < s.hardware.length := by
  unfold I2C_slave.transmit_guard_timed at h
  cases h1 : I2C_slave.transmit_guard e s with
  | none => rw [h1] at h; exact absurd h (by simp)
  | some p =>
    obtain ⟨b1, s'⟩ := p
    rw [h1] at h
    have hl := slave_transmit_guard_takes e s b1 s' h1
    cases b1 with
    | false =>
      simp only [Option.some.injEq, Prod.mk.injEq] at h
      rw [← h.2]
      exact hl
    | true =>
      dsimp only at h
      cases h2 : s'.counter_get with
      | none => rw [h2] at h; exact absurd h (by simp)
      | some q =>
        obtain ⟨now, s''⟩ := q
        rw [h2] at h
        simp only [Option.some.injEq, Prod.mk.injEq] at h
        have := counter_get_takes_one s' s'' now h2
        rw [← h.2]
        omega

theorem slave_receive_guard_takes (e : Bool) (s : I2C_polling) (b : Bool) (s1 : I2C_polling)
    (h : I2C_slave.receive_guard e s = some (b, s1)) :
    s1.hardware.length < s.hardware.length := by
  unfold I2C_slave.receive_guard at h
  cases h1 : s.read_I2C1_ISR with
  | none => rw [h1] at h; exact absurd h (by simp)
  | some p =>
    obtain ⟨v, s'⟩ := p
    rw [h1] at h
    simp only [Option.some.injEq, Prod.mk.injEq] at h
    have := read_I2C1_ISR_takes_one s s' v h1
    rw [← h.2]
    omega

theorem slave_receive_guard_timed_takes (t start : Nat) (e : Bool) (s : I2C_polling) (b : Bool)
    (s1 : I2C_polling) (h : I2C_slave.receive_guard_timed t start e s = some (b, s1)) :
    s1.hardware.length < s.hardware.length := by
  unfold I2C_slave.receive_guard_timed at h
  cases h1 : s.read_I2C1_ICR with
  | none => rw [h1] at h; exact absurd h (by simp)
  | some p =>
    obtain ⟨v, s'⟩ := p
    rw [h1] at h
    have hl := read_I2C1_ICR_takes_one s s' v h1
    dsimp only at h
    split at h
    · cases h2 : s'.counter_get with
      | none => rw [h2] at h; exact absurd h (by simp)
      | some q =>
        obtain ⟨now, s''⟩ := q
        rw [h2] at h
        simp only [Option.some.injEq, Prod.mk.injEq] at h
        have := counter_get_takes_one s' s'' now h2
        rw [← h.2]
        omega
    · simp only [Option.some.injEq, Prod.mk.injEq] at h
      rw [← h.2]
      omega

theorem clear_ADDR_takes (s s1 : I2C_polling) (h : I2C_slave.clear_ADDR s = some s1) :
    s1.hardware.length ≤ s.hardware.length := by
  unfold I2C_slave.clear_ADDR at h
  cases h1 : s.read_ISR with
  | none => rw [h1] at h; exact absurd h (by simp)
  | some p =>
    obtain ⟨v, s'⟩ := p
    rw [h1] at h
    have hl := read_ISR_takes_one s s' v h1
    dsimp only at h
    split at h
    · have := set_flag_ICR_takes_one _ _ _ h
      omega
    · simp only [Option.some.injEq] at h
      rw [← h]
      omega

theorem slave_transmit_body_takes (d : List Nat) (n w : Nat) (s : I2C_polling)
    (r : Nat × Bool) (s2 : I2C_polling) (h : I2C_slave.transmit_body d n w s = some (r, s2)) :
    s2.hardware.length ≤ s.hardware.length := by
  unfold I2C_slave.transmit_body at h
  cases h0 : I2C_slave.clear_ADDR s with
  | none => rw [h0] at h; exact absurd h (by simp)
  | some s0 =>
    rw [h0] at h
    have hl0 := clear_ADDR_takes s s0 h0
    dsimp only at h
    cases h1 : s0.read_ISR with
    | none => rw [h1] at h; exact absurd h (by simp)
    | some p =>
      obtain ⟨v, s'⟩ := p
      rw [h1] at h
      have hl := read_ISR_takes_one s0 s' v h1
      dsimp only at h
      split at h
      · exact absurd h (by simp)
      · rename_i w1 sa hsa
        have hla : sa.hardware.length = s'.hardware.length := by
          split at hsa
          · split at hsa
            · exact absurd hsa (by simp)
            · simp only [Option.some.injEq, Prod.mk.injEq] at hsa
              rw [← hsa.2]; rfl
          · simp only [Option.some.injEq, Prod.mk.injEq] at hsa
            rw [← hsa.2]
        cases h2 : sa.read_I2C1_ISR with
        | none => rw [h2] at h; exact absurd h (by simp)
        | some q =>
          obtain ⟨v2, sb⟩ := q
          rw [h2] at h
          simp only [Option.some.injEq, Prod.mk.injEq] at h
          have := read_I2C1_ISR_takes_one sa sb v2 h2
          rw [← h.2]
          omega

theorem slave_receive_body_takes (n w : Nat) (s : I2C_polling)
    (r : Nat × Bool) (s2 : I2C_polling) (h : I2C_slave.receive_body n w s = some (r, s2)) :
    s2.hardware.length ≤ s.hardware.length := by
  unfold I2C_slave.receive_body at h
  cases h0 : I2C_slave.clear_ADDR s with
  | none => rw [h0] at h; exact absurd h (by simp)
  | some s0 =>
    rw [h0] at h
    have hl0 := clear_ADDR_takes s s0 h0
    dsimp only at h
    cases h1 : s0.read_ISR with
    | none => rw [h1] at h; exact absurd h (by simp)
    | some p =>
      obtain ⟨v, s'⟩ := p
      rw [h1] at h
      have hl := read_ISR_takes_one s0 s' v h1
      dsimp only at h
      split at h
      · exact absurd h (by simp)
      · rename_i w1 sa hsa
        have hla : sa.hardware.length ≤ s'.hardware.length := by
          split at hsa
          · cases h3 : s'.read_RXDR with
            | none => rw [h3] at hsa; exact absurd hsa (by simp)
            | some q =>
              obtain ⟨x, sx⟩ := q
              rw [h3] at hsa
              have := read_RXDR_takes_one s' sx x h3
              dsimp only at hsa
              split at hsa
              · split at hsa
                · simp only [Option.some.injEq, Prod.mk.injEq] at hsa
                  rw [← hsa.2]
                  show sx.hardware.length ≤ _
                  omega
                · exact absurd hsa (by simp)
              · simp only [Option.some.injEq, Prod.mk.injEq] at hsa
                rw [← hsa.2]
                omega
          · simp only [Option.some.injEq, Prod.mk.injEq] at hsa
            rw [← hsa.2]
        cases h2 : sa.read_ISR with
        | none => rw [h2] at h; exact absurd h (by simp)
        | some q =>
          obtain ⟨v2, sb⟩ := q
          rw [h2] at h
          simp only [Option.some.injEq, Prod.mk.injEq] at h
          have := read_ISR_takes_one sa sb v2 h2
          rw [← h.2]
          omega

/-- The loops of the eight polling transfers evaluate their guard at most once
per observation left, so the bound the transfers pass, one more than the number
of observations, is never what ends a loop: every larger bound gives the same
result. -/
theorem polling_loops_fuel (d : List Nat) (n t start fuel words : Nat) (error : Bool)
    (s : I2C_polling) (h : s.hardware.length < fuel) :
    (I2C_polling.while_loop I2C_master.polling_guard (I2C_master.transmit_body d n)
        fuel words error s =
      I2C_polling.while_loop I2C_master.polling_guard (I2C_master.transmit_body d n)
        (s.hardware.length + 1) words error s) ∧
    (I2C_polling.while_loop (I2C_master.polling_guard_timed t start)
        (I2C_master.transmit_body d n) fuel words error s =
      I2C_polling.while_loop (I2C_master.polling_guard_timed t start)
        (I2C_master.transmit_body d n) (s.hardware.length + 1) words error s) ∧
    (I2C_polling.while_loop I2C_master.polling_guard (I2C_master.receive_body n)
        fuel words error s =
      I2C_polling.while_loop I2C_master.polling_guard (I2C_master.receive_body n)
        (s.hardware.length + 1) words error s) ∧
    (I2C_polling.while_loop (I2C_master.polling_guard_timed t start)
        (I2C_master.receive_body n) fuel words error s =
      I2C_polling.while_loop (I2C_master.polling_guard_timed t start)
        (I2C_master.receive_body n) (s.hardware.length + 1) words error s) ∧
    (I2C_polling.while_loop I2C_slave.transmit_guard (I2C_slave.transmit_body d n)
        fuel words error s =
      I2C_polling.while_loop I2C_slave.transmit_guard (I2C_slave.transmit_body d n)
        (s.hardware.length + 1) words error s) ∧
    (I2C_polling.while_loop (I2C_slave.transmit_guard_timed t start)
        (I2C_slave.transmit_body d n) fuel words error s =
      I2C_polling.while_loop (I2C_slave.transmit_guard_timed t start)
        (I2C_slave.transmit_body d n) (s.hardware.length + 1) words error s) ∧
    (I2C_polling.while_loop I2C_slave.receive_guard (I2C_slave.receive_body n)
        fuel words error s =
      I2C_polling.while_loop I2C_slave.receive_guard (I2C_slave.receive_body n)
        (s.hardware.length + 1) words error s) ∧
    (I2C_polling.while_loop (I2C_slave.receive_guard_timed t start)
        (I2C_slave.receive_body n) fuel words error s =
      I2C_polling.while_loop (I2C_slave.receive_guard_timed t start)
        (I2C_slave.receive_body n) (s.hardware.length + 1) words error s) :=
  ⟨while_loop_fuel_irrelevant _ _ master_guard_takes (master_transmit_body_takes d n) _ _ _ _ h,
   while_loop_fuel_irrelevant _ _ (master_guard_timed_takes t start)
     (master_transmit_body_takes d n) _ _ _ _ h,
   while_loop_fuel_irrelevant _ _ master_guard_takes (master_receive_body_takes n) _ _ _ _ h,
   while_loop_fuel_irrelevant _ _ (master_guard_timed_takes t start)
     (master_receive_body_takes n) _ _ _ _ h,
   while_loop_fuel_irrelevant _ _ slave_transmit_guard_takes (slave_transmit_body_takes d n)
     _ _ _ _ h,
   while_loop_fuel_irrelevant _ _ (slave_transmit_guard_timed_takes t start)
     (slave_transmit_body_takes d n) _ _ _ _ h,
   while_loop_fuel_irrelevant _ _ slave_receive_guard_takes (slave_receive_body_takes n)
     _ _ _ _ h,
   while_loop_fuel_irrelevant _ _ (slave_receive_guard_timed_takes t start)
     (slave_receive_body_takes n) _ _ _ _ h⟩

/-! ## Accesses to the hardware in the polling transfers -/

theorem advanced_trans {a b a' b' : Nat} {s s1 s2 : I2C_polling} (h1 : s.advanced a b s1)
    (h2 : s1.advanced a' b' s2) : s.advanced (a + a') (b + b') s2 := by
  obtain ⟨c, hc1, hc2, hh, hi, hr⟩ := h1
  obtain ⟨c', hc1', hc2', hh', hi', hr'⟩ := h2
  exact ⟨c + c', by omega, by omega, by rw [hh', hh, List.drop_drop], hi'.trans hi,
    hr'.trans hr⟩

theorem advanced_mono {a b a' b' : Nat} {s s1 : I2C_polling} (h : s.advanced a b s1)
    (ha : a' ≤ a) (hb : b ≤ b') : s.advanced a' b' s1 := by
  obtain ⟨c, hc1, hc2, hh⟩ := h
  exact ⟨c, by omega, by omega, hh⟩

theorem advanced_length {a b : Nat} {s s1 : I2C_polling} (h : s.advanced a b s1) :
    s.hardware.length ≤ s1.hardware.length + b ∧
      s1.hardware.length + a ≤ max a s.hardware.length := by
  obtain ⟨c, hc1, hc2, hh, _⟩ := h
  rw [hh, List.length_drop]
  omega

theorem advanced_mem {a b : Nat} {s s1 : I2C_polling} (h : s.advanced a b s1)
    {x : I2C_sample} (hx : x ∈ s1.hardware) : x ∈ s.hardware := by
  obtain ⟨c, _, _, hh, _⟩ := h
  rw [hh] at hx
  exact List.mem_of_mem_drop hx

theorem advanced_id {a b : Nat} {s s1 : I2C_polling} (h : s.advanced a b s1) : s1.id = s.id := by
  obtain ⟨c, _, _, _, hi, _⟩ := h
  exact hi

theorem read_returns (s : I2C_polling) (h : 1 ≤ s.hardware.length) :
    ∃ x s1, s.read = some (x, s1) ∧ x ∈ s.hardware ∧ s.advanced 1 1 s1 := by
  cases hh : s.hardware with
  | nil => rw [hh] at h; exact absurd h (by simp)
  | cons x rest =>
    refine ⟨x, { s with hardware := rest }, ?_, List.mem_cons_self _ _, 1, le_refl _, le_refl _,
      ?_, rfl, rfl⟩
    · unfold I2C_polling.read
      rw [hh]
    · rw [hh]
      rfl

theorem read_ISR_returns (s : I2C_polling) (h : 1 ≤ s.hardware.length) :
    ∃ x s1, s.read_ISR = some ((x.p_registers s.id).ISR, s1) ∧ x ∈ s.hardware ∧
      s.advanced 1 1 s1 := by
  obtain ⟨x, s1, h1, hx, a1⟩ := read_returns s h
  exact ⟨x, s1, by unfold I2C_polling.read_ISR; rw [h1], hx, a1⟩

theorem counter_get_returns (s : I2C_polling) (h : 1 ≤ s.hardware.length) :
    ∃ x s1, s.counter_get = some (x.now, s1) ∧ x ∈ s.hardware ∧ s.advanced 1 1 s1 := by
  obtain ⟨x, s1, h1, hx, a1⟩ := read_returns s h
  exact ⟨x, s1, by unfold I2C_polling.counter_get; rw [h1], hx, a1⟩

theorem read_RXDR_returns (s : I2C_polling) (h : 1 ≤ s.hardware.length) :
    ∃ v s1, s.read_RXDR = some (v, s1) ∧ s.advanced 1 1 s1 := by
  obtain ⟨x, s1, h1, _, a1⟩ := read_returns s h
  exact ⟨_, s1, by unfold I2C_polling.read_RXDR; rw [h1], a1⟩

theorem read_I2C1_ISR_returns (s : I2C_polling) (h : 1 ≤ s.hardware.length) :
    ∃ x s1, s.read_I2C1_ISR = some (x.I2C1.ISR, s1) ∧ x ∈ s.hardware ∧ s.advanced 1 1 s1 := by
  obtain ⟨x, s1, h1, hx, a1⟩ := read_returns s h
  exact ⟨x, s1, by unfold I2C_polling.read_I2C1_ISR; rw [h1], hx, a1⟩

theorem read_I2C1_ICR_returns (s : I2C_polling) (h : 1 ≤ s.hardware.length) :
    ∃ x s1, s.read_I2C1_ICR = some (x.I2C1.ICR, s1) ∧ x ∈ s.hardware ∧ s.advanced 1 1 s1 := by
  obtain ⟨x, s1, h1, hx, a1⟩ := read_returns s h
  exact ⟨x, s1, by unfold I2C_polling.read_I2C1_ICR; rw [h1], hx, a1⟩

theorem set_flag_ICR_returns (f : Nat) (s : I2C_polling) (h : 1 ≤ s.hardware.length) :
    ∃ s1, s.set_flag_ICR f = some s1 ∧ s.advanced 1 1 s1 := by
  obtain ⟨x, s1, h1, _, c, hc1, hc2, hh, hi, hr⟩ := read_returns s h
  exact ⟨{ s1 with writes := s1.writes ++ [I2C_write.ICR (set_flag (x.p_registers s.id).ICR f)] },
    by unfold I2C_polling.set_flag_ICR; rw [h1], c, hc1, hc2, hh, hi, hr⟩

theorem master_guard_returns (e : Bool) (s : I2C_polling) (h : 3 ≤ s.hardware.length) :
    ∃ b s1, I2C_master.polling_guard e s = some (b, s1) ∧ s.advanced 1 3 s1 ∧
      (b = true → e = false ∧
        (∃ x ∈ s.hardware, is_flag (x.p_registers s.id).ISR I2C_ISR_STOPF = false) ∧
        ∃ y ∈ s.hardware, false = false) := by
  obtain ⟨x, s1, h1, hx, a1⟩ := read_ISR_returns s (by omega)
  refine ⟨_, s1, by unfold I2C_master.polling_guard; rw [h1],
    advanced_mono a1 (le_refl _) (by omega), ?_⟩
  intro hb
  simp only [Bool.and_eq_true, beq_iff_eq] at hb
  exact ⟨hb.2, ⟨x, hx, hb.1⟩, x, hx, rfl⟩

theorem master_guard_timed_returns (t start : Nat) (e : Bool) (s : I2C_polling)
    (h : 3 ≤ s.hardware.length) :
    ∃ b s1, I2C_master.polling_guard_timed t start e s = some (b, s1) ∧ s.advanced 1 3 s1 ∧
      (b = true → e = false ∧
        (∃ x ∈ s.hardware, is_flag (x.p_registers s.id).ISR I2C_ISR_STOPF = false) ∧
        ∃ y ∈ s.hardware, decide (t < time.diff y.now start) = false) := by
  obtain ⟨x, s1, h1, hx, a1⟩ := read_ISR_returns s (by omega)
  have l1 := advanced_length a1
  unfold I2C_master.polling_guard_timed
  rw [h1]
  dsimp only
  split
  · rename_i hc
    simp only [Bool.and_eq_true, beq_iff_eq] at hc
    obtain ⟨y, s2, h2, hy, a2⟩ := counter_get_returns s1 (by omega)
    rw [h2]
    refine ⟨_, s2, rfl, advanced_mono (advanced_trans a1 a2) (by omega) (by omega), ?_⟩
    intro hb
    simp only [decide_eq_true_eq] at hb
    exact ⟨hc.2, ⟨x, hx, hc.1⟩, y, advanced_mem a1 hy, by
      simp only [decide_eq_false_iff_not]
      omega⟩
  · exact ⟨_, s1, rfl, advanced_mono a1 (le_refl _) (by omega), fun hb => absurd hb (by simp)⟩

theorem slave_transmit_guard_returns (e : Bool) (s : I2C_polling) (h : 3 ≤ s.hardware.length) :
    ∃ b s1, I2C_slave.transmit_guard e s = some (b, s1) ∧ s.advanced 1 2 s1 ∧
      (b = true → e = false ∧
        (∃ x ∈ s.hardware, is_flag x.I2C1.ISR I2C_ISR_STOPF = false) ∧
        ∃ y ∈ s.hardware, false = false) := by
  obtain ⟨x, s1, h1, hx, a1⟩ := read_I2C1_ISR_returns s (by omega)
  have l1 := advanced_length a1
  unfold I2C_slave.transmit_guard
  rw [h1]
  dsimp only
  split
  · rename_i hc
    obtain ⟨x2, s2, h2, _, a2⟩ := read_I2C1_ISR_returns s1 (by omega)
    rw [h2]
    refine ⟨_, s2, rfl, advanced_mono (advanced_trans a1 a2) (by omega) (by omega), ?_⟩
    intro hb
    simp only [Bool.and_eq_true, beq_iff_eq] at hb
    exact ⟨hb.2, ⟨x, hx, hc⟩, x, hx, rfl⟩
  · exact ⟨_, s1, rfl, advanced_mono a1 (le_refl _) (by omega), fun hb => absurd hb (by simp)⟩

theorem slave_transmit_guard_timed_returns (t start : Nat) (e : Bool) (s : I2C_polling)
    (h : 3 ≤ s.hardware.length) :
    ∃ b s1, I2C_slave.transmit_guard_timed t start e s = some (b, s1) ∧ s.advanced 1 3 s1 ∧
      (b = true → e = false ∧
        (∃ x ∈ s.hardware, is_flag x.I2C1.ISR I2C_ISR_STOPF = false) ∧
        ∃ y ∈ s.hardware, decide (t < time.diff y.now start) = false) := by
  obtain ⟨b, s1, h1, a1, g1⟩ := slave_transmit_guard_returns e s h
  have l1 := advanced_length a1
  unfold I2C_slave.transmit_guard_timed
  rw [h1]
  cases b with
  | false =>
    exact ⟨_, s1, rfl, advanced_mono a1 (le_refl _) (by omega), fun hb => absurd hb (by simp)⟩
  | true =>
    dsimp only
    obtain ⟨y, s2, h2, hy, a2⟩ := counter_get_returns s1 (by omega)
    rw [h2]
    refine ⟨_, s2, rfl, advanced_mono (advanced_trans a1 a2) (by omega) (by omega), ?_⟩
    intro hb
    simp only [decide_eq_true_eq] at hb
    obtain ⟨he, hx, _⟩ := g1 rfl
    exact ⟨he, hx, y, advanced_mem a1 hy, by simp only [decide_eq_false_iff_not]; omega⟩

theorem slave_receive_guard_returns (e : Bool) (s : I2C_polling) (h : 3 ≤ s.hardware.length) :
    ∃ b s1, I2C_slave.receive_guard e s = some (b, s1) ∧ s.advanced 1 3 s1 ∧
      (b = true → e = false ∧
        (∃ x ∈ s.hardware, is_flag x.I2C1.ISR I2C_ISR_STOPF = false) ∧
        ∃ y ∈ s.hardware, false = false) := by
  obtain ⟨x, s1, h1, hx, a1⟩ := read_I2C1_ISR_returns s (by omega)
  refine ⟨_, s1, by unfold I2C_slave.receive_guard; rw [h1],
    advanced_mono a1 (le_refl _) (by omega), ?_⟩
  intro hb
  simp only [Bool.and_eq_true, beq_iff_eq] at hb
  exact ⟨hb.2, ⟨x, hx, hb.1⟩, x, hx, rfl⟩

theorem slave_receive_guard_timed_returns (t start : Nat) (e : Bool) (s : I2C_polling)
    (h : 3 ≤ s.hardware.length) :
    ∃ b s1, I2C_slave.receive_guard_timed t start e s = some (b, s1) ∧ s.advanced 1 3 s1 ∧
      (b = true → e = false ∧
        (∃ x ∈ s.hardware, is_flag x.I2C1.ICR I2C_ICR_STOPCF = false) ∧
        ∃ y ∈ s.hardware, decide (t < time.diff y.now start) = false) := by
  obtain ⟨x, s1, h1, hx, a1⟩ := read_I2C1_ICR_returns s (by omega)
  have l1 := advanced_length a1
  unfold I2C_slave.receive_guard_timed
  rw [h1]
  dsimp only
  split
  · rename_i hc
    simp only [Bool.and_eq_true, beq_iff_eq] at hc
    obtain ⟨y, s2, h2, hy, a2⟩ := counter_get_returns s1 (by omega)
    rw [h2]
    refine ⟨_, s2, rfl, advanced_mono (advanced_trans a1 a2) (by omega) (by omega), ?_⟩
    intro hb
    simp only [decide_eq_true_eq] at hb
    exact ⟨hc.2, ⟨x, hx, hc.1⟩, y, advanced_mem a1 hy, by
      simp only [decide_eq_false_iff_not]
      omega⟩
  · exact ⟨_, s1, rfl, advanced_mono a1 (le_refl _) (by omega), fun hb => absurd hb (by simp)⟩

theorem master_transmit_body_returns (d : List Nat) (n : Nat) (hd : n ≤ d.length) (w : Nat)
    (s : I2C_polling) (_ : 0 ≤ s.received.length) (h : 5 ≤ s.hardware.length) :
    ∃ r s2, I2C_master.transmit_body d n w s = some (r, s2) ∧ s.advanced 0 5 s2 ∧
      ∃ x ∈ s.hardware, r.2 = is_I2C_ISR_error (x.p_registers s.id).ISR := by
  obtain ⟨x1, s1, h1, _, a1⟩ := read_ISR_returns s (by omega)
  have l1 := advanced_length a1
  unfold I2C_master.transmit_body
  rw [h1]
  dsimp only
  by_cases hc : is_flag (x1.p_registers s.id).ISR I2C_ISR_TXE = true ∧ w < n
  · rw [if_pos hc, List.getElem?_eq_getElem (show w < d.length by omega)]
    dsimp only
    obtain ⟨x2, s2, h2, hx2, a2⟩ := read_ISR_returns (s1.write_TXDR (u8 d[w])) (by
      show 1 ≤ s1.hardware.length
      omega)
    rw [h2]
    obtain ⟨c, hc1, hc2, hh, hi, hr⟩ := a2
    have a2' : s1.advanced 1 1 s2 := ⟨c, hc1, hc2, hh, hi, hr⟩
    refine ⟨_, s2, rfl, advanced_mono (advanced_trans a1 a2') (by omega) (by omega), x2,
      advanced_mem a1 hx2, ?_⟩
    exact congrArg (fun i => is_I2C_ISR_error (x2.p_registers i).ISR)
      (show s1.id = s.id from advanced_id a1)
  · rw [if_neg hc]
    dsimp only
    obtain ⟨x2, s2, h2, hx2, a2⟩ := read_ISR_returns s1 (by omega)
    rw [h2]
    refine ⟨_, s2, rfl, advanced_mono (advanced_trans a1 a2) (by omega) (by omega), x2,
      advanced_mem a1 hx2, ?_⟩
    exact congrArg (fun i => is_I2C_ISR_error (x2.p_registers i).ISR)
      (show s1.id = s.id from advanced_id a1)

theorem master_receive_body_returns (n w : Nat) (s : I2C_polling)
    (hd : n ≤ s.received.length) (h : 5 ≤ s.hardware.length) :
    ∃ r s2, I2C_master.receive_body n w s = some (r, s2) ∧ s.advanced 0 5 s2 ∧
      ∃ x ∈ s.hardware, r.2 = is_I2C_ISR_error (x.p_registers s.id).ISR := by
  obtain ⟨x1, s1, h1, _, a1⟩ := read_ISR_returns s (by omega)
  have l1 := advanced_length a1
  unfold I2C_master.receive_body
  rw [h1]
  dsimp only
  by_cases hc : is_flag (x1.p_registers s.id).ISR I2C_ISR_RXNE = true ∧ w < n
  · rw [if_pos hc]
    obtain ⟨v, sx, hx, ax⟩ := read_RXDR_returns s1 (by omega)
    have lx := advanced_length ax
    have a1x := advanced_trans a1 ax
    rw [hx]
    dsimp only
    have hlen : w < sx.received.length := by
      obtain ⟨c, _, _, _, _, hr⟩ := a1x
      omega
    rw [if_pos hlen]
    dsimp only
    obtain ⟨x2, s2, h2, hx2, a2⟩ := read_ISR_returns
      { sx with received := sx.received.set w (u8 v) } (by
        show 1 ≤ sx.hardware.length
        omega)
    rw [h2]
    obtain ⟨c, hc1, hc2, hh, hi, hr⟩ := a2
    have a2x : sx.advanced 1 1 s2 :=
      ⟨c, hc1, hc2, hh, hi, hr.trans (List.length_set _ _ _)⟩
    refine ⟨_, s2, rfl, advanced_mono (advanced_trans a1x a2x) (by omega) (by omega), x2,
      advanced_mem a1x hx2, ?_⟩
    exact congrArg (fun i => is_I2C_ISR_error (x2.p_registers i).ISR)
      (show sx.id = s.id from advanced_id a1x)
  · rw [if_neg hc]
    dsimp only
    obtain ⟨x2, s2, h2, hx2, a2⟩ := read_ISR_returns s1 (by omega)
    rw [h2]
    refine ⟨_, s2, rfl, advanced_mono (advanced_trans a1 a2) (by omega) (by omega), x2,
      advanced_mem a1 hx2, ?_⟩
    exact congrArg (fun i => is_I2C_ISR_error (x2.p_registers i).ISR)
      (show s1.id = s.id from advanced_id a1)

theorem clear_ADDR_returns (s : I2C_polling) (h : 2 ≤ s.hardware.length) :
    ∃ s1, I2C_slave.clear_ADDR s = some s1 ∧ s.advanced 1 2 s1 := by
  obtain ⟨x, s1, h1, _, a1⟩ := read_ISR_returns s (by omega)
  have l1 := advanced_length a1
  unfold I2C_slave.clear_ADDR
  rw [h1]
  dsimp only
  split
  · obtain ⟨s2, h2, a2⟩ := set_flag_ICR_returns I2C_ICR_ADDRCF s1 (by omega)
    exact ⟨s2, h2, advanced_mono (advanced_trans a1 a2) (by omega) (by omega)⟩
  · exact ⟨s1, rfl, advanced_mono a1 (le_refl _) (by omega)⟩

theorem slave_transmit_body_returns (d : List Nat) (n : Nat) (hd : n ≤ d.length) (w : Nat)
    (s : I2C_polling) (_ : 0 ≤ s.received.length) (h : 5 ≤ s.hardware.length) :
    ∃ r s2, I2C_slave.transmit_body d n w s = some (r, s2) ∧ s.advanced 0 5 s2 ∧
      ∃ x ∈ s.hardware, r.2 = is_any_bit x.I2C1.ISR I2C_slave.error_mask := by
  obtain ⟨s0, h0, a0⟩ := clear_ADDR_returns s (by omega)
  have l0 := advanced_length a0
  obtain ⟨x1, s1, h1, _, a1⟩ := read_ISR_returns s0 (by omega)
  have l1 := advanced_length a1
  have a01 := advanced_trans a0 a1
  unfold I2C_slave.transmit_body
  rw [h0]
  dsimp only
  rw [h1]
  dsimp only
  by_cases hc : is_flag (x1.p_registers s0.id).ISR I2C_ISR_TXE = true ∧ w < n
  · rw [if_pos hc, List.getElem?_eq_getElem (show w < d.length by omega)]
    dsimp only
    obtain ⟨x2, s2, h2, hx2, a2⟩ := read_I2C1_ISR_returns (s1.write_TXDR (u8 d[w])) (by
      show 1 ≤ s1.hardware.length
      omega)
    rw [h2]
    obtain ⟨c, hc1, hc2, hh, hi, hr⟩ := a2
    have a2' : s1.advanced 1 1 s2 := ⟨c, hc1, hc2, hh, hi, hr⟩
    exact ⟨_, s2, rfl, advanced_mono (advanced_trans a01 a2') (by omega) (by omega), x2,
      advanced_mem a01 hx2, rfl⟩
  · rw [if_neg hc]
    dsimp only
    obtain ⟨x2, s2, h2, hx2, a2⟩ := read_I2C1_ISR_returns s1 (by omega)
    rw [h2]
    exact ⟨_, s2, rfl, advanced_mono (advanced_trans a01 a2) (by omega) (by omega), x2,
      advanced_mem a01 hx2, rfl⟩

theorem slave_receive_body_returns (n w : Nat) (s : I2C_polling)
    (hd : n ≤ s.received.length) (h : 5 ≤ s.hardware.length) :
    ∃ r s2, I2C_slave.receive_body n w s = some (r, s2) ∧ s.advanced 0 5 s2 ∧
      ∃ x ∈ s.hardware, r.2 = is_I2C_ISR_error (x.p_registers s.id).ISR := by
  obtain ⟨s0, h0, a0⟩ := clear_ADDR_returns s (by omega)
  have l0 := advanced_length a0
  obtain ⟨x1, s1, h1, _, a1⟩ := read_ISR_returns s0 (by omega)
  have l1 := advanced_length a1
  have a01 := advanced_trans a0 a1
  unfold I2C_slave.receive_body
  rw [h0]
  dsimp only
  rw [h1]
  dsimp only
  by_cases hc : is_flag (x1.p_registers s0.id).ISR I2C_ISR_RXNE = true
  · rw [if_pos hc]
    obtain ⟨v, sx, hx, ax⟩ := read_RXDR_returns s1 (by omega)
    have lx := advanced_length ax
    have a1x := advanced_trans a01 ax
    rw [hx]
    dsimp only
    by_cases hw : w < n
    · rw [if_pos hw]
      have hlen : w < sx.received.length := by
        obtain ⟨c, _, _, _, _, hr⟩ := a1x
        omega
      rw [if_pos hlen]
      dsimp only
      obtain ⟨x2, s2, h2, hx2, a2⟩ := read_ISR_returns
        { sx with received := sx.received.set w (u8 v) } (by
          show 1 ≤ sx.hardware.length
          omega)
      rw [h2]
      obtain ⟨c, hc1, hc2, hh, hi, hr⟩ := a2
      have a2x : sx.advanced 1 1 s2 :=
        ⟨c, hc1, hc2, hh, hi, hr.trans (List.length_set _ _ _)⟩
      refine ⟨_, s2, rfl, advanced_mono (advanced_trans a1x a2x) (by omega) (by omega), x2,
        advanced_mem a1x hx2, ?_⟩
      exact congrArg (fun i => is_I2C_ISR_error (x2.p_registers i).ISR)
        (show sx.id = s.id from advanced_id a1x)
    · rw [if_neg hw]
      dsimp only
      obtain ⟨x2, s2, h2, hx2, a2⟩ := read_ISR_returns sx (by omega)
      rw [h2]
      refine ⟨_, s2, rfl, advanced_mono (advanced_trans a1x a2) (by omega) (by omega), x2,
        advanced_mem a1x hx2, ?_⟩
      exact congrArg (fun i => is_I2C_ISR_error (x2.p_registers i).ISR)
        (show sx.id = s.id from advanced_id a1x)
  · rw [if_neg hc]
    dsimp only
    obtain ⟨x2, s2, h2, hx2, a2⟩ := read_ISR_returns s1 (by omega)
    rw [h2]
    refine ⟨_, s2, rfl, advanced_mono (advanced_trans a01 a2) (by omega) (by omega), x2,
      advanced_mem a01 hx2, ?_⟩
    exact congrArg (fun i => is_I2C_ISR_error (x2.p_registers i).ISR)
      (show s1.id = s.id from advanced_id a01)

theorem status_after_loop_returns (error : Bool) (s : I2C_polling) (h : 2 ≤ s.hardware.length) :
    ∃ b s1, s.status_after_loop error = some (b, s1) ∧ s.advanced 0 2 s1 := by
  unfold I2C_polling.status_after_loop
  split
  · obtain ⟨x, s1, h1, _, a1⟩ := read_ISR_returns s (by omega)
    have l1 := advanced_length a1
    obtain ⟨s2, h2, a2⟩ := set_flag_ICR_returns I2C_ICR_errors s1 (by omega)
    rw [h1]
    dsimp only
    rw [h2]
    exact ⟨_, s2, rfl, advanced_mono (advanced_trans a1 a2) (by omega) (by omega)⟩
  · exact ⟨_, s, rfl, 0, le_refl _, by omega, rfl, rfl, rfl⟩

theorem master_finish_returns (words : Nat) (error : Bool) (s : I2C_polling)
    (h : 6 ≤ s.hardware.length) :
    ∃ r s', I2C_master.finish words error s = some (r, s') := by
  obtain ⟨b, s1, h1, a1⟩ := status_after_loop_returns error s (by omega)
  have l1 := advanced_length a1
  obtain ⟨s2, h2, _⟩ := set_flag_ICR_returns I2C_ICR_STOPCF s1 (by omega)
  unfold I2C_master.finish
  rw [h1]
  dsimp only
  rw [h2]
  exact ⟨_, _, rfl⟩

theorem slave_finish_returns (words : Nat) (error : Bool) (s : I2C_polling)
    (h : 3 ≤ s.hardware.length) :
    ∃ r s', I2C_slave.finish words error s = some (r, s') := by
  obtain ⟨b, s1, h1, a1⟩ := status_after_loop_returns error s (by omega)
  have l1 := advanced_length a1
  obtain ⟨s2, h2, _⟩ := set_flag_ICR_returns I2C_ICR_STOPCF s1 (by omega)
  unfold I2C_slave.finish
  rw [h1]
  dsimp only
  rw [h2]
  exact ⟨_, _, rfl⟩

theorem slave_finish_returns6 (w : Nat) (e : Bool) (s : I2C_polling)
    (h : 6 ≤ s.hardware.length) : ∃ r s', I2C_slave.finish w e s = some (r, s') :=
  slave_finish_returns w e s (by omega)

theorem slave_transmit_finish_returns (words : Nat) (error : Bool) (s : I2C_polling)
    (h : 6 ≤ s.hardware.length) :
    ∃ r s', I2C_slave.transmit_finish words error s = some (r, s') := by
  obtain ⟨x1, s1, h1, _, a1⟩ := read_ISR_returns s (by omega)
  have l1 := advanced_length a1
  unfold I2C_slave.transmit_finish
  rw [h1]
  dsimp only
  by_cases hc : is_flag (x1.p_registers s.id).ISR I2C_ISR_STOPF = true
  · rw [if_pos hc]
    obtain ⟨x2, s2, h2, _, a2⟩ := read_ISR_returns s1 (by omega)
    have l2 := advanced_length a2
    rw [h2]
    dsimp only
    by_cases hn : is_flag (x2.p_registers s1.id).ISR I2C_ISR_NACKF = true
    · rw [if_pos hn]
      obtain ⟨s3, h3, a3⟩ := set_flag_ICR_returns I2C_ICR_NACKCF s2 (by omega)
      have l3 := advanced_length a3
      rw [h3]
      exact slave_finish_returns words error s3 (by omega)
    · rw [if_neg hn]
      exact slave_finish_returns words error s2 (by omega)
  · rw [if_neg hc]
    exact slave_finish_returns words error s1 (by omega)



/-! ## The polling transfers return -/

/-- A loop whose guard and body return as long as observations are left
returns when the hardware, whatever it showed before, goes on with at least
twenty-five observations in all of which the stop test of the guard (`S`) reads
a stop, or in all of which the error check of the body (`E`) reads an error, or
in all of which the deadline test of the guard (`L`) reads the deadline passed;
at least six observations are then left. -/
theorem while_loop_returns (S E : I2C_Id → I2C_sample → Bool) (L : I2C_sample → Bool) (N : Nat)
    (guard : Bool → I2C_polling → Option (Bool × I2C_polling))
    (body : Nat → I2C_polling → Option ((Nat × Bool) × I2C_polling))
    (hG : ∀ e s, 3 ≤ s.hardware.length →
      ∃ b s1, guard e s = some (b, s1) ∧ s.advanced 1 3 s1 ∧
        (b = true → e = false ∧ (∃ x ∈ s.hardware, S s.id x = false) ∧
          ∃ y ∈ s.hardware, L y = false))
    (hB : ∀ w s, N ≤ s.received.length → 5 ≤ s.hardware.length →
      ∃ r s2, body w s = some (r, s2) ∧ s.advanced 0 5 s2 ∧
        ∃ x ∈ s.hardware, r.2 = E s.id x) :
    ∀ (n : Nat) (hw more : List I2C_sample) (s : I2C_polling) (fuel w : Nat) (e : Bool),
      hw.length ≤ n → 25 ≤ more.length →
      ((∀ x ∈ more, S s.id x = true) ∨ (∀ x ∈ more, E s.id x = true) ∨
        (∀ x ∈ more, L x = true)) →
      N ≤ s.received.length → s.hardware = hw ++ more → s.hardware.length < fuel →
      ∃ r s', I2C_polling.while_loop guard body fuel w e s = some (r, s') ∧
        6 ≤ s'.hardware.length := by
  have ends : ∀ (s : I2C_polling) (fuel w : Nat) (e : Bool),
      17 ≤ s.hardware.length →
      ((∀ x ∈ s.hardware, S s.id x = true) ∨ (∀ x ∈ s.hardware, E s.id x = true) ∨
        (∀ x ∈ s.hardware, L x = true)) →
      N ≤ s.received.length → s.hardware.length < fuel →
      ∃ r s', I2C_polling.while_loop guard body fuel w e s = some (r, s') ∧
        6 ≤ s'.hardware.length := by
    intro s fuel w e hm hP hN hf
    obtain ⟨f, rfl⟩ : ∃ f, fuel = f + 1 := ⟨fuel - 1, by omega⟩
    obtain ⟨b, s1, hg, a1, g1⟩ := hG e s (by omega)
    have l1 := advanced_length a1
    rw [I2C_polling.while_loop, hg]
    cases b with
    | false => exact ⟨_, s1, rfl, by omega⟩
    | true =>
      dsimp only
      obtain ⟨_, ⟨x, hx, hSx⟩, y, hy, hLy⟩ := g1 rfl
      have hE : ∀ z ∈ s.hardware, E s.id z = true := by
        rcases hP with h | h | h
        · rw [h x hx] at hSx
          exact absurd hSx (by simp)
        · exact h
        · rw [h y hy] at hLy
          exact absurd hLy (by simp)
      obtain ⟨r, s2, hb, a2, x2, hx2, hr2⟩ := hB w s1 (by
        obtain ⟨_, _, _, _, _, hr⟩ := a1
        omega) (by omega)
      have l2 := advanced_length a2
      obtain ⟨w1, e1⟩ := r
      have he1 : e1 = true := by
        rw [show e1 = E s1.id x2 from hr2, advanced_id a1]
        exact hE x2 (advanced_mem a1 hx2)
      rw [hb]
      dsimp only
      obtain ⟨f', rfl⟩ : ∃ f', f = f' + 1 := ⟨f - 1, by omega⟩
      obtain ⟨b2, s3, hg2, a3, g3⟩ := hG e1 s2 (by omega)
      have l3 := advanced_length a3
      rw [I2C_polling.while_loop, hg2]
      cases b2 with
      | false => exact ⟨_, s3, rfl, by omega⟩
      | true =>
        rw [(g3 rfl).1] at he1
        exact absurd he1 (by simp)
  intro n
  induction n with
  | zero =>
    intro hw more s fuel w e hn hm hP hN hs hf
    have h0 : hw = [] := List.length_eq_zero.mp (Nat.le_zero.mp hn)
    rw [h0, List.nil_append] at hs
    exact ends s fuel w e (by rw [hs]; omega) (by rw [hs]; exact hP) hN hf
  | succ n ih =>
    intro hw more s fuel w e hn hm hP hN hs hf
    have hlen : s.hardware.length = hw.length + more.length := by rw [hs, List.length_append]
    obtain ⟨f, rfl⟩ : ∃ f, fuel = f + 1 := ⟨fuel - 1, by omega⟩
    obtain ⟨b, s1, hg, a1, _⟩ := hG e s (by omega)
    have l1 := advanced_length a1
    rw [I2C_polling.while_loop, hg]
    cases b with
    | false => exact ⟨_, s1, rfl, by omega⟩
    | true =>
      dsimp only
      obtain ⟨r, s2, hb, a2, _⟩ := hB w s1 (by
        obtain ⟨_, _, _, _, _, hr⟩ := a1
        omega) (by omega)
      obtain ⟨w1, e1⟩ := r
      rw [hb]
      dsimp only
      obtain ⟨c, hc1, hc2, hh, hi, hr⟩ := advanced_trans a1 a2
      by_cases hcl : c ≤ hw.length
      · apply ih (hw.drop c) more s2 f w1 e1
        · rw [List.length_drop]
          omega
        · exact hm
        · rw [hi]
          exact hP
        · omega
        · rw [hh, hs, List.drop_append_of_le_length hcl]
        · rw [hh, List.length_drop]
          omega
      · have hd : s2.hardware = more.drop (c - hw.length) := by
          rw [hh, hs, List.drop_append_eq_append_drop, List.drop_eq_nil_of_le (by omega),
            List.nil_append]
        apply ends s2 f w1 e1
        · rw [hd, List.length_drop]
          omega
        · rw [hd, hi]
          rcases hP with h | h | h
          · exact Or.inl fun x hx => h x (List.mem_of_mem_drop hx)
          · exact Or.inr (Or.inl fun x hx => h x (List.mem_of_mem_drop hx))
          · exact Or.inr (Or.inr fun x hx => h x (List.mem_of_mem_drop hx))
        · omega
        · rw [hd, List.length_drop]
          omega

theorem loop_then_finish_returns (S E : I2C_Id → I2C_sample → Bool) (L : I2C_sample → Bool)
    (N : Nat) (guard : Bool → I2C_polling → Option (Bool × I2C_polling))
    (body : Nat → I2C_polling → Option ((Nat × Bool) × I2C_polling))
    (fin : Nat → Bool → I2C_polling → Option (I2C_result × I2C_polling))
    (hG : ∀ e s, 3 ≤ s.hardware.length →
      ∃ b s1, guard e s = some (b, s1) ∧ s.advanced 1 3 s1 ∧
        (b = true → e = false ∧ (∃ x ∈ s.hardware, S s.id x = false) ∧
          ∃ y ∈ s.hardware, L y = false))
    (hB : ∀ w s, N ≤ s.received.length → 5 ≤ s.hardware.length →
      ∃ r s2, body w s = some (r, s2) ∧ s.advanced 0 5 s2 ∧
        ∃ x ∈ s.hardware, r.2 = E s.id x)
    (hF : ∀ w e s, 6 ≤ s.hardware.length → ∃ r s', fin w e s = some (r, s'))
    (hw more : List I2C_sample) (s : I2C_polling) (hm : 25 ≤ more.length)
    (hP : (∀ x ∈ more, S s.id x = true) ∨ (∀ x ∈ more, E s.id x = true) ∨
      (∀ x ∈ more, L x = true))
    (hN : N ≤ s.received.length) (hs : s.hardware = hw ++ more) :
    ∃ r s', (match I2C_polling.while_loop guard body (s.hardware.length + 1) 0 false s with
      | none => none
      | some ((words, error), s2) => fin words error s2) = some (r, s') := by
  obtain ⟨r, s2, h2, l2⟩ := while_loop_returns S E L N guard body hG hB hw.length hw more s
    (s.hardware.length + 1) 0 false (le_refl _) hm hP hN hs (Nat.lt_succ_self _)
  obtain ⟨w, e⟩ := r
  rw [h2]
  exact hF w e s2 l2

/-- The read of the counter at the start of a timed transfer, on a driver with
at least twenty-six more observations of one of the three kinds ahead. -/
theorem timed_start (S E : I2C_Id → I2C_sample → Bool) (t : Nat) (s : I2C_polling)
    (more : List I2C_sample) (hm : 26 ≤ more.length)
    (hP : (∀ x ∈ more, S s.id x = true) ∨ (∀ x ∈ more, E s.id x = true) ∨
      (∀ x ∈ more, s.past_deadline t x = true)) :
    ∃ start hw' more', I2C_polling.counter_get { s with hardware := s.hardware ++ more } =
        some (start, { s with hardware := hw' ++ more' }) ∧ 25 ≤ more'.length ∧
      ((∀ x ∈ more', S s.id x = true) ∨ (∀ x ∈ more', E s.id x = true) ∨
        (∀ x ∈ more', decide (t < time.diff x.now start) = true)) := by
  cases hs : s.hardware with
  | nil =>
    cases more with
    | nil => exact absurd hm (by simp)
    | cons m0 more' =>
      refine ⟨m0.now, [], more', ?_, ?_, ?_⟩
      · simp [I2C_polling.counter_get, I2C_polling.read]
      · simp only [List.length_cons] at hm
        omega
      · rcases hP with h | h | h
        · exact Or.inl fun x hx => h x (List.mem_cons_of_mem _ hx)
        · exact Or.inr (Or.inl fun x hx => h x (List.mem_cons_of_mem _ hx))
        · have := h m0 (List.mem_cons_self _ _)
          simp [I2C_polling.past_deadline, hs] at this
  | cons h0 hw =>
    refine ⟨h0.now, hw, more, ?_, by omega, ?_⟩
    · simp [I2C_polling.counter_get, I2C_polling.read]
    · rcases hP with h | h | h
      · exact Or.inl h
      · exact Or.inr (Or.inl h)
      · refine Or.inr (Or.inr fun x hx => ?_)
        have := h x hx
        simpa [I2C_polling.past_deadline, hs] using this

theorem slave_transmit_guard_returns3 (e : Bool) (s : I2C_polling) (h : 3 ≤ s.hardware.length) :
    ∃ b s1, I2C_slave.transmit_guard e s = some (b, s1) ∧ s.advanced 1 3 s1 ∧
      (b = true → e = false ∧
        (∃ x ∈ s.hardware, is_flag x.I2C1.ISR I2C_ISR_STOPF = false) ∧
        ∃ y ∈ s.hardware, false = false) := by
  obtain ⟨b, s1, h1, a1, g1⟩ := slave_transmit_guard_returns e s h
  exact ⟨b, s1, h1, advanced_mono a1 (le_refl _) (by omega), g1⟩

theorem master_transmit_returns (a n : Nat) (data : List Nat) (s : I2C_polling)
    (more : List I2C_sample) (hp : s.p_i2c = true) (hh : s.p_i2c_master_handle = true)
    (hn : n > 0 ∧ n ≤ 255) (hd : n ≤ data.length) (hm : 26 ≤ more.length)
    (hP : (∀ x ∈ more, is_flag (x.p_registers s.id).ISR I2C_ISR_STOPF = true) ∨
      (∀ x ∈ more, is_I2C_ISR_error (x.p_registers s.id).ISR = true) ∨
      (∀ x ∈ more, false = true)) :
    ∃ r s', I2C_master.transmit_bytes_polling a (some data) n
      { s with hardware := s.hardware ++ more } = some (r, s') := by
  unfold I2C_master.transmit_bytes_polling
  dsimp only
  rw [if_pos ⟨hp, hh, hn⟩]
  exact loop_then_finish_returns
    (fun id x => is_flag (x.p_registers id).ISR I2C_ISR_STOPF)
    (fun id x => is_I2C_ISR_error (x.p_registers id).ISR)
    (fun _ => false) 0 _ _ _
    master_guard_returns (master_transmit_body_returns data n hd) master_finish_returns
    s.hardware more _ (by omega) hP (Nat.zero_le _) rfl

theorem master_transmit_timed_returns (a n t : Nat) (data : List Nat) (s : I2C_polling)
    (more : List I2C_sample) (hp : s.p_i2c = true) (hh : s.p_i2c_master_handle = true)
    (hn : n > 0 ∧ n ≤ 255) (ht : t > 0) (hd : n ≤ data.length) (hm : 26 ≤ more.length)
    (hP : (∀ x ∈ more, is_flag (x.p_registers s.id).ISR I2C_ISR_STOPF = true) ∨
      (∀ x ∈ more, is_I2C_ISR_error (x.p_registers s.id).ISR = true) ∨
      (∀ x ∈ more, s.past_deadline t x = true)) :
    ∃ r s', I2C_master.transmit_bytes_polling_timed a (some data) n t
      { s with hardware := s.hardware ++ more } = some (r, s') := by
  obtain ⟨start, hw', more', hc, hm', hP'⟩ := timed_start
    (fun id x => is_flag (x.p_registers id).ISR I2C_ISR_STOPF)
    (fun id x => is_I2C_ISR_error (x.p_registers id).ISR) t s more hm hP
  unfold I2C_master.transmit_bytes_polling_timed
  dsimp only
  rw [if_pos ⟨hp, hh, hn, ht⟩, hc]
  exact loop_then_finish_returns
    (fun id x => is_flag (x.p_registers id).ISR I2C_ISR_STOPF)
    (fun id x => is_I2C_ISR_error (x.p_registers id).ISR)
    (fun x => decide (t < time.diff x.now start)) 0 _ _ _
    (master_guard_timed_returns t start) (master_transmit_body_returns data n hd)
    master_finish_returns
    hw' more' _ hm' hP' (Nat.zero_le _) rfl

theorem master_receive_returns (a n : Nat) (s : I2C_polling)
    (more : List I2C_sample) (hp : s.p_i2c = true) (hh : s.p_i2c_master_handle = true)
    (hn : n > 0 ∧ n ≤ 255) (hd : n ≤ s.received.length) (hm : 26 ≤ more.length)
    (hP : (∀ x ∈ more, is_flag (x.p_registers s.id).ISR I2C_ISR_STOPF = true) ∨
      (∀ x ∈ more, is_I2C_ISR_error (x.p_registers s.id).ISR = true) ∨
      (∀ x ∈ more, false = true)) :
    ∃ r s', I2C_master.receive_bytes_polling a true n
      { s with hardware := s.hardware ++ more } = some (r, s') := by
  unfold I2C_master.receive_bytes_polling
  rw [if_pos ⟨hp, hh, rfl, hn⟩]
  exact loop_then_finish_returns
    (fun id x => is_flag (x.p_registers id).ISR I2C_ISR_STOPF)
    (fun id x => is_I2C_ISR_error (x.p_registers id).ISR)
    (fun _ => false) n _ _ _
    master_guard_returns (master_receive_body_returns n) master_finish_returns
    s.hardware more _ (by omega) hP hd rfl

theorem master_receive_timed_returns (a n t : Nat) (s : I2C_polling)
    (more : List I2C_sample) (hp : s.p_i2c = true) (hh : s.p_i2c_master_handle = true)
    (hn : n > 0 ∧ n ≤ 255) (ht : t > 0) (hd : n ≤ s.received.length) (hm : 26 ≤ more.length)
    (hP : (∀ x ∈ more, is_flag (x.p_registers s.id).ISR I2C_ISR_STOPF = true) ∨
      (∀ x ∈ more, is_I2C_ISR_error (x.p_registers s.id).ISR = true) ∨
      (∀ x ∈ more, s.past_deadline t x = true)) :
    ∃ r s', I2C_master.receive_bytes_polling_timed a true n t
      { s with hardware := s.hardware ++ more } = some (r, s') := by
  obtain ⟨start, hw', more', hc, hm', hP'⟩ := timed_start
    (fun id x => is_flag (x.p_registers id).ISR I2C_ISR_STOPF)
    (fun id x => is_I2C_ISR_error (x.p_registers id).ISR) t s more hm hP
  unfold I2C_master.receive_bytes_polling_timed
  rw [if_pos ⟨hp, hh, rfl, hn, ht⟩, hc]
  exact loop_then_finish_returns
    (fun id x => is_flag (x.p_registers id).ISR I2C_ISR_STOPF)
    (fun id x => is_I2C_ISR_error (x.p_registers id).ISR)
    (fun x => decide (t < time.diff x.now start)) n _ _ _
    (master_guard_timed_returns t start) (master_receive_body_returns n) master_finish_returns
    hw' more' _ hm' hP' hd rfl

theorem slave_transmit_returns (n : Nat) (data : List Nat) (s : I2C_polling)
    (more : List I2C_sample) (hp : s.p_i2c = true) (hh : s.p_i2c_slave_handle = true)
    (hn : n > 0 ∧ n ≤ 255) (hd : n ≤ data.length) (hm : 26 ≤ more.length)
    (hP : (∀ x ∈ more, is_flag x.I2C1.ISR I2C_ISR_STOPF = true) ∨
      (∀ x ∈ more, is_any_bit x.I2C1.ISR I2C_slave.error_mask = true) ∨
      (∀ x ∈ more, false = true)) :
    ∃ r s', I2C_slave.transmit_bytes_polling (some data) n
      { s with hardware := s.hardware ++ more } = some (r, s') := by
  unfold I2C_slave.transmit_bytes_polling
  dsimp only
  rw [if_pos ⟨hp, hh, hn⟩]
  exact loop_then_finish_returns
    (fun _ x => is_flag x.I2C1.ISR I2C_ISR_STOPF)
    (fun _ x => is_any_bit x.I2C1.ISR I2C_slave.error_mask)
    (fun _ => false) 0 _ _ _
    slave_transmit_guard_returns3 (slave_transmit_body_returns data n hd)
    slave_transmit_finish_returns
    s.hardware more _ (by omega) hP (Nat.zero_le _) rfl

theorem slave_transmit_timed_returns (n t : Nat) (data : List Nat) (s : I2C_polling)
    (more : List I2C_sample) (hp : s.p_i2c = true) (hh : s.p_i2c_slave_handle = true)
    (hn : n > 0 ∧ n ≤ 255) (ht : t > 0) (hd : n ≤ data.length) (hm : 26 ≤ more.length)
    (hP : (∀ x ∈ more, is_flag x.I2C1.ISR I2C_ISR_STOPF = true) ∨
      (∀ x ∈ more, is_any_bit x.I2C1.ISR I2C_slave.error_mask = true) ∨
      (∀ x ∈ more, s.past_deadline t x = true)) :
    ∃ r s', I2C_slave.transmit_bytes_polling_timed (some data) n t
      { s with hardware := s.hardware ++ more } = some (r, s') := by
  obtain ⟨start, hw', more', hc, hm', hP'⟩ := timed_start
    (fun _ x => is_flag x.I2C1.ISR I2C_ISR_STOPF)
    (fun _ x => is_any_bit x.I2C1.ISR I2C_slave.error_mask) t s more hm hP
  unfold I2C_slave.transmit_bytes_polling_timed
  dsimp only
  rw [if_pos ⟨hp, hh, hn, ht⟩, hc]
  exact loop_then_finish_returns
    (fun _ x => is_flag x.I2C1.ISR I2C_ISR_STOPF)
    (fun _ x => is_any_bit x.I2C1.ISR I2C_slave.error_mask)
    (fun x => decide (t < time.diff x.now start)) 0 _ _ _
    (slave_transmit_guard_timed_returns t start) (slave_transmit_body_returns data n hd)
    slave_transmit_finish_returns
    hw' more' _ hm' hP' (Nat.zero_le _) rfl

theorem slave_receive_returns (n : Nat) (s : I2C_polling)
    (more : List I2C_sample) (hp : s.p_i2c = true) (hh : s.p_i2c_slave_handle = true)
    (hn : n > 0 ∧ n ≤ 255) (hd : n ≤ s.received.length) (hm : 26 ≤ more.length)
    (hP : (∀ x ∈ more, is_flag x.I2C1.ISR I2C_ISR_STOPF = true) ∨
      (∀ x ∈ more, is_I2C_ISR_error (x.p_registers s.id).ISR = true) ∨
      (∀ x ∈ more, false = true)) :
    ∃ r s', I2C_slave.receive_bytes_polling true n
      { s with hardware := s.hardware ++ more } = some (r, s') := by
  unfold I2C_slave.receive_bytes_polling
  rw [if_pos ⟨hp, hh, rfl, hn⟩]
  exact loop_then_finish_returns
    (fun _ x => is_flag x.I2C1.ISR I2C_ISR_STOPF)
    (fun id x => is_I2C_ISR_error (x.p_registers id).ISR)
    (fun _ => false) n _ _ _
    slave_receive_guard_returns (slave_receive_body_returns n) slave_finish_returns6
    s.hardware more _ (by omega) hP hd rfl

theorem slave_receive_timed_returns (n t : Nat) (s : I2C_polling)
    (more : List I2C_sample) (hp : s.p_i2c = true) (hh : s.p_i2c_slave_handle = true)
    (hn : n > 0 ∧ n ≤ 255) (ht : t > 0) (hd : n ≤ s.received.length) (hm : 26 ≤ more.length)
    (hP : (∀ x ∈ more, is_flag x.I2C1.ICR I2C_ICR_STOPCF = true) ∨
      (∀ x ∈ more, is_I2C_ISR_error (x.p_registers s.id).ISR = true) ∨
      (∀ x ∈ more, s.past_deadline t x = true)) :
    ∃ r s', I2C_slave.receive_bytes_polling_timed true n t
      { s with hardware := s.hardware ++ more } = some (r, s') := by
  obtain ⟨start, hw', more', hc, hm', hP'⟩ := timed_start
    (fun _ x => is_flag x.I2C1.ICR I2C_ICR_STOPCF)
    (fun id x => is_I2C_ISR_error (x.p_registers id).ISR) t s more hm hP
  unfold I2C_slave.receive_bytes_polling_timed
  rw [if_pos ⟨hp, hh, rfl, hn, ht⟩, hc]
  exact loop_then_finish_returns
    (fun _ x => is_flag x.I2C1.ICR I2C_ICR_STOPCF)
    (fun id x => is_I2C_ISR_error (x.p_registers id).ISR)
    (fun x => decide (t < time.diff x.now start)) n _ _ _
    (slave_receive_guard_timed_returns t start) (slave_receive_body_returns n) slave_finish_returns6
    hw' more' _ hm' hP' hd rfl

/-- Each of the eight polling transfers returns when its assertions hold, the
memory it is given is large enough, and the hardware, whatever it showed
before, goes on with at least twenty-six observations in all of which the stop
test of the loop guard reads a stop, or in all of which the error check of the
loop body reads an error flag, or in all of which the deadline test of the loop
guard reads the deadline passed. -/
theorem polling_transfer_returns (t : Polling_transfer) (s : I2C_polling)
    (more : List I2C_sample) (hw : t.well_called s = true) (hm : 26 ≤ more.length)
    (hP : (∀ x ∈ more, t.reads_stop s.id x = true) ∨
      (∀ x ∈ more, t.reads_error s.id x = true) ∨
      (∀ x ∈ more, t.reads_deadline s x = true)) :
    ∃ r s', t.call { s with hardware := s.hardware ++ more } = some (r, s') := by
  cases t with
  | master_transmit a d n =>
    cases d with
    | none => simp [Polling_transfer.well_called] at hw
    | some data =>
      simp only [Polling_transfer.well_called, Bool.and_eq_true, decide_eq_true_eq] at hw
      exact master_transmit_returns a n data s more hw.1.1.1 hw.1.1.2 hw.1.2 hw.2 hm hP
  | master_transmit_timed a d n t =>
    cases d with
    | none => simp [Polling_transfer.well_called] at hw
    | some data =>
      simp only [Polling_transfer.well_called, Bool.and_eq_true, decide_eq_true_eq] at hw
      exact master_transmit_timed_returns a n t data s more hw.1.1.1.1 hw.1.1.1.2 hw.1.1.2
        hw.1.2 hw.2 hm hP
  | master_receive a d n =>
    simp only [Polling_transfer.well_called, Bool.and_eq_true, decide_eq_true_eq] at hw
    rw [hw.1.1.2]
    exact master_receive_returns a n s more hw.1.1.1.1 hw.1.1.1.2 hw.1.2 hw.2 hm hP
  | master_receive_timed a d n t =>
    simp only [Polling_transfer.well_called, Bool.and_eq_true, decide_eq_true_eq] at hw
    rw [hw.1.1.1.2]
    exact master_receive_timed_returns a n t s more hw.1.1.1.1.1 hw.1.1.1.1.2 hw.1.1.2
      hw.1.2 hw.2 hm hP
  | slave_transmit d n =>
    cases d with
    | none => simp [Polling_transfer.well_called] at hw
    | some data =>
      simp only [Polling_transfer.well_called, Bool.and_eq_true, decide_eq_true_eq] at hw
      exact slave_transmit_returns n data s more hw.1.1.1 hw.1.1.2 hw.1.2 hw.2 hm hP
  | slave_transmit_timed d n t =>
    cases d with
    | none => simp [Polling_transfer.well_called] at hw
    | some data =>
      simp only [Polling_transfer.well_called, Bool.and_eq_true, decide_eq_true_eq] at hw
      exact slave_transmit_timed_returns n t data s more hw.1.1.1.1 hw.1.1.1.2 hw.1.1.2
        hw.1.2 hw.2 hm hP
  | slave_receive d n =>
    simp only [Polling_transfer.well_called, Bool.and_eq_true, decide_eq_true_eq] at hw
    rw [hw.1.1.2]
    exact slave_receive_returns n s more hw.1.1.1.1 hw.1.1.1.2 hw.1.2 hw.2 hm hP
  | slave_receive_timed d n t =>
    simp only [Polling_transfer.well_called, Bool.and_eq_true, decide_eq_true_eq] at hw
    rw [hw.1.1.1.2]
    exact slave_receive_timed_returns n t s more hw.1.1.1.1.1 hw.1.1.1.1.2 hw.1.1.2
      hw.1.2 hw.2 hm hP

/-- Claim C12.  Each of the eight polling transfers writes `STOPCF` to `ICR`
before it returns, whatever ended its loop: whenever a transfer returns, the
last store it made to `ICR` has `STOPCF` set; in the four transfers of the master
it is followed by the store of `0` to `CR2`, which is the last store and leaves
`CR2 = 0`, and in the four transfers of the slave it is the last store of all.
And the transfers do return on every outcome: when the assertions of a transfer
hold and the memory it is given holds `a_data_size_in_bytes` bytes, then,
whatever the hardware showed before, the transfer returns, with these last
stores, once the hardware goes on with twenty-six observations in all of which
the stop test of its loop guard reads a stop, or in all of which the error check
of its loop body reads an error flag, or in all of which the deadline test of
its loop guard reads the deadline passed. -/
theorem polling_transfers_clear_stop_flag (t : Polling_transfer) (s : I2C_polling) :
    (∀ (r : I2C_result) (s' : I2C_polling), t.call s = some (r, s') →
      ∃ pre v, is_flag v I2C_ICR_STOPCF = true ∧
        (t.is_master = true →
          s'.writes = pre ++ [I2C_write.ICR v, I2C_write.CR2 0] ∧ s'.CR2 = 0) ∧
        (t.is_master = false → s'.writes = pre ++ [I2C_write.ICR v])) ∧
    (∀ more : List I2C_sample, t.well_called s = true → 26 ≤ more.length →
      ((∀ x ∈ more, t.reads_stop s.id x = true) ∨
        (∀ x ∈ more, t.reads_error s.id x = true) ∨
        (∀ x ∈ more, t.reads_deadline s x = true)) →
      ∃ r s' pre v, t.call { s with hardware := s.hardware ++ more } = some (r, s') ∧
        is_flag v I2C_ICR_STOPCF = true ∧
        (t.is_master = true →
          s'.writes = pre ++ [I2C_write.ICR v, I2C_write.CR2 0] ∧ s'.CR2 = 0) ∧
        (t.is_master = false → s'.writes = pre ++ [I2C_write.ICR v])) := by
  refine ⟨fun r s' h => polling_transfer_stores t s r s' h, ?_⟩
  intro more hw hm hP
  obtain ⟨r, s', h⟩ := polling_transfer_returns t s more hw hm hP
  obtain ⟨pre, v, hv, h1, h2⟩ := polling_transfer_stores t _ r s' h
  exact ⟨r, s', pre, v, h, hv, h1, h2⟩

/-- Witness for `polling_transfers_clear_stop_flag`: a run of each of the eight
transfers that goes on with twenty-six observations of a stop, of a bus error or
at tick `1000`.  The untimed transmit of the master is ended by a `NACKF`, its
timed transmit by the deadline, its untimed receive by the stop after one byte,
its timed receive by a bus error; the untimed transmit of the slave (on `I2C1`)
is ended by a bus error, its timed transmit (on `I2C2`) by the deadline, its
untimed receive (on `I2C2`) by an overrun, its timed receive (on `I2C1`) by the
deadline. -/
theorem polling_transfers_clear_stop_flag_witness :
    (26 ≤ I2C_polling.stops.length ∧ 26 ≤ I2C_polling.errors.length ∧
      26 ≤ I2C_polling.lates.length) ∧
    ((Polling_transfer.master_transmit 0x50 (some I2C_polling.ten_bytes) 10).well_called
        (I2C_polling.master_on_I2C1 I2C_polling.nack_bus) = true ∧
      (∀ x ∈ I2C_polling.stops,
        (Polling_transfer.master_transmit 0x50 (some I2C_polling.ten_bytes) 10).reads_stop
          (I2C_polling.master_on_I2C1 I2C_polling.nack_bus).id x = true) ∧
      ((Polling_transfer.master_transmit 0x50 (some I2C_polling.ten_bytes) 10).call
        (I2C_polling.master_on_I2C1 I2C_polling.nack_bus).then_stops).map Prod.fst =
        some ⟨⟨false, false, false, true⟩, 1⟩ ∧
      ∃ r s' pre v,
        (Polling_transfer.master_transmit 0x50 (some I2C_polling.ten_bytes) 10).call
          (I2C_polling.master_on_I2C1 I2C_polling.nack_bus).then_stops = some (r, s') ∧
        is_flag v I2C_ICR_STOPCF = true ∧
        s'.writes = pre ++ [I2C_write.ICR v, I2C_write.CR2 0] ∧ s'.CR2 = 0) ∧
    ((Polling_transfer.master_transmit_timed 0x50 (some I2C_polling.ten_bytes) 10 5).well_called
        (I2C_polling.master_on_I2C1 I2C_polling.start_at_zero) = true ∧
      (∀ x ∈ I2C_polling.lates,
        (Polling_transfer.master_transmit_timed 0x50 (some I2C_polling.ten_bytes) 10
            5).reads_deadline
          (I2C_polling.master_on_I2C1 I2C_polling.start_at_zero) x = true) ∧
      ((Polling_transfer.master_transmit_timed 0x50 (some I2C_polling.ten_bytes) 10 5).call
        (I2C_polling.master_on_I2C1 I2C_polling.start_at_zero).then_lates).map Prod.fst =
        some ⟨Bus_status_flag.ok, 0⟩ ∧
      ∃ r s' pre v,
        (Polling_transfer.master_transmit_timed 0x50 (some I2C_polling.ten_bytes) 10 5).call
          (I2C_polling.master_on_I2C1 I2C_polling.start_at_zero).then_lates = some (r, s') ∧
        is_flag v I2C_ICR_STOPCF = true ∧
        s'.writes = pre ++ [I2C_write.ICR v, I2C_write.CR2 0] ∧ s'.CR2 = 0) ∧
    ((Polling_transfer.master_receive 0x50 true 10).well_called
        (I2C_polling.master_on_I2C1 I2C_polling.one_byte_read) = true ∧
      (∀ x ∈ I2C_polling.stops,
        (Polling_transfer.master_receive 0x50 true 10).reads_stop
          (I2C_polling.master_on_I2C1 I2C_polling.one_byte_read).id x = true) ∧
      ((Polling_transfer.master_receive 0x50 true 10).call
        (I2C_polling.master_on_I2C1 I2C_polling.one_byte_read).then_stops).map Prod.fst =
        some ⟨Bus_status_flag.ok, 1⟩ ∧
      ∃ r s' pre v,
        (Polling_transfer.master_receive 0x50 true 10).call
          (I2C_polling.master_on_I2C1 I2C_polling.one_byte_read).then_stops = some (r, s') ∧
        is_flag v I2C_ICR_STOPCF = true ∧
        s'.writes = pre ++ [I2C_write.ICR v, I2C_write.CR2 0] ∧ s'.CR2 = 0) ∧
    ((Polling_transfer.master_receive_timed 0x50 true 10 5).well_called
        (I2C_polling.master_on_I2C1 I2C_polling.start_at_zero) = true ∧
      (∀ x ∈ I2C_polling.errors,
        (Polling_transfer.master_receive_timed 0x50 true 10 5).reads_error
          (I2C_polling.master_on_I2C1 I2C_polling.start_at_zero).id x = true) ∧
      ((Polling_transfer.master_receive_timed 0x50 true 10 5).call
        (I2C_polling.master_on_I2C1 I2C_polling.start_at_zero).then_errors).map Prod.fst =
        some ⟨⟨false, false, true, false⟩, 0⟩ ∧
      ∃ r s' pre v,
        (Polling_transfer.master_receive_timed 0x50 true 10 5).call
          (I2C_polling.master_on_I2C1 I2C_polling.start_at_zero).then_errors = some (r, s') ∧
        is_flag v I2C_ICR_STOPCF = true ∧
        s'.writes = pre ++ [I2C_write.ICR v, I2C_write.CR2 0] ∧ s'.CR2 = 0) ∧
    ((Polling_transfer.slave_transmit (some I2C_polling.ten_bytes) 10).well_called
        (I2C_polling.slave_on I2C_Id._1 []) = true ∧
      (∀ x ∈ I2C_polling.errors,
        (Polling_transfer.slave_transmit (some I2C_polling.ten_bytes) 10).reads_error
          (I2C_polling.slave_on I2C_Id._1 []).id x = true) ∧
      ((Polling_transfer.slave_transmit (some I2C_polling.ten_bytes) 10).call
        (I2C_polling.slave_on I2C_Id._1 []).then_errors).map Prod.fst =
        some ⟨⟨false, false, true, false⟩, 0⟩ ∧
      ∃ r s' pre v,
        (Polling_transfer.slave_transmit (some I2C_polling.ten_bytes) 10).call
          (I2C_polling.slave_on I2C_Id._1 []).then_errors = some (r, s') ∧
        is_flag v I2C_ICR_STOPCF = true ∧ s'.writes = pre ++ [I2C_write.ICR v]) ∧
    ((Polling_transfer.slave_transmit_timed (some I2C_polling.ten_bytes) 10 5).well_called
        (I2C_polling.slave_on I2C_Id._2 I2C_polling.start_at_zero) = true ∧
      (∀ x ∈ I2C_polling.lates,
        (Polling_transfer.slave_transmit_timed (some I2C_polling.ten_bytes) 10 5).reads_deadline
          (I2C_polling.slave_on I2C_Id._2 I2C_polling.start_at_zero) x = true) ∧
      ((Polling_transfer.slave_transmit_timed (some I2C_polling.ten_bytes) 10 5).call
        (I2C_polling.slave_on I2C_Id._2 I2C_polling.start_at_zero).then_lates).map Prod.fst =
        some ⟨Bus_status_flag.ok, 0⟩ ∧
      ∃ r s' pre v,
        (Polling_transfer.slave_transmit_timed (some I2C_polling.ten_bytes) 10 5).call
          (I2C_polling.slave_on I2C_Id._2 I2C_polling.start_at_zero).then_lates = some (r, s') ∧
        is_flag v I2C_ICR_STOPCF = true ∧ s'.writes = pre ++ [I2C_write.ICR v]) ∧
    ((Polling_transfer.slave_receive true 10).well_called
        (I2C_polling.slave_on I2C_Id._2 I2C_polling.slave_overrun_bus) = true ∧
      (∀ x ∈ I2C_polling.stops,
        (Polling_transfer.slave_receive true 10).reads_stop
          (I2C_polling.slave_on I2C_Id._2 I2C_polling.slave_overrun_bus).id x = true) ∧
      ((Polling_transfer.slave_receive true 10).call
        (I2C_polling.slave_on I2C_Id._2 I2C_polling.slave_overrun_bus).then_stops).map Prod.fst =
        some ⟨⟨true, false, false, false⟩, 0⟩ ∧
      ∃ r s' pre v,
        (Polling_transfer.slave_receive true 10).call
          (I2C_polling.slave_on I2C_Id._2 I2C_polling.slave_overrun_bus).then_stops = some (r, s') ∧
        is_flag v I2C_ICR_STOPCF = true ∧ s'.writes = pre ++ [I2C_write.ICR v]) ∧
    ((Polling_transfer.slave_receive_timed true 10 5).well_called
        (I2C_polling.slave_on I2C_Id._1 I2C_polling.start_at_zero) = true ∧
      (∀ x ∈ I2C_polling.lates,
        (Polling_transfer.slave_receive_timed true 10 5).reads_deadline
          (I2C_polling.slave_on I2C_Id._1 I2C_polling.start_at_zero) x = true) ∧
      ((Polling_transfer.slave_receive_timed true 10 5).call
        (I2C_polling.slave_on I2C_Id._1 I2C_polling.start_at_zero).then_lates).map Prod.fst =
        some ⟨Bus_status_flag.ok, 0⟩ ∧
      ∃ r s' pre v,
        (Polling_transfer.slave_receive_timed true 10 5).call
          (I2C_polling.slave_on I2C_Id._1 I2C_polling.start_at_zero).then_lates = some (r, s') ∧
        is_flag v I2C_ICR_STOPCF = true ∧ s'.writes = pre ++ [I2C_write.ICR v]) :=
  ⟨⟨by decide, by decide, by decide⟩,
    ⟨by decide, by decide, by decide,
      let ⟨r, s', pre, v, h, hv, h1, h2⟩ :=
        (polling_transfers_clear_stop_flag
          (Polling_transfer.master_transmit 0x50 (some I2C_polling.ten_bytes) 10)
          (I2C_polling.master_on_I2C1 I2C_polling.nack_bus)).2
          I2C_polling.stops (by decide) (by decide) (Or.inl (by decide))
      ⟨r, s', pre, v, h, hv, h1 rfl⟩⟩,
    ⟨by decide, by decide, by decide,
      let ⟨r, s', pre, v, h, hv, h1, h2⟩ :=
        (polling_transfers_clear_stop_flag
          (Polling_transfer.master_transmit_timed 0x50 (some I2C_polling.ten_bytes) 10 5)
          (I2C_polling.master_on_I2C1 I2C_polling.start_at_zero)).2
          I2C_polling.lates (by decide) (by decide) (Or.inr (Or.inr (by decide)))
      ⟨r, s', pre, v, h, hv, h1 rfl⟩⟩,
    ⟨by decide, by decide, by decide,
      let ⟨r, s', pre, v, h, hv, h1, h2⟩ :=
        (polling_transfers_clear_stop_flag
          (Polling_transfer.master_receive 0x50 true 10)
          (I2C_polling.master_on_I2C1 I2C_polling.one_byte_read)).2
          I2C_polling.stops (by decide) (by decide) (Or.inl (by decide))
      ⟨r, s', pre, v, h, hv, h1 rfl⟩⟩,
    ⟨by decide, by decide, by decide,
      let ⟨r, s', pre, v, h, hv, h1, h2⟩ :=
        (polling_transfers_clear_stop_flag
          (Polling_transfer.master_receive_timed 0x50 true 10 5)
          (I2C_polling.master_on_I2C1 I2C_polling.start_at_zero)).2
          I2C_polling.errors (by decide) (by decide) (Or.inr (Or.inl (by decide)))
      ⟨r, s', pre, v, h, hv, h1 rfl⟩⟩,
    ⟨by decide, by decide, by decide,
      let ⟨r, s', pre, v, h, hv, h1, h2⟩ :=
        (polling_transfers_clear_stop_flag
          (Polling_transfer.slave_transmit (some I2C_polling.ten_bytes) 10)
          (I2C_polling.slave_on I2C_Id._1 [])).2
          I2C_polling.errors (by decide) (by decide) (Or.inr (Or.inl (by decide)))
      ⟨r, s', pre, v, h, hv, h2 rfl⟩⟩,
    ⟨by decide, by decide, by decide,
      let ⟨r, s', pre, v, h, hv, h1, h2⟩ :=
        (polling_transfers_clear_stop_flag
          (Polling_transfer.slave_transmit_timed (some I2C_polling.ten_bytes) 10 5)
          (I2C_polling.slave_on I2C_Id._2 I2C_polling.start_at_zero)).2
          I2C_polling.lates (by decide) (by decide) (Or.inr (Or.inr (by decide)))
      ⟨r, s', pre, v, h, hv, h2 rfl⟩⟩,
    ⟨by decide, by decide, by decide,
      let ⟨r, s', pre, v, h, hv, h1, h2⟩ :=
        (polling_transfers_clear_stop_flag
          (Polling_transfer.slave_receive true 10)
          (I2C_polling.slave_on I2C_Id._2 I2C_polling.slave_overrun_bus)).2
          I2C_polling.stops (by decide) (by decide) (Or.inl (by decide))
      ⟨r, s', pre, v, h, hv, h2 rfl⟩⟩,
    ⟨by decide, by decide, by decide,
      let ⟨r, s', pre, v, h, hv, h1, h2⟩ :=
        (polling_transfers_clear_stop_flag
          (Polling_transfer.slave_receive_timed true 10 5)
          (I2C_polling.slave_on I2C_Id._1 I2C_polling.start_at_zero)).2
          I2C_polling.lates (by decide) (by decide) (Or.inr (Or.inr (by decide)))
      ⟨r, s', pre, v, h, hv, h2 rfl⟩⟩⟩

/-! ## The stores of the polling transfers of the master -/

theorem read_writes (s s1 : I2C_polling) (x : I2C_sample) (hr : s.read = some (x, s1)) :
    s1.writes = s.writes := by
  unfold I2C_polling.read at hr
  cases hh : s.hardware with
  | nil => rw [hh] at hr; exact absurd hr (by simp)
  | cons y rest =>
    rw [hh] at hr
    simp only [Option.some.injEq, Prod.mk.injEq] at hr
    rw [← hr.2]

theorem read_ISR_writes (s s1 : I2C_polling) (v : Nat) (hr : s.read_ISR = some (v, s1)) :
    s1.writes = s.writes := by
  unfold I2C_polling.read_ISR at hr
  cases h : s.read with
  | none => rw [h] at hr; exact absurd hr (by simp)
  | some p =>
    obtain ⟨x, s'⟩ := p
    rw [h] at hr
    simp only [Option.some.injEq, Prod.mk.injEq] at hr
    rw [← hr.2]
    exact read_writes s s' x h

theorem counter_get_writes (s s1 : I2C_polling) (v : Nat) (hr : s.counter_get = some (v, s1)) :
    s1.writes = s.writes := by
  unfold I2C_polling.counter_get at hr
  cases h : s.read with
  | none => rw [h] at hr; exact absurd hr (by simp)
  | some p =>
    obtain ⟨x, s'⟩ := p
    rw [h] at hr
    simp only [Option.some.injEq, Prod.mk.injEq] at hr
    rw [← hr.2]
    exact read_writes s s' x h

theorem read_RXDR_writes (s s1 : I2C_polling) (v : Nat) (hr : s.read_RXDR = some (v, s1)) :
    s1.writes = s.writes := by
  unfold I2C_polling.read_RXDR at hr
  cases h : s.read with
  | none => rw [h] at hr; exact absurd hr (by simp)
  | some p =>
    obtain ⟨x, s'⟩ := p
    rw [h] at hr
    simp only [Option.some.injEq, Prod.mk.injEq] at hr
    rw [← hr.2]
    exact read_writes s s' x h

theorem master_guard_writes (e : Bool) (s : I2C_polling) (b : Bool) (s1 : I2C_polling)
    (h : I2C_master.polling_guard e s = some (b, s1)) : s1.writes = s.writes := by
  unfold I2C_master.polling_guard at h
  cases h1 : s.read_ISR with
  | none => rw [h1] at h; exact absurd h (by simp)
  | some p =>
    obtain ⟨v, s'⟩ := p
    rw [h1] at h
    simp only [Option.some.injEq, Prod.mk.injEq] at h
    rw [← h.2]
    exact read_ISR_writes s s' v h1

theorem master_guard_timed_writes (t start : Nat) (e : Bool) (s : I2C_polling) (b : Bool)
    (s1 : I2C_polling) (h : I2C_master.polling_guard_timed t start e s = some (b, s1)) :
    s1.writes = s.writes := by
  unfold I2C_master.polling_guard_timed at h
  cases h1 : s.read_ISR with
  | none => rw [h1] at h; exact absurd h (by simp)
  | some p =>
    obtain ⟨v, s'⟩ := p
    rw [h1] at h
    have hl := read_ISR_writes s s' v h1
    dsimp only at h
    split at h
    · cases h2 : s'.counter_get with
      | none => rw [h2] at h; exact absurd h (by simp)
      | some q =>
        obtain ⟨now, s''⟩ := q
        rw [h2] at h
        simp only [Option.some.injEq, Prod.mk.injEq] at h
        rw [← h.2, counter_get_writes s' s'' now h2, hl]
    · simp only [Option.some.injEq, Prod.mk.injEq] at h
      rw [← h.2, hl]

theorem master_transmit_body_writes (d : List Nat) (n w : Nat) (s : I2C_polling)
    (r : Nat × Bool) (s2 : I2C_polling) (h : I2C_master.transmit_body d n w s = some (r, s2)) :
    ∃ more, s2.writes = s.writes ++ more := by
  unfold I2C_master.transmit_body at h
  cases h1 : s.read_ISR with
  | none => rw [h1] at h; exact absurd h (by simp)
  | some p =>
    obtain ⟨v, s'⟩ := p
    rw [h1] at h
    have hl := read_ISR_writes s s' v h1
    dsimp only at h
    split at h
    · exact absurd h (by simp)
    · rename_i w1 sa hsa
      have hla : ∃ more, sa.writes = s'.writes ++ more := by
        split at hsa
        · split at hsa
          · exact absurd hsa (by simp)
          · simp only [Option.some.injEq, Prod.mk.injEq] at hsa
            rw [← hsa.2]
            exact ⟨_, rfl⟩
        · simp only [Option.some.injEq, Prod.mk.injEq] at hsa
          rw [← hsa.2]
          exact ⟨[], (List.append_nil _).symm⟩
      obtain ⟨m, hm⟩ := hla
      cases h2 : sa.read_ISR with
      | none => rw [h2] at h; exact absurd h (by simp)
      | some q =>
        obtain ⟨v2, sb⟩ := q
        rw [h2] at h
        simp only [Option.some.injEq, Prod.mk.injEq] at h
        rw [← h.2, read_ISR_writes sa sb v2 h2, hm, hl]
        exact ⟨m, rfl⟩

theorem master_receive_body_writes (n w : Nat) (s : I2C_polling)
    (r : Nat × Bool) (s2 : I2C_polling) (h : I2C_master.receive_body n w s = some (r, s2)) :
    ∃ more, s2.writes = s.writes ++ more := by
  unfold I2C_master.receive_body at h
  cases h1 : s.read_ISR with
  | none => rw [h1] at h; exact absurd h (by simp)
  | some p =>
    obtain ⟨v, s'⟩ := p
    rw [h1] at h
    have hl := read_ISR_writes s s' v h1
    dsimp only at h
    split at h
    · exact absurd h (by simp)
    · rename_i w1 sa hsa
      have hla : sa.writes = s'.writes := by
        split at hsa
        · cases h3 : s'.read_RXDR with
          | none => rw [h3] at hsa; exact absurd hsa (by simp)
          | some q =>
            obtain ⟨x, sx⟩ := q
            rw [h3] at hsa
            have := read_RXDR_writes s' sx x h3
            dsimp only at hsa
            split at hsa
            · simp only [Option.some.injEq, Prod.mk.injEq] at hsa
              rw [← hsa.2]
              exact this
            · exact absurd hsa (by simp)
        · simp only [Option.some.injEq, Prod.mk.injEq] at hsa
          rw [← hsa.2]
      cases h2 : sa.read_ISR with
      | none => rw [h2] at h; exact absurd h (by simp)
      | some q =>
        obtain ⟨v2, sb⟩ := q
        rw [h2] at h
        simp only [Option.some.injEq, Prod.mk.injEq] at h
        rw [← h.2, read_ISR_writes sa sb v2 h2, hla, hl]
        exact ⟨[], (List.append_nil _).symm⟩

theorem while_loop_writes
    (guard : Bool → I2C_polling → Option (Bool × I2C_polling))
    (body : Nat → I2C_polling → Option ((Nat × Bool) × I2C_polling))
    (hg : ∀ e s b s1, guard e s = some (b, s1) → s1.writes = s.writes)
    (hb : ∀ w s r s2, body w s = some (r, s2) → ∃ more, s2.writes = s.writes ++ more) :
    ∀ (fuel words : Nat) (error : Bool) (s : I2C_polling) (r : Nat × Bool) (s' : I2C_polling),
      I2C_polling.while_loop guard body fuel words error s = some (r, s') →
      ∃ more, s'.writes = s.writes ++ more := by
  intro fuel
  induction fuel with
  | zero =>
    intro words error s r s' h
    rw [I2C_polling.while_loop] at h
    exact absurd h (by simp)
  | succ f ih =>
    intro words error s r s' h
    rw [I2C_polling.while_loop] at h
    cases h1 : guard error s with
    | none => rw [h1] at h; exact absurd h (by simp)
    | some p =>
      obtain ⟨b, s1⟩ := p
      rw [h1] at h
      have e1 := hg _ _ _ _ h1
      cases b with
      | false =>
        simp only [Option.some.injEq, Prod.mk.injEq] at h
        rw [← h.2, e1]
        exact ⟨[], (List.append_nil _).symm⟩
      | true =>
        dsimp only at h
        cases h2 : body words s1 with
        | none => rw [h2] at h; exact absurd h (by simp)
        | some q =>
          obtain ⟨⟨w1, e'⟩, s2⟩ := q
          rw [h2] at h
          dsimp only at h
          obtain ⟨m1, hm1⟩ := hb _ _ _ _ h2
          obtain ⟨m2, hm2⟩ := ih _ _ _ _ _ h
          exact ⟨m1 ++ m2, by rw [hm2, hm1, e1, List.append_assoc]⟩

theorem status_after_loop_appends (error : Bool) (s : I2C_polling) (b : Bus_status_flag)
    (s' : I2C_polling) (h : s.status_after_loop error = some (b, s')) :
    ∃ more, s'.writes = s.writes ++ more := by
  unfold I2C_polling.status_after_loop at h
  split at h
  · cases h1 : s.read_ISR with
    | none => rw [h1] at h; exact absurd h (by simp)
    | some p =>
      obtain ⟨v, s1⟩ := p
      rw [h1] at h
      dsimp only at h
      cases h2 : s1.set_flag_ICR I2C_ICR_errors with
      | none => rw [h2] at h; exact absurd h (by simp)
      | some s2 =>
        rw [h2] at h
        simp only [Option.some.injEq, Prod.mk.injEq] at h
        obtain ⟨x, hx, _⟩ := set_flag_ICR_writes _ _ _ h2
        rw [← h.2, hx, read_ISR_writes s s1 v h1]
        exact ⟨_, rfl⟩
  · simp only [Option.some.injEq, Prod.mk.injEq] at h
    rw [← h.2]
    exact ⟨[], (List.append_nil _).symm⟩

theorem master_finish_appends (words : Nat) (error : Bool) (s : I2C_polling) (r : I2C_result)
    (s' : I2C_polling) (h : I2C_master.finish words error s = some (r, s')) :
    ∃ more, s'.writes = s.writes ++ more := by
  unfold I2C_master.finish at h
  cases h1 : s.status_after_loop error with
  | none => rw [h1] at h; exact absurd h (by simp)
  | some p =>
    obtain ⟨b, s1⟩ := p
    rw [h1] at h
    dsimp only at h
    cases h2 : s1.set_flag_ICR I2C_ICR_STOPCF with
    | none => rw [h2] at h; exact absurd h (by simp)
    | some s2 =>
      rw [h2] at h
      simp only [Option.some.injEq, Prod.mk.injEq] at h
      obtain ⟨m1, hm1⟩ := status_after_loop_appends _ _ _ _ h1
      obtain ⟨v, hv, _⟩ := set_flag_ICR_writes _ _ _ h2
      refine ⟨m1 ++ [I2C_write.ICR v] ++ [I2C_write.CR2 0], ?_⟩
      rw [← h.2]
      show s2.writes ++ [I2C_write.CR2 0] = _
      rw [hv, hm1]
      simp only [List.append_assoc]

/-- What a loop of the master followed by the common last statements adds to
the stores comes after the stores made before. -/
theorem master_loop_then_finish_appends
    (guard : Bool → I2C_polling → Option (Bool × I2C_polling))
    (body : Nat → I2C_polling → Option ((Nat × Bool) × I2C_polling))
    (hg : ∀ e s b s1, guard e s = some (b, s1) → s1.writes = s.writes)
    (hb : ∀ w s r s2, body w s = some (r, s2) → ∃ more, s2.writes = s.writes ++ more)
    (fuel : Nat) (s : I2C_polling) (r : I2C_result) (s' : I2C_polling)
    (h : (match I2C_polling.while_loop guard body fuel 0 false s with
      | none => none
      | some ((words, error), s2) => I2C_master.finish words error s2) = some (r, s')) :
    ∃ more, s'.writes = s.writes ++ more := by
  cases hl : I2C_polling.while_loop guard body fuel 0 false s with
  | none => rw [hl] at h; exact absurd h (by simp)
  | some q =>
    obtain ⟨⟨w, e⟩, s2⟩ := q
    rw [hl] at h
    dsimp only at h
    obtain ⟨m1, hm1⟩ := while_loop_writes guard body hg hb _ _ _ _ _ _ hl
    obtain ⟨m2, hm2⟩ := master_finish_appends _ _ _ _ _ h
    exact ⟨m1 ++ m2, by rw [hm2, hm1, List.append_assoc]⟩

theorem master_transmit_stores_CR2 (a n : Nat) (d : Option (List Nat)) (s : I2C_polling)
    (r : I2C_result) (s' : I2C_polling)
    (h : I2C_master.transmit_bytes_polling a d n s = some (r, s')) :
    ∃ rest, s'.writes = s.writes ++ I2C_write.CR2 (I2C_master.CR2_transmit_masked a n) :: rest := by
  unfold I2C_master.transmit_bytes_polling at h
  split at h
  · exact absurd h (by simp)
  · split at h
    · obtain ⟨m, hm⟩ := master_loop_then_finish_appends _ _ master_guard_writes
        (master_transmit_body_writes _ _) _ _ _ _ h
      exact ⟨m, by rw [hm]; simp [I2C_polling.write_CR2]⟩
    · exact absurd h (by simp)

theorem master_transmit_timed_stores_CR2 (a n t : Nat) (d : Option (List Nat))
    (s : I2C_polling) (r : I2C_result) (s' : I2C_polling)
    (h : I2C_master.transmit_bytes_polling_timed a d n t s = some (r, s')) :
    ∃ rest, s'.writes = s.writes ++ I2C_write.CR2 (I2C_master.CR2_transmit a n) :: rest := by
  unfold I2C_master.transmit_bytes_polling_timed at h
  split at h
  · exact absurd h (by simp)
  · split at h
    · cases h0 : s.counter_get with
      | none => rw [h0] at h; exact absurd h (by simp)
      | some p =>
        obtain ⟨start, s0⟩ := p
        rw [h0] at h
        obtain ⟨m, hm⟩ := master_loop_then_finish_appends _ _ (master_guard_timed_writes _ _)
          (master_transmit_body_writes _ _) _ _ _ _ h
        exact ⟨m, by rw [hm, ← counter_get_writes s s0 start h0]; simp [I2C_polling.write_CR2]⟩
    · exact absurd h (by simp)

theorem master_receive_stores_CR2 (a n : Nat) (d : Bool) (s : I2C_polling)
    (r : I2C_result) (s' : I2C_polling)
    (h : I2C_master.receive_bytes_polling a d n s = some (r, s')) :
    ∃ rest, s'.writes = s.writes ++ I2C_write.CR2 (I2C_master.CR2_receive a n) :: rest := by
  unfold I2C_master.receive_bytes_polling at h
  split at h
  · obtain ⟨m, hm⟩ := master_loop_then_finish_appends _ _ master_guard_writes
      (master_receive_body_writes _) _ _ _ _ h
    exact ⟨m, by rw [hm]; simp [I2C_polling.write_CR2]⟩
  · exact absurd h (by simp)

theorem master_receive_timed_stores_CR2 (a n t : Nat) (d : Bool)
    (s : I2C_polling) (r : I2C_result) (s' : I2C_polling)
    (h : I2C_master.receive_bytes_polling_timed a d n t s = some (r, s')) :
    ∃ rest, s'.writes = s.writes ++ I2C_write.CR2 (I2C_master.CR2_receive a n) :: rest := by
  unfold I2C_master.receive_bytes_polling_timed at h
  split at h
  · cases h0 : s.counter_get with
    | none => rw [h0] at h; exact absurd h (by simp)
    | some p =>
      obtain ⟨start, s0⟩ := p
      rw [h0] at h
      obtain ⟨m, hm⟩ := master_loop_then_finish_appends _ _ (master_guard_timed_writes _ _)
        (master_receive_body_writes _) _ _ _ _ h
      exact ⟨m, by rw [hm, ← counter_get_writes s s0 start h0]; simp [I2C_polling.write_CR2]⟩
  · exact absurd h (by simp)

/-! ## The timed transmit of the master, iteration by iteration -/

theorem master_transmit_timed_iteration (id : I2C_Id) (p pm ps : Bool) (wr : List I2C_write)
    (cr2 : Nat) (rcv data : List Nat) (n t start fuel w : Nat) (i : Transmit_iteration)
    (tail : List I2C_sample) (hd : n ≤ data.length) (hn : n ≤ 255)
    (hi : i.entered id t start = true) :
    ∃ wr', I2C_polling.while_loop (I2C_master.polling_guard_timed t start)
        (I2C_master.transmit_body data n) (fuel + 1) w false
        ⟨id, p, pm, ps, i.guard :: i.clock :: i.request :: i.check :: tail, wr, cr2, rcv⟩ =
      I2C_polling.while_loop (I2C_master.polling_guard_timed t start)
        (I2C_master.transmit_body data n) fuel
        (if i.requests_byte id = true ∧ w < n then w + 1 else w) (i.sees_error id)
        ⟨id, p, pm, ps, tail, wr', cr2, rcv⟩ := by
  simp only [Transmit_iteration.entered, Bool.and_eq_true, beq_iff_eq, decide_eq_true_eq] at hi
  obtain ⟨hgs, hcd⟩ := hi
  by_cases hc : i.requests_byte id = true ∧ w < n
  · have hb : data[w]? = some data[w] := List.getElem?_eq_getElem (by omega)
    have ha : add32 w 1 = w + 1 := by
      unfold add32 UINT32_SIZE
      omega
    refine ⟨wr ++ [I2C_write.TXDR (u8 data[w])], ?_⟩
    rw [if_pos hc]
    have hc' := hc
    unfold Transmit_iteration.requests_byte at hc'
    rw [I2C_polling.while_loop]
    simp [I2C_master.polling_guard_timed, I2C_polling.read_ISR, I2C_polling.read,
      I2C_polling.counter_get, hgs, hcd, I2C_master.transmit_body, hc'.1, hc'.2, hb, ha,
      I2C_polling.write_TXDR, Transmit_iteration.sees_error]
  · refine ⟨wr, ?_⟩
    rw [if_neg hc]
    have hc' := hc
    unfold Transmit_iteration.requests_byte at hc'
    rw [I2C_polling.while_loop]
    simp [I2C_master.polling_guard_timed, I2C_polling.read_ISR, I2C_polling.read,
      I2C_polling.counter_get, hgs, hcd, I2C_master.transmit_body, hc',
      Transmit_iteration.sees_error]

theorem master_transmit_timed_iterations (id : I2C_Id) (p pm ps : Bool) (cr2 : Nat)
    (rcv data : List Nat) (n t start : Nat) (hd : n ≤ data.length) (hn : n ≤ 255) :
    ∀ (its : List Transmit_iteration) (tail : List I2C_sample) (w : Nat) (wr : List I2C_write),
      w ≤ n → (∀ i ∈ its, i.entered id t start = true ∧ i.sees_error id = false) →
      ∃ wr', I2C_polling.while_loop (I2C_master.polling_guard_timed t start)
          (I2C_master.transmit_body data n)
          ((Transmit_iteration.all_observations its ++ tail).length + 1) w false
          ⟨id, p, pm, ps, Transmit_iteration.all_observations its ++ tail, wr, cr2, rcv⟩ =
        I2C_polling.while_loop (I2C_master.polling_guard_timed t start)
          (I2C_master.transmit_body data n) (tail.length + 1)
          (min n (w + its.countP (Transmit_iteration.requests_byte id))) false
          ⟨id, p, pm, ps, tail, wr', cr2, rcv⟩ := by
  intro its
  induction its with
  | nil =>
    intro tail w wr hw _
    refine ⟨wr, ?_⟩
    have : min n (w + List.countP (Transmit_iteration.requests_byte id) []) = w := by
      rw [List.countP_nil]
      omega
    rw [this]
    rfl
  | cons i its ih =>
    intro tail w wr hw hits
    obtain ⟨hi1, hi2⟩ := hits i (List.mem_cons_self _ _)
    obtain ⟨wr1, h1⟩ := master_transmit_timed_iteration id p pm ps wr cr2 rcv data n t start
      (i.guard :: i.clock :: i.request :: i.check ::
        (Transmit_iteration.all_observations its ++ tail)).length w i
      (Transmit_iteration.all_observations its ++ tail) hd hn hi1
    have hw1 : (if i.requests_byte id = true ∧ w < n then w + 1 else w) ≤ n := by
      split <;> omega
    obtain ⟨wr2, h2⟩ := ih tail (if i.requests_byte id = true ∧ w < n then w + 1 else w) wr1 hw1
      (fun j hj => hits j (List.mem_cons_of_mem _ hj))
    refine ⟨wr2, ?_⟩
    have hcount : min n ((if i.requests_byte id = true ∧ w < n then w + 1 else w) +
        its.countP (Transmit_iteration.requests_byte id)) =
        min n (w + (i :: its).countP (Transmit_iteration.requests_byte id)) := by
      rw [List.countP_cons]
      by_cases hr : i.requests_byte id = true
      · by_cases hlt : w < n
        · rw [if_pos ⟨hr, hlt⟩, if_pos hr]
          omega
        · rw [if_neg (fun h => hlt h.2), if_pos hr]
          omega
      · rw [if_neg (fun h => hr h.1), if_neg hr]
        rfl
    rw [← hcount, ← h2]
    show I2C_polling.while_loop _ _
      ((i.guard :: i.clock :: i.request :: i.check ::
        (Transmit_iteration.all_observations its ++ tail)).length + 1) w false
      ⟨id, p, pm, ps, i.guard :: i.clock :: i.request :: i.check ::
        (Transmit_iteration.all_observations its ++ tail), wr, cr2, rcv⟩ = _
    rw [h1, hi2]
    exact while_loop_fuel_irrelevant _ _ (master_guard_timed_takes t start)
      (master_transmit_body_takes data n) _ _ _ _ (by
        show (Transmit_iteration.all_observations its ++ tail).length < _
        simp only [List.length_cons]
        omega)

theorem master_transmit_timed_run (id : I2C_Id) (slave : Bool) (w : List I2C_write)
    (cr2 : Nat) (rcv data : List Nat) (a n t : Nat) (h0 : I2C_sample)
    (its : List Transmit_iteration) (tail : List I2C_sample) (hn : n > 0 ∧ n ≤ 255)
    (ht : t > 0) (hd : n ≤ data.length)
    (hits : ∀ i ∈ its, i.entered id t h0.now = true ∧ i.sees_error id = false) :
    ∃ wr', I2C_master.transmit_bytes_polling_timed a (some data) n t
        ⟨id, true, true, slave, h0 :: (Transmit_iteration.all_observations its ++ tail), w, cr2,
          rcv⟩ =
      match I2C_polling.while_loop (I2C_master.polling_guard_timed t h0.now)
          (I2C_master.transmit_body data n) (tail.length + 1)
          (min n (its.countP (Transmit_iteration.requests_byte id))) false
          ⟨id, true, true, slave, tail, wr', I2C_master.CR2_transmit a n, rcv⟩ with
      | none => none
      | some ((words, error), s2) => I2C_master.finish words error s2 := by
  obtain ⟨wr', h⟩ := master_transmit_timed_iterations id true true slave
    (I2C_master.CR2_transmit a n) rcv data n t h0.now hd hn.2 its tail 0
    (w ++ [I2C_write.CR2 (I2C_master.CR2_transmit a n)]) (Nat.zero_le _) hits
  rw [Nat.zero_add] at h
  refine ⟨wr', ?_⟩
  unfold I2C_master.transmit_bytes_polling_timed
  dsimp only
  rw [if_pos ⟨rfl, rfl, hn, ht⟩]
  simp only [I2C_polling.counter_get, I2C_polling.read, I2C_polling.write_CR2]
  rw [h]

theorem all_observations_append (its : List Transmit_iteration) (last : Transmit_iteration)
    (tail : List I2C_sample) :
    Transmit_iteration.all_observations (its ++ [last]) ++ tail =
      Transmit_iteration.all_observations its ++
        (last.guard :: last.clock :: last.request :: last.check :: tail) := by
  induction its with
  | nil => rfl
  | cons i its ih =>
    show i.guard :: i.clock :: i.request :: i.check ::
      (Transmit_iteration.all_observations (its ++ [last]) ++ tail) = _
    rw [ih]
    rfl

theorem countP_append_singleton (id : I2C_Id) (its : List Transmit_iteration)
    (last : Transmit_iteration) :
    min 10 ((its ++ [last]).countP (Transmit_iteration.requests_byte id)) =
      if last.requests_byte id = true ∧
          min 10 (its.countP (Transmit_iteration.requests_byte id)) < 10 then
        min 10 (its.countP (Transmit_iteration.requests_byte id)) + 1
      else min 10 (its.countP (Transmit_iteration.requests_byte id)) := by
  rw [List.countP_append, List.countP_cons, List.countP_nil]
  generalize List.countP (Transmit_iteration.requests_byte id) its = c
  by_cases hr : last.requests_byte id = true
  · rw [if_pos hr]
    by_cases hlt : min 10 c < 10
    · rw [if_pos ⟨hr, hlt⟩]
      omega
    · rw [if_neg (fun h => hlt h.2)]
      omega
  · rw [if_neg hr, if_neg (fun h => hr h.1)]
    rfl

/-- Claim C13, amended.  `I2C_master::transmit_bytes_polling(0x50, data, 10, 5)`
on a bus where no slave acknowledges the address, after any number of
iterations of the loop that were entered and whose error check read no error
flag:
when one more iteration is entered and its error check reads `NACKF`, the loop
ends at the next evaluation of the guard and, `NACKF` being still set in the
`ISR` the status is decoded from, the transfer returns a `bus_status` containing
`nack`;
when instead the guard reads `STOPF`, the transfer returns `bus_status = ok`;
when instead the guard reads `STOPF` clear and a counter more than `5` past the
start, the loop ends there and the transfer returns `bus_status = ok`.
In all three cases `bytes_transferred` is the number of iterations in which
`TXE` read set, at most `10`: the number of bytes stored to `TXDR`.  And a loop
with this guard is left, with no further store, at the first evaluation of the
guard at which the counter shows more than the timeout elapsed. -/
theorem transmit_bytes_polling_unanswered_result (id : I2C_Id) (slave : Bool)
    (w : List I2C_write) (cr2 : Nat) (rcv data : List Nat) (h0 : I2C_sample)
    (its : List Transmit_iteration) (hd : 10 ≤ data.length)
    (hits : ∀ i ∈ its, i.entered id 5 h0.now = true ∧ i.sees_error id = false) :
    (∀ (last : Transmit_iteration) (hg hs hi1 hi2 : I2C_sample) (rest : List I2C_sample),
      last.entered id 5 h0.now = true →
      is_flag (last.check.p_registers id).ISR I2C_ISR_NACKF = true →
      is_flag (hs.p_registers id).ISR I2C_ISR_NACKF = true →
      ∃ r s', I2C_master.transmit_bytes_polling_timed 0x50 (some data) 10 5
          ⟨id, true, true, slave,
            h0 :: (Transmit_iteration.all_observations (its ++ [last]) ++
              hg :: hs :: hi1 :: hi2 :: rest), w, cr2, rcv⟩ = some (r, s') ∧
        r.bus_status.nack = true ∧
        r.bytes_transferred =
          min 10 ((its ++ [last]).countP (Transmit_iteration.requests_byte id)) ∧
        s'.hardware = rest) ∧
    (∀ (hg hi : I2C_sample) (rest : List I2C_sample),
      is_flag (hg.p_registers id).ISR I2C_ISR_STOPF = true →
      ∃ r s', I2C_master.transmit_bytes_polling_timed 0x50 (some data) 10 5
          ⟨id, true, true, slave,
            h0 :: (Transmit_iteration.all_observations its ++ hg :: hi :: rest), w, cr2, rcv⟩ =
          some (r, s') ∧
        r.bus_status = Bus_status_flag.ok ∧
        r.bytes_transferred = min 10 (its.countP (Transmit_iteration.requests_byte id)) ∧
        s'.hardware = rest) ∧
    (∀ (hg hc hi : I2C_sample) (rest : List I2C_sample),
      is_flag (hg.p_registers id).ISR I2C_ISR_STOPF = false →
      5 < time.diff hc.now h0.now →
      ∃ r s', I2C_master.transmit_bytes_polling_timed 0x50 (some data) 10 5
          ⟨id, true, true, slave,
            h0 :: (Transmit_iteration.all_observations its ++ hg :: hc :: hi :: rest), w, cr2,
            rcv⟩ = some (r, s') ∧
        r.bus_status = Bus_status_flag.ok ∧
        r.bytes_transferred = min 10 (its.countP (Transmit_iteration.requests_byte id)) ∧
        s'.hardware = rest) ∧
    (∀ (a_timeout start fuel words : Nat) (error : Bool)
        (body : Nat → I2C_polling → Option ((Nat × Bool) × I2C_polling))
        (s : I2C_polling) (g c : I2C_sample) (more : List I2C_sample),
      s.hardware = g :: c :: more → a_timeout < time.diff c.now start →
      ∃ s2, I2C_polling.while_loop (I2C_master.polling_guard_timed a_timeout start) body
          (fuel + 1) words error s = some ((words, error), s2) ∧ s2.writes = s.writes) := by
  refine ⟨?_, ?_, ?_, ?_⟩
  · intro last hg hs hi1 hi2 rest hl hen hdn
    have he1 : last.sees_error id = true := is_I2C_ISR_error_of_NACKF _ hen
    have hn := nack_of_NACKF _ hdn
    obtain ⟨wr1, h1⟩ := master_transmit_timed_run id slave w cr2 rcv data 0x50 10 5 h0 its
      (last.guard :: last.clock :: last.request :: last.check :: hg :: hs :: hi1 :: hi2 :: rest)
      (by decide) (by decide) hd hits
    obtain ⟨wr2, h2⟩ := master_transmit_timed_iteration id true true slave wr1
      (I2C_master.CR2_transmit 0x50 10) rcv data 10 5 h0.now
      (last.guard :: last.clock :: last.request :: last.check :: hg :: hs :: hi1 :: hi2 ::
        rest).length
      (min 10 (its.countP (Transmit_iteration.requests_byte id))) last
      (hg :: hs :: hi1 :: hi2 :: rest) hd (by decide) hl
    rw [all_observations_append, h1, h2, he1, countP_append_singleton]
    simp [I2C_polling.while_loop, I2C_master.polling_guard_timed, I2C_polling.read_ISR,
      I2C_polling.read, I2C_master.finish, I2C_polling.status_after_loop,
      I2C_polling.set_flag_ICR, I2C_polling.write_CR2, hn]
    exact ⟨_, _, ⟨rfl, rfl⟩, hn, rfl, rfl⟩
  · intro hg hi rest hst
    obtain ⟨wr1, h1⟩ := master_transmit_timed_run id slave w cr2 rcv data 0x50 10 5 h0 its
      (hg :: hi :: rest) (by decide) (by decide) hd hits
    rw [h1]
    simp [I2C_polling.while_loop, I2C_master.polling_guard_timed, I2C_polling.read_ISR,
      I2C_polling.read, I2C_master.finish, I2C_polling.status_after_loop,
      I2C_polling.set_flag_ICR, I2C_polling.write_CR2, hst]
    exact ⟨_, _, ⟨rfl, rfl⟩, rfl, rfl, rfl⟩
  · intro hg hc hi rest hst hlate
    have hnot : ¬ 5 ≥ time.diff hc.now h0.now := Nat.not_le.mpr hlate
    obtain ⟨wr1, h1⟩ := master_transmit_timed_run id slave w cr2 rcv data 0x50 10 5 h0 its
      (hg :: hc :: hi :: rest) (by decide) (by decide) hd hits
    rw [h1]
    simp [I2C_polling.while_loop, I2C_master.polling_guard_timed, I2C_polling.read_ISR,
      I2C_polling.read, I2C_polling.counter_get, I2C_master.finish,
      I2C_polling.status_after_loop, I2C_polling.set_flag_ICR, I2C_polling.write_CR2, hst, hnot]
    exact ⟨_, _, ⟨rfl, rfl⟩, rfl, rfl, rfl⟩
  · intro a_timeout start fuel words error body s g c more hs hlate
    have hnot : ¬ a_timeout ≥ time.diff c.now start := Nat.not_le.mpr hlate
    cases hst : is_flag (g.p_registers s.id).ISR I2C_ISR_STOPF <;> cases error <;>
      simp [I2C_polling.while_loop, I2C_master.polling_guard_timed, I2C_polling.read_ISR,
        I2C_polling.read, I2C_polling.counter_get, hs, hst, hnot]

/-- Witness for `transmit_bytes_polling_unanswered_result`: the master on `I2C1`
in a run of three iterations, `TXE` reading set in the first one only and `NACKF`
coming up in the third; the transfer returns `nack` and `bytes_transferred = 1`. -/
theorem transmit_bytes_polling_unanswered_result_witness :
    (10 ≤ I2C_polling.ten_bytes.length ∧
      (∀ i ∈ Transmit_iteration.unanswered,
        i.entered I2C_Id._1 5 (I2C_sample.of_I2C1 0 0x1).now = true ∧
          i.sees_error I2C_Id._1 = false) ∧
      Transmit_iteration.nacked.entered I2C_Id._1 5 (I2C_sample.of_I2C1 0 0x1).now = true ∧
      is_flag (Transmit_iteration.nacked.check.p_registers I2C_Id._1).ISR I2C_ISR_NACKF = true ∧
      is_flag ((I2C_sample.of_I2C1 3 0x30).p_registers I2C_Id._1).ISR I2C_ISR_NACKF = true) ∧
    min 10 ((Transmit_iteration.unanswered ++ [Transmit_iteration.nacked]).countP
      (Transmit_iteration.requests_byte I2C_Id._1)) = 1 ∧
    ∃ r s', I2C_master.transmit_bytes_polling_timed 0x50 (some I2C_polling.ten_bytes) 10 5
        ⟨I2C_Id._1, true, true, false,
          I2C_sample.of_I2C1 0 0x1 ::
            (Transmit_iteration.all_observations
                (Transmit_iteration.unanswered ++ [Transmit_iteration.nacked]) ++
              I2C_sample.of_I2C1 3 0x30 :: I2C_sample.of_I2C1 3 0x30 ::
                I2C_sample.of_I2C1 3 0x30 :: I2C_sample.of_I2C1 3 0x30 :: []),
          [], 0, List.replicate 10 0⟩ = some (r, s') ∧
      r.bus_status.nack = true ∧
      r.bytes_transferred =
        min 10 ((Transmit_iteration.unanswered ++ [Transmit_iteration.nacked]).countP
          (Transmit_iteration.requests_byte I2C_Id._1)) ∧
      s'.hardware = [] :=
  ⟨⟨by decide, by decide, by decide, by decide, by decide⟩, by decide,
    (transmit_bytes_polling_unanswered_result I2C_Id._1 false [] 0 (List.replicate 10 0)
      I2C_polling.ten_bytes (I2C_sample.of_I2C1 0 0x1) Transmit_iteration.unanswered
      (by decide) (by decide)).1 Transmit_iteration.nacked (I2C_sample.of_I2C1 3 0x30)
      (I2C_sample.of_I2C1 3 0x30) (I2C_sample.of_I2C1 3 0x30) (I2C_sample.of_I2C1 3 0x30) []
      (by decide) (by decide) (by decide)⟩

/-! ## The stop interrupt of the I²C drivers -/

theorem testBit_I2C_tx_enables (i : Nat) :
    (I2C_CR1_TXIE ||| I2C_CR1_STOPIE ||| I2C_CR1_ADDRIE).testBit i =
      decide (i = 1 ∨ i = 5 ∨ i = 3) := by
  have h1 : I2C_CR1_TXIE = 2 ^ 1 := rfl
  have h2 : I2C_CR1_STOPIE = 2 ^ 5 := rfl
  have h3 : I2C_CR1_ADDRIE = 2 ^ 3 := rfl
  rw [h1, h2, h3, Nat.testBit_or, Nat.testBit_or, Nat.testBit_two_pow, Nat.testBit_two_pow,
    Nat.testBit_two_pow]
  simp [eq_comm, Bool.or_assoc]

theorem testBit_I2C_rx_enables (i : Nat) :
    (I2C_CR1_RXIE ||| I2C_CR1_STOPIE ||| I2C_CR1_ADDRIE).testBit i =
      decide (i = 2 ∨ i = 5 ∨ i = 3) := by
  have h1 : I2C_CR1_RXIE = 2 ^ 2 := rfl
  have h2 : I2C_CR1_STOPIE = 2 ^ 5 := rfl
  have h3 : I2C_CR1_ADDRIE = 2 ^ 3 := rfl
  rw [h1, h2, h3, Nat.testBit_or, Nat.testBit_or, Nat.testBit_two_pow, Nat.testBit_two_pow,
    Nat.testBit_two_pow]
  simp [eq_comm, Bool.or_assoc]

/-- Claim C16.  `I2C_base::stopf_interrupt_handler` on the snapshots `a_isr`,
`a_cr1`, for a 32-bit `CR1` and a transmit callback that stores nothing through
the null `p_txdr` it is handed.  When `ISR.STOPF` and `CR1.STOPIE` are both set:
each armed callback is called once, with `a_stop = true` (the transmit one
first), and nothing else is called; both callbacks are null afterwards; `TXIE`,
`STOPIE`, `ADDRIE` are cleared in `CR1` when the transmit callback was armed,
`RXIE`, `STOPIE`, `ADDRIE` when the receive callback was, no other bit of `CR1`
changes; and `STOPCF` is stored to `ICR` last.  Otherwise nothing is called and
the state is unchanged. -/
theorem stopf_interrupt_handler_final_calls {σ : Type} (a_isr a_cr1 : Nat) (s : I2C_base σ)
    (hr : s.CR1 < 4294967296)
    (htx : ∀ f, s.tx_callback.function = some f →
      (f s.app true s.tx_callback.p_user_data).2 = none) :
    ((is_flag a_isr I2C_ISR_STOPF = true ∧ is_flag a_cr1 I2C_CR1_STOPIE = true) →
      ∃ s', I2C_base.stopf_interrupt_handler a_isr a_cr1 s = some s' ∧
        s'.log = s.log ++
          (if s.tx_callback.function.isSome = true then [I2C_event.tx_call true true] else []) ++
          (if s.rx_callback.function.isSome = true then [I2C_event.rx_call 0 true] else []) ++
          [I2C_event.icr_write (set_flag s.ICR I2C_ICR_STOPCF)] ∧
        s'.tx_callback.function = none ∧ s'.rx_callback.function = none ∧
        s'.ICR = set_flag s.ICR I2C_ICR_STOPCF ∧ is_flag s'.ICR I2C_ICR_STOPCF = true ∧
        (∀ i, s'.CR1.testBit i =
          (s.CR1.testBit i &&
            !(s.tx_callback.function.isSome && decide (i = 1 ∨ i = 5 ∨ i = 3)) &&
            !(s.rx_callback.function.isSome && decide (i = 2 ∨ i = 5 ∨ i = 3))))) ∧
    (¬ (is_flag a_isr I2C_ISR_STOPF = true ∧ is_flag a_cr1 I2C_CR1_STOPIE = true) →
      I2C_base.stopf_interrupt_handler a_isr a_cr1 s = some s) := by
  constructor
  · intro hc
    unfold I2C_base.stopf_interrupt_handler
    rw [if_pos hc]
    cases ht : s.tx_callback.function with
    | none =>
      cases hx : s.rx_callback.function with
      | none =>
        refine ⟨_, rfl, ?_, ?_, ?_, ?_, ?_, ?_⟩
        · simp [ht, hx]
        · simp [ht, hx]
        · simp [ht, hx]
        · simp [ht, hx]
        · simp only [ht, hx]; exact is_flag_set_flag _ _
        · intro i; simp [ht, hx]
      | some g =>
        refine ⟨_, rfl, ?_, ?_, ?_, ?_, ?_, ?_⟩
        · simp [ht, hx]
        · simp [ht, hx]
        · simp [ht, hx]
        · simp [ht, hx]
        · simp only [ht, hx]; exact is_flag_set_flag _ _
        · intro i
          simp only [ht, hx]
          rw [testBit_clear_flag _ _ _ hr, testBit_I2C_rx_enables]
          simp
    | some f =>
      have hf := htx f ht
      cases hx : s.rx_callback.function with
      | none =>
        refine ⟨_, by simp only [hf]; rfl, ?_, ?_, ?_, ?_, ?_, ?_⟩
        · simp [ht, hx]
        · simp [ht, hx]
        · simp [ht, hx]
        · simp [ht, hx]
        · simp only [ht, hx]; exact is_flag_set_flag _ _
        · intro i
          simp only [ht, hx]
          rw [testBit_clear_flag _ _ _ hr, testBit_I2C_tx_enables]
          simp
      | some g =>
        refine ⟨_, by simp only [hf]; rfl, ?_, ?_, ?_, ?_, ?_, ?_⟩
        · simp [ht, hx]
        · simp [ht, hx]
        · simp [ht, hx]
        · simp [ht, hx]
        · simp only [ht, hx]; exact is_flag_set_flag _ _
        · intro i
          simp only [ht, hx]
          rw [testBit_clear_flag _ _ _ (clear_flag_lt _ _ hr), testBit_clear_flag _ _ _ hr,
            testBit_I2C_tx_enables, testBit_I2C_rx_enables]
          simp
  · intro hc
    unfold I2C_base.stopf_interrupt_handler
    rw [if_neg hc]

/-- Witness for `stopf_interrupt_handler_final_calls`: the stop interrupt on a
driver with both directions armed. -/
theorem stopf_interrupt_handler_final_calls_witness :
    (I2C_base.armed.CR1 < 4294967296 ∧
      (∀ f, I2C_base.armed.tx_callback.function = some f →
        (f I2C_base.armed.app true I2C_base.armed.tx_callback.p_user_data).2 = none) ∧
      is_flag 0x20 I2C_ISR_STOPF = true ∧ is_flag 0x3F I2C_CR1_STOPIE = true) ∧
    ∃ s', I2C_base.stopf_interrupt_handler 0x20 0x3F I2C_base.armed = some s' ∧
      s'.log = I2C_base.armed.log ++
        (if I2C_base.armed.tx_callback.function.isSome = true then
          [I2C_event.tx_call true true] else []) ++
        (if I2C_base.armed.rx_callback.function.isSome = true then
          [I2C_event.rx_call 0 true] else []) ++
        [I2C_event.icr_write (set_flag I2C_base.armed.ICR I2C_ICR_STOPCF)] ∧
      s'.tx_callback.function = none ∧ s'.rx_callback.function = none ∧
      s'.ICR = set_flag I2C_base.armed.ICR I2C_ICR_STOPCF ∧
      is_flag s'.ICR I2C_ICR_STOPCF = true ∧
      (∀ i, s'.CR1.testBit i =
        (I2C_base.armed.CR1.testBit i &&
          !(I2C_base.armed.tx_callback.function.isSome && decide (i = 1 ∨ i = 5 ∨ i = 3)) &&
          !(I2C_base.armed.rx_callback.function.isSome && decide (i = 2 ∨ i = 5 ∨ i = 3)))) :=
  ⟨⟨by decide, fun f hf => by have hh := Option.some.inj hf; subst hh; rfl, by decide, by decide⟩,
    (stopf_interrupt_handler_final_calls 0x20 0x3F I2C_base.armed (by decide)
      (fun f hf => by have hh := Option.some.inj hf; subst hh; rfl)).1 ⟨by decide, by decide⟩⟩

/-! ## The dispatch table of the I²C drivers -/

theorem controllers_enable_frame (id : I2C_Id) (cs prio : Nat) (s s1 : I2C_system)
    (h : controllers_enable id cs prio s = some s1) :
    s1.p_i2c_master_handle = s.p_i2c_master_handle ∧
    s1.p_i2c_slave_handle = s.p_i2c_slave_handle ∧
    s1.masters = s.masters ∧ s1.slaves = s.slaves ∧ s1.p_registers = s.p_registers := by
  cases id <;>
    simp only [controllers_enable, i2c_1_enable, i2c_2_enable, i2c_3_enable, i2c_4_enable] at h <;>
    split at h <;> cases h <;> exact ⟨rfl, rfl, rfl, rfl, rfl⟩

theorem enable_fast_plus_frame (cfg : I2C_config) (id : I2C_Id) (s s1 : I2C_system)
    (h : s.enable_fast_plus cfg id = some s1) :
    s1.p_i2c_master_handle = s.p_i2c_master_handle ∧
    s1.p_i2c_slave_handle = s.p_i2c_slave_handle ∧
    s1.masters = s.masters ∧ s1.slaves = s.slaves ∧ s1.p_registers = s.p_registers := by
  unfold I2C_system.enable_fast_plus at h
  split at h
  · split at h
    · simp only [Option.some.injEq] at h; subst h; exact ⟨rfl, rfl, rfl, rfl, rfl⟩
    · exact absurd h (by simp)
  · simp only [Option.some.injEq] at h; subst h; exact ⟨rfl, rfl, rfl, rfl, rfl⟩

theorem controllers_disable_frame (id : I2C_Id) (s : I2C_system) :
    (controllers_disable id s).p_i2c_master_handle = s.p_i2c_master_handle ∧
    (controllers_disable id s).p_i2c_slave_handle = s.p_i2c_slave_handle ∧
    (controllers_disable id s).masters = s.masters ∧
    (controllers_disable id s).slaves = s.slaves := by
  cases id <;> exact ⟨rfl, rfl, rfl, rfl⟩

theorem master_enable_effect (self : Nat) (cfg : I2C_config) (cs prio : Nat)
    (s s' : I2C_system) (h : I2C_master.enable self cfg cs prio s = some s') :
    s.p_i2c_master_handle (s.masters self).id = none ∧
    s.p_i2c_slave_handle (s.masters self).id = none ∧
    s'.p_i2c_master_handle =
      Function.update s.p_i2c_master_handle (s.masters self).id (some self) ∧
    s'.p_i2c_slave_handle = s.p_i2c_slave_handle ∧
    s'.masters = Function.update s.masters self { (s.masters self) with
      p_i2c := some (s.masters self).id } ∧
    s'.slaves = s.slaves := by
  unfold I2C_master.enable at h
  dsimp only at h
  split at h
  · rename_i hc
    split at h
    · exact absurd h (by simp)
    · rename_i s1 h1
      obtain ⟨e1, e2, e3, e4, _⟩ := controllers_enable_frame _ _ _ _ _ h1
      obtain ⟨f1, f2, f3, f4, _⟩ := enable_fast_plus_frame _ _ _ _ h
      refine ⟨hc.2.1, hc.2.2, ?_, ?_, ?_, ?_⟩
      · rw [f1]; show Function.update s1.p_i2c_master_handle _ _ = _; rw [e1]
      · rw [f2]; show s1.p_i2c_slave_handle = _; rw [e2]
      · rw [f3]; show Function.update s1.masters _ _ = _; rw [e3]
      · rw [f4]; show s1.slaves = _; rw [e4]
  · exact absurd h (by simp)

theorem slave_enable_effect (self : Nat) (cfg : I2C_config) (cs prio : Nat)
    (s s' : I2C_system) (h : I2C_slave.enable self cfg cs prio s = some s') :
    s.p_i2c_master_handle (s.slaves self).id = none ∧
    s.p_i2c_slave_handle (s.slaves self).id = none ∧
    s'.p_i2c_slave_handle =
      Function.update s.p_i2c_slave_handle (s.slaves self).id (some self) ∧
    s'.p_i2c_master_handle = s.p_i2c_master_handle ∧
    s'.slaves = Function.update s.slaves self { (s.slaves self) with
      p_i2c := some (s.slaves self).id } ∧
    s'.masters = s.masters := by
  unfold I2C_slave.enable at h
  dsimp only at h
  split at h
  · rename_i hc
    split at h
    · exact absurd h (by simp)
    · rename_i s1 h1
      obtain ⟨e1, e2, e3, e4, _⟩ := controllers_enable_frame _ _ _ _ _ h1
      obtain ⟨f1, f2, f3, f4, _⟩ := enable_fast_plus_frame _ _ _ _ h
      refine ⟨hc.2.1, hc.2.2.1, ?_, ?_, ?_, ?_⟩
      · rw [f2]; show Function.update s1.p_i2c_slave_handle _ _ = _; rw [e2]
      · rw [f1]; show s1.p_i2c_master_handle = _; rw [e1]
      · rw [f4]; show Function.update s1.slaves _ _ = _; rw [e4]
      · rw [f3]; show s1.masters = _; rw [e3]
  · exact absurd h (by simp)

theorem master_diasble_effect (self : Nat) (s s' : I2C_system)
    (h : I2C_master.diasble self s = some s') :
    (s.masters self).p_i2c ≠ none ∧
    s'.p_i2c_master_handle = Function.update s.p_i2c_master_handle (s.masters self).id none ∧
    s'.p_i2c_slave_handle = s.p_i2c_slave_handle ∧
    s'.masters = Function.update s.masters self { (s.masters self) with p_i2c := none } ∧
    s'.slaves = s.slaves := by
  unfold I2C_master.diasble at h
  dsimp only at h
  split at h
  · exact absurd h (by simp)
  · rename_i block hb
    split at h
    · simp only [Option.some.injEq] at h
      subst h
      refine ⟨by rw [hb]; simp, ?_, ?_, ?_, ?_⟩
      · dsimp only
        rw [(controllers_disable_frame _ _).1]
        split <;> rfl
      · dsimp only
        rw [(controllers_disable_frame _ _).2.1]
        split <;> rfl
      · dsimp only
        rw [(controllers_disable_frame _ _).2.2.1]
        split <;> rfl
      · dsimp only
        rw [(controllers_disable_frame _ _).2.2.2]
        split <;> rfl
    · exact absurd h (by simp)

theorem slave_diasble_effect (self : Nat) (s s' : I2C_system)
    (h : I2C_slave.diasble self s = some s') :
    (s.slaves self).p_i2c ≠ none ∧
    s'.p_i2c_slave_handle = Function.update s.p_i2c_slave_handle (s.slaves self).id none ∧
    s'.p_i2c_master_handle = s.p_i2c_master_handle ∧
    s'.slaves = Function.update s.slaves self { (s.slaves self) with p_i2c := none } ∧
    s'.masters = s.masters := by
  unfold I2C_slave.diasble at h
  dsimp only at h
  split at h
  · exact absurd h (by simp)
  · rename_i block hb
    split at h
    · simp only [Option.some.injEq] at h
      subst h
      refine ⟨by rw [hb]; simp, ?_, ?_, ?_, ?_⟩
      · dsimp only
        rw [(controllers_disable_frame _ _).2.1]
        split <;> rfl
      · dsimp only
        rw [(controllers_disable_frame _ _).1]
        split <;> rfl
      · dsimp only
        rw [(controllers_disable_frame _ _).2.2.2]
        split <;> rfl
      · dsimp only
        rw [(controllers_disable_frame _ _).2.2.1]
        split <;> rfl
    · exact absurd h (by simp)

theorem master_enable_consistent (self : Nat) (cfg : I2C_config) (cs prio : Nat)
    (s s' : I2C_system) (hi : s.consistent) (h : I2C_master.enable self cfg cs prio s = some s') :
    s'.consistent := by
  obtain ⟨hm, hs, e1, e2, e3, e4⟩ := master_enable_effect _ _ _ _ _ _ h
  obtain ⟨i1, i2, i3⟩ := hi
  refine ⟨?_, ?_, ?_⟩
  · intro id
    rw [e1, e2]
    by_cases hid : id = (s.masters self).id
    · right; rw [hid]; exact hs
    · rw [Function.update_noteq hid]; exact i1 id
  · intro m
    unfold I2C_system.master_bound
    rw [e1, e3]
    by_cases hmm : m = self
    · subst hmm
      rw [Function.update_same]
      show some (s.masters m).id ≠ none ↔
        Function.update s.p_i2c_master_handle (s.masters m).id (some m) (s.masters m).id = some m
      rw [Function.update_same]
      simp
    · rw [Function.update_noteq hmm]
      by_cases hid : (s.masters m).id = (s.masters self).id
      · rw [hid, Function.update_same]
        have := i2 m
        unfold I2C_system.master_bound at this
        rw [hid, hm] at this
        rw [this]
        simp only [Option.some.injEq]
        constructor
        · intro hc; exact absurd hc (by simp)
        · intro hc; exact absurd hc.symm hmm
      · rw [Function.update_noteq hid]
        exact i2 m
  · intro m
    unfold I2C_system.slave_bound
    rw [e2, e4]
    exact i3 m

theorem slave_enable_consistent (self : Nat) (cfg : I2C_config) (cs prio : Nat)
    (s s' : I2C_system) (hi : s.consistent) (h : I2C_slave.enable self cfg cs prio s = some s') :
    s'.consistent := by
  obtain ⟨hm, hs, e1, e2, e3, e4⟩ := slave_enable_effect _ _ _ _ _ _ h
  obtain ⟨i1, i2, i3⟩ := hi
  refine ⟨?_, ?_, ?_⟩
  · intro id
    rw [e1, e2]
    by_cases hid : id = (s.slaves self).id
    · left; rw [hid]; exact hm
    · rw [Function.update_noteq hid]; exact i1 id
  · intro m
    unfold I2C_system.master_bound
    rw [e2, e4]
    exact i2 m
  · intro m
    unfold I2C_system.slave_bound
    rw [e1, e3]
    by_cases hmm : m = self
    · subst hmm
      rw [Function.update_same]
      show some (s.slaves m).id ≠ none ↔
        Function.update s.p_i2c_slave_handle (s.slaves m).id (some m) (s.slaves m).id = some m
      rw [Function.update_same]
      simp
    · rw [Function.update_noteq hmm]
      by_cases hid : (s.slaves m).id = (s.slaves self).id
      · rw [hid, Function.update_same]
        have := i3 m
        unfold I2C_system.slave_bound at this
        rw [hid, hs] at this
        rw [this]
        simp only [Option.some.injEq]
        constructor
        · intro hc; exact absurd hc (by simp)
        · intro hc; exact absurd hc.symm hmm
      · rw [Function.update_noteq hid]
        exact i3 m

theorem master_diasble_consistent (self : Nat) (s s' : I2C_system) (hi : s.consistent)
    (h : I2C_master.diasble self s = some s') : s'.consistent := by
  obtain ⟨hp, e1, e2, e3, e4⟩ := master_diasble_effect _ _ _ h
  obtain ⟨i1, i2, i3⟩ := hi
  have hb : s.p_i2c_master_handle (s.masters self).id = some self := (i2 self).1 hp
  refine ⟨?_, ?_, ?_⟩
  · intro id
    rw [e1, e2]
    by_cases hid : id = (s.masters self).id
    · left; rw [hid, Function.update_same]
    · rw [Function.update_noteq hid]; exact i1 id
  · intro m
    unfold I2C_system.master_bound
    rw [e1, e3]
    by_cases hmm : m = self
    · subst hmm
      rw [Function.update_same]
      show (none : Option I2C_Id) ≠ none ↔
        Function.update s.p_i2c_master_handle (s.masters m).id none (s.masters m).id = some m
      rw [Function.update_same]
      simp
    · rw [Function.update_noteq hmm]
      by_cases hid : (s.masters m).id = (s.masters self).id
      · rw [hid, Function.update_same]
        have := i2 m
        unfold I2C_system.master_bound at this
        rw [hid, hb] at this
        rw [this]
        simp only [Option.some.injEq]
        constructor
        · intro hc; exact absurd hc.symm hmm
        · intro hc; exact absurd hc (by simp)
      · rw [Function.update_noteq hid]
        exact i2 m
  · intro m
    unfold I2C_system.slave_bound
    rw [e2, e4]
    exact i3 m

theorem slave_diasble_consistent (self : Nat) (s s' : I2C_system) (hi : s.consistent)
    (h : I2C_slave.diasble self s = some s') : s'.consistent := by
  obtain ⟨hp, e1, e2, e3, e4⟩ := slave_diasble_effect _ _ _ h
  obtain ⟨i1, i2, i3⟩ := hi
  have hb : s.p_i2c_slave_handle (s.slaves self).id = some self := (i3 self).1 hp
  refine ⟨?_, ?_, ?_⟩
  · intro id
    rw [e1, e2]
    by_cases hid : id = (s.slaves self).id
    · right; rw [hid, Function.update_same]
    · rw [Function.update_noteq hid]; exact i1 id
  · intro m
    unfold I2C_system.master_bound
    rw [e2, e4]
    exact i2 m
  · intro m
    unfold I2C_system.slave_bound
    rw [e1, e3]
    by_cases hmm : m = self
    · subst hmm
      rw [Function.update_same]
      show (none : Option I2C_Id) ≠ none ↔
        Function.update s.p_i2c_slave_handle (s.slaves m).id none (s.slaves m).id = some m
      rw [Function.update_same]
      simp
    · rw [Function.update_noteq hmm]
      by_cases hid : (s.slaves m).id = (s.slaves self).id
      · rw [hid, Function.update_same]
        have := i3 m
        unfold I2C_system.slave_bound at this
        rw [hid, hb] at this
        rw [this]
        simp only [Option.some.injEq]
        constructor
        · intro hc; exact absurd hc.symm hmm
        · intro hc; exact absurd hc (by simp)
      · rw [Function.update_noteq hid]
        exact i3 m

theorem i2c_run_consistent (calls : List I2C_call) :
    ∀ (s s' : I2C_system), s.consistent → I2C_system.run calls s = some s' → s'.consistent := by
  induction calls with
  | nil =>
    intro s s' hi h
    simp only [I2C_system.run, Option.some.injEq] at h
    rw [← h]; exact hi
  | cons c rest ih =>
    intro s s' hi h
    unfold I2C_system.run at h
    cases hc : s.call c with
    | none => rw [hc] at h; exact absurd h (by simp)
    | some s1 =>
      rw [hc] at h
      refine ih s1 s' ?_ h
      cases c with
      | master_enable self cfg cs prio => exact master_enable_consistent _ _ _ _ _ _ hi hc
      | master_diasble self => exact master_diasble_consistent _ _ _ hi hc
      | slave_enable self cfg cs prio => exact slave_enable_consistent _ _ _ _ _ _ hi hc
      | slave_diasble self => exact slave_diasble_consistent _ _ _ hi hc

/-- Claim C14.  From a state in which every handle of the dispatch table is null
and no driver object has a register pointer, after every sequence of
`I2C_master::enable` / `diasble` and `I2C_slave::enable` / `diasble` calls whose
assertions hold: no table entry has both handles set; two bound masters (or two
bound slaves) of one identity are the same object and a bound master and a bound
slave have different identities; a driver object has `p_i2c` non-null iff it is
the object bound in the entry of its identity; and `enable` on an object whose
identity has a master or a slave bound fails an assertion. -/
theorem i2c_table_binds_one_driver (s0 : I2C_system) (calls : List I2C_call) (s : I2C_system)
    (hm : ∀ id, s0.p_i2c_master_handle id = none) (hs : ∀ id, s0.p_i2c_slave_handle id = none)
    (hpm : ∀ m, (s0.masters m).p_i2c = none) (hps : ∀ n, (s0.slaves n).p_i2c = none)
    (hrun : I2C_system.run calls s0 = some s) :
    (∀ id, s.p_i2c_master_handle id = none ∨ s.p_i2c_slave_handle id = none) ∧
    (∀ m1 m2, s.master_bound m1 → s.master_bound m2 →
      (s.masters m1).id = (s.masters m2).id → m1 = m2) ∧
    (∀ n1 n2, s.slave_bound n1 → s.slave_bound n2 →
      (s.slaves n1).id = (s.slaves n2).id → n1 = n2) ∧
    (∀ m n, s.master_bound m → s.slave_bound n → (s.masters m).id ≠ (s.slaves n).id) ∧
    (∀ m, (s.masters m).p_i2c ≠ none ↔ s.master_bound m) ∧
    (∀ n, (s.slaves n).p_i2c ≠ none ↔ s.slave_bound n) ∧
    (∀ self cfg cs prio,
      (s.p_i2c_master_handle (s.masters self).id ≠ none ∨
        s.p_i2c_slave_handle (s.masters self).id ≠ none) →
      I2C_master.enable self cfg cs prio s = none) ∧
    (∀ self cfg cs prio,
      (s.p_i2c_master_handle (s.slaves self).id ≠ none ∨
        s.p_i2c_slave_handle (s.slaves self).id ≠ none) →
      I2C_slave.enable self cfg cs prio s = none) := by
  have h0 : s0.consistent := by
    refine ⟨fun id => Or.inl (hm id), fun m => ?_, fun n => ?_⟩
    · unfold I2C_system.master_bound
      rw [hpm m, hm]
      simp
    · unfold I2C_system.slave_bound
      rw [hps n, hs]
      simp
  obtain ⟨i1, i2, i3⟩ := i2c_run_consistent calls s0 s h0 hrun
  refine ⟨i1, ?_, ?_, ?_, i2, i3, ?_, ?_⟩
  · intro m1 m2 h1 h2 hid
    unfold I2C_system.master_bound at h1 h2
    rw [hid, h2] at h1
    exact (Option.some.inj h1).symm
  · intro n1 n2 h1 h2 hid
    unfold I2C_system.slave_bound at h1 h2
    rw [hid, h2] at h1
    exact (Option.some.inj h1).symm
  · intro m n h1 h2 hid
    unfold I2C_system.master_bound at h1
    unfold I2C_system.slave_bound at h2
    rw [← hid] at h2
    cases i1 (s.masters m).id with
    | inl h => rw [h] at h1; exact absurd h1 (by simp)
    | inr h => rw [h] at h2; exact absurd h2 (by simp)
  · intro self cfg cs prio hb
    unfold I2C_master.enable
    dsimp only
    rw [if_neg]
    intro hc
    cases hb with
    | inl h => exact h hc.2.1
    | inr h => exact h hc.2.2
  · intro self cfg cs prio hb
    unfold I2C_slave.enable
    dsimp only
    rw [if_neg]
    intro hc
    cases hb with
    | inl h => exact h hc.2.1
    | inr h => exact h hc.2.2.1

/-- Witness for `i2c_table_binds_one_driver`: a master enabled on `I2C1` and
disabled again, then a slave enabled on `I2C1`; the slave is bound and the
master is not. -/
theorem i2c_table_binds_one_driver_witness :
    I2C_system.run I2C_call.demo (I2C_system.reset (fun _ => I2C_Id._1) (fun _ => I2C_Id._1)) =
      some I2C_system.demo ∧
    I2C_system.demo.p_i2c_slave_handle I2C_Id._1 = some 0 ∧
    I2C_system.demo.p_i2c_master_handle I2C_Id._1 = none ∧
    (I2C_system.demo.slaves 0).p_i2c = some I2C_Id._1 ∧
    (I2C_system.demo.masters 0).p_i2c = none ∧
    (∀ id, I2C_system.demo.p_i2c_master_handle id = none ∨
      I2C_system.demo.p_i2c_slave_handle id = none) ∧
    (∀ m, (I2C_system.demo.masters m).p_i2c ≠ none ↔ I2C_system.demo.master_bound m) ∧
    (∀ n, (I2C_system.demo.slaves n).p_i2c ≠ none ↔ I2C_system.demo.slave_bound n) :=
  have h := i2c_table_binds_one_driver
    (I2C_system.reset (fun _ => I2C_Id._1) (fun _ => I2C_Id._1)) I2C_call.demo I2C_system.demo
    (fun _ => rfl) (fun _ => rfl) (fun _ => rfl) (fun _ => rfl) rfl
  ⟨rfl, rfl, rfl, rfl, rfl, h.1, h.2.2.2.2.1, h.2.2.2.2.2.1⟩

/-! ## Callback registration on the I²C slave -/

/-- C15 (the code at the failing input): a slave object enabled on `I2C1` from
start-up is bound as the slave handle of its table entry and has its register
pointer set, and the master handle of the entry is null; `register_transmit_callback`
and `register_receive_callback` on it then fail their second assertion, whatever
the callback and the size. -/
theorem slave_register_callback_asserts_master_handle :
    (∃ s, I2C_slave.enable 0 I2C_config.demo 1 0
        (I2C_system.reset (fun _ => I2C_Id._1) (fun _ => I2C_Id._1)) = some s ∧
      s.p_i2c_slave_handle I2C_Id._1 = some 0 ∧ s.p_i2c_master_handle I2C_Id._1 = none ∧
      (s.slaves 0).p_i2c = some I2C_Id._1 ∧
      (∀ a_callback a_data_size_in_bytes,
        I2C_slave.register_transmit_callback 0 a_callback a_data_size_in_bytes s = none) ∧
      (∀ a_callback a_data_size_in_bytes,
        I2C_slave.register_receive_callback 0 a_callback a_data_size_in_bytes s = none)) :=
  ⟨_, rfl, rfl, rfl, rfl, fun _ _ => rfl, fun _ _ => rfl⟩

/-! ## The loop guards of the polling transfers of the I²C slave -/

/-- C22 (the code at the failing inputs): whatever block the slave is bound to,
the guards of both transmit loops test `STOPF` in two reads of `I2C1->ISR`, the
guard of the untimed receive loop tests `STOPF` in `I2C1->ISR`, and the guard of
the timed receive loop tests `STOPCF` in `I2C1->ICR`, where the single stop test
reads the `ISR` of the driver's own block.  So for a slave bound to `I2C2` whose
own `ISR` shows `STOPF`, the guards of both transmit loops and of the untimed
receive loop go on, where the single stop test ends the loop; and for a slave
bound to `I2C1` whose `ISR` shows `STOPF`, the guard of the timed receive loop,
reading `0` from `ICR`, goes on, where the untimed receive guard ends the loop. -/
theorem slave_polling_guards_test_I2C1 :
    (∀ (s : I2C_polling) (h h2 : I2C_sample) (rest : List I2C_sample) (a_timeout start : Nat),
      (I2C_slave.transmit_guard false { s with hardware := h :: h2 :: rest }).map Prod.fst =
        some (is_flag h.I2C1.ISR I2C_ISR_STOPF == false &&
          is_flag h2.I2C1.ISR I2C_ISR_STOPF == false) ∧
      (I2C_slave.receive_guard false { s with hardware := h :: h2 :: rest }).map Prod.fst =
        some (is_flag h.I2C1.ISR I2C_ISR_STOPF == false) ∧
      (I2C_slave.receive_guard_timed a_timeout start false
          { s with hardware := h :: h2 :: rest }).map Prod.fst =
        some (is_flag h.I2C1.ICR I2C_ICR_STOPCF == false &&
          decide (a_timeout ≥ time.diff h2.now start)) ∧
      (I2C_slave.single_stop_test false { s with hardware := h :: h2 :: rest }).map Prod.fst =
        some (is_flag (h.p_registers s.id).ISR I2C_ISR_STOPF == false)) ∧
    (I2C_slave.transmit_guard false
        (I2C_polling.slave_on I2C_Id._2 [I2C_sample.of_I2C2 0 0x20, I2C_sample.of_I2C2 0 0x20])).map
      Prod.fst = some true ∧
    (I2C_slave.single_stop_test false
        (I2C_polling.slave_on I2C_Id._2 [I2C_sample.of_I2C2 0 0x20, I2C_sample.of_I2C2 0 0x20])).map
      Prod.fst = some false ∧
    (I2C_slave.transmit_guard_timed 5 0 false
        (I2C_polling.slave_on I2C_Id._2
          [I2C_sample.of_I2C2 0 0x20, I2C_sample.of_I2C2 0 0x20, I2C_sample.of_I2C2 1 0x20])).map
      Prod.fst = some true ∧
    (I2C_slave.single_stop_test_timed 5 0 false
        (I2C_polling.slave_on I2C_Id._2
          [I2C_sample.of_I2C2 0 0x20, I2C_sample.of_I2C2 0 0x20, I2C_sample.of_I2C2 1 0x20])).map
      Prod.fst = some false ∧
    (I2C_slave.receive_guard false
        (I2C_polling.slave_on I2C_Id._2 [I2C_sample.of_I2C2 0 0x20])).map Prod.fst = some true ∧
    (I2C_slave.single_stop_test false
        (I2C_polling.slave_on I2C_Id._2 [I2C_sample.of_I2C2 0 0x20])).map Prod.fst = some false ∧
    (I2C_slave.receive_guard_timed 5 0 false
        (I2C_polling.slave_on I2C_Id._1 [I2C_sample.of_I2C1 0 0x20, I2C_sample.of_I2C1 1 0x20])).map
      Prod.fst = some true ∧
    (I2C_slave.receive_guard false
        (I2C_polling.slave_on I2C_Id._1 [I2C_sample.of_I2C1 0 0x20, I2C_sample.of_I2C1 1 0x20])).map
      Prod.fst = some false ∧
    (I2C_slave.single_stop_test_timed 5 0 false
        (I2C_polling.slave_on I2C_Id._1 [I2C_sample.of_I2C1 0 0x20, I2C_sample.of_I2C1 1 0x20])).map
      Prod.fst = some false := by
  refine ⟨?_, by decide⟩
  intro s h h2 rest a_timeout start
  refine ⟨?_, ?_, ?_, ?_⟩
  · cases h1 : is_flag h.I2C1.ISR I2C_ISR_STOPF <;>
      simp [I2C_slave.transmit_guard, I2C_polling.read_I2C1_ISR, I2C_polling.read, h1]
  · simp [I2C_slave.receive_guard, I2C_polling.read_I2C1_ISR, I2C_polling.read]
  · cases h1 : is_flag h.I2C1.ICR I2C_ICR_STOPCF <;>
      simp [I2C_slave.receive_guard_timed, I2C_polling.read_I2C1_ICR, I2C_polling.read,
        I2C_polling.counter_get, h1]
  · simp [I2C_slave.single_stop_test, I2C_polling.read_ISR, I2C_polling.read]

/-! ## The clock source of the I²C drivers -/

/-- C27 (the code at the failing inputs): a master of identity `_2` (of
identity `_3`) enabled from start-up with the clock source of value `1` has the
value `1` in its field of `RCC->CCIPR`, bits 15:14 (17:16), and
`get_clock_source_from_RCC_CCIPR` returns `4` (`16`) for it: the field is shifted
down by `RCC_CCIPR_I2C1SEL_Pos` whatever the identity. For the identities `_1`
and `_4` the value written, `1`, `2` or `3`, is returned; the value `0` fails the
assertion of `i2c_N_enable`. -/
theorem clock_source_round_trip_fails_for_I2C2_and_I2C3 :
    (∃ s, I2C_master.enable 0 I2C_config.demo 1 0
        (I2C_system.reset (fun _ => I2C_Id._2) (fun _ => I2C_Id._2)) = some s ∧
      s.RCC_CCIPR = 0x4000 ∧ get_clock_source_from_RCC_CCIPR I2C_Id._2 s = 4) ∧
    (∃ s, I2C_master.enable 0 I2C_config.demo 1 0
        (I2C_system.reset (fun _ => I2C_Id._3) (fun _ => I2C_Id._3)) = some s ∧
      s.RCC_CCIPR = 0x10000 ∧ get_clock_source_from_RCC_CCIPR I2C_Id._3 s = 16) ∧
    ([1, 2, 3].all fun c =>
      [I2C_Id._1, I2C_Id._4].all fun id =>
        match I2C_master.enable 0 I2C_config.demo c 0
            (I2C_system.reset (fun _ => id) (fun _ => id)) with
        | some s => get_clock_source_from_RCC_CCIPR id s == c
        | none => false) = true ∧
    ([I2C_Id._1, I2C_Id._2, I2C_Id._3, I2C_Id._4].all fun id =>
      (I2C_master.enable 0 I2C_config.demo 0 0
        (I2C_system.reset (fun _ => id) (fun _ => id))).isNone) = true :=
  ⟨⟨_, rfl, rfl, rfl⟩, ⟨_, rfl, rfl, rfl⟩, rfl, rfl⟩

/-! ## The word the I²C master stores to `CR2` -/

set_option maxRecDepth 100000 in
theorem CR2_address_field :
    ∀ a, a ≤ 127 → ((a <<< 1) % 4294967296 &&& 1023 = a <<< 1 ∧ a <<< 1 &&& 1023 = a <<< 1 ∧
      a <<< 1 &&& 16711680 = 0) := by
  decide

set_option maxRecDepth 100000 in
theorem CR2_size_field :
    ∀ n, n ≤ 255 → ((n <<< 16) % 4294967296 = n <<< 16 ∧ n <<< 16 &&& 16711680 = n <<< 16 ∧
      n <<< 16 &&& 1023 = 0) := by
  decide

/-- Claim C21.  For a 7-bit slave address `a` and a byte count `n ≤ 255` (the
transfers assert `1 ≤ n`):
the words the master transfers store to `CR2` are
`(a << 1) | (n << 16) | START | AUTOEND`, with `RD_WRN` added for the receive
transfers; the variant that masks the byte count with `I2C_CR2_NBYTES_Msk`
(untimed transmit) and the ones that do not store the same word; the fields do
not overlap, `(CR2 & SADD) >> 1 = a` and `(CR2 & NBYTES) >> 16 = n`; and the
callback registrations, when their assertions hold, store the same words.
And these are the words the transfers store: whenever one of the four polling
transfers of the master returns, the first store it made is the store of this
word to `CR2`; and each of them does return, with this first store, when its
assertions hold, the memory it is given holds `n` bytes and the hardware,
whatever it showed before, goes on with twenty-six observations that read
`STOPF` in the `ISR` of the driver's block. -/
theorem master_CR2_word (a n : Nat) (ha : a ≤ 0x7F) (hn2 : n ≤ 255) :
    I2C_master.CR2_transmit_masked a n =
      (a <<< 1) ||| (n <<< 16) ||| I2C_CR2_START ||| I2C_CR2_AUTOEND ∧
    I2C_master.CR2_transmit a n = I2C_master.CR2_transmit_masked a n ∧
    I2C_master.CR2_receive a n =
      (a <<< 1) ||| (n <<< 16) ||| I2C_CR2_START ||| I2C_CR2_AUTOEND ||| I2C_CR2_RD_WRN ∧
    (I2C_master.CR2_transmit a n &&& I2C_CR2_SADD) >>> 1 = a ∧
    (I2C_master.CR2_transmit a n &&& I2C_CR2_NBYTES_Msk) >>> I2C_CR2_NBYTES_Pos = n ∧
    (I2C_master.CR2_receive a n &&& I2C_CR2_SADD) >>> 1 = a ∧
    (I2C_master.CR2_receive a n &&& I2C_CR2_NBYTES_Msk) >>> I2C_CR2_NBYTES_Pos = n ∧
    (∀ (σ : Type) (cb : I2C_TX_callback σ) (s s' : I2C_master σ),
      I2C_master.register_transmit_callback a cb n s = some s' →
        s'.CR2 = I2C_master.CR2_transmit a n) ∧
    (∀ (σ : Type) (cb : I2C_RX_callback σ) (s s' : I2C_master σ),
      I2C_master.register_receive_callback a cb n s = some s' →
        s'.CR2 = I2C_master.CR2_receive a n) ∧
    (∀ (d : Option (List Nat)) (s : I2C_polling) (r : I2C_result) (s' : I2C_polling),
      I2C_master.transmit_bytes_polling a d n s = some (r, s') →
      ∃ rest, s'.writes = s.writes ++
        I2C_write.CR2 ((a <<< 1) ||| (n <<< 16) ||| I2C_CR2_START ||| I2C_CR2_AUTOEND) :: rest) ∧
    (∀ (d : Option (List Nat)) (t : Nat) (s : I2C_polling) (r : I2C_result) (s' : I2C_polling),
      I2C_master.transmit_bytes_polling_timed a d n t s = some (r, s') →
      ∃ rest, s'.writes = s.writes ++
        I2C_write.CR2 ((a <<< 1) ||| (n <<< 16) ||| I2C_CR2_START ||| I2C_CR2_AUTOEND) :: rest) ∧
    (∀ (d : Bool) (s : I2C_polling) (r : I2C_result) (s' : I2C_polling),
      I2C_master.receive_bytes_polling a d n s = some (r, s') →
      ∃ rest, s'.writes = s.writes ++
        I2C_write.CR2 ((a <<< 1) ||| (n <<< 16) ||| I2C_CR2_START ||| I2C_CR2_AUTOEND |||
          I2C_CR2_RD_WRN) :: rest) ∧
    (∀ (d : Bool) (t : Nat) (s : I2C_polling) (r : I2C_result) (s' : I2C_polling),
      I2C_master.receive_bytes_polling_timed a d n t s = some (r, s') →
      ∃ rest, s'.writes = s.writes ++
        I2C_write.CR2 ((a <<< 1) ||| (n <<< 16) ||| I2C_CR2_START ||| I2C_CR2_AUTOEND |||
          I2C_CR2_RD_WRN) :: rest) ∧
    (∀ (data : List Nat) (s : I2C_polling) (more : List I2C_sample),
      (Polling_transfer.master_transmit a (some data) n).well_called s = true →
      26 ≤ more.length →
      (∀ x ∈ more, is_flag (x.p_registers s.id).ISR I2C_ISR_STOPF = true) →
      ∃ r s' rest, I2C_master.transmit_bytes_polling a (some data) n
          { s with hardware := s.hardware ++ more } = some (r, s') ∧
        s'.writes = s.writes ++
          I2C_write.CR2 ((a <<< 1) ||| (n <<< 16) ||| I2C_CR2_START ||| I2C_CR2_AUTOEND) ::
            rest) ∧
    (∀ (data : List Nat) (t : Nat) (s : I2C_polling) (more : List I2C_sample),
      (Polling_transfer.master_transmit_timed a (some data) n t).well_called s = true →
      26 ≤ more.length →
      (∀ x ∈ more, is_flag (x.p_registers s.id).ISR I2C_ISR_STOPF = true) →
      ∃ r s' rest, I2C_master.transmit_bytes_polling_timed a (some data) n t
          { s with hardware := s.hardware ++ more } = some (r, s') ∧
        s'.writes = s.writes ++
          I2C_write.CR2 ((a <<< 1) ||| (n <<< 16) ||| I2C_CR2_START ||| I2C_CR2_AUTOEND) ::
            rest) ∧
    (∀ (s : I2C_polling) (more : List I2C_sample),
      (Polling_transfer.master_receive a true n).well_called s = true →
      26 ≤ more.length →
      (∀ x ∈ more, is_flag (x.p_registers s.id).ISR I2C_ISR_STOPF = true) →
      ∃ r s' rest, I2C_master.receive_bytes_polling a true n
          { s with hardware := s.hardware ++ more } = some (r, s') ∧
        s'.writes = s.writes ++
          I2C_write.CR2 ((a <<< 1) ||| (n <<< 16) ||| I2C_CR2_START ||| I2C_CR2_AUTOEND |||
            I2C_CR2_RD_WRN) :: rest) ∧
    (∀ (t : Nat) (s : I2C_polling) (more : List I2C_sample),
      (Polling_transfer.master_receive_timed a true n t).well_called s = true →
      26 ≤ more.length →
      (∀ x ∈ more, is_flag (x.p_registers s.id).ISR I2C_ISR_STOPF = true) →
      ∃ r s' rest, I2C_master.receive_bytes_polling_timed a true n t
          { s with hardware := s.hardware ++ more } = some (r, s') ∧
        s'.writes = s.writes ++
          I2C_write.CR2 ((a <<< 1) ||| (n <<< 16) ||| I2C_CR2_START ||| I2C_CR2_AUTOEND |||
            I2C_CR2_RD_WRN) :: rest) := by
  obtain ⟨a1, a2, a3⟩ := CR2_address_field a ha
  obtain ⟨n1, n2, n3⟩ := CR2_size_field n hn2
  have c1 : (8192 : Nat) &&& 1023 = 0 := by decide
  have c2 : (33554432 : Nat) &&& 1023 = 0 := by decide
  have c3 : (1024 : Nat) &&& 1023 = 0 := by decide
  have c4 : (8192 : Nat) &&& 16711680 = 0 := by decide
  have c5 : (33554432 : Nat) &&& 16711680 = 0 := by decide
  have c6 : (1024 : Nat) &&& 16711680 = 0 := by decide
  have ht : I2C_master.CR2_transmit a n = (a <<< 1) ||| (n <<< 16) ||| 8192 ||| 33554432 := by
    simp only [I2C_master.CR2_transmit, I2C_CR2_SADD, I2C_CR2_NBYTES_Pos, UINT32_SIZE,
      I2C_CR2_START, I2C_CR2_AUTOEND, a1, n1]
  have hr : I2C_master.CR2_receive a n =
      (a <<< 1) ||| (n <<< 16) ||| 8192 ||| 33554432 ||| 1024 := by
    simp only [I2C_master.CR2_receive, I2C_CR2_SADD, I2C_CR2_NBYTES_Pos, UINT32_SIZE,
      I2C_CR2_START, I2C_CR2_AUTOEND, I2C_CR2_RD_WRN, a1, n1]
  have hm : I2C_master.CR2_transmit_masked a n =
      (a <<< 1) ||| (n <<< 16) ||| 8192 ||| 33554432 := by
    simp only [I2C_master.CR2_transmit_masked, I2C_CR2_SADD, I2C_CR2_NBYTES_Pos, UINT32_SIZE,
      I2C_CR2_START, I2C_CR2_AUTOEND, I2C_CR2_NBYTES_Msk, a1, n1, n2]
  refine ⟨hm, by rw [ht, hm], hr, ?_, ?_, ?_, ?_, ?_, ?_, ?_, ?_, ?_, ?_, ?_, ?_, ?_, ?_⟩
  · rw [ht]
    simp only [I2C_CR2_SADD, Nat.and_distrib_right, a2, n3, c1, c2, Nat.or_zero,
      Nat.shiftLeft_shiftRight]
  · rw [ht]
    simp only [I2C_CR2_NBYTES_Msk, I2C_CR2_NBYTES_Pos, Nat.and_distrib_right, a3, n2, c4, c5,
      Nat.or_zero, Nat.zero_or, Nat.shiftLeft_shiftRight]
  · rw [hr]
    simp only [I2C_CR2_SADD, Nat.and_distrib_right, a2, n3, c1, c2, c3, Nat.or_zero,
      Nat.shiftLeft_shiftRight]
  · rw [hr]
    simp only [I2C_CR2_NBYTES_Msk, I2C_CR2_NBYTES_Pos, Nat.and_distrib_right, a3, n2, c4, c5, c6,
      Nat.or_zero, Nat.zero_or, Nat.shiftLeft_shiftRight]
  · intro σ cb s s' h
    unfold I2C_master.register_transmit_callback at h
    split at h
    · exact absurd h (by simp)
    · simp only [Option.some.injEq] at h
      rw [← h]
      rfl
  · intro σ cb s s' h
    unfold I2C_master.register_receive_callback at h
    split at h
    · exact absurd h (by simp)
    · simp only [Option.some.injEq] at h
      rw [← h]
      rfl
  · intro d s r s' h
    obtain ⟨rest, h1⟩ := master_transmit_stores_CR2 a n d s r s' h
    exact ⟨rest, by rw [h1, hm]; rfl⟩
  · intro d t s r s' h
    obtain ⟨rest, h1⟩ := master_transmit_timed_stores_CR2 a n t d s r s' h
    exact ⟨rest, by rw [h1, ht]; rfl⟩
  · intro d s r s' h
    obtain ⟨rest, h1⟩ := master_receive_stores_CR2 a n d s r s' h
    exact ⟨rest, by rw [h1, hr]; rfl⟩
  · intro d t s r s' h
    obtain ⟨rest, h1⟩ := master_receive_timed_stores_CR2 a n t d s r s' h
    exact ⟨rest, by rw [h1, hr]; rfl⟩
  · intro data s more hw hl hP
    simp only [Polling_transfer.well_called, Bool.and_eq_true, decide_eq_true_eq] at hw
    obtain ⟨r, s', h⟩ := master_transmit_returns a n data s more hw.1.1.1 hw.1.1.2 hw.1.2 hw.2
      hl (Or.inl hP)
    obtain ⟨rest, h1⟩ := master_transmit_stores_CR2 a n _ _ r s' h
    exact ⟨r, s', rest, h, by rw [h1, hm]; rfl⟩
  · intro data t s more hw hl hP
    simp only [Polling_transfer.well_called, Bool.and_eq_true, decide_eq_true_eq] at hw
    obtain ⟨r, s', h⟩ := master_transmit_timed_returns a n t data s more hw.1.1.1.1 hw.1.1.1.2
      hw.1.1.2 hw.1.2 hw.2 hl (Or.inl hP)
    obtain ⟨rest, h1⟩ := master_transmit_timed_stores_CR2 a n t _ _ r s' h
    exact ⟨r, s', rest, h, by rw [h1, ht]; rfl⟩
  · intro s more hw hl hP
    simp only [Polling_transfer.well_called, Bool.and_eq_true, decide_eq_true_eq] at hw
    obtain ⟨r, s', h⟩ := master_receive_returns a n s more hw.1.1.1.1 hw.1.1.1.2 hw.1.2 hw.2
      hl (Or.inl hP)
    obtain ⟨rest, h1⟩ := master_receive_stores_CR2 a n _ _ r s' h
    exact ⟨r, s', rest, h, by rw [h1, hr]; rfl⟩
  · intro t s more hw hl hP
    simp only [Polling_transfer.well_called, Bool.and_eq_true, decide_eq_true_eq] at hw
    obtain ⟨r, s', h⟩ := master_receive_timed_returns a n t s more hw.1.1.1.1.1 hw.1.1.1.1.2
      hw.1.1.2 hw.1.2 hw.2 hl (Or.inl hP)
    obtain ⟨rest, h1⟩ := master_receive_timed_stores_CR2 a n t _ _ r s' h
    exact ⟨r, s', rest, h, by rw [h1, hr]; rfl⟩

/-- Witness for `master_CR2_word`: the address `0x50` and ten bytes, and a run of
each of the four polling transfers of the master on `I2C1`: an untimed transmit
that is not acknowledged, a timed transmit ended by the deadline, an untimed
receive of one byte and a timed receive ended by a bus error. -/
theorem master_CR2_word_witness :
    (0x50 ≤ 0x7F ∧ 10 ≤ 255) ∧
    I2C_master.CR2_transmit_masked 0x50 10 = 0x20A20A0 ∧
    I2C_master.CR2_transmit 0x50 10 = 0x20A20A0 ∧
    (I2C_master.CR2_transmit 0x50 10 &&& I2C_CR2_SADD) >>> 1 = 0x50 ∧
    (I2C_master.CR2_transmit 0x50 10 &&& I2C_CR2_NBYTES_Msk) >>> I2C_CR2_NBYTES_Pos = 10 ∧
    (∃ r s' rest, I2C_master.transmit_bytes_polling 0x50 (some I2C_polling.ten_bytes) 10
        (I2C_polling.master_on_I2C1 I2C_polling.nack_bus) = some (r, s') ∧
      s'.writes = (I2C_polling.master_on_I2C1 I2C_polling.nack_bus).writes ++
        I2C_write.CR2 ((0x50 <<< 1) ||| (10 <<< 16) ||| I2C_CR2_START ||| I2C_CR2_AUTOEND) ::
          rest) ∧
    (∃ r s' rest, I2C_master.transmit_bytes_polling_timed 0x50 (some I2C_polling.ten_bytes) 10 5
        (I2C_polling.master_on_I2C1 I2C_polling.silent_bus) = some (r, s') ∧
      s'.writes = (I2C_polling.master_on_I2C1 I2C_polling.silent_bus).writes ++
        I2C_write.CR2 ((0x50 <<< 1) ||| (10 <<< 16) ||| I2C_CR2_START ||| I2C_CR2_AUTOEND) ::
          rest) ∧
    (∃ r s' rest, I2C_master.receive_bytes_polling 0x50 true 10
        (I2C_polling.master_on_I2C1 I2C_polling.one_byte_bus) = some (r, s') ∧
      s'.writes = (I2C_polling.master_on_I2C1 I2C_polling.one_byte_bus).writes ++
        I2C_write.CR2 ((0x50 <<< 1) ||| (10 <<< 16) ||| I2C_CR2_START ||| I2C_CR2_AUTOEND |||
          I2C_CR2_RD_WRN) :: rest) ∧
    (∃ r s' rest, I2C_master.receive_bytes_polling_timed 0x50 true 10 5
        (I2C_polling.master_on_I2C1 I2C_polling.bus_error_bus) = some (r, s') ∧
      s'.writes = (I2C_polling.master_on_I2C1 I2C_polling.bus_error_bus).writes ++
        I2C_write.CR2 ((0x50 <<< 1) ||| (10 <<< 16) ||| I2C_CR2_START ||| I2C_CR2_AUTOEND |||
          I2C_CR2_RD_WRN) :: rest) :=
  have h := master_CR2_word 0x50 10 (by decide) (by decide)
  have e1 : I2C_master.transmit_bytes_polling 0x50 (some I2C_polling.ten_bytes) 10
      (I2C_polling.master_on_I2C1 I2C_polling.nack_bus) =
      some (⟨⟨false, false, false, true⟩, 1⟩,
        { I2C_polling.master_on_I2C1 [] with
          writes := [I2C_write.CR2 0x20A20A0, I2C_write.TXDR 1, I2C_write.ICR 0x1F10,
            I2C_write.ICR 0x20, I2C_write.CR2 0] }) := by decide
  have e2 : I2C_master.transmit_bytes_polling_timed 0x50 (some I2C_polling.ten_bytes) 10 5
      (I2C_polling.master_on_I2C1 I2C_polling.silent_bus) =
      some (⟨Bus_status_flag.ok, 0⟩, I2C_polling.after_silent_bus) := by decide
  have e3 : I2C_master.receive_bytes_polling 0x50 true 10
      (I2C_polling.master_on_I2C1 I2C_polling.one_byte_bus) =
      some (⟨Bus_status_flag.ok, 1⟩,
        { I2C_polling.master_on_I2C1 [] with
          writes := [I2C_write.CR2 0x20A24A0, I2C_write.ICR 0x20, I2C_write.CR2 0],
          received := [0xAB, 0, 0, 0, 0, 0, 0, 0, 0, 0] }) := by decide
  have e4 : I2C_master.receive_bytes_polling_timed 0x50 true 10 5
      (I2C_polling.master_on_I2C1 I2C_polling.bus_error_bus) =
      some (⟨⟨false, false, true, false⟩, 0⟩,
        { I2C_polling.master_on_I2C1 [] with
          writes := [I2C_write.CR2 0x20A24A0, I2C_write.ICR 0x1F10, I2C_write.ICR 0x20,
            I2C_write.CR2 0] }) := by decide
  ⟨⟨by decide, by decide⟩, h.1.trans (by decide),
    (h.2.1.trans h.1).trans (by decide), h.2.2.2.1, h.2.2.2.2.1,
    let ⟨rest, hw⟩ := h.2.2.2.2.2.2.2.2.2.1 _ _ _ _ e1
    ⟨_, _, rest, e1, hw⟩,
    let ⟨rest, hw⟩ := h.2.2.2.2.2.2.2.2.2.2.1 _ _ _ _ _ e2
    ⟨_, _, rest, e2, hw⟩,
    let ⟨rest, hw⟩ := h.2.2.2.2.2.2.2.2.2.2.2.1 _ _ _ _ e3
    ⟨_, _, rest, e3, hw⟩,
    let ⟨rest, hw⟩ := h.2.2.2.2.2.2.2.2.2.2.2.2.1 _ _ _ _ _ e4
    ⟨_, _, rest, e4, hw⟩⟩

/-! ## The register helpers as masked read-modify-writes -/

theorem one_shiftLeft_mod (i : Nat) (hi : i < 32) : (1 <<< i) % UINT32_SIZE = 2 ^ i := by
  rw [Nat.one_shiftLeft]
  exact Nat.mod_eq_of_lt (Nat.pow_lt_pow_right (show 1 < 2 by decide) hi)

theorem testBit_set_flag_masked (r m f i : Nat) (hr : r < 4294967296) :
    (set_flag_masked r m f).testBit i = ((r.testBit i && !m.testBit i) || f.testBit i) := by
  have h := testBit_clear_flag r m i hr
  unfold clear_flag at h
  unfold set_flag_masked
  rw [Nat.testBit_or, h]

/-- Claim C23.  For a 32-bit register value `r`, a clear mask `m`, a flag `f`
and a bit index `i < 32`: the three-argument `set_flag` yields `(r & ~m) | f`,
leaves every bit outside `m | f` as it was and, when `f` is contained in `m`,
makes `get_flag(result, m) = f`; the two-argument `set_flag` makes `is_flag`
true for `f` and `clear_flag` clears every bit of `f`, both leaving the bits
outside `f` as they were; `set_bit`, `clear_bit` and `toggle_bit` change bit `i`
only, `get_bit` is true after `set_bit` and false after `clear_bit`, and
`toggle_bit` twice is the identity. -/
theorem register_helpers_masked (r m f i : Nat) (hr : r < 4294967296) (hi : i < 32) :
    (∀ j, (set_flag_masked r m f).testBit j = ((r.testBit j && !m.testBit j) || f.testBit j)) ∧
    (∀ j, (m ||| f).testBit j = false → (set_flag_masked r m f).testBit j = r.testBit j) ∧
    (f &&& m = f → get_flag (set_flag_masked r m f) m = f) ∧
    is_flag (set_flag r f) f = true ∧
    (∀ j, f.testBit j = false → (set_flag r f).testBit j = r.testBit j) ∧
    (∀ j, f.testBit j = true → (clear_flag r f).testBit j = false) ∧
    (∀ j, f.testBit j = false → (clear_flag r f).testBit j = r.testBit j) ∧
    (∀ j, j ≠ i → (set_bit r i).testBit j = r.testBit j) ∧
    (∀ j, j ≠ i → (clear_bit r i).testBit j = r.testBit j) ∧
    (∀ j, j ≠ i → (toggle_bit r i).testBit j = r.testBit j) ∧
    get_bit (set_bit r i) i = true ∧
    get_bit (clear_bit r i) i = false ∧
    (toggle_bit r i).testBit i = !r.testBit i ∧
    toggle_bit (toggle_bit r i) i = r := by
  have hs : (1 <<< i) % UINT32_SIZE = 2 ^ i := one_shiftLeft_mod i hi
  have hgb : ∀ x, get_bit x i = x.testBit i := by
    intro x
    unfold get_bit
    dsimp only
    rw [hs]
    exact is_flag_bit x i
  have hcb : clear_bit r i = clear_flag r (2 ^ i) := by
    unfold clear_bit clear_flag
    rw [hs, ← hs, Nat.mod_mod]
  refine ⟨fun j => testBit_set_flag_masked r m f j hr, ?_, ?_, is_flag_set_flag r f, ?_, ?_, ?_, ?_, ?_, ?_,
    ?_, ?_, ?_, ?_⟩
  · intro j hj
    rw [Nat.testBit_or, Bool.or_eq_false_iff] at hj
    rw [testBit_set_flag_masked r m f j hr, hj.1, hj.2]
    simp
  · intro hfm
    unfold get_flag
    apply Nat.eq_of_testBit_eq
    intro j
    rw [Nat.testBit_and, testBit_set_flag_masked r m f j hr]
    have hb := congrArg (fun x => Nat.testBit x j) hfm
    simp only [Nat.testBit_and] at hb
    cases hf : f.testBit j <;> cases hmj : m.testBit j <;> simp [hf, hmj] at hb ⊢
  · intro j hj
    rw [testBit_set_flag, hj, Bool.or_false]
  · intro j hj
    rw [testBit_clear_flag r f j hr, hj]
    simp
  · intro j hj
    rw [testBit_clear_flag r f j hr, hj]
    simp
  · intro j hj
    unfold set_bit
    rw [hs, Nat.testBit_or, Nat.testBit_two_pow, decide_eq_false (Ne.symm hj), Bool.or_false]
  · intro j hj
    rw [hcb, testBit_clear_flag r _ j hr, Nat.testBit_two_pow, decide_eq_false (Ne.symm hj)]
    simp
  · intro j hj
    unfold toggle_bit
    rw [hs, Nat.testBit_xor, Nat.testBit_two_pow, decide_eq_false (Ne.symm hj)]
    simp
  · rw [hgb]
    unfold set_bit
    rw [hs, Nat.testBit_or, Nat.testBit_two_pow]
    simp
  · rw [hgb, hcb, testBit_clear_flag r _ i hr, Nat.testBit_two_pow]
    simp
  · unfold toggle_bit
    rw [hs, Nat.testBit_xor, Nat.testBit_two_pow]
    simp
  · unfold toggle_bit
    exact Nat.xor_cancel_right _ _

/-- Witness for `register_helpers_masked`: the clock-select field of `I2C2`
written into a register with every field set. -/
theorem register_helpers_masked_witness :
    ((0xFFFF : Nat) < 4294967296 ∧ 14 < 32) ∧
    set_flag_masked 0xFFFF 0xC000 0x4000 = 0x7FFF ∧
    (0x4000 &&& 0xC000 = 0x4000 → get_flag (set_flag_masked 0xFFFF 0xC000 0x4000) 0xC000 = 0x4000) ∧
    get_bit (set_bit 0xFFFF 14) 14 = true ∧
    get_bit (clear_bit 0xFFFF 14) 14 = false ∧
    toggle_bit (toggle_bit 0xFFFF 14) 14 = 0xFFFF :=
  have h := register_helpers_masked 0xFFFF 0xC000 0x4000 14 (by decide) (by decide)
  ⟨⟨by decide, by decide⟩, by decide, h.2.2.1, h.2.2.2.2.2.2.2.2.2.2.1,
    h.2.2.2.2.2.2.2.2.2.2.2.1, h.2.2.2.2.2.2.2.2.2.2.2.2.2⟩

/-! ## The baud-rate register -/

theorem testBit_BRR_over8 (u i : Nat) (hi : i < 16) :
    (((u &&& 0xFFF0) ||| ((u &&& 0xF) >>> 1)) &&& 0xFFFF).testBit i =
      if i < 3 then u.testBit (i + 1) else if i = 3 then false else u.testBit i := by
  simp only [Nat.testBit_and, Nat.testBit_or, Nat.testBit_shiftRight]
  interval_cases i <;> simp [Nat.testBit]

/-- Claim C28.  The value `USART::enable` stores to `BRR`: with oversampling 16
it is `frequency_hz / baud_rate`, which is `138` for 16 MHz and 115200 baud, the
configuration of the console sample, also as `enable` leaves it in `BRR`; with oversampling 8, for
`usartdiv = (2 * frequency_hz mod 2^32) / baud_rate`, it is at most `0xFFFF`, its
bits 15..4 are those of `usartdiv`, its bits 2..0 are bits 3..1 of `usartdiv` and
its bit 3 is clear. -/
theorem enable_BRR_value (frequency_hz baud_rate : Nat) :
    USART.enable_BRR Oversampling._16 frequency_hz baud_rate = some (frequency_hz / baud_rate) ∧
    USART.enable_BRR console_config.oversampling console_clock.frequency_hz 115200 = some 138 ∧
    (USART.enable console_config console_clock 10 USART.acknowledging).map (fun r => r.2.BRR) =
      some 138 ∧
    ∃ w, USART.enable_BRR Oversampling._8 frequency_hz baud_rate = some w ∧
      w ≤ 0xFFFF ∧
      (∀ i, 4 ≤ i → i ≤ 15 →
        w.testBit i = (((2 * frequency_hz) % 4294967296) / baud_rate).testBit i) ∧
      (∀ i, i ≤ 2 →
        w.testBit i = (((2 * frequency_hz) % 4294967296) / baud_rate).testBit (i + 1)) ∧
      w.testBit 3 = false := by
  refine ⟨rfl, by decide, by decide, _, rfl, Nat.and_le_right, ?_, ?_, ?_⟩
  · intro i h4 h15
    show ((((2 * frequency_hz) % 4294967296 / baud_rate) &&& 0xFFF0 |||
      (((2 * frequency_hz) % 4294967296 / baud_rate) &&& 0xF) >>> 1) &&& 0xFFFF).testBit i = _
    rw [testBit_BRR_over8 _ i (Nat.lt_succ_of_le h15), if_neg (by omega), if_neg (by omega)]
  · intro i h2
    show ((((2 * frequency_hz) % 4294967296 / baud_rate) &&& 0xFFF0 |||
      (((2 * frequency_hz) % 4294967296 / baud_rate) &&& 0xF) >>> 1) &&& 0xFFFF).testBit i = _
    rw [testBit_BRR_over8 _ i (by omega), if_pos (by omega)]
  · show ((((2 * frequency_hz) % 4294967296 / baud_rate) &&& 0xFFF0 |||
      (((2 * frequency_hz) % 4294967296 / baud_rate) &&& 0xF) >>> 1) &&& 0xFFFF).testBit 3 = _
    rw [testBit_BRR_over8 _ 3 (by decide), if_neg (by decide), if_pos rfl]

/-! ## cstring: reversing and formatting -/

/-- C29 (the code at the failing inputs): `cstring::reverse` on the four
characters `abcd` leaves `dbca`, and on `abcde` leaves `ebcda`: the loop runs
`i` up to `a_length - 2`, so every pair but the outermost is exchanged twice;
of any four characters the two inner ones stay where they were.
Two and three characters are reversed, and the characters from index
`a_length` on are unchanged. -/
theorem reverse_swaps_inner_pairs_back :
    cstring.reverse [97, 98, 99, 100, 0] 4 = some [100, 98, 99, 97, 0] ∧
    cstring.reverse [97, 98, 99, 100, 101, 0] 5 = some [101, 98, 99, 100, 97, 0] ∧
    (∀ (a b c d : Nat) (rest : List Nat),
      cstring.reverse (a :: b :: c :: d :: rest) 4 = some (d :: b :: c :: a :: rest)) ∧
    cstring.reverse [97, 98, 0] 2 = some [98, 97, 0] ∧
    cstring.reverse [97, 98, 99, 0] 3 = some [99, 98, 97, 0] ∧
    cstring.reverse [97, 0] 1 = some [97, 0] := by
  refine ⟨by decide, by decide, ?_, by decide, by decide, by decide⟩
  intro a b c d rest
  simp [cstring.reverse, cstring.reverse_loop, memory.swap, sub32, add32, UINT32_SIZE]

/-- C24 (the code at the failing input): `cstring::from_unsigned_integer` of
`1234` in radix 10 returns `4` and leaves `1324` followed by a NUL in the
buffer, and `to_unsigned_integer` of that buffer with length `4` returns `1324`;
in radix 16 the value `0x1234` is written as `1324`. Up to three digits the
output is the representation: `123` gives `123`, `0xff` gives `ff`, `0` gives
`0`. -/
theorem from_unsigned_integer_four_digits :
    cstring.from_unsigned_integer 1234 (List.replicate 12 0) 12 cstring.Radix.dec =
      some (4, [49, 51, 50, 52, 0, 0, 0, 0, 0, 0, 0, 0]) ∧
    (cstring.to_unsigned_integer (some [49, 51, 50, 52, 0, 0, 0, 0, 0, 0, 0, 0]) 4).map Prod.fst =
      some 1324 ∧
    cstring.from_unsigned_integer 0x1234 (List.replicate 12 0) 12 cstring.Radix.hex =
      some (4, [49, 51, 50, 52, 0, 0, 0, 0, 0, 0, 0, 0]) ∧
    cstring.from_unsigned_integer 123 (List.replicate 12 0) 12 cstring.Radix.dec =
      some (3, [49, 50, 51, 0, 0, 0, 0, 0, 0, 0, 0, 0]) ∧
    cstring.from_unsigned_integer 0xFF (List.replicate 12 0) 12 cstring.Radix.hex =
      some (2, [102, 102, 0, 0, 0, 0, 0, 0, 0, 0, 0, 0]) ∧
    cstring.from_unsigned_integer 0 (List.replicate 12 0) 12 cstring.Radix.dec =
      some (1, [48, 0, 0, 0, 0, 0, 0, 0, 0, 0, 0, 0]) := by
  decide

/-- C25 (the code at the failing inputs): `cstring::from_signed_integer` of `-5`
in radix 10 returns `2` and leaves `-+` followed by a NUL in the buffer (the
remainder `-5` is turned into the character `'0' - 5`), on which
`to_signed_integer` fails its assertion on the digits; of `-123` it leaves the
characters of codes 45, 46, 47, 45; and of `1234` it leaves `1324`, which `to_signed_integer` reads as
`1324`. The values `5` and `123` are written as `5` and `123`. -/
theorem from_signed_integer_negative :
    cstring.from_signed_integer (-5) (List.replicate 12 0) 12 cstring.Radix.dec =
      some (2, [45, 43, 0, 0, 0, 0, 0, 0, 0, 0, 0, 0]) ∧
    cstring.to_signed_integer (some [45, 43, 0, 0, 0, 0, 0, 0, 0, 0, 0, 0]) 2 = none ∧
    cstring.from_signed_integer (-123) (List.replicate 12 0) 12 cstring.Radix.dec =
      some (4, [45, 46, 47, 45, 0, 0, 0, 0, 0, 0, 0, 0]) ∧
    cstring.from_signed_integer 1234 (List.replicate 12 0) 12 cstring.Radix.dec =
      some (4, [49, 51, 50, 52, 0, 0, 0, 0, 0, 0, 0, 0]) ∧
    (cstring.to_signed_integer (some [49, 51, 50, 52, 0, 0, 0, 0, 0, 0, 0, 0]) 4).map Prod.fst =
      some 1324 ∧
    cstring.from_signed_integer 5 (List.replicate 12 0) 12 cstring.Radix.dec =
      some (1, [53, 0, 0, 0, 0, 0, 0, 0, 0, 0, 0, 0]) ∧
    cstring.from_signed_integer 123 (List.replicate 12 0) 12 cstring.Radix.dec =
      some (3, [49, 50, 51, 0, 0, 0, 0, 0, 0, 0, 0, 0]) := by
  decide

/-- C30 (the code at the failing inputs): `get_char` reads `data[0]` while the
constructor from `int8` stores the character in `data[3]`, so
`get_char(Argument(c))` is `0` for every `c`; the constructor from `int16` leaves the two
upper bytes `0`, so `get_int32(Argument(int16(-1)))` is `65535`. The values of
the 32-bit constructors and the unsigned ones come back unchanged. -/
theorem argument_getters_lose_char_and_sign :
    (cstring.Argument.of_int8 65).get_char = some 0 ∧
    (∀ c : Int, (cstring.Argument.of_int8 c).get_char = some 0) ∧
    (cstring.Argument.of_int16 (-1)).get_int32 = some 65535 ∧
    (cstring.Argument.of_int16 1234).get_int32 = some 1234 ∧
    (cstring.Argument.of_int32 (-1)).get_int32 = some (-1) ∧
    (cstring.Argument.of_int32 (-2147483648)).get_int32 = some (-2147483648) ∧
    (cstring.Argument.of_uint32 0xDEADBEEF).get_uint32 = some 0xDEADBEEF ∧
    (cstring.Argument.of_uint16 0xBEEF).get_uint32 = some 0xBEEF ∧
    (cstring.Argument.of_uint8 0xEF).get_uint32 = some 0xEF := by
  refine ⟨by decide, fun c => rfl, by decide, by decide, by decide, by decide, by decide,
    by decide, by decide⟩

/-! ## cstring: reading decimal numbers -/

theorem index_guard_continues (j n min : Nat) (h1 : j + min < 4294967296) (h0 : 0 < j + min) :
    add32 (add32 j n) min ≠ n := by
  unfold add32 UINT32_SIZE
  omega

theorem index_guard_stops_wrapped (n : Nat) (hn : n < 4294967296) :
    add32 (add32 (sub32 0 1) n) 1 = n := by
  unfold add32 sub32 UINT32_SIZE
  simp only [Nat.reduceMod, Nat.reduceAdd, Nat.reduceSub, Nat.zero_add]
  omega

theorem index_guard_stops_at_zero (n : Nat) (hn : n < 4294967296) :
    add32 (add32 (sub32 1 1) n) 0 = n := by
  unfold add32 sub32 UINT32_SIZE
  simp only [Nat.reduceMod, Nat.reduceAdd, Nat.reduceSub, Nat.zero_add, Nat.add_zero]
  omega

theorem index_step (j : Nat) (h : j + 1 < 4294967296) : sub32 (j + 1) 1 = j := by
  rw [sub32_one (j + 1) (Nat.succ_pos j) h]
  rfl

theorem digit_sub32 (c : Nat) (h1 : 48 ≤ c) (h2 : c ≤ 57) : sub32 c 48 = c - 48 := by
  unfold sub32 UINT32_SIZE
  simp only [Nat.reduceMod]
  omega

theorem to_signed_integer_loop_runs (s : List Nat) (n min lo : Nat) (hn : n < 4294967296)
    (hml : (min = 1 ∧ lo = 0) ∨ (min = 0 ∧ lo = 1)) :
    ∀ (k fuel m retval : Nat) (reads : List Nat), k < fuel → lo + k ≤ n →
      (∀ t, lo ≤ t → t < lo + k → ∃ c, s[t]? = some c ∧ 48 ≤ c ∧ c ≤ 57) →
      cstring.to_signed_integer_loop s n min fuel (sub32 (lo + k) 1) m retval reads =
        some (cstring.accumulate s lo k m retval, reads ++ cstring.indices_down lo k) := by
  intro k
  induction k with
  | zero =>
    intro fuel m retval reads hf _ _
    obtain ⟨f, rfl⟩ : ∃ f, fuel = f + 1 := ⟨fuel - 1, by omega⟩
    have hg : add32 (add32 (sub32 (lo + 0) 1) n) min = n := by
      rcases hml with ⟨h1, h2⟩ | ⟨h1, h2⟩
      · rw [h1, h2]; exact index_guard_stops_wrapped n hn
      · rw [h1, h2]; exact index_guard_stops_at_zero n hn
    rw [cstring.to_signed_integer_loop, if_neg (not_not.mpr hg)]
    simp [cstring.accumulate, cstring.indices_down]
  | succ k ih =>
    intro fuel m retval reads hf hle hd
    obtain ⟨f, rfl⟩ : ∃ f, fuel = f + 1 := ⟨fuel - 1, by omega⟩
    have hi : sub32 (lo + (k + 1)) 1 = lo + k := index_step (lo + k) (by omega)
    have hg : add32 (add32 (lo + k) n) min ≠ n :=
      index_guard_continues (lo + k) n min (by rcases hml with ⟨h1, h2⟩ | ⟨h1, h2⟩ <;> omega)
        (by rcases hml with ⟨h1, h2⟩ | ⟨h1, h2⟩ <;> omega)
    obtain ⟨c, hc, h48, h57⟩ := hd (lo + k) (Nat.le_add_right _ _) (by omega)
    have hgd : s.getD (lo + k) 0 = c := by
      rw [List.getD_eq_getElem?_getD, hc]; rfl
    rw [hi, cstring.to_signed_integer_loop, if_pos hg, hc]
    dsimp only
    rw [if_pos ⟨h48, h57⟩, ih f _ _ _ (by omega) (by omega)
      (fun t h1 h2 => hd t h1 (by omega))]
    rw [cstring.accumulate, cstring.indices_down, hgd, List.append_assoc]
    rfl

theorem to_unsigned_integer_loop_runs (s : List Nat) (n : Nat) (hn : n < 4294967296) :
    ∀ (k fuel m retval : Nat) (reads : List Nat), k < fuel → k ≤ n →
      (∀ t, t < k → ∃ c, s[t]? = some c) →
      cstring.to_unsigned_integer_loop s n fuel (sub32 (0 + k) 1) m retval reads =
        some (cstring.accumulate s 0 k m retval, reads ++ cstring.indices_down 0 k) := by
  intro k
  induction k with
  | zero =>
    intro fuel m retval reads hf _ _
    obtain ⟨f, rfl⟩ : ∃ f, fuel = f + 1 := ⟨fuel - 1, by omega⟩
    have hg : add32 (add32 (sub32 (0 + 0) 1) n) 1 = n := index_guard_stops_wrapped n hn
    rw [cstring.to_unsigned_integer_loop, if_neg (not_not.mpr hg)]
    simp [cstring.accumulate, cstring.indices_down]
  | succ k ih =>
    intro fuel m retval reads hf hle hd
    obtain ⟨f, rfl⟩ : ∃ f, fuel = f + 1 := ⟨fuel - 1, by omega⟩
    have hi : sub32 (0 + (k + 1)) 1 = 0 + k := index_step (0 + k) (by omega)
    have hg : add32 (add32 (0 + k) n) 1 ≠ n :=
      index_guard_continues (0 + k) n 1 (by omega) (by omega)
    obtain ⟨c, hc⟩ := hd k (by omega)
    have hc' : s[0 + k]? = some c := by rw [Nat.zero_add]; exact hc
    have hgd : s.getD (0 + k) 0 = c := by
      rw [List.getD_eq_getElem?_getD, hc']; rfl
    rw [hi, cstring.to_unsigned_integer_loop, if_pos hg, hc']
    dsimp only
    rw [ih f _ _ _ (by omega) (by omega) (fun t h2 => hd t (by omega))]
    rw [cstring.accumulate, cstring.indices_down, hgd, List.append_assoc]
    rfl

theorem accumulate_lt (s : List Nat) (lo : Nat) :
    ∀ (k m retval : Nat), retval < 4294967296 → cstring.accumulate s lo k m retval < 4294967296 := by
  intro k
  induction k with
  | zero => intro m retval h; exact h
  | succ k ih =>
    intro m retval _
    rw [cstring.accumulate]
    exact ih _ _ (Nat.mod_lt _ (by decide))

theorem accumulate_value (s : List Nat) (lo : Nat) :
    ∀ (k m retval : Nat),
      (∀ t, lo ≤ t → t < lo + k → 48 ≤ s.getD t 0 ∧ s.getD t 0 ≤ 57) →
      Nat.ModEq 4294967296 (cstring.accumulate s lo k m retval)
        (retval + m * cstring.digits_value s lo k) := by
  intro k
  induction k with
  | zero =>
    intro m retval _
    rw [cstring.accumulate, cstring.digits_value, Nat.mul_zero, Nat.add_zero]
  | succ k ih =>
    intro m retval hd
    obtain ⟨h48, h57⟩ := hd (lo + k) (Nat.le_add_right _ _) (by omega)
    rw [cstring.accumulate, cstring.digits_value, digit_sub32 _ h48 h57]
    have e1 : Nat.ModEq 4294967296 (add32 retval (mul32 (s.getD (lo + k) 0 - 48) m))
        (retval + (s.getD (lo + k) 0 - 48) * m) :=
      (Nat.mod_modEq _ _).trans (Nat.ModEq.add_left retval (Nat.mod_modEq _ _))
    have e2 : Nat.ModEq 4294967296 (mul32 m 10) (m * 10) := Nat.mod_modEq _ _
    refine (ih _ _ (fun t h1 h2 => hd t h1 (by omega))).trans ?_
    refine (Nat.ModEq.add e1 (Nat.ModEq.mul_right _ e2)).trans ?_
    have : retval + (s.getD (lo + k) 0 - 48) * m + m * 10 * cstring.digits_value s lo k =
        retval + m * (cstring.digits_value s lo k * 10 + (s.getD (lo + k) 0 - 48)) := by ring
    rw [this]

theorem decimal_value_append (l : List Nat) (c : Nat) :
    cstring.decimal_value (l ++ [c]) = cstring.decimal_value l * 10 + (c - 48) := by
  unfold cstring.decimal_value
  rw [List.foldl_append]
  rfl

theorem digits_value_eq (s : List Nat) (lo : Nat) :
    ∀ k, lo + k ≤ s.length →
      cstring.digits_value s lo k = cstring.decimal_value ((s.drop lo).take k) := by
  intro k
  induction k with
  | zero => intro _; rfl
  | succ k ih =>
    intro h
    have hk : k < (s.drop lo).length := by rw [List.length_drop]; omega
    rw [cstring.digits_value, ih (by omega), List.take_succ, List.getElem?_eq_getElem hk]
    rw [show (some ((s.drop lo)[k])).toList = [(s.drop lo)[k]] from rfl, decimal_value_append]
    congr 2
    rw [List.getD_eq_getElem?_getD, List.getElem?_eq_getElem (by omega), List.getElem_drop]
    rfl

theorem accumulate_digits (s : List Nat) (lo k : Nat) (hle : lo + k ≤ s.length)
    (hd : ∀ t, lo ≤ t → t < lo + k → 48 ≤ s.getD t 0 ∧ s.getD t 0 ≤ 57)
    (hv : cstring.decimal_value ((s.drop lo).take k) < 4294967296) :
    cstring.accumulate s lo k 1 0 = cstring.decimal_value ((s.drop lo).take k) := by
  have h := accumulate_value s lo k 1 0 hd
  rw [digits_value_eq s lo k hle, Nat.zero_add, Nat.one_mul] at h
  unfold Nat.ModEq at h
  rw [Nat.mod_eq_of_lt (accumulate_lt s lo k 1 0 (by decide)), Nat.mod_eq_of_lt hv] at h
  exact h

theorem int32_of_bits_small (v : Nat) (h : v ≤ 2147483647) : int32_of_bits v = (v : Int) := by
  unfold int32_of_bits UINT32_SIZE
  have h1 : v % 4294967296 = v := Nat.mod_eq_of_lt (by omega)
  rw [h1, if_pos (by omega)]

theorem digit_at (digits rest : List Nat) (hd : ∀ c ∈ digits, 48 ≤ c ∧ c ≤ 57) (t : Nat)
    (ht : t < digits.length) :
    ∃ c, (digits ++ rest)[t]? = some c ∧ 48 ≤ c ∧ c ≤ 57 := by
  refine ⟨digits[t], ?_, hd _ (List.getElem_mem _)⟩
  rw [List.getElem?_append_left ht, List.getElem?_eq_getElem ht]

theorem digit_getD (s : List Nat) (t : Nat) (h : ∃ c, s[t]? = some c ∧ 48 ≤ c ∧ c ≤ 57) :
    48 ≤ s.getD t 0 ∧ s.getD t 0 ≤ 57 := by
  obtain ⟨c, hc, h1, h2⟩ := h
  rw [List.getD_eq_getElem?_getD, hc]
  exact ⟨h1, h2⟩

theorem indices_down_length (lo k : Nat) : (cstring.indices_down lo k).length = k := by
  induction k with
  | zero => rfl
  | succ k ih => rw [cstring.indices_down, List.length_cons, ih]

theorem indices_down_mem (lo k i : Nat) (h : i ∈ cstring.indices_down lo k) :
    lo ≤ i ∧ i < lo + k := by
  induction k with
  | zero => exact absurd h (by simp [cstring.indices_down])
  | succ k ih =>
    rw [cstring.indices_down, List.mem_cons] at h
    rcases h with h | h
    · omega
    · have := ih h; omega

theorem indices_down_nodup (lo k : Nat) : (cstring.indices_down lo k).Nodup := by
  induction k with
  | zero => exact List.nodup_nil
  | succ k ih =>
    rw [cstring.indices_down, List.nodup_cons]
    refine ⟨fun h => ?_, ih⟩
    have := indices_down_mem lo k _ h
    omega

/-- Claim C26.  For a string that starts with `n ≥ 1` decimal digits (`n + 1`
below `2^32`): when the number the digits denote fits `uint32`,
`to_unsigned_integer<uint32>` with length `n` returns it; when it fits `int32`,
`to_signed_integer<int32>` with length `n` returns it, and on the string with
`-` in front and length `n + 1` returns its negation.  The loop ends in each
case; it reads the indices `n - 1` down to `0` (down to `1`, after the `-`),
each once, so it makes one iteration per digit and reads no index outside
`0 .. a_length - 1`. -/
theorem to_integer_reads_every_digit_once (digits rest : List Nat) (hne : digits ≠ [])
    (hd : ∀ c ∈ digits, 48 ≤ c ∧ c ≤ 57) (hlen : digits.length + 1 < 4294967296) :
    (cstring.decimal_value digits < 4294967296 →
      cstring.to_unsigned_integer (some (digits ++ rest)) digits.length =
        some (cstring.decimal_value digits, cstring.indices_down 0 digits.length)) ∧
    (cstring.decimal_value digits ≤ 2147483647 →
      cstring.to_signed_integer (some (digits ++ rest)) digits.length =
        some ((cstring.decimal_value digits : Int), cstring.indices_down 0 digits.length) ∧
      cstring.to_signed_integer (some (45 :: digits ++ rest)) (digits.length + 1) =
        some (-(cstring.decimal_value digits : Int), cstring.indices_down 1 digits.length)) ∧
    (∀ lo, (cstring.indices_down lo digits.length).length = digits.length ∧
      (cstring.indices_down lo digits.length).Nodup ∧
      ∀ i ∈ cstring.indices_down lo digits.length, lo ≤ i ∧ i < lo + digits.length) := by
  obtain ⟨c0, tl, rfl⟩ : ∃ c0 tl, digits = c0 :: tl := by
    cases digits with
    | nil => exact absurd rfl hne
    | cons c0 tl => exact ⟨c0, tl, rfl⟩
  have hc0 : 48 ≤ c0 ∧ c0 ≤ 57 := hd c0 (List.mem_cons_self _ _)
  have hn : (c0 :: tl).length < 4294967296 := by omega
  have hpos : (c0 :: tl).length > 0 := Nat.succ_pos _
  have hs0 : (c0 :: tl ++ rest)[0]? = some c0 := by
    rw [List.cons_append, List.getElem?_cons_zero]
  have hdig0 : ∀ t, 0 ≤ t → t < 0 + (c0 :: tl).length →
      ∃ c, (c0 :: tl ++ rest)[t]? = some c ∧ 48 ≤ c ∧ c ≤ 57 :=
    fun t _ h => digit_at (c0 :: tl) rest hd t (by omega)
  have htake0 : ((c0 :: tl ++ rest).drop 0).take (c0 :: tl).length = c0 :: tl := by
    rw [List.drop_zero, List.take_left]
  have hdig1 : ∀ t, 1 ≤ t → t < 1 + (c0 :: tl).length →
      ∃ c, (45 :: (c0 :: tl) ++ rest)[t]? = some c ∧ 48 ≤ c ∧ c ≤ 57 := by
    intro t h1 h2
    obtain ⟨u, rfl⟩ : ∃ u, t = u + 1 := ⟨t - 1, by omega⟩
    rw [List.cons_append, List.getElem?_cons_succ]
    exact digit_at (c0 :: tl) rest hd u (by omega)
  have htake1 : ((45 :: (c0 :: tl) ++ rest).drop 1).take (c0 :: tl).length = c0 :: tl := by
    show ((c0 :: tl) ++ rest).take (c0 :: tl).length = c0 :: tl
    rw [List.take_left]
  refine ⟨?_, ?_, fun lo => ⟨indices_down_length _ _, indices_down_nodup _ _,
    fun i hi => indices_down_mem _ _ _ hi⟩⟩
  · intro hv
    have hacc := accumulate_digits (c0 :: tl ++ rest) 0 (c0 :: tl).length
      (by rw [List.length_append]; omega)
      (fun t h1 h2 => digit_getD _ t (hdig0 t h1 h2)) (by rw [htake0]; exact hv)
    rw [htake0] at hacc
    have hrun := to_unsigned_integer_loop_runs (c0 :: tl ++ rest) (c0 :: tl).length hn
      (c0 :: tl).length ((c0 :: tl).length + 1) 1 0 [] (Nat.lt_succ_self _) (Nat.le_refl _)
      (fun t h => (hdig0 t (Nat.zero_le _) (by omega)).imp fun c hc => hc.1)
    rw [Nat.zero_add, hacc, List.nil_append] at hrun
    unfold cstring.to_unsigned_integer
    simp only [hs0]
    rw [if_pos ⟨by omega, hpos⟩]
    exact hrun
  · intro hv
    constructor
    · have hacc := accumulate_digits (c0 :: tl ++ rest) 0 (c0 :: tl).length
        (by rw [List.length_append]; omega)
        (fun t h1 h2 => digit_getD _ t (hdig0 t h1 h2)) (by rw [htake0]; omega)
      rw [htake0] at hacc
      have hrun := to_signed_integer_loop_runs (c0 :: tl ++ rest) (c0 :: tl).length 1 0 hn
        (Or.inl ⟨rfl, rfl⟩) (c0 :: tl).length ((c0 :: tl).length + 1) 1 0 []
        (Nat.lt_succ_self _) (by omega) hdig0
      rw [Nat.zero_add, hacc, List.nil_append] at hrun
      have h45 : c0 ≠ 45 := by omega
      unfold cstring.to_signed_integer
      simp only [hs0]
      rw [if_pos ⟨by omega, hpos⟩]
      simp only [if_neg h45]
      rw [hrun]
      simp only [int32_of_bits_small _ hv, Int.mul_one]
      rw [if_pos ⟨by omega, by omega⟩]
    · have hacc := accumulate_digits (45 :: (c0 :: tl) ++ rest) 1 (c0 :: tl).length
        (by simp only [List.length_append, List.length_cons]; omega)
        (fun t h1 h2 => digit_getD _ t (hdig1 t h1 h2)) (by rw [htake1]; omega)
      rw [htake1] at hacc
      have hrun := to_signed_integer_loop_runs (45 :: (c0 :: tl) ++ rest)
        ((c0 :: tl).length + 1) 0 1 hlen (Or.inr ⟨rfl, rfl⟩) (c0 :: tl).length
        ((c0 :: tl).length + 1 + 1) 1 0 [] (by omega) (by omega) hdig1
      rw [Nat.add_comm 1 (c0 :: tl).length, hacc, List.nil_append] at hrun
      have hs1 : (45 :: (c0 :: tl) ++ rest)[0]? = some 45 := by
        rw [List.cons_append, List.getElem?_cons_zero]
      unfold cstring.to_signed_integer
      simp only [hs1]
      rw [if_pos ⟨by decide, Nat.succ_pos _⟩]
      simp only [if_pos]
      rw [hrun]
      simp only [int32_of_bits_small _ hv]
      rw [if_pos ⟨by omega, by omega⟩, Int.mul_neg, Int.mul_one]

/-- Witness for `to_integer_reads_every_digit_once`: the digits `4294967295`
followed by a NUL, and the digits `1234`. -/
theorem to_integer_reads_every_digit_once_witness :
    (([52, 50, 57, 52, 57, 54, 55, 50, 57, 53] : List Nat) ≠ [] ∧
      (∀ c ∈ ([52, 50, 57, 52, 57, 54, 55, 50, 57, 53] : List Nat), 48 ≤ c ∧ c ≤ 57) ∧
      ([52, 50, 57, 52, 57, 54, 55, 50, 57, 53] : List Nat).length + 1 < 4294967296 ∧
      cstring.decimal_value [52, 50, 57, 52, 57, 54, 55, 50, 57, 53] < 4294967296) ∧
    cstring.decimal_value [52, 50, 57, 52, 57, 54, 55, 50, 57, 53] = 4294967295 ∧
    cstring.to_unsigned_integer (some ([52, 50, 57, 52, 57, 54, 55, 50, 57, 53] ++ [0]))
        ([52, 50, 57, 52, 57, 54, 55, 50, 57, 53] : List Nat).length =
      some (cstring.decimal_value [52, 50, 57, 52, 57, 54, 55, 50, 57, 53],
        cstring.indices_down 0 ([52, 50, 57, 52, 57, 54, 55, 50, 57, 53] : List Nat).length) :=
  ⟨⟨by decide, by decide, by decide, by decide⟩, by decide,
    (to_integer_reads_every_digit_once [52, 50, 57, 52, 57, 54, 55, 50, 57, 53] [0] (by decide)
      (by decide) (by decide)).1 (by decide)⟩

end CML
